import Mathlib

/-!
# Rylang: a shallow embedding of the interpreter core

The development follows the C++ sources one function at a time.

* Numbers are IEEE doubles in the source.  Here a number value is the rational it
  denotes.  The conversion of text (`stod`) rounds to the nearest double and
  distinguishes the infinities, NaN and the range error; the arithmetic on
  number values is exact.  A step whose result would be an infinity or a NaN,
  which a number value cannot hold, ends in `Res.unmodelled`.
* Lists, environments, callables and instances are shared by pointer in the
  source.  Here they live in append-only heaps inside the interpreter state and
  values carry an index into the heap.
* C++ exceptions become the `Thrown` alternatives of the result type; running out
  of fuel (`Res.timeout`) stands for a computation that does not return.
-/

namespace Ry

/-! ## Tokens (backend/include/token.h) -/

/-- The lexical categories of `enum class TokenType`. -/
inductive TokenType
  | PLUS | MINUS | STAR | DIVIDE | EQUAL | GREATER | LESS | LPAREN | RPAREN
  | LBRACE | RBRACE | BANG | COMMA | COLON | LBRACKET | RBRACKET | DOT | PERCENT
  | AMPERSAND | CARET | PIPE | TILDE
  | EQUAL_EQUAL | LESS_EQUAL | GREATER_EQUAL | BANG_EQUAL | DOUBLE_COLON | LARROW
  | PLUS_PLUS | MINUS_MINUS | LESS_LESS | GREATER_GREATER
  | NUMBER | IDENTIFIER | STRING
  | IF | ELSE | FUNC | WHILE | FOR | AND | OR | TRUE | FALSE | NULL_TOKEN | ALIAS
  | IMPORT | RETURN | AS | NAMESPACE | DATA | THIS | IN | EACH | TO | STOP | SKIP
  | UNLESS | UNTIL | DO | CLASS | PRIVATE | CHILDOF | ATTEMPT | FAIL | PANIC | FINALLY
  | EOF_TOKEN | Nothing_Here
deriving DecidableEq, Repr

/-- A token: category, source text, line and column.  The `literal` member of the
source struct is never read by the parser, optimizer, resolver or evaluator and is
left out. -/
structure Token where
  type : TokenType
  lexeme : String
  line : Nat
  column : Nat
deriving DecidableEq, Repr

/-! ## Values (interp/include/common.h) -/

/-- The variant held by `RyValue`.  The four pointer alternatives carry the index of
the object in the corresponding heap of the interpreter state. -/
inductive RyValue
  | nil
  | number (d : ℚ)
  | bool (b : Bool)
  | string (s : String)
  | list (ref : Nat)
  | map (ref : Nat)
  | func (ref : Nat)
  | inst (ref : Nat)
deriving DecidableEq, Repr

namespace RyValue

def isNil : RyValue → Bool
  | nil => true
  | _ => false

def isNumber : RyValue → Bool
  | number _ => true
  | _ => false

def isBool : RyValue → Bool
  | bool _ => true
  | _ => false

def isString : RyValue → Bool
  | string _ => true
  | _ => false

def isList : RyValue → Bool
  | list _ => true
  | _ => false

def isMap : RyValue → Bool
  | map _ => true
  | _ => false

def isFunction : RyValue → Bool
  | func _ => true
  | _ => false

def isInstance : RyValue → Bool
  | inst _ => true
  | _ => false

/-- The alternative number of `std::variant::index()`. -/
def index : RyValue → Nat
  | nil => 0
  | number _ => 1
  | bool _ => 2
  | string _ => 3
  | list _ => 4
  | map _ => 5
  | func _ => 6
  | inst _ => 7

end RyValue

/-- A variable cell (backend/include/env.h): value, private flag and optional type
constraint. -/
structure RyVariable where
  value : RyValue := RyValue.nil
  isPrivate : Bool := false
  typeConstraint : Option String := none
deriving DecidableEq, Repr

/-! ## Syntax trees (backend/include/expr.h, backend/include/stmt.h)

The resolver keys its annotations by node address.  Nodes that can be annotated
(`VariableExpr`, `AssignExpr`, `ThisExpr`) carry a number `id` standing for that
address. -/

/-- The expression nodes of `expr.h`. -/
inductive Expr
  | valueExpr (value : Token)
  | mathExpr (left : Expr) (op_t : Token) (right : Expr)
  | groupExpr (expression : Expr)
  | prefixExpr (op : Token) (right : Expr)
  | postfixExpr (op : Token) (left : Expr)
  | variableExpr (id : Nat) (name : Token)
  | assignExpr (id : Nat) (name : Token) (value : Expr)
  | logicalExpr (left : Expr) (op_t : Token) (right : Expr)
  | callExpr (callee : Expr) (arguments : List Expr) (paren : Token)
  | listExpr (elements : List Expr)
  | indexExpr (object : Expr) (index : Expr) (bracket : Token)
  | getExpr (object : Expr) (name : Token)
  | setExpr (object : Expr) (name : Token) (value : Expr)
  | mapExpr (braceToken : Token) (items : List (Expr × Expr))
  | indexSetExpr (object : Expr) (bracket : Token) (index : Expr) (value : Expr)
  | rangeExpr (leftBound : Expr) (op_t : Token) (rightBound : Expr)
  | bitwiseAndExpr (left : Expr) (op_t : Token) (right : Expr)
  | bitwiseOrExpr (left : Expr) (op_t : Token) (right : Expr)
  | bitwiseXorExpr (left : Expr) (op_t : Token) (right : Expr)
  | shiftExpr (left : Expr) (op_t : Token) (right : Expr)
  | thisExpr (id : Nat) (keyword : Token)
deriving Repr

/-- A function parameter (`struct Parameter`); `defaultValue` is `none` for a null
pointer. -/
structure Parameter where
  name : Token
  type : Token
  defaultValue : Option Expr
deriving Repr

/-- The `VarStmt` node. -/
structure VarStmt where
  type : Token
  innerType : Option Token
  name : Token
  initializer : Option Expr
  isPrivate : Bool := false
deriving Repr

mutual

/-- The statement nodes of `stmt.h`; a null child pointer is `none`. -/
inductive Stmt
  | expressionStmt (expression : Expr)
  | functionStmt (f : FunctionStmt)
  | importStmt (module : Token)
  | aliasStmt (aliasExpr : Expr) (name : Token)
  | varStmt (v : VarStmt)
  | returnStmt (keyword : Token) (value : Option Expr)
  | ifStmt (condition : Expr) (thenBranch : Stmt) (elseBranch : Option Stmt)
  | whileStmt (condition : Expr) (body : Stmt)
  | blockStmt (statements : List Stmt)
  | namespaceStmt (name : Token) (body : List Stmt)
  | eachStmt (id : Token) (dataType : Option Token) (collection : Expr) (body : Stmt)
  | stopStmt (keyword : Token)
  | skipStmt (keyword : Token)
  | forStmt (init : Option Stmt) (condition : Option Expr) (increment : Option Expr)
      (body : Stmt)
  | classStmt (name : Token) (methods : List FunctionStmt) (fields : List VarStmt)
      (isPrivate : Bool) (superclass : Option (Nat × Token))
  | attemptStmt (attemptBody : List Stmt) (failBody : List Stmt) (error : Token)
      (finallyBody : List Stmt) (errorType : Token)
  | panicStmt (keyword : Token) (message : Option Expr)

/-- The `FunctionStmt` node. -/
inductive FunctionStmt
  | mk (name : Token) (parameters : List Parameter) (body : List Stmt)
      (returnTypeNamespace : Option Token) (returnTypeAlias : Option Token)
      (isPrivate : Bool)

end

namespace FunctionStmt

def name : FunctionStmt → Token
  | mk n _ _ _ _ _ => n

def parameters : FunctionStmt → List Parameter
  | mk _ p _ _ _ _ => p

def body : FunctionStmt → List Stmt
  | mk _ _ b _ _ _ => b

def returnTypeNamespace : FunctionStmt → Option Token
  | mk _ _ _ r _ _ => r

def returnTypeAlias : FunctionStmt → Option Token
  | mk _ _ _ _ r _ => r

def isPrivate : FunctionStmt → Bool
  | mk _ _ _ _ _ p => p

end FunctionStmt

/-! ## Runtime objects (interp/include/func.h, interp/include/class.h) -/

/-- A user function: declaration, captured environment and the two flags. -/
structure RyFunction where
  declaration : FunctionStmt
  closure : Nat
  isPrivate : Bool := false
  isInitializer : Bool := false

/-- The built-in callables registered by the `Interpreter` constructor. -/
inductive NativeFn
  | out | exit | input | len | pop | use | type | clock | clear
deriving DecidableEq, Repr

/-- A class object.  It is immutable once constructed, so the shared pointer to the
superclass is modelled by the superclass itself; `id` is the index of the class in
the heap of callables and stands for its address. -/
inductive RyClass
  | mk (id : Nat) (name : String) (methods : List (String × RyFunction))
      (fieldBlueprints : List (String × RyVariable)) (superclass : Option RyClass)

namespace RyClass

def id : RyClass → Nat
  | mk i _ _ _ _ => i

def name : RyClass → String
  | mk _ n _ _ _ => n

def methods : RyClass → List (String × RyFunction)
  | mk _ _ m _ _ => m

def fieldBlueprints : RyClass → List (String × RyVariable)
  | mk _ _ _ f _ => f

def superclass : RyClass → Option RyClass
  | mk _ _ _ _ s => s

end RyClass

/-- The implementations of the `RyCallable` interface. -/
inductive RyCallable
  | function (f : RyFunction)
  | klass (c : RyClass)
  | native (n : NativeFn)

/-- An instance: its class and its own table of cells. -/
structure RyInstance where
  klass : RyClass
  fields : List (String × RyVariable)

/-- A scope (backend/include/env.h): link to the enclosing scope, cells, aliases. -/
structure Environment where
  enclosing : Option Nat := none
  values : List (String × RyVariable) := []
  typeAliases : List (String × String) := []

/-- The struct `RyTools::RyRuntimeError`. -/
structure RyRuntimeError where
  token : Token
  message : String
  type : RyValue := RyValue.nil
  isPanicking : Bool := false
deriving DecidableEq, Repr

/-- The classes of the C++ standard library exceptions the evaluator can meet. -/
inductive StdExc
  | bad_variant_access | runtime_error | invalid_argument | out_of_range | length_error
deriving DecidableEq, Repr

/-- Everything the C++ code throws. -/
inductive Thrown
  | runtimeError (e : RyRuntimeError)
  | returnSignal (value : RyValue)
  | stopSignal
  | skipSignal
  | stdException (kind : StdExc) (what : String)
  | stringThrown (msg : String)
deriving DecidableEq, Repr

/-- The evaluator object together with the heaps its pointers refer to and its
surroundings: `modules` are the source files on the module search path, `clock` is
the reading of the steady clock, `output` the lines written to standard output. -/
structure Interp where
  envs : List Environment
  lists : List (List RyValue)
  callables : List RyCallable
  instances : List RyInstance
  environment : Nat
  globals : Nat
  lastResult : RyValue := RyValue.nil
  is_panicking : Bool := false
  locals : List (Nat × Int) := []
  typeAliases : List String := []
  loaded_modules : List String := []
  modules : List (String × List Stmt) := []
  clock : ℚ := 0
  output : List String := []

/-- Result of running a piece of C++ code from a state: normal return, a thrown
exception (the state reached is kept, the catch sites need it), undefined behaviour
such as a null dereference, a call of `std::exit`, no return within the fuel, or a
step that computes with an infinity or a NaN, which the number values of the model
do not include. -/
inductive Res (α : Type)
  | ok (a : α) (st : Interp)
  | raise (t : Thrown) (st : Interp)
  | exited (st : Interp)
  | crash
  | timeout
  | unmodelled

namespace Res

/-- Sequencing: continue after a normal return, propagate everything else. -/
def bind {α β : Type} (r : Res α) (k : α → Interp → Res β) : Res β :=
  match r with
  | ok a st => k a st
  | raise t st => raise t st
  | exited st => exited st
  | crash => crash
  | timeout => timeout
  | unmodelled => unmodelled

end Res

/-- `throw RyRuntimeError(token, message, type)`. -/
def throwRuntimeError {α : Type} (tok : Token) (msg : String) (st : Interp)
    (type : RyValue := RyValue.nil) : Res α :=
  Res.raise (Thrown.runtimeError { token := tok, message := msg, type := type }) st

/-- `std::get` on the wrong alternative. -/
def badVariantAccess {α : Type} (st : Interp) : Res α :=
  Res.raise (Thrown.stdException StdExc.bad_variant_access "bad variant access") st

/-! ## Associative containers -/

/-- `m[k] = v` on a `std::map` or `std::unordered_map`. -/
def mapInsert {α : Type} (m : List (String × α)) (k : String) (v : α) : List (String × α) :=
  if m.any (fun p => p.1 == k) then m.map (fun p => if p.1 == k then (k, v) else p)
  else m ++ [(k, v)]

/-- `m.find(k)`. -/
def mapFind {α : Type} (m : List (String × α)) (k : String) : Option α :=
  (m.find? (fun p => p.1 == k)).map (fun p => p.2)

/-- `m.contains(k)`. -/
def mapContains {α : Type} (m : List (String × α)) (k : String) : Bool :=
  m.any (fun p => p.1 == k)

/-! ## Environments (backend/src/env.cpp)

An enclosing link always points to an environment allocated earlier, so a walk of
`envs.length` steps reaches the root of every chain; the walks below take that
bound as their fuel.  The source holds the link in a `weak_ptr`; the model follows
it as long as the target is in the heap. -/

/-- The chain walk shared by `get`, `has`, `getVariable` and `assign`: the first
environment from `r` outwards that defines `name`, with the cell found there. -/
def findCell (envs : List Environment) : Nat → Nat → String → Option (Nat × RyVariable)
  | 0, _, _ => none
  | fuel + 1, r, name =>
    match envs[r]? with
    | none => none
    | some e =>
      match mapFind e.values name with
      | some v => some (r, v)
      | none =>
        match e.enclosing with
        | some p => findCell envs fuel p name
        | none => none

/-- `Environment::get(name, errorToken)`. -/
def envGet (st : Interp) (env : Nat) (name : String) (errorToken : Token) : Res RyValue :=
  match findCell st.envs st.envs.length env name with
  | some (_, v) => Res.ok v.value st
  | none => throwRuntimeError errorToken ("Undefined variable '" ++ name ++ "'.") st

/-- `Environment::has`. -/
def envHas (st : Interp) (env : Nat) (name : String) : Bool :=
  (findCell st.envs st.envs.length env name).isSome

/-- `Environment::getVariable`. -/
def envGetVariable (st : Interp) (env : Nat) (name : Token) : Res RyVariable :=
  match findCell st.envs st.envs.length env name.lexeme with
  | some (_, v) => Res.ok v st
  | none => throwRuntimeError name "Undefined variable." st

/-- `Environment::define`: `values[name] = value` in the environment `env`. -/
def envDefine (st : Interp) (env : Nat) (name : String) (value : RyVariable) : Interp :=
  match st.envs[env]? with
  | none => st
  | some e => { st with envs := st.envs.set env { e with values := mapInsert e.values name value } }

/-- `Environment::assign`: overwrite the whole cell in the first environment of the
chain that defines the name. -/
def envAssign (st : Interp) (env : Nat) (name : Token) (value : RyVariable) : Res Unit :=
  match findCell st.envs st.envs.length env name.lexeme with
  | some (r, _) => Res.ok () (envDefine st r name.lexeme value)
  | none => throwRuntimeError name ("Undefined variable '" ++ name.lexeme ++ "'.") st

/-- The loop of `Environment::getAt`: follow `distance` links, staying in place
where there is no link to follow. -/
def ancestor (envs : List Environment) : Nat → Nat → Nat
  | 0, r => r
  | distance + 1, r =>
    match envs[r]? with
    | some e =>
      match e.enclosing with
      | some p => ancestor envs distance p
      | none => ancestor envs distance r
    | none => ancestor envs distance r

/-- `Environment::getAt`: the cell `ancestor->values[name]`.  The subscript
operator of `std::map` inserts a default cell when the name is absent, hence the
state in the result.  The first component is the environment reached. -/
def envGetAt (st : Interp) (env : Nat) (distance : Int) (name : String) :
    Nat × RyVariable × Interp :=
  let a := ancestor st.envs distance.toNat env
  match st.envs[a]? with
  | none => (a, {}, st)
  | some e =>
    match mapFind e.values name with
    | some v => (a, v, st)
    | none => (a, {}, envDefine st a name {})

/-- The chain walk shared by `isTypeAlias` and `getTypeAlias`. -/
def findAlias (envs : List Environment) : Nat → Nat → String → Option String
  | 0, _, _ => none
  | fuel + 1, r, name =>
    match envs[r]? with
    | none => none
    | some e =>
      match mapFind e.typeAliases name with
      | some t => some t
      | none =>
        match e.enclosing with
        | some p => findAlias envs fuel p name
        | none => none

/-- `Environment::isTypeAlias`. -/
def envIsTypeAlias (st : Interp) (env : Nat) (name : String) : Bool :=
  (findAlias st.envs st.envs.length env name).isSome

/-- `Environment::getTypeAlias`. -/
def envGetTypeAlias (st : Interp) (env : Nat) (name : String) : String :=
  (findAlias st.envs st.envs.length env name).getD name

/-- `Environment::defineTypeAlias`. -/
def envDefineTypeAlias (st : Interp) (env : Nat) (aliasName original : String) : Interp :=
  match st.envs[env]? with
  | none => st
  | some e =>
    { st with envs := st.envs.set env { e with typeAliases := mapInsert e.typeAliases aliasName original } }

/-- `std::make_shared<Environment>(enclosing)`: a fresh environment at the end of
the heap. -/
def newEnv (st : Interp) (enclosing : Option Nat) : Nat × Interp :=
  (st.envs.length, { st with envs := st.envs ++ [{ enclosing := enclosing }] })

/-- `std::make_shared<std::vector<RyValue>>(...)`: a fresh list at the end of the
heap. -/
def newList (st : Interp) (xs : List RyValue) : Nat × Interp :=
  (st.lists.length, { st with lists := st.lists ++ [xs] })

/-- A fresh callable at the end of the heap. -/
def newCallable (st : Interp) (c : RyCallable) : Nat × Interp :=
  (st.callables.length, { st with callables := st.callables ++ [c] })

/-- `std::make_shared<RyInstance>(klass)`: the constructor copies the blueprints. -/
def newInstance (st : Interp) (klass : RyClass) : Nat × Interp :=
  (st.instances.length,
    { st with instances := st.instances ++ [{ klass := klass, fields := klass.fieldBlueprints }] })

/-! ## Numbers and the C library

`std::stod` is modelled for the decimal and hexadecimal notations and for the
spellings of infinity and NaN, as `strtod` of the GNU C library reads them, with the
rounding to the nearest `double` and the range error. -/

/-- The class `isspace` of the C locale. -/
def isSpace (c : Char) : Bool :=
  c == ' ' || c == '\t' || c == '\n' || c == '\x0b' || c == '\x0c' || c == '\r'

def isHexDigit (c : Char) : Bool :=
  c.isDigit || ('a' ≤ c && c ≤ 'f') || ('A' ≤ c && c ≤ 'F')

def hexVal (c : Char) : Nat :=
  if c.isDigit then c.toNat - 48
  else if 'a' ≤ c && c ≤ 'f' then c.toNat - 87
  else if 'A' ≤ c && c ≤ 'F' then c.toNat - 55
  else 0

def digitsToNat (base : Nat) (ds : List Char) : Nat :=
  ds.foldl (fun acc c => base * acc + hexVal c) 0

/-- The value `m * base ^ e` for an integer exponent. -/
def scale (m : ℚ) (base : ℚ) (e : Int) : ℚ :=
  if 0 ≤ e then m * base ^ e.toNat else m / base ^ (-e).toNat

/-- Digits with an optional point: the value and the number of characters used, or
`none` when there is no digit at all. -/
def parseMantissa (isDig : Char → Bool) (base : Nat) (cs : List Char) : Option (ℚ × Nat) :=
  let ip := cs.takeWhile isDig
  let r2 := cs.dropWhile isDig
  let fpd : List Char × Nat :=
    match r2 with
    | '.' :: t => (t.takeWhile isDig, 1)
    | _ => ([], 0)
  if ip.isEmpty && fpd.1.isEmpty then none
  else some ((digitsToNat base (ip ++ fpd.1) : ℚ) / (base : ℚ) ^ fpd.1.length,
    ip.length + fpd.2 + fpd.1.length)

/-- An optional exponent part introduced by one of two marker characters: the
exponent and the number of characters used (both zero when there is none). -/
def parseExponent (m1 m2 : Char) (cs : List Char) : Int × Nat :=
  match cs with
  | c :: t =>
    if c == m1 || c == m2 then
      let sg : Bool × Nat × List Char :=
        match t with
        | '-' :: u => (true, 1, u)
        | '+' :: u => (false, 1, u)
        | _ => (false, 0, t)
      let ed := sg.2.2.takeWhile Char.isDigit
      if ed.isEmpty then (0, 0)
      else ((if sg.1 then -(digitsToNat 10 ed : Int) else (digitsToNat 10 ed : Int)),
        1 + sg.2.1 + ed.length)
    else (0, 0)
  | [] => (0, 0)

def parseDecimal (cs : List Char) : Option (ℚ × Nat) :=
  match parseMantissa Char.isDigit 10 cs with
  | some (m, n) =>
    let ex := parseExponent 'e' 'E' (cs.drop n)
    some (scale m 10 ex.1, n + ex.2)
  | none => none

/-- A value of the type `double` (IEEE 754 binary64): a finite value, given by the
rational number it denotes, an infinity or a NaN.  The two zeros are one value and
so are the NaNs. -/
inductive Double
  | finite (q : ℚ)
  | infinity (negative : Bool)
  | nan
deriving DecidableEq, Repr

/-- The order of two doubles in IEEE 754: `none` when one of them is a NaN. -/
def Double.compare? (x y : Double) : Option Ordering :=
  match x, y with
  | Double.nan, _ => none
  | _, Double.nan => none
  | Double.finite a, Double.finite b =>
    some (if a < b then Ordering.lt else if a = b then Ordering.eq else Ordering.gt)
  | Double.finite _, Double.infinity negative =>
    some (if negative then Ordering.gt else Ordering.lt)
  | Double.infinity negative, Double.finite _ =>
    some (if negative then Ordering.lt else Ordering.gt)
  | Double.infinity n1, Double.infinity n2 =>
    some (if n1 == n2 then Ordering.eq else if n1 then Ordering.lt else Ordering.gt)

/-- The operator `==` on two doubles: a NaN is equal to nothing. -/
def Double.equal (x y : Double) : Bool := x.compare? y == some Ordering.eq

/-- The operator `<` on two doubles. -/
def Double.less (x y : Double) : Bool := x.compare? y == some Ordering.lt

/-- The power `2 ^ e` for an integer exponent. -/
def twoPow (e : Int) : ℚ :=
  if 0 ≤ e then ((2 ^ e.toNat : Nat) : ℚ) else 1 / ((2 ^ (-e).toNat : Nat) : ℚ)

/-- The number of binary digits of a positive natural number. -/
def bitLength (n : Nat) : Nat := (Nat.toDigits 2 n).length

/-- The position of the leading binary digit of a positive rational: the integer
`e` with `2 ^ e ≤ a < 2 ^ (e + 1)`. -/
def binaryExponent (a : ℚ) : Int :=
  let e0 : Int := (bitLength a.num.natAbs : Int) - (bitLength a.den : Int)
  if twoPow e0 ≤ a then e0 else e0 - 1

/-- Rounding of a non-negative rational to the nearest integer, ties to even. -/
def roundHalfEven (x : ℚ) : Int :=
  let f := Int.floor x
  let r := x - (f : ℚ)
  if r < 1 / 2 then f
  else if 1 / 2 < r then f + 1
  else if f % 2 = 0 then f else f + 1

/-- The multiple of `2 ^ p` nearest to a non-negative rational, ties to the even
multiple. -/
def roundToUnit (a : ℚ) (p : Int) : ℚ :=
  (roundHalfEven (a * twoPow (-p)) : ℚ) * twoPow p

/-- The conversion of an exact value to `double` in the default rounding mode, as
`strtod` performs it: the nearest double, ties to even, and whether `errno` is set
to `ERANGE`.  That is the case on overflow (the rounded value reaches `2 ^ 1024`),
where the result is `HUGE_VAL`, and when the result is not exact and tiny, that is
below `2 ^ -1022` also when rounded to 53 digits with unbounded exponent. -/
def roundDouble (q : ℚ) : Double × Bool :=
  if q = 0 then (Double.finite 0, false)
  else
    let a := |q|
    let e := binaryExponent a
    let r53 := roundToUnit a (e - 52)
    let r := roundToUnit a (max e (-1022) - 52)
    if 1024 ≤ binaryExponent r then (Double.infinity (decide (q < 0)), true)
    else
      let tiny := decide (binaryExponent r53 < -1022)
      (Double.finite (if q < 0 then -r else r), tiny && decide (r ≠ a))

/-- What a call `std::stod(s, &idx)` does: it returns a double and sets `idx`, or it
throws `std::invalid_argument` (no conversion) or `std::out_of_range` (`strtod` has
set `ERANGE`). -/
inductive Stod
  | value (d : Double) (idx : Nat)
  | invalid_argument
  | out_of_range
deriving DecidableEq, Repr

/-- `tolower` on the letters of the C locale. -/
def lowerAscii (c : Char) : Char :=
  if 'A' ≤ c && c ≤ 'Z' then Char.ofNat (c.toNat + 32) else c

/-- Whether a text starts with a word, letter case ignored. -/
def startsWithWord (word : String) (cs : List Char) : Bool :=
  (cs.take word.length).map lowerAscii == word.toList

/-- The character sequence in parentheses that may follow `nan`: its length with the
parentheses, zero when there is none. -/
def nanSequence (cs : List Char) : Nat :=
  match cs with
  | '(' :: t =>
    let body := t.takeWhile (fun c => c.isAlphanum || c == '_')
    match t.drop body.length with
    | ')' :: _ => body.length + 2
    | _ => 0
  | _ => 0

/-- The subject sequence of `strtod` after white space and sign: the exact value
of the numeral read, or an infinity or NaN, with the number of characters used;
`none` when no conversion can be performed. -/
def parseSubject (cs : List Char) : Option ((ℚ ⊕ Double) × Nat) :=
  if startsWithWord "infinity" cs then some (Sum.inr (Double.infinity false), 8)
  else if startsWithWord "inf" cs then some (Sum.inr (Double.infinity false), 3)
  else if startsWithWord "nan" cs then some (Sum.inr Double.nan, 3 + nanSequence (cs.drop 3))
  else
    match cs with
    | '0' :: x :: rest =>
      if x == 'x' || x == 'X' then
        match parseMantissa isHexDigit 16 rest with
        | some (m, n) =>
          let ex := parseExponent 'p' 'P' (rest.drop n)
          some (Sum.inl (scale m 2 ex.1), 2 + n + ex.2)
        | none => some (Sum.inl 0, 1)
      else (parseDecimal cs).map fun vn => (Sum.inl vn.1, vn.2)
    | _ => (parseDecimal cs).map fun vn => (Sum.inl vn.1, vn.2)

/-- `std::stod(s, &idx)`: white space, an optional sign and the longest subject
sequence; the value of a numeral is rounded to `double`. -/
def stod (s : String) : Stod :=
  let cs := s.toList
  let ws := (cs.takeWhile isSpace).length
  let r0 := cs.dropWhile isSpace
  let sg : Bool × Nat × List Char :=
    match r0 with
    | '-' :: u => (true, 1, u)
    | '+' :: u => (false, 1, u)
    | _ => (false, 0, r0)
  match parseSubject sg.2.2 with
  | none => Stod.invalid_argument
  | some (Sum.inr (Double.infinity _), n) => Stod.value (Double.infinity sg.1) (ws + sg.2.1 + n)
  | some (Sum.inr d, n) => Stod.value d (ws + sg.2.1 + n)
  | some (Sum.inl q, n) =>
    match roundDouble (if sg.1 then -q else q) with
    | (_, true) => Stod.out_of_range
    | (d, false) => Stod.value d (ws + sg.2.1 + n)

/-- Truncation toward zero, the value conversion of a floating cast to an integer
type. -/
def truncate (q : ℚ) : Int :=
  if 0 ≤ q then Int.floor q else Int.ceil q

/-- The cast `static_cast<long>` (64 bits).  Out of range the behaviour is undefined
in C++; the model returns the value the x86-64 conversion instruction gives. -/
def toLong (q : ℚ) : Int :=
  let t := truncate q
  if -(2 : Int) ^ 63 ≤ t ∧ t < (2 : Int) ^ 63 then t else -(2 : Int) ^ 63

/-- The cast `static_cast<int>` (32 bits), out of range as for `toLong`. -/
def toInt (q : ℚ) : Int :=
  let t := truncate q
  if -(2 : Int) ^ 31 ≤ t ∧ t < (2 : Int) ^ 31 then t else -(2 : Int) ^ 31

/-- The bit pattern of a `long` as a natural number below `2 ^ 64`. -/
def toU64 (i : Int) : Nat := (i % (2 : Int) ^ 64).toNat

/-- The `long` with a given bit pattern. -/
def ofU64 (n : Nat) : Int :=
  let m : Nat := n % 2 ^ 64
  if m < 2 ^ 63 then (m : Int) else (m : Int) - (2 : Int) ^ 64

def longOr (l r : Int) : Int := ofU64 (toU64 l ||| toU64 r)

def longXor (l r : Int) : Int := ofU64 (toU64 l ^^^ toU64 r)

def longAnd (l r : Int) : Int := ofU64 (toU64 l &&& toU64 r)

def longNot (l : Int) : Int := ofU64 (2 ^ 64 - 1 - toU64 l)

/-- The expression `l << r` on `long` for `0 <= r < 64`. -/
def longShl (l r : Int) : Int := ofU64 (toU64 l <<< r.toNat)

/-- The expression `l >> r` on `long` for `0 <= r < 64` (arithmetic shift). -/
def longShr (l r : Int) : Int := l / (2 : Int) ^ r.toNat

/-- `std::fmod`. -/
def fmod (x y : ℚ) : ℚ := x - y * (truncate (x / y) : ℚ)

/-- Left padding of a digit string with zeros. -/
def padZeros (n : Nat) (ds : List Char) : List Char :=
  List.replicate (n - ds.length) '0' ++ ds

/-- `std::to_string(double)`: fixed notation with six decimals. -/
def to_string (q : ℚ) : String :=
  let n : Nat := (Int.floor (|q| * 1000000 + 1 / 2)).toNat
  let ip := Nat.toDigits 10 (n / 1000000)
  let fp := padZeros 6 (Nat.toDigits 10 (n % 1000000))
  String.mk ((if q < 0 then ['-'] else []) ++ ip ++ ['.'] ++ fp)

/-- The operator `std::cout << double` for the whole numbers of absolute value
below one million, which it prints without point or exponent; elsewhere the model
falls back on the fixed notation. -/
def coutDouble (q : ℚ) : String :=
  if q.den = 1 ∧ |q| < 1000000 then
    String.mk ((if q < 0 then ['-'] else []) ++ Nat.toDigits 10 q.num.natAbs)
  else to_string q

/-! ## Runtime helpers (interp/src/runtime.cpp, interp/src/common.cpp) -/

/-- The characters removed by the trimming in `tryToDouble`. -/
def isTrimChar (c : Char) : Bool :=
  c == ' ' || c == '\t' || c == '\r' || c == '\n'

/-- `Interpreter::tryToDouble`: `some d` when it returns true with `out = d`, `none`
when it returns false, which it also does when `std::stod` throws. -/
def tryToDouble (v : RyValue) : Option Double :=
  match v with
  | RyValue.number d => some (Double.finite d)
  | RyValue.string s =>
    let cs := (s.toList.dropWhile isTrimChar).reverse.dropWhile isTrimChar |>.reverse
    if cs.isEmpty then none
    else
      match stod (String.mk cs) with
      | Stod.value val idx => if idx == cs.length then some val else none
      | _ => none
  | _ => none

/-- `Interpreter::isTruthy`. -/
def isTruthy (value : RyValue) : Bool :=
  match value with
  | RyValue.nil => false
  | RyValue.bool b => b
  | _ => true

/-- `RyValue::toString`. -/
def RyValue.toString (v : RyValue) : String :=
  match v with
  | RyValue.nil => "nil"
  | RyValue.number d =>
    let s := (to_string d).toList
    let s1 := (s.reverse.dropWhile (fun c => c == '0')).reverse
    let s2 := if s1.getLast? == some '.' then s1.dropLast else s1
    String.mk s2
  | RyValue.bool b => if b then "true" else "false"
  | RyValue.string s => s
  | RyValue.list _ => "[list]"
  | RyValue.map _ => "[map]"
  | RyValue.func _ => "[func]"
  | RyValue.inst _ => "[instance]"

/-- The loop over the elements in `areEqual`, given the comparison of two values. -/
def allEqual (eq : RyValue → RyValue → Option Bool) : List RyValue → List RyValue → Option Bool
  | a :: as, b :: bs =>
    match eq a b with
    | none => none
    | some false => some false
    | some true => allEqual eq as bs
  | _, _ => some true

/-- `Interpreter::areEqual` (and the identical `areEqual` of runTools.h).  The
recursion through nested lists is bounded by the fuel; `none` is a recursion that
does not return. -/
def areEqual (lists : List (List RyValue)) : Nat → RyValue → RyValue → Option Bool
  | 0, _, _ => none
  | fuel + 1, a, b =>
    if a.isNil && b.isNil then some true
    else if a.isNil || b.isNil then some false
    else if a.index != b.index then some false
    else
      match a, b with
      | RyValue.bool x, RyValue.bool y => some (x == y)
      | RyValue.number x, RyValue.number y => some (x == y)
      | RyValue.string x, RyValue.string y => some (x == y)
      | RyValue.list x, RyValue.list y =>
        let listA := lists.getD x []
        let listB := lists.getD y []
        if listA.length != listB.length then some false
        else allEqual (areEqual lists fuel) listA listB
      | RyValue.map x, RyValue.map y => some (x == y)
      | _, _ => some false

/-- The message of `checkType` for a value that does not match the constraint. -/
def typeErrorMessage (constraint : String) (value : RyValue) : String :=
  if constraint == "string" then
    match value with
    | RyValue.number _ => "Type Error: Variable expects a string but got a number."
    | RyValue.bool _ => "Type Error: Variable expects a string but got a boolean."
    | RyValue.list _ => "Type Error: Variable expects a string but got a list."
    | RyValue.map _ => "Type Error: Variable expects a string but got a map."
    | _ => "Type Error: Variable expects a string but got an unexpected type"
  else if constraint == "num" then
    match value with
    | RyValue.string _ => "Type Error: Variable expects a number but got a string"
    | RyValue.bool _ => "Type Error: Variable expects a number but got a boolean."
    | RyValue.list _ => "Type Error: Variable expects a number but got a list."
    | RyValue.map _ => "Type Error: Variable expects a number but got a map."
    | _ => "Type Error: Variable expects a number but got an unexpected type"
  else if constraint == "bool" then
    match value with
    | RyValue.string _ => "Type Error: Variable expects a boolean but got a string"
    | RyValue.number _ => "Type Error: Variable expects a boolean but got a number."
    | RyValue.list _ => "Type Error: Variable expects a boolean but got a list."
    | RyValue.map _ => "Type Error: Variable expects a boolean but got a map."
    | _ => "Type Error: Variable expects a boolean but got an unexpected type"
  else if constraint == "list" then
    match value with
    | RyValue.string _ => "Type Error: Variable expects a list but got a string"
    | RyValue.bool _ => "Type Error: Variable expects a list but got a boolean."
    | RyValue.number _ => "Type Error: Variable expects a list but got a number."
    | RyValue.map _ => "Type Error: Variable expects a list but got a map."
    | _ => "Type Error: Variable expects a list but got an unexpected type"
  else if constraint == "map" then
    match value with
    | RyValue.string _ => "Type Error: Variable expects a map but got a string"
    | RyValue.bool _ => "Type Error: Variable expects a map but got a boolean."
    | RyValue.list _ => "Type Error: Variable expects a map but got a list."
    | RyValue.number _ => "Type Error: Variable expects a map but got a number."
    | _ => "Type Error: Variable expects a map but got an unexpected type"
  else "Type Error: Unexpected type."

/-- The test of `checkType`: does the value carry the tag the constraint names. -/
def matchesConstraint (constraint : String) (value : RyValue) : Bool :=
  if constraint == "string" then value.isString
  else if constraint == "num" then value.isNumber
  else if constraint == "bool" then value.isBool
  else if constraint == "list" then value.isList
  else if constraint == "map" then value.isMap
  else false

/-- `Interpreter::checkType`. -/
def checkType (name : Token) (constraint : String) (value : RyValue) (st : Interp) : Res Unit :=
  if constraint.isEmpty then Res.ok () st
  else if matchesConstraint constraint value then Res.ok () st
  else throwRuntimeError name (typeErrorMessage constraint value) st

/-! ## Classes and instances (interp/src/class.cpp, interp/src/func.cpp) -/

/-- `RyClass::findMethod`: the own method table first, then the superclass. -/
def RyClass.findMethod : RyClass → String → Option RyFunction
  | RyClass.mk _ _ methods _ superclass, name =>
    match mapFind methods name with
    | some m => some m
    | none =>
      match superclass with
      | some sup => RyClass.findMethod sup name
      | none => none

/-- The loop of `visitGet` that walks from a class up its superclasses looking for
the class object at address `target`. -/
def RyClass.inheritsFrom : RyClass → Nat → Bool
  | RyClass.mk id _ _ _ superclass, target =>
    if id == target then true
    else
      match superclass with
      | some sup => RyClass.inheritsFrom sup target
      | none => false

/-- The constructor of `RyClass`: blueprints of the superclass that are not
redeclared are merged in. -/
def RyClass.construct (id : Nat) (name : String) (methods : List (String × RyFunction))
    (fieldBlueprints : List (String × RyVariable)) (superclass : Option RyClass) : RyClass :=
  match superclass with
  | some sup =>
    RyClass.mk id name methods
      (sup.fieldBlueprints.foldl
        (fun acc kv => if mapContains acc kv.1 then acc else mapInsert acc kv.1 kv.2)
        fieldBlueprints)
      superclass
  | none => RyClass.mk id name methods fieldBlueprints superclass

/-- `RyFunction::bind`: a new environment around the closure defines `this`; the
result is a new function object, returned as its index in the heap of callables. -/
def bindMethod (st : Interp) (f : RyFunction) (iref : Nat) : Nat × Interp :=
  let ne := newEnv st (some f.closure)
  let st1 := envDefine ne.2 ne.1 "this" { value := RyValue.inst iref }
  newCallable st1 (RyCallable.function
    { declaration := f.declaration, closure := ne.1, isPrivate := f.isPrivate,
      isInitializer := f.isInitializer })

/-- `RyInstance::getVariable`. -/
def instGetVariable (st : Interp) (iref : Nat) (name : Token) : Res RyVariable :=
  match st.instances[iref]? with
  | none => Res.crash
  | some obj =>
    match mapFind obj.fields name.lexeme with
    | some v => Res.ok v st
    | none =>
      match obj.klass.findMethod name.lexeme with
      | some method =>
        let b := bindMethod st method iref
        Res.ok { value := RyValue.func b.1, isPrivate := method.isPrivate, typeConstraint := none } b.2
      | none => throwRuntimeError name ("Undefined property '" ++ name.lexeme ++ "'.") st

/-- `RyInstance::set`. -/
def instSet (st : Interp) (iref : Nat) (name : Token) (var : RyVariable) : Interp :=
  match st.instances[iref]? with
  | none => st
  | some obj =>
    { st with instances :=
        st.instances.set iref { obj with fields := mapInsert obj.fields name.lexeme var } }

/-- The token built for looking up `this`. -/
def thisToken : Token := { type := TokenType.THIS, lexeme := "this", line := 0, column := 0 }

/-- `Interpreter::isInternalAccess`: the current environment chain binds `this` to
this very instance. -/
def isInternalAccess (st : Interp) (iref : Nat) : Bool :=
  match envGet st st.environment "this" thisToken with
  | Res.ok (RyValue.inst i) _ => i == iref
  | _ => false

/-! ## Expression visitors (interp/src/visitor.cpp)

Each visitor takes the evaluation of sub-expressions as the parameter `ev`; the
evaluator below passes itself with less fuel.  A visitor leaves its result in
`lastResult`, as in the source. -/

/-- Store the result of a visitor. -/
def setResult (st : Interp) (v : RyValue) : Res Unit :=
  Res.ok () { st with lastResult := v }

/-- `Interpreter::visitValue`. -/
def visitValue (value : Token) (st : Interp) : Res Unit :=
  if st.is_panicking then Res.ok () st
  else if value.type == TokenType.NUMBER then
    match stod value.lexeme with
    | Stod.value (Double.finite d) _ => setResult st (RyValue.number d)
    | Stod.value _ _ => Res.unmodelled
    | Stod.invalid_argument => Res.raise (Thrown.stdException StdExc.invalid_argument "stod") st
    | Stod.out_of_range => Res.raise (Thrown.stdException StdExc.out_of_range "stod") st
  else if value.type == TokenType.STRING then
    let s := value.lexeme
    if s.length ≥ 2 && s.front == '"' && s.back == '"' then
      setResult st (RyValue.string (String.mk ((s.toList.drop 1).take (s.length - 2))))
    else setResult st (RyValue.string s)
  else if value.type == TokenType.TRUE then setResult st (RyValue.bool true)
  else if value.type == TokenType.FALSE then setResult st (RyValue.bool false)
  else setResult st RyValue.nil

/-- `Interpreter::visitSet`. -/
def visitSet (ev : Expr → Interp → Res RyValue) (object : Expr) (name : Token) (value : Expr)
    (st : Interp) : Res Unit :=
  if st.is_panicking then Res.ok () st
  else
    (ev object st).bind fun obj st1 =>
    (ev value st1).bind fun val st2 =>
    match obj with
    | RyValue.inst iref =>
      (instGetVariable st2 iref name).bind fun var st3 =>
      if var.isPrivate && !isInternalAccess st3 iref then
        throwRuntimeError name ("Cannot access private member '" ++ name.lexeme ++ "'.") st3
      else
        ((match var.typeConstraint with
          | some constraint => checkType name constraint val st3
          | none => Res.ok () st3) : Res Unit).bind fun _ st4 =>
        setResult (instSet st4 iref name { var with value := val }) val
    | RyValue.map env =>
      (ev value st2).bind fun val2 st3 =>
      setResult (envDefine st3 env name.lexeme { value := val2 }) val2
    | _ => throwRuntimeError name "Only modules and objects have properties." st2

/-- The loop of `visitMap` over the key and value expressions. -/
def visitMapItems (ev : Expr → Interp → Res RyValue) (braceToken : Token) (map : Nat) :
    List (Expr × Expr) → Interp → Res Unit
  | [], st => Res.ok () st
  | (k, v) :: rest, st =>
    (ev k st).bind fun key st1 =>
    (ev v st1).bind fun val st2 =>
    match key with
    | RyValue.string ks =>
      visitMapItems ev braceToken map rest (envDefine st2 map ks { value := val })
    | _ => throwRuntimeError braceToken "Map keys must be strings." st2

/-- `Interpreter::visitMap`. -/
def visitMap (ev : Expr → Interp → Res RyValue) (braceToken : Token) (items : List (Expr × Expr))
    (st : Interp) : Res Unit :=
  if st.is_panicking then Res.ok () st
  else
    let ne := newEnv st none
    (visitMapItems ev braceToken ne.1 items ne.2).bind fun _ st1 =>
    setResult st1 (RyValue.map ne.1)

/-- The class branch of `visitGet`: a method found on a class value, bound to the
current `this` when that instance belongs to the class or to a subclass of it. -/
def getClassMethod (st : Interp) (klass : RyClass) (method : RyFunction) : Res Unit :=
  let plain : Res Unit :=
    let c := newCallable st (RyCallable.function method)
    setResult c.2 (RyValue.func c.1)
  if envHas st st.environment "this" then
    match envGet st st.environment "this" thisToken with
    | Res.ok (RyValue.inst iref) _ =>
      match st.instances[iref]? with
      | none => Res.crash
      | some obj =>
        if obj.klass.inheritsFrom klass.id then
          let b := bindMethod st method iref
          setResult b.2 (RyValue.func b.1)
        else plain
    | _ => plain
  else plain

/-- `Interpreter::visitGet`. -/
def visitGet (ev : Expr → Interp → Res RyValue) (object : Expr) (name : Token) (st : Interp) :
    Res Unit :=
  if st.is_panicking then Res.ok () st
  else
    (ev object st).bind fun obj st1 =>
    let undefined : Res Unit := throwRuntimeError name "Undefined property." st1
    match obj with
    | RyValue.map env =>
      if envHas st1 env name.lexeme then
        (envGet st1 env name.lexeme name).bind fun v st2 => setResult st2 v
      else if envIsTypeAlias st1 env name.lexeme then
        setResult st1 (RyValue.string (envGetTypeAlias st1 env name.lexeme))
      else undefined
    | RyValue.inst iref =>
      (instGetVariable st1 iref name).bind fun var st2 =>
      if var.isPrivate && !isInternalAccess st2 iref then
        throwRuntimeError name ("Cannot access private member '" ++ name.lexeme ++ "'.") st2
      else setResult st2 var.value
    | RyValue.func f =>
      match st1.callables[f]? with
      | some (RyCallable.klass klass) =>
        match klass.findMethod name.lexeme with
        | some method => getClassMethod st1 klass method
        | none => undefined
      | _ => undefined
    | _ => undefined

/-- `RyValue::asList`: `none` where `std::get` throws. -/
def RyValue.asList (v : RyValue) : Option Nat :=
  match v with
  | RyValue.list r => some r
  | _ => none

/-- `RyValue::asNumber`: `none` where `std::get` throws. -/
def RyValue.asNumber (v : RyValue) : Option ℚ :=
  match v with
  | RyValue.number d => some d
  | _ => none

/-- The inner loop of list subtraction: is `item` equal to some element. -/
def anyEqual (eq : RyValue → RyValue → Option Bool) (item : RyValue) :
    List RyValue → Option Bool
  | [] => some false
  | other :: rest =>
    match eq item other with
    | none => none
    | some true => some true
    | some false => anyEqual eq item rest

/-- The outer loop of list subtraction with a list on the right. -/
def removeAll (eq : RyValue → RyValue → Option Bool) (rightList : List RyValue) :
    List RyValue → Option (List RyValue)
  | [] => some []
  | item :: rest =>
    match anyEqual eq item rightList with
    | none => none
    | some found =>
      match removeAll eq rightList rest with
      | none => none
      | some r => some (if found then r else item :: r)

/-- The loop of list subtraction with a scalar on the right. -/
def removeEqual (eq : RyValue → RyValue → Option Bool) (right : RyValue) :
    List RyValue → Option (List RyValue)
  | [] => some []
  | item :: rest =>
    match eq item right with
    | none => none
    | some same =>
      match removeEqual eq right rest with
      | none => none
      | some r => some (if same then r else item :: r)

/-- The loop `for (i < count) result += str`. -/
def repeatString (str : String) : Nat → String
  | 0 => ""
  | n + 1 => repeatString str n ++ str

/-- The loop `for (i < count) newList->insert(end, old.begin(), old.end())`. -/
def repeatList (xs : List RyValue) : Nat → List RyValue
  | 0 => []
  | n + 1 => repeatList xs n ++ xs

/-- The tail of `visitMath` after the numeric switch: structural `==`, repetition,
and the final error. -/
def mathTail (fuel : Nat) (op_t : Token) (left right : RyValue) (st : Interp) : Res Unit :=
  let op := op_t.type
  if op == TokenType.EQUAL_EQUAL then
    match areEqual st.lists fuel left right with
    | some b => setResult st (RyValue.bool b)
    | none => Res.timeout
  else
    let failure : Res Unit :=
      throwRuntimeError op_t "Operands must be numbers or matching types." st
        (RyValue.string "MathError")
    if op == TokenType.STAR then
      match left, right with
      | RyValue.string str, RyValue.number n =>
        let count := toInt n
        if count < 0 ∧ 0 < str.length then
          Res.raise (Thrown.stdException StdExc.length_error "basic_string::reserve") st
        else setResult st (RyValue.string (repeatString str count.toNat))
      | RyValue.list l, RyValue.number n =>
        let count := toInt n
        let nl := newList st (repeatList (st.lists.getD l []) count.toNat)
        setResult nl.2 (RyValue.list nl.1)
      | _, _ => failure
    else failure

/-- The numeric switch of `visitMath` for operands that both convert to finite
numbers; `none` where the switch falls out through `default`. -/
def numericOp (op_t : Token) (ld rd : ℚ) (st : Interp) : Option (Res Unit) :=
  match op_t.type with
  | TokenType.PLUS => some (setResult st (RyValue.number (ld + rd)))
  | TokenType.MINUS => some (setResult st (RyValue.number (ld - rd)))
  | TokenType.STAR => some (setResult st (RyValue.number (ld * rd)))
  | TokenType.DIVIDE =>
    if rd == 0 then
      some (throwRuntimeError op_t "Cannot Divide with zero." st (RyValue.string "MathError"))
    else some (setResult st (RyValue.number (ld / rd)))
  | TokenType.PERCENT =>
    if rd == 0 then
      some (throwRuntimeError op_t "Cannot get remainder of division with zero." st
        (RyValue.string "MathError"))
    else some (setResult st (RyValue.number (fmod ld rd)))
  | TokenType.GREATER => some (setResult st (RyValue.bool (decide (ld > rd))))
  | TokenType.GREATER_EQUAL => some (setResult st (RyValue.bool (decide (ld ≥ rd))))
  | TokenType.LESS => some (setResult st (RyValue.bool (decide (ld < rd))))
  | TokenType.LESS_EQUAL => some (setResult st (RyValue.bool (decide (ld ≤ rd))))
  | TokenType.BANG_EQUAL => some (setResult st (RyValue.bool (ld != rd)))
  | TokenType.EQUAL_EQUAL => some (setResult st (RyValue.bool (ld == rd)))
  | _ => none

/-- The numeric switch of `visitMath` when one of the two doubles is an infinity or
a NaN: the comparisons are those of IEEE 754 and a zero divisor raises as for finite
operands; the sums, differences, products, quotients and remainders are not
modelled. -/
def numericOpSpecial (op_t : Token) (ld rd : Double) (st : Interp) : Option (Res Unit) :=
  match op_t.type with
  | TokenType.PLUS => some Res.unmodelled
  | TokenType.MINUS => some Res.unmodelled
  | TokenType.STAR => some Res.unmodelled
  | TokenType.DIVIDE =>
    if rd == Double.finite 0 then
      some (throwRuntimeError op_t "Cannot Divide with zero." st (RyValue.string "MathError"))
    else some Res.unmodelled
  | TokenType.PERCENT =>
    if rd == Double.finite 0 then
      some (throwRuntimeError op_t "Cannot get remainder of division with zero." st
        (RyValue.string "MathError"))
    else some Res.unmodelled
  | TokenType.GREATER => some (setResult st (RyValue.bool (rd.less ld)))
  | TokenType.GREATER_EQUAL => some (setResult st (RyValue.bool (rd.less ld || ld.equal rd)))
  | TokenType.LESS => some (setResult st (RyValue.bool (ld.less rd)))
  | TokenType.LESS_EQUAL => some (setResult st (RyValue.bool (ld.less rd || ld.equal rd)))
  | TokenType.BANG_EQUAL => some (setResult st (RyValue.bool (!ld.equal rd)))
  | TokenType.EQUAL_EQUAL => some (setResult st (RyValue.bool (ld.equal rd)))
  | _ => none

/-- The numeric switch of `visitMath` on the two doubles the operands convert to. -/
def numericSwitch (op_t : Token) (ld rd : Double) (st : Interp) : Option (Res Unit) :=
  match ld, rd with
  | Double.finite x, Double.finite y => numericOp op_t x y st
  | _, _ => numericOpSpecial op_t ld rd st

/-- The part of `visitMath` from the numeric coercion on. -/
def mathNumeric (fuel : Nat) (op_t : Token) (left right : RyValue) (st : Interp) : Res Unit :=
  match tryToDouble left, tryToDouble right with
  | some ld, some rd =>
    match numericSwitch op_t ld rd st with
    | some r => r
    | none => mathTail fuel op_t left right st
  | _, _ => mathTail fuel op_t left right st

/-- What `+` puts after the elements of a left list: the elements of the right
operand when it is a list (`insert`), the right operand itself otherwise
(`push_back`). -/
def plusTail (st : Interp) (right : RyValue) : List RyValue :=
  match right with
  | RyValue.list r => st.lists.getD r []
  | _ => [right]

/-- The body of `visitMath` once both operands are evaluated. -/
def mathOp (fuel : Nat) (op_t : Token) (left right : RyValue) (st : Interp) : Res Unit :=
  let op := op_t.type
  let minusAndRest : Res Unit :=
    if op == TokenType.MINUS && left.isList then
      let oldList := st.lists.getD (left.asList.getD 0) []
      match right.asList with
      | none => badVariantAccess st
      | some rightList =>
        let kept : Option (List RyValue) :=
          if right.isList then removeAll (areEqual st.lists fuel) (st.lists.getD rightList []) oldList
          else removeEqual (areEqual st.lists fuel) right oldList
        match kept with
        | none => Res.timeout
        | some xs =>
          let nl := newList st xs
          setResult nl.2 (RyValue.list nl.1)
    else mathNumeric fuel op_t left right st
  if op == TokenType.PLUS then
    match left with
    | RyValue.list l =>
      let oldList := st.lists.getD l []
      let nl := newList st (oldList ++ plusTail st right)
      setResult nl.2 (RyValue.list nl.1)
    | _ =>
      if left.isString || right.isString then
        setResult st (RyValue.string (left.toString ++ right.toString))
      else minusAndRest
  else minusAndRest

/-- `Interpreter::visitMath`. -/
def visitMath (fuel : Nat) (ev : Expr → Interp → Res RyValue) (left : Expr) (op_t : Token)
    (right : Expr) (st : Interp) : Res Unit :=
  if st.is_panicking then Res.ok () st
  else
    (ev left st).bind fun l st1 =>
    (ev right st1).bind fun r st2 =>
    mathOp fuel op_t l r st2

/-- The values pushed by the loops of `visitRange`: from `ld` towards `rd` in steps
of one. -/
def rangeValues (ld rd : ℚ) : List RyValue :=
  if ld ≤ rd then
    (List.range ((Int.floor (rd - ld)).toNat + 1)).map (fun i => RyValue.number (ld + (i : ℚ)))
  else
    (List.range ((Int.floor (ld - rd)).toNat + 1)).map (fun i => RyValue.number (ld - (i : ℚ)))

/-- `Interpreter::visitRange`. -/
def visitRange (ev : Expr → Interp → Res RyValue) (leftBound : Expr) (op_t : Token)
    (rightBound : Expr) (st : Interp) : Res Unit :=
  if st.is_panicking then Res.ok () st
  else
    (ev leftBound st).bind fun start st1 =>
    (ev rightBound st1).bind fun stop st2 =>
    match tryToDouble start, tryToDouble stop with
    | some (Double.finite ld), some (Double.finite rd) =>
      let nl := newList st2 (rangeValues ld rd)
      setResult nl.2 (RyValue.list nl.1)
    | some _, some _ => Res.unmodelled
    | _, _ => throwRuntimeError op_t "Range bounds must be numbers." st2

/-- The increment and decrement shared by `visitPrefix` and `visitPostfix`: read
the variable through `Environment::get`, overwrite its cell through
`Environment::assign` with a fresh cell, and return the old and the new value. -/
def stepVariable (st : Interp) (name : Token) (up : Bool) : Res (ℚ × ℚ) :=
  (envGet st st.environment name.lexeme name).bind fun v st1 =>
  match v.asNumber with
  | none => badVariantAccess st1
  | some old =>
    let new := if up then old + 1 else old - 1
    (envAssign st1 st1.environment name { value := RyValue.number new }).bind fun _ st2 =>
    Res.ok (old, new) st2

/-- `Interpreter::visitPrefix`. -/
def visitPrefix (ev : Expr → Interp → Res RyValue) (op : Token) (right : Expr) (st : Interp) :
    Res Unit :=
  if st.is_panicking then Res.ok () st
  else
    (ev right st).bind fun r st1 =>
    if op.type == TokenType.PLUS_PLUS || op.type == TokenType.MINUS_MINUS then
      match right with
      | Expr.variableExpr _ name =>
        (stepVariable st1 name (op.type == TokenType.PLUS_PLUS)).bind fun vals st2 =>
        setResult st2 (RyValue.number vals.2)
      | _ => throwRuntimeError op "Target must be a variable." st1
    else if op.type == TokenType.MINUS then
      match r.asNumber with
      | some d => setResult st1 (RyValue.number (-d))
      | none => badVariantAccess st1
    else if op.type == TokenType.BANG then setResult st1 (RyValue.bool (!isTruthy r))
    else if op.type == TokenType.TILDE then
      (ev right st1).bind fun r2 st2 =>
      match r2.asNumber with
      | some d => setResult st2 (RyValue.number ((longNot (toLong d) : Int) : ℚ))
      | none => badVariantAccess st2
    else Res.ok () st1

/-- `Interpreter::visitPostfix`. -/
def visitPostfix (op : Token) (left : Expr) (st : Interp) : Res Unit :=
  if st.is_panicking then Res.ok () st
  else
    match left with
    | Expr.variableExpr _ name =>
      (stepVariable st name (op.type == TokenType.PLUS_PLUS)).bind fun vals st1 =>
      setResult st1 (RyValue.number vals.1)
    | _ => throwRuntimeError op "Target must be a variable." st

/-- One branch of `visitShift`; both branches of the source compute `l << r`. -/
def shiftBranch (op_t : Token) (left right : RyValue) (st : Interp) : Res Unit :=
  match left, right with
  | RyValue.number l, RyValue.number r =>
    let l_val := toLong l
    let r_val := toLong r
    if r_val < 0 ∨ r_val ≥ 64 then setResult st (RyValue.number 0)
    else setResult st (RyValue.number ((longShl l_val r_val : Int) : ℚ))
  | _, _ => throwRuntimeError op_t "Operands must be a number." st

/-- `Interpreter::visitShift`. -/
def visitShift (ev : Expr → Interp → Res RyValue) (left : Expr) (op_t : Token) (right : Expr)
    (st : Interp) : Res Unit :=
  if st.is_panicking then Res.ok () st
  else
    (ev left st).bind fun l st1 =>
    (ev right st1).bind fun r st2 =>
    if op_t.type == TokenType.LESS_LESS then shiftBranch op_t l r st2
    else if op_t.type == TokenType.GREATER_GREATER then shiftBranch op_t l r st2
    else throwRuntimeError op_t "Invalid shift operator." st2

/-- `Interpreter::visitGroup`. -/
def visitGroup (ev : Expr → Interp → Res RyValue) (expression : Expr) (st : Interp) : Res Unit :=
  if st.is_panicking then Res.ok () st
  else (ev expression st).bind fun v st1 => setResult st1 v

/-- `Interpreter::visitVariable`. -/
def visitVariable (id : Nat) (name : Token) (st : Interp) : Res Unit :=
  if st.is_panicking then Res.ok () st
  else
    match st.locals.lookup id with
    | some distance =>
      if distance != -1 then
        let g := envGetAt st st.environment distance name.lexeme
        if g.2.1.isPrivate && !envHas g.2.2 g.2.2.environment name.lexeme then
          Res.raise (Thrown.stringThrown ("Cannot access private member '" ++ name.lexeme ++ "'."))
            g.2.2
        else setResult g.2.2 g.2.1.value
      else
        (envGetVariable st st.globals name).bind fun var st1 => setResult st1 var.value
    | none =>
      (envGetVariable st st.globals name).bind fun var st1 => setResult st1 var.value

/-- `Interpreter::visitLogical`. -/
def visitLogical (ev : Expr → Interp → Res RyValue) (left : Expr) (op_t : Token) (right : Expr)
    (st : Interp) : Res Unit :=
  if st.is_panicking then Res.ok () st
  else
    (ev left st).bind fun leftVal st1 =>
    let leftTruth := isTruthy leftVal
    if op_t.type == TokenType.AND then
      if !leftTruth then setResult st1 (RyValue.bool false)
      else (ev right st1).bind fun rightVal st2 => setResult st2 (RyValue.bool (isTruthy rightVal))
    else if op_t.type == TokenType.OR then
      if leftTruth then setResult st1 (RyValue.bool true)
      else (ev right st1).bind fun rightVal st2 => setResult st2 (RyValue.bool (isTruthy rightVal))
    else Res.ok () st1

/-- The constraint test written out in `visitAssign`: the message of the error it
throws, or `none` when the assignment may proceed. -/
def assignConstraintError (constraint : String) (value : RyValue) : Option String :=
  if constraint == "string" && !value.isString then
    some "Type Error: Cannot assign non-string to a string variable."
  else if constraint == "num" && !value.isNumber then
    some "Type Error: Cannot assign non-number to a number variable."
  else if constraint == "bool" && !value.isBool then
    some "Type Error: Cannot assign non-boolean to a boolean variable."
  else if constraint == "list" && !value.isList then
    some "Type Error: Cannot assign non-list to a list variable."
  else if constraint == "map" && value.isMap then
    some "Type Error: Cannot assign non-map to a map variable."
  else none

/-- `Interpreter::visitAssign`. -/
def visitAssign (ev : Expr → Interp → Res RyValue) (id : Nat) (name : Token) (value : Expr)
    (st : Interp) : Res Unit :=
  if st.is_panicking then Res.ok () st
  else
    (ev value st).bind fun val st1 =>
    let global : Res Unit :=
      (envAssign st1 st1.globals name { value := val, isPrivate := false, typeConstraint := none }).bind
        fun _ st2 => setResult st2 val
    match st1.locals.lookup id with
    | some distance =>
      if distance != -1 then
        let g := envGetAt st1 st1.environment distance name.lexeme
        let var := g.2.1
        let st2 := g.2.2
        match var.typeConstraint.bind (fun c => assignConstraintError c val) with
        | some msg => throwRuntimeError name msg st2
        | none =>
          if var.isPrivate && !envHas st2 st2.environment name.lexeme then
            throwRuntimeError name ("Cannot access private member '" ++ name.lexeme ++ "'.") st2
          else setResult (envDefine st2 g.1 name.lexeme { var with value := val }) val
      else global
    | none => global

/-- The common body of the three bitwise visitors. -/
def visitBitwise (f : Int → Int → Int) (ev : Expr → Interp → Res RyValue) (left : Expr)
    (op_t : Token) (right : Expr) (st : Interp) : Res Unit :=
  if st.is_panicking then Res.ok () st
  else
    (ev left st).bind fun l st1 =>
    (ev right st1).bind fun r st2 =>
    match l, r with
    | RyValue.number a, RyValue.number b =>
      setResult st2 (RyValue.number ((f (toLong a) (toLong b) : Int) : ℚ))
    | _, _ => throwRuntimeError op_t "Operands must be numbers." st2

/-- `Interpreter::visitBitwiseOr`. -/
def visitBitwiseOr := visitBitwise longOr

/-- `Interpreter::visitBitwiseXor`. -/
def visitBitwiseXor := visitBitwise longXor

/-- `Interpreter::visitBitwiseAnd`. -/
def visitBitwiseAnd := visitBitwise longAnd

/-- Evaluation of a sequence of expressions from left to right. -/
def evalList (ev : Expr → Interp → Res RyValue) : List Expr → Interp → Res (List RyValue)
  | [], st => Res.ok [] st
  | e :: rest, st =>
    (ev e st).bind fun v st1 =>
    (evalList ev rest st1).bind fun vs st2 => Res.ok (v :: vs) st2

/-- `Interpreter::visitList`. -/
def visitList (ev : Expr → Interp → Res RyValue) (elements : List Expr) (st : Interp) : Res Unit :=
  if st.is_panicking then Res.ok () st
  else
    (evalList ev elements st).bind fun vs st1 =>
    let nl := newList st1 vs
    setResult nl.2 (RyValue.list nl.1)

/-- `Interpreter::visitIndex`. -/
def visitIndex (ev : Expr → Interp → Res RyValue) (object : Expr) (index : Expr) (bracket : Token)
    (st : Interp) : Res Unit :=
  if st.is_panicking then Res.ok () st
  else
    (ev object st).bind fun callee st1 =>
    (ev index st1).bind fun indexVal st2 =>
    match callee with
    | RyValue.list l =>
      match indexVal with
      | RyValue.number n =>
        let list := st2.lists.getD l []
        let i := toInt n
        if i < 0 ∨ i ≥ (list.length : Int) then throwRuntimeError bracket "Index out of bounds." st2
        else setResult st2 (list.getD i.toNat RyValue.nil)
      | _ => throwRuntimeError bracket "Index must be a number." st2
    | RyValue.map m =>
      match indexVal with
      | RyValue.string key =>
        if !envHas st2 m key then
          throwRuntimeError bracket ("Undefined property '" ++ key ++ "'.") st2
        else (envGet st2 m key bracket).bind fun v st3 => setResult st3 v
      | _ => throwRuntimeError bracket "Index must be a string." st2
    | _ => throwRuntimeError bracket "Only lists can be indexed." st2

/-- `Interpreter::visitIndexSet`. -/
def visitIndexSet (ev : Expr → Interp → Res RyValue) (object : Expr) (bracket : Token)
    (index : Expr) (value : Expr) (st : Interp) : Res Unit :=
  if st.is_panicking then Res.ok () st
  else
    (ev object st).bind fun obj st1 =>
    (ev index st1).bind fun indexVal st2 =>
    (ev value st2).bind fun val st3 =>
    match obj with
    | RyValue.map m =>
      match indexVal with
      | RyValue.string key => setResult (envDefine st3 m key { value := val }) val
      | _ => throwRuntimeError bracket "Map index must be a string." st3
    | RyValue.list l =>
      match indexVal with
      | RyValue.number n =>
        let list := st3.lists.getD l []
        let i := toInt n
        if i < 0 ∨ i ≥ (list.length : Int) then throwRuntimeError bracket "Index out of bounds." st3
        else setResult { st3 with lists := st3.lists.set l (list.set i.toNat val) } val
      | _ => throwRuntimeError bracket "List index must be a number." st3
    | _ => throwRuntimeError bracket "Only lists and maps support indexed assignment." st3

/-- `Interpreter::visitThis`. -/
def visitThis (keyword : Token) (st : Interp) : Res Unit :=
  if st.is_panicking then Res.ok () st
  else (envGet st st.environment keyword.lexeme keyword).bind fun v st1 => setResult st1 v

/-! ## Calls (interp/src/func.cpp, interp/src/class.cpp, modules/native) -/

/-- The catch sites of the form `catch (...) { environment = previous; throw; }`
and the plain restoration after normal completion. -/
def restoreEnvironment {α : Type} (previous : Nat) (r : Res α) : Res α :=
  match r with
  | Res.ok a st => Res.ok a { st with environment := previous }
  | Res.raise t st => Res.raise t { st with environment := previous }
  | other => other

/-- The statement loop of `executeBlock` and `interpret`. -/
def executeStmts (ex : Stmt → Interp → Res Unit) : List Stmt → Interp → Res Unit
  | [], st => Res.ok () st
  | s :: rest, st => (ex s st).bind fun _ st1 => executeStmts ex rest st1

/-- `Interpreter::executeBlock`. -/
def executeBlock (ex : Stmt → Interp → Res Unit) (statements : List Stmt) (localEnv : Nat)
    (st : Interp) : Res Unit :=
  let previous := st.environment
  restoreEnvironment previous (executeStmts ex statements { st with environment := localEnv })

/-- `Interpreter::getAliasTarget`. -/
def getAliasTarget (st : Interp) (name : String) : String :=
  if envIsTypeAlias st st.environment name then envGetTypeAlias st st.environment name else ""

/-- `Interpreter::resolveType`. -/
def resolveType (st : Interp) (pre : Option Token) (aliasTok : Token) : String :=
  match pre with
  | some p =>
    if envHas st st.environment p.lexeme then
      match envGet st st.environment p.lexeme p with
      | Res.ok (RyValue.map ns) _ =>
        if envIsTypeAlias st ns aliasTok.lexeme then envGetTypeAlias st ns aliasTok.lexeme else ""
      | _ => ""
    else ""
  | none => getAliasTarget st aliasTok.lexeme

/-- The parameter loop of `RyFunction::call`. -/
def bindParameters (ev : Expr → Interp → Res RyValue) (env : Nat) :
    List Parameter → List RyValue → Interp → Res Unit
  | [], _, st => Res.ok () st
  | p :: ps, a :: rest, st =>
    bindParameters ev env ps rest (envDefine st env p.name.lexeme { value := a })
  | p :: ps, [], st =>
    match p.defaultValue with
    | some d =>
      (ev d st).bind fun v st1 =>
      bindParameters ev env ps [] (envDefine st1 env p.name.lexeme { value := v })
    | none => bindParameters ev env ps [] st

/-- `RyFunction::arity`: the parameters without a default value. -/
def RyFunction.arity (f : RyFunction) : Int :=
  ((f.declaration.parameters.filter (fun p => p.defaultValue.isNone)).length : Int)

/-- `RyFunction::call`. -/
def callFunction (ev : Expr → Interp → Res RyValue) (ex : Stmt → Interp → Res Unit)
    (f : RyFunction) (arguments : List RyValue) (st : Interp) : Res RyValue :=
  let ne := newEnv st (some f.closure)
  let environment := ne.1
  let previous := st.environment
  match bindParameters ev environment f.declaration.parameters arguments
      { ne.2 with environment := environment } with
  | Res.raise t st1 => Res.raise t { st1 with environment := previous }
  | Res.exited st1 => Res.exited st1
  | Res.crash => Res.crash
  | Res.timeout => Res.timeout
  | Res.unmodelled => Res.unmodelled
  | Res.ok _ st1 =>
    let afterBody : Res RyValue :=
      match executeBlock ex f.declaration.body environment st1 with
      | Res.ok _ st2 => Res.ok RyValue.nil { st2 with environment := previous }
      | Res.raise (Thrown.returnSignal v) st2 => Res.ok v { st2 with environment := previous }
      | Res.raise t st2 => Res.raise t { st2 with environment := previous }
      | Res.exited st2 => Res.exited st2
      | Res.crash => Res.crash
      | Res.timeout => Res.timeout
      | Res.unmodelled => Res.unmodelled
    afterBody.bind fun result st3 =>
    let checked : Res Unit :=
      match f.declaration.returnTypeAlias with
      | some aliasTok =>
        let ce := newEnv st3 (some st3.environment)
        let callerEnv := ce.1
        let constraint :=
          resolveType { ce.2 with environment := f.closure } f.declaration.returnTypeNamespace aliasTok
        let st4 := { ce.2 with environment := callerEnv }
        if !constraint.isEmpty then checkType f.declaration.name constraint result st4
        else Res.ok () st4
      | none => Res.ok () st3
    checked.bind fun _ st5 =>
    match result with
    | RyValue.nil | RyValue.inst _ =>
      if f.isInitializer then
        let g := envGetAt st5 f.closure 0 "this"
        Res.ok g.2.1.value g.2.2
      else Res.ok result st5
    | _ => Res.ok result st5

/-- `RyClass::arity`. -/
def RyClass.arity (c : RyClass) : Int :=
  match c.findMethod "init" with
  | some initializer => initializer.arity
  | none => 0

/-- `RyClass::call`. -/
def callClass (ev : Expr → Interp → Res RyValue) (ex : Stmt → Interp → Res Unit)
    (c : RyClass) (args : List RyValue) (st : Interp) : Res RyValue :=
  let ni := newInstance st c
  match c.findMethod "init" with
  | some initializer =>
    let b := bindMethod ni.2 initializer ni.1
    match b.2.callables[b.1]? with
    | some (RyCallable.function bound) =>
      (callFunction ev ex bound args b.2).bind fun _ st1 => Res.ok (RyValue.inst ni.1) st1
    | _ => Res.crash
  | none => Res.ok (RyValue.inst ni.1) ni.2

/-- The `toString` of the callables. -/
def RyCallable.toString (c : RyCallable) : String :=
  match c with
  | RyCallable.function f => "<fn " ++ f.declaration.name.lexeme ++ ">"
  | RyCallable.klass k => "<class " ++ k.name ++ ">"
  | RyCallable.native NativeFn.out => "<native fn out>"
  | RyCallable.native NativeFn.exit => "<native fn exit>"
  | RyCallable.native NativeFn.input => "<native fn input>"
  | RyCallable.native NativeFn.len => "<native fn len>"
  | RyCallable.native NativeFn.pop => "<native fn pop>"
  | RyCallable.native NativeFn.use => "<native use fn>"
  | RyCallable.native NativeFn.type => "<native fn>"
  | RyCallable.native NativeFn.clock => "<native fn clock>"
  | RyCallable.native NativeFn.clear => "<native fn clear>"

/-- The separators written between the elements printed by `printValue`. -/
def joinComma : List String → String
  | [] => ""
  | [x] => x
  | x :: rest => x ++ ", " ++ joinComma rest

/-- `RyOut::printValue`: the text written for a value; `none` when the recursion
through nested lists does not return within the fuel.  A boolean prints as `true`
whatever its value, as in the source. -/
def printValue (lists : List (List RyValue)) : Nat → RyValue → Option String
  | 0, _ => none
  | fuel + 1, v =>
    match v with
    | RyValue.list l =>
      ((lists.getD l []).mapM (printValue lists fuel)).map (fun parts => "[" ++ joinComma parts ++ "]")
    | RyValue.number d => some (coutDouble d)
    | RyValue.string s => some s
    | RyValue.bool _ => some "true"
    | RyValue.nil => some "null"
    | _ => some "<object>"

/-- The text `RyOut::call` writes for one argument. -/
def outText (st : Interp) (fuel : Nat) (value : RyValue) : Option String :=
  match value with
  | RyValue.func f =>
    match st.callables[f]? with
    | some c => some c.toString
    | none => none
  | _ => printValue st.lists fuel value

/-- Join the texts of the arguments of `out` with single spaces. -/
def joinSpace : List String → String
  | [] => ""
  | [x] => x
  | x :: rest => x ++ " " ++ joinSpace rest

/-- The `call` of the built-in callables.  `out` appends one line to the output.
`exit` ends the process.  The standard input of the model is at end of file, so
`input` returns nil; `clock` reads the clock of the state; `use` finds no library
and returns the empty module environment; `clear` only touches the terminal. -/
def callNative (fuel : Nat) (n : NativeFn) (arguments : List RyValue) (st : Interp) : Res RyValue :=
  match n with
  | NativeFn.out =>
    match arguments.mapM (outText st fuel) with
    | some parts => Res.ok RyValue.nil { st with output := st.output ++ [joinSpace parts] }
    | none => Res.timeout
  | NativeFn.len =>
    match arguments with
    | RyValue.list l :: _ => Res.ok (RyValue.number ((st.lists.getD l []).length : ℚ)) st
    | RyValue.string s :: _ => Res.ok (RyValue.number (s.utf8ByteSize : ℚ)) st
    | RyValue.map m :: _ =>
      Res.ok (RyValue.number (((st.envs.getD m {}).values.length : Nat) : ℚ)) st
    | _ :: _ =>
      Res.raise (Thrown.stdException StdExc.runtime_error
        "Argument to len() must be a list, string, or map.") st
    | [] => Res.crash
  | NativeFn.pop =>
    match arguments with
    | RyValue.list l :: _ =>
      let list := st.lists.getD l []
      match list.getLast? with
      | none =>
        Res.raise (Thrown.stdException StdExc.runtime_error "Cannot pop from an empty list.") st
      | some lastElement => Res.ok lastElement { st with lists := st.lists.set l list.dropLast }
    | _ :: _ =>
      Res.raise (Thrown.stdException StdExc.runtime_error "Argument to pop() must be a list.") st
    | [] => Res.crash
  | NativeFn.type =>
    match arguments with
    | RyValue.number _ :: _ => Res.ok (RyValue.string "number") st
    | RyValue.string _ :: _ => Res.ok (RyValue.string "string") st
    | RyValue.bool _ :: _ => Res.ok (RyValue.string "bool") st
    | RyValue.list _ :: _ => Res.ok (RyValue.string "list") st
    | RyValue.map _ :: _ => Res.ok (RyValue.string "map") st
    | _ :: _ => Res.ok (RyValue.string "unknown") st
    | [] => Res.crash
  | NativeFn.exit => Res.exited st
  | NativeFn.input => Res.ok RyValue.nil st
  | NativeFn.clock => Res.ok (RyValue.number st.clock) st
  | NativeFn.clear => Res.ok RyValue.nil st
  | NativeFn.use =>
    match arguments with
    | RyValue.string _ :: _ =>
      let ne := newEnv st (some st.globals)
      Res.ok (RyValue.map ne.1) ne.2
    | _ :: _ => badVariantAccess st
    | [] => Res.crash

/-- The `arity()` of the built-in callables. -/
def NativeFn.arity (n : NativeFn) : Int :=
  match n with
  | NativeFn.out => 1
  | NativeFn.exit => 1
  | NativeFn.input => -1
  | NativeFn.len => 1
  | NativeFn.pop => 1
  | NativeFn.use => 1
  | NativeFn.type => 1
  | NativeFn.clock => 0
  | NativeFn.clear => 0

/-- The virtual `arity()`. -/
def RyCallable.arity (c : RyCallable) : Int :=
  match c with
  | RyCallable.function f => f.arity
  | RyCallable.klass k => k.arity
  | RyCallable.native n => n.arity

/-- The virtual `call`. -/
def callCallable (fuel : Nat) (ev : Expr → Interp → Res RyValue) (ex : Stmt → Interp → Res Unit)
    (c : RyCallable) (arguments : List RyValue) (st : Interp) : Res RyValue :=
  match c with
  | RyCallable.function f => callFunction ev ex f arguments st
  | RyCallable.klass k => callClass ev ex k arguments st
  | RyCallable.native n => callNative fuel n arguments st

/-- The message of the argument-count error of `visitCall`. -/
def arityMessage (minArgs maxArgs : Int) (given : Nat) : String :=
  (if minArgs == maxArgs then "Expected " ++ toString minArgs ++ " arguments."
   else "Expected between " ++ toString minArgs ++ " and " ++ toString maxArgs ++ " arguments.")
    ++ " but got " ++ toString given ++ "."

/-- `Interpreter::visitCall`. -/
def visitCall (fuel : Nat) (ev : Expr → Interp → Res RyValue) (ex : Stmt → Interp → Res Unit)
    (callee : Expr) (arguments : List Expr) (paren : Token) (st : Interp) : Res Unit :=
  if st.is_panicking then Res.ok () st
  else
    (ev callee st).bind fun calleeVal st1 =>
    (evalList ev arguments st1).bind fun args st2 =>
    match calleeVal with
    | RyValue.func f =>
      match st2.callables[f]? with
      | none => throwRuntimeError paren "Can only call functions and classes." st2
      | some function =>
        let minArgs := function.arity
        let maxArgs : Int :=
          match function with
          | RyCallable.function ryFunc => (ryFunc.declaration.parameters.length : Int)
          | _ => minArgs
        if minArgs != -1 ∧ ((args.length : Int) < minArgs ∨ (args.length : Int) > maxArgs) then
          throwRuntimeError paren (arityMessage minArgs maxArgs args.length) st2
        else
          match callCallable fuel ev ex function args st2 with
          | Res.ok v st3 => setResult st3 v
          | Res.raise (Thrown.stdException StdExc.runtime_error what) st3 =>
            throwRuntimeError paren what st3
          | Res.raise t st3 => Res.raise t st3
          | Res.exited st3 => Res.exited st3
          | Res.crash => Res.crash
          | Res.timeout => Res.timeout
          | Res.unmodelled => Res.unmodelled
    | _ => badVariantAccess st2

/-! ## Statement visitors (interp/src/visitor.cpp)

As for expressions, `ev` and `ex` stand for the evaluation of sub-expressions and
the execution of sub-statements. -/

/-- `Interpreter::visitBlockStmt`. -/
def visitBlockStmt (ex : Stmt → Interp → Res Unit) (statements : List Stmt) (st : Interp) :
    Res Unit :=
  if st.is_panicking then Res.ok () st
  else
    let ne := newEnv st (some st.environment)
    executeBlock ex statements ne.1 ne.2

/-- `Interpreter::visitExpressionStmt`. -/
def visitExpressionStmt (ev : Expr → Interp → Res RyValue) (expression : Expr) (st : Interp) :
    Res Unit :=
  if st.is_panicking then Res.ok () st
  else (ev expression st).bind fun _ st1 => Res.ok () st1

/-- `Interpreter::visitFunctionStmt`. -/
def visitFunctionStmt (f : FunctionStmt) (st : Interp) : Res Unit :=
  if st.is_panicking then Res.ok () st
  else
    let ne := newEnv st (some st.environment)
    let nc := newCallable ne.2
      (RyCallable.function { declaration := f, closure := ne.1, isPrivate := f.isPrivate })
    Res.ok () (envDefine nc.2 nc.2.environment f.name.lexeme { value := RyValue.func nc.1 })

/-- `Interpreter::visitImportStmt`.  The file system is the table `modules` of the
state: a module name found there stands for a source file found on the search
path, already parsed and resolved; a name with `*` stands for the files of a
directory, which the source runs through `interpretSource` in the current
environment. -/
def visitImportStmt (ex : Stmt → Interp → Res Unit) (module : Token) (st : Interp) : Res Unit :=
  if st.is_panicking then Res.ok () st
  else
    let lex := module.lexeme
    let moduleName :=
      if lex.front == '"' then String.mk ((lex.toList.drop 1).take (lex.length - 2)) else lex
    if moduleName.toList.contains '*' then
      match mapFind st.modules moduleName with
      | some stmts => executeStmts ex stmts st
      | none => Res.ok () st
    else if st.loaded_modules.contains moduleName then Res.ok () st
    else
      let st1 := { st with loaded_modules := st.loaded_modules ++ [moduleName] }
      match mapFind st1.modules moduleName with
      | none => Res.ok () st1
      | some stmts =>
        let previous := st1.environment
        match restoreEnvironment previous
            (executeStmts ex stmts { st1 with environment := st1.globals }) with
        | Res.raise (Thrown.stdException _ _) st2 => Res.ok () st2
        | other => other

/-- `Interpreter::visitVarStmt`. -/
def visitVarStmt (ev : Expr → Interp → Res RyValue) (v : VarStmt) (st : Interp) : Res Unit :=
  if st.is_panicking then Res.ok () st
  else
    let constraint : String :=
      match v.innerType with
      | some inner =>
        if v.type.lexeme == "data" then inner.lexeme else resolveType st (some v.type) inner
      | none => resolveType st none v.type
    ((match v.initializer with
      | some e => ev e st
      | none => Res.ok RyValue.nil st) : Res RyValue).bind fun value st1 =>
    ((if !constraint.isEmpty then checkType v.name constraint value st1
      else Res.ok () st1) : Res Unit).bind fun _ st2 =>
    Res.ok () (envDefine st2 st2.environment v.name.lexeme
      { value := value, isPrivate := v.isPrivate, typeConstraint := some constraint })

/-- `Interpreter::visitAliasStmt`; `isTypeAlias` holds of every `VariableExpr`. -/
def visitAliasStmt (ev : Expr → Interp → Res RyValue) (aliasExpr : Expr) (name : Token)
    (st : Interp) : Res Unit :=
  if st.is_panicking then Res.ok () st
  else
    match aliasExpr with
    | Expr.variableExpr _ var =>
      let st1 := envDefineTypeAlias st st.environment name.lexeme var.lexeme
      Res.ok ()
        { st1 with typeAliases :=
            if st1.typeAliases.contains name.lexeme then st1.typeAliases
            else st1.typeAliases ++ [name.lexeme] }
    | _ =>
      (ev aliasExpr st).bind fun value st1 =>
      Res.ok () (envDefine st1 st1.environment name.lexeme { value := value })

/-- `Interpreter::visitReturnStmt`. -/
def visitReturnStmt (ev : Expr → Interp → Res RyValue) (value : Option Expr) (st : Interp) :
    Res Unit :=
  if st.is_panicking then Res.ok () st
  else
    match value with
    | some e => (ev e st).bind fun v st1 => Res.raise (Thrown.returnSignal v) st1
    | none => Res.raise (Thrown.returnSignal RyValue.nil) st

/-- The loop of `visitWhileStmt`; every iteration uses one unit of `n`. -/
def whileLoop (ev : Expr → Interp → Res RyValue) (ex : Stmt → Interp → Res Unit)
    (condition : Expr) (body : Stmt) : Nat → Interp → Res Unit
  | 0, _ => Res.timeout
  | n + 1, st =>
    (ev condition st).bind fun c st1 =>
    if isTruthy c then
      match ex body st1 with
      | Res.ok _ st2 => whileLoop ev ex condition body n st2
      | Res.raise Thrown.stopSignal st2 => Res.ok () st2
      | Res.raise Thrown.skipSignal st2 => whileLoop ev ex condition body n st2
      | other => other
    else Res.ok () st1

/-- `Interpreter::visitWhileStmt`. -/
def visitWhileStmt (fuel : Nat) (ev : Expr → Interp → Res RyValue) (ex : Stmt → Interp → Res Unit)
    (condition : Expr) (body : Stmt) (st : Interp) : Res Unit :=
  if st.is_panicking then Res.ok () st
  else whileLoop ev ex condition body fuel st

/-- `Interpreter::visitIfStmt`. -/
def visitIfStmt (ev : Expr → Interp → Res RyValue) (ex : Stmt → Interp → Res Unit)
    (condition : Expr) (thenBranch : Stmt) (elseBranch : Option Stmt) (st : Interp) : Res Unit :=
  if st.is_panicking then Res.ok () st
  else
    (ev condition st).bind fun conditionValue st1 =>
    if isTruthy conditionValue then ex thenBranch st1
    else
      match elseBranch with
      | some e => ex e st1
      | none => Res.ok () st1

/-- `Interpreter::visitNamespaceStmt`. -/
def visitNamespaceStmt (ex : Stmt → Interp → Res Unit) (name : Token) (body : List Stmt)
    (st : Interp) : Res Unit :=
  if st.is_panicking then Res.ok () st
  else
    let ne := newEnv st (some st.environment)
    let previous := st.environment
    (restoreEnvironment previous
      (executeStmts ex body { ne.2 with environment := ne.1 })).bind fun _ st1 =>
    Res.ok () (envDefine st1 st1.environment name.lexeme { value := RyValue.map ne.1 })

/-- The loop of `visitEachStmt` over the elements `index, index + 1, ...` of the
list, `n` of them being left; the end of the iteration is fixed when the loop
starts. -/
def eachLoop (ex : Stmt → Interp → Res Unit) (list : Nat) (previous : Nat) (id : Token)
    (body : Stmt) : Nat → Nat → Interp → Res Unit
  | 0, _, st => Res.ok () st
  | n + 1, index, st =>
    match (st.lists.getD list [])[index]? with
    | none => Res.crash
    | some item =>
      let ne := newEnv st (some previous)
      let st1 := envDefine ne.2 ne.1 id.lexeme { value := item }
      match ex body { st1 with environment := ne.1 } with
      | Res.ok _ st2 => eachLoop ex list previous id body n (index + 1) st2
      | Res.raise Thrown.skipSignal st2 => eachLoop ex list previous id body n (index + 1) st2
      | Res.raise Thrown.stopSignal st2 => Res.ok () st2
      | other => other

/-- `Interpreter::visitEachStmt`. -/
def visitEachStmt (ev : Expr → Interp → Res RyValue) (ex : Stmt → Interp → Res Unit)
    (id : Token) (collection : Expr) (body : Stmt) (st : Interp) : Res Unit :=
  if st.is_panicking then Res.ok () st
  else
    (ev collection st).bind fun coll st1 =>
    match coll with
    | RyValue.list l =>
      let previous := st1.environment
      restoreEnvironment previous
        (eachLoop ex l previous id body (st1.lists.getD l []).length 0 st1)
    | _ => throwRuntimeError id "The 'each' loop requires a list." st1

/-- `Interpreter::visitStopStmt`. -/
def visitStopStmt (st : Interp) : Res Unit :=
  if st.is_panicking then Res.ok () st else Res.raise Thrown.stopSignal st

/-- `Interpreter::visitSkipStmt`. -/
def visitSkipStmt (st : Interp) : Res Unit :=
  if st.is_panicking then Res.ok () st else Res.raise Thrown.skipSignal st

/-- The loop of `visitForStmt`; a missing condition is a null pointer passed to
`evaluate`. -/
def forLoop (ev : Expr → Interp → Res RyValue) (ex : Stmt → Interp → Res Unit)
    (condition : Option Expr) (increment : Option Expr) (body : Stmt) : Nat → Interp → Res Unit
  | 0, _ => Res.timeout
  | n + 1, st =>
    match condition with
    | none => Res.crash
    | some cond =>
      (ev cond st).bind fun c st1 =>
      if isTruthy c then
        let afterBody : Res Unit :=
          match ex body st1 with
          | Res.raise Thrown.skipSignal st2 => Res.ok () st2
          | other => other
        match afterBody with
        | Res.raise Thrown.stopSignal st2 => Res.ok () st2
        | Res.ok _ st2 =>
          ((match increment with
            | some inc => (ev inc st2).bind fun _ st3 => Res.ok () st3
            | none => Res.ok () st2) : Res Unit).bind fun _ st3 =>
          forLoop ev ex condition increment body n st3
        | other => other
      else Res.ok () st1

/-- `Interpreter::visitForStmt`. -/
def visitForStmt (fuel : Nat) (ev : Expr → Interp → Res RyValue) (ex : Stmt → Interp → Res Unit)
    (init : Option Stmt) (condition : Option Expr) (increment : Option Expr) (body : Stmt)
    (st : Interp) : Res Unit :=
  if st.is_panicking then Res.ok () st
  else
    let ne := newEnv st (some st.environment)
    let previous := st.environment
    restoreEnvironment previous
      (((match init with
          | some i => ex i { ne.2 with environment := ne.1 }
          | none => Res.ok () { ne.2 with environment := ne.1 }) : Res Unit).bind fun _ st1 =>
        forLoop ev ex condition increment body fuel st1)

/-- The field loop of `visitClassStmt`. -/
def collectFields (ev : Expr → Interp → Res RyValue) :
    List VarStmt → List (String × RyVariable) → Interp → Res (List (String × RyVariable))
  | [], acc, st => Res.ok acc st
  | field :: rest, acc, st =>
    ((match field.initializer with
      | some e => ev e st
      | none => Res.ok RyValue.nil st) : Res RyValue).bind fun initialValue st1 =>
    collectFields ev rest
      (mapInsert acc field.name.lexeme { value := initialValue, isPrivate := field.isPrivate }) st1

/-- The method loop of `visitClassStmt`. -/
def collectMethods (methodEnv : Nat) (methods : List FunctionStmt) : List (String × RyFunction) :=
  methods.foldl
    (fun acc m =>
      mapInsert acc m.name.lexeme { declaration := m, closure := methodEnv, isPrivate := m.isPrivate })
    []

/-- `Interpreter::visitClassStmt`. -/
def visitClassStmt (ev : Expr → Interp → Res RyValue) (name : Token)
    (methods : List FunctionStmt) (fields : List VarStmt) (superclass : Option (Nat × Token))
    (st : Interp) : Res Unit :=
  if st.is_panicking then Res.ok () st
  else
    let build (sup : Option (RyValue × RyClass)) (st1 : Interp) : Res Unit :=
      let me : Nat × Interp :=
        match sup with
        | some (superVal, _) =>
          let ne := newEnv st1 (some st1.environment)
          (ne.1, envDefine ne.2 ne.1 "parent" { value := superVal })
        | none => (st1.environment, st1)
      (collectFields ev fields [] me.2).bind fun fieldBlueprints st2 =>
      let klass := RyClass.construct st2.callables.length name.lexeme
        (collectMethods me.1 methods) fieldBlueprints (sup.map (fun p => p.2))
      let nc := newCallable st2 (RyCallable.klass klass)
      Res.ok () (envDefine nc.2 nc.2.environment name.lexeme { value := RyValue.func nc.1 })
    match superclass with
    | some (id, supName) =>
      (ev (Expr.variableExpr id supName) st).bind fun superVal st1 =>
      match superVal with
      | RyValue.func f =>
        match st1.callables[f]? with
        | some (RyCallable.klass k) => build (some (superVal, k)) st1
        | _ => throwRuntimeError supName "Superclass must be a class." st1
      | _ => throwRuntimeError supName "Superclass must be a class." st1
    | none => build none st

/-- `Interpreter::visitAttemptStmt`. -/
def visitAttemptStmt (ex : Stmt → Interp → Res Unit) (attemptBody : List Stmt)
    (failBody : List Stmt) (error : Token) (finallyBody : List Stmt) (errorType : Token)
    (st : Interp) : Res Unit :=
  let was_panicking := st.is_panicking
  let st0 := { st with is_panicking := false }
  let ne := newEnv st0 (some st0.environment)
  match executeBlock ex attemptBody ne.1 ne.2 with
  | Res.raise (Thrown.runtimeError err) st1 =>
    let isCatchAll := errorType.lexeme.isEmpty || errorType.type == TokenType.Nothing_Here
    let typeMatch :=
      match err.type with
      | RyValue.string t => t == errorType.lexeme
      | _ => false
    if isCatchAll || typeMatch then
      let st2 := { st1 with is_panicking := false }
      let fe := newEnv st2 (some st2.environment)
      let st3 := envDefine fe.2 fe.1 error.lexeme { value := RyValue.string err.message }
      (executeBlock ex failBody fe.1 st3).bind fun _ st4 => Res.ok () st4
    else
      ((if !finallyBody.isEmpty then executeBlock ex finallyBody st1.environment st1
        else Res.ok () st1) : Res Unit).bind fun _ st2 =>
      Res.raise (Thrown.runtimeError err) st2
  | Res.ok _ st1 =>
    ((if !finallyBody.isEmpty then executeBlock ex finallyBody st1.environment st1
      else Res.ok () st1) : Res Unit).bind fun _ st2 =>
    Res.ok () { st2 with is_panicking := was_panicking }
  | other => other

/-- `Interpreter::visitPanicStmt`.  The third argument `true` of the constructor
call binds to the parameter `type`, so the error carries the boolean `true` as its
type and is not marked as panicking. -/
def visitPanicStmt (ev : Expr → Interp → Res RyValue) (keyword : Token) (message : Option Expr)
    (st : Interp) : Res Unit :=
  ((match message with
    | some e => ev e st
    | none => Res.ok RyValue.nil st) : Res RyValue).bind fun msg st1 =>
  throwRuntimeError keyword msg.toString st1 (RyValue.bool true)

/-! ## The evaluator (interp/src/evaluate.cpp) -/

mutual

/-- `Interpreter::evaluate`: dispatch on the node (`accept`), then read
`lastResult`. -/
def evaluate : Nat → Expr → Interp → Res RyValue
  | 0, _, _ => Res.timeout
  | fuel + 1, e, st =>
    Res.bind
      (match e with
        | Expr.valueExpr value => visitValue value st
        | Expr.mathExpr l op r => visitMath fuel (evaluate fuel) l op r st
        | Expr.groupExpr x => visitGroup (evaluate fuel) x st
        | Expr.prefixExpr op r => visitPrefix (evaluate fuel) op r st
        | Expr.postfixExpr op l => visitPostfix op l st
        | Expr.variableExpr id name => visitVariable id name st
        | Expr.assignExpr id name value => visitAssign (evaluate fuel) id name value st
        | Expr.logicalExpr l op r => visitLogical (evaluate fuel) l op r st
        | Expr.callExpr callee args paren =>
          visitCall fuel (evaluate fuel) (execute fuel) callee args paren st
        | Expr.listExpr elements => visitList (evaluate fuel) elements st
        | Expr.indexExpr object index bracket => visitIndex (evaluate fuel) object index bracket st
        | Expr.getExpr object name => visitGet (evaluate fuel) object name st
        | Expr.setExpr object name value => visitSet (evaluate fuel) object name value st
        | Expr.mapExpr brace items => visitMap (evaluate fuel) brace items st
        | Expr.indexSetExpr object bracket index value =>
          visitIndexSet (evaluate fuel) object bracket index value st
        | Expr.rangeExpr l op r => visitRange (evaluate fuel) l op r st
        | Expr.bitwiseAndExpr l op r => visitBitwiseAnd (evaluate fuel) l op r st
        | Expr.bitwiseOrExpr l op r => visitBitwiseOr (evaluate fuel) l op r st
        | Expr.bitwiseXorExpr l op r => visitBitwiseXor (evaluate fuel) l op r st
        | Expr.shiftExpr l op r => visitShift (evaluate fuel) l op r st
        | Expr.thisExpr _ keyword => visitThis keyword st)
      (fun _ st1 => Res.ok st1.lastResult st1)

/-- `Interpreter::execute`: dispatch on the statement. -/
def execute : Nat → Stmt → Interp → Res Unit
  | 0, _, _ => Res.timeout
  | fuel + 1, s, st =>
    match s with
    | Stmt.expressionStmt e => visitExpressionStmt (evaluate fuel) e st
    | Stmt.functionStmt f => visitFunctionStmt f st
    | Stmt.importStmt module => visitImportStmt (execute fuel) module st
    | Stmt.aliasStmt aliasExpr name => visitAliasStmt (evaluate fuel) aliasExpr name st
    | Stmt.varStmt v => visitVarStmt (evaluate fuel) v st
    | Stmt.returnStmt _ value => visitReturnStmt (evaluate fuel) value st
    | Stmt.ifStmt c t e => visitIfStmt (evaluate fuel) (execute fuel) c t e st
    | Stmt.whileStmt c b => visitWhileStmt fuel (evaluate fuel) (execute fuel) c b st
    | Stmt.blockStmt statements => visitBlockStmt (execute fuel) statements st
    | Stmt.namespaceStmt name body => visitNamespaceStmt (execute fuel) name body st
    | Stmt.eachStmt id _ collection body =>
      visitEachStmt (evaluate fuel) (execute fuel) id collection body st
    | Stmt.stopStmt _ => visitStopStmt st
    | Stmt.skipStmt _ => visitSkipStmt st
    | Stmt.forStmt init c inc body =>
      visitForStmt fuel (evaluate fuel) (execute fuel) init c inc body st
    | Stmt.classStmt name methods fields _ superclass =>
      visitClassStmt (evaluate fuel) name methods fields superclass st
    | Stmt.attemptStmt a f error fin errorType =>
      visitAttemptStmt (execute fuel) a f error fin errorType st
    | Stmt.panicStmt keyword message => visitPanicStmt (evaluate fuel) keyword message st

end

/-- `Interpreter::interpret`. -/
def interpret (fuel : Nat) (statements : List Stmt) (st : Interp) : Res Unit :=
  executeStmts (execute fuel) statements st

/-- The built-in callables in the order the `Interpreter` constructor defines them. -/
def natives : List (String × NativeFn) :=
  [("out", NativeFn.out), ("exit", NativeFn.exit), ("input", NativeFn.input),
   ("len", NativeFn.len), ("pop", NativeFn.pop), ("use", NativeFn.use),
   ("type", NativeFn.type), ("clock", NativeFn.clock), ("clear", NativeFn.clear)]

/-- The state built by the `Interpreter` constructor: one global environment, which
is also the current one, with the built-in callables defined in it. -/
def Interp.initial : Interp :=
  { envs :=
      [{ enclosing := none,
         values := natives.enum.map (fun p => (p.2.1, { value := RyValue.func p.1 })) }],
    lists := [],
    callables := natives.map (fun p => RyCallable.native p.2),
    instances := [],
    environment := 0,
    globals := 0 }

/-- The text of standard output after a run, whatever way it ended. -/
def Res.output {α : Type} (r : Res α) : List String :=
  match r with
  | Res.ok _ st => st.output
  | Res.raise _ st => st.output
  | Res.exited st => st.output
  | Res.crash => []
  | Res.timeout => []
  | Res.unmodelled => []

/-! ## The constant folder (middleend/src/optimizer.cpp) -/

/-- The `dynamic_pointer_cast<ValueExpr>` followed by the test for a number
literal: the text of the literal. -/
def Expr.numberLiteral (e : Expr) : Option String :=
  match e with
  | Expr.valueExpr v => if v.type == TokenType.NUMBER then some v.lexeme else none
  | _ => none

/-- The value `std::stod` gives for the text of a literal.  The folder is modelled
for the literals whose text `std::stod` converts to a finite value; zero stands in
where the library throws or returns an infinity or a NaN. -/
def stodValue (s : String) : ℚ :=
  match stod s with
  | Stod.value (Double.finite d) _ => d
  | _ => 0

/-- The token of a literal produced by the folder: the given token with type
`NUMBER` and the text of the result. -/
def numberToken (t : Token) (result : ℚ) : Token :=
  { t with type := TokenType.NUMBER, lexeme := to_string result }

/-- `Optimizer::visitMath` after the two operands have been folded. -/
def foldMath (left : Expr) (op_t : Token) (right : Expr) : Expr :=
  let rebuilt := Expr.mathExpr left op_t right
  let precompute : Expr :=
    match left.numberLiteral, right.numberLiteral with
    | some ls, some rs =>
      let ld := stodValue ls
      let rd := stodValue rs
      match op_t.type with
      | TokenType.PLUS => Expr.valueExpr (numberToken op_t (ld + rd))
      | TokenType.MINUS => Expr.valueExpr (numberToken op_t (ld - rd))
      | TokenType.STAR => Expr.valueExpr (numberToken op_t (ld * rd))
      | TokenType.DIVIDE =>
        if rd == 0 then rebuilt else Expr.valueExpr (numberToken op_t (ld / rd))
      | _ => rebuilt
    | _, _ => rebuilt
  match right.numberLiteral with
  | some rs =>
    let val := stodValue rs
    if (op_t.type == TokenType.PLUS || op_t.type == TokenType.MINUS) && val == 0 then left
    else if (op_t.type == TokenType.STAR || op_t.type == TokenType.DIVIDE) && val == 1 then left
    else precompute
  | none => precompute

/-- The common body of the three bitwise visitors of the folder, after the operands
have been folded. -/
def foldBitwise (mk : Expr → Token → Expr → Expr) (f : Int → Int → Int) (left : Expr)
    (op_t : Token) (right : Expr) : Expr :=
  match left.numberLiteral, right.numberLiteral with
  | some ls, some rs =>
    Expr.valueExpr
      (numberToken op_t ((f (toLong (stodValue ls)) (toLong (stodValue rs)) : Int) : ℚ))
  | _, _ => mk left op_t right

/-- `Optimizer::visitShift` after the operands have been folded; the shift counts
are used as they are, as in the source. -/
def foldShift (left : Expr) (op_t : Token) (right : Expr) : Expr :=
  match left.numberLiteral, right.numberLiteral with
  | some ls, some rs =>
    let l := toLong (stodValue ls)
    let r := toLong (stodValue rs)
    let result : Int := if op_t.type == TokenType.LESS_LESS then longShl l r else longShr l r
    Expr.valueExpr (numberToken op_t (result : ℚ))
  | _, _ => Expr.shiftExpr left op_t right

/-- `Optimizer::visitPrefix` after the operand has been folded. -/
def foldPrefix (op : Token) (right : Expr) : Expr :=
  let rebuilt := Expr.prefixExpr op right
  match right with
  | Expr.valueExpr rVal =>
    if op.type == TokenType.MINUS && rVal.type == TokenType.NUMBER then
      Expr.valueExpr { rVal with lexeme := to_string (-(stodValue rVal.lexeme)) }
    else if op.type == TokenType.BANG then
      let truthy := !(rVal.type == TokenType.FALSE || rVal.type == TokenType.NULL_TOKEN)
      Expr.valueExpr
        { op with type := if !truthy then TokenType.TRUE else TokenType.FALSE,
                  lexeme := if !truthy then "true" else "false" }
    else if op.type == TokenType.TILDE && rVal.type == TokenType.NUMBER then
      Expr.valueExpr
        { rVal with lexeme := to_string ((longNot (toLong (stodValue rVal.lexeme)) : Int) : ℚ) }
    else rebuilt
  | _ => rebuilt

/-- `Optimizer::visitLogical` after the operands have been folded (the source folds
the right operand only when it keeps it). -/
def foldLogical (left : Expr) (op_t : Token) (right : Expr) : Expr :=
  let rebuilt := Expr.logicalExpr left op_t right
  match left with
  | Expr.valueExpr lVal =>
    let truthy := !(lVal.type == TokenType.FALSE || lVal.type == TokenType.NULL_TOKEN)
    if op_t.type == TokenType.OR then
      if truthy then left else rebuilt
    else if op_t.type == TokenType.AND then
      if !truthy then left else rebuilt
    else rebuilt
  | _ => rebuilt

mutual

/-- `Optimizer::fold`. -/
def fold : Expr → Expr
  | Expr.valueExpr v => Expr.valueExpr v
  | Expr.mathExpr l op r => foldMath (fold l) op (fold r)
  | Expr.groupExpr e => fold e
  | Expr.prefixExpr op r => foldPrefix op (fold r)
  | Expr.postfixExpr op l => Expr.postfixExpr op (fold l)
  | Expr.variableExpr id name => Expr.variableExpr id name
  | Expr.assignExpr id name value => Expr.assignExpr id name (fold value)
  | Expr.logicalExpr l op r => foldLogical (fold l) op (fold r)
  | Expr.callExpr callee args paren => Expr.callExpr (fold callee) (foldList args) paren
  | Expr.listExpr elements => Expr.listExpr (foldList elements)
  | Expr.indexExpr object index bracket => Expr.indexExpr (fold object) (fold index) bracket
  | Expr.getExpr object name => Expr.getExpr (fold object) name
  | Expr.setExpr object name value => Expr.setExpr (fold object) name (fold value)
  | Expr.mapExpr brace items => Expr.mapExpr brace (foldItems items)
  | Expr.indexSetExpr object bracket index value =>
    Expr.indexSetExpr (fold object) bracket (fold index) (fold value)
  | Expr.rangeExpr l op r => Expr.rangeExpr (fold l) op (fold r)
  | Expr.bitwiseAndExpr l op r => foldBitwise Expr.bitwiseAndExpr longAnd (fold l) op (fold r)
  | Expr.bitwiseOrExpr l op r => foldBitwise Expr.bitwiseOrExpr longOr (fold l) op (fold r)
  | Expr.bitwiseXorExpr l op r => foldBitwise Expr.bitwiseXorExpr longXor (fold l) op (fold r)
  | Expr.shiftExpr l op r => foldShift (fold l) op (fold r)
  | Expr.thisExpr id keyword => Expr.thisExpr id keyword

/-- The folder applied to each element of a sequence of expressions. -/
def foldList : List Expr → List Expr
  | [] => []
  | e :: es => fold e :: foldList es

/-- The folder applied to the keys and values of a map literal. -/
def foldItems : List (Expr × Expr) → List (Expr × Expr)
  | [] => []
  | (k, v) :: rest => (fold k, fold v) :: foldItems rest

end

/-! ## The lexer (backend/src/lexer.cpp)

The source text is a sequence of characters; the library predicates are those of
the C locale.  `errors` collects the messages passed to `RyTools::report`, which
sets the flag `hadError`. -/

/-- The table `keywords` of `token.h`. -/
def keywords : List (String × TokenType) :=
  [("import", TokenType.IMPORT), ("func", TokenType.FUNC), ("while", TokenType.WHILE),
   ("if", TokenType.IF), ("else", TokenType.ELSE), ("true", TokenType.TRUE),
   ("false", TokenType.FALSE), ("null", TokenType.NULL_TOKEN), ("for", TokenType.FOR),
   ("and", TokenType.AND), ("or", TokenType.OR), ("alias", TokenType.ALIAS),
   ("return", TokenType.RETURN), ("as", TokenType.AS), ("namespace", TokenType.NAMESPACE),
   ("data", TokenType.DATA), ("this", TokenType.THIS), ("to", TokenType.TO),
   ("in", TokenType.IN), ("foreach", TokenType.EACH), ("stop", TokenType.STOP),
   ("skip", TokenType.SKIP), ("unless", TokenType.UNLESS), ("until", TokenType.UNTIL),
   ("do", TokenType.DO), ("class", TokenType.CLASS), ("private", TokenType.PRIVATE),
   ("childof", TokenType.CHILDOF), ("attempt", TokenType.ATTEMPT), ("fail", TokenType.FAIL),
   ("panic", TokenType.PANIC), ("finally", TokenType.FINALLY)]

/-- `std::isdigit`. -/
def isDigit (c : Char) : Bool := '0' ≤ c && c ≤ '9'

/-- `std::isalpha`. -/
def isAlpha (c : Char) : Bool := ('a' ≤ c && c ≤ 'z') || ('A' ≤ c && c ≤ 'Z')

/-- `std::isalnum`. -/
def isAlnum (c : Char) : Bool := isAlpha c || isDigit c

/-- The members of `class Lexer`. -/
structure Lexer where
  source : List Char
  tokens : List Token := []
  start : Nat := 0
  current : Nat := 0
  line : Nat := 1
  column : Nat := 1
  tokenStartColumn : Nat := 1
  errors : List String := []

namespace Lexer

def isAtEnd (lx : Lexer) : Bool := decide (lx.current ≥ lx.source.length)

def peek (lx : Lexer) : Char :=
  if lx.isAtEnd then Char.ofNat 0 else lx.source.getD lx.current (Char.ofNat 0)

def peekNext (lx : Lexer) : Char :=
  if lx.current + 1 ≥ lx.source.length then Char.ofNat 0
  else lx.source.getD (lx.current + 1) (Char.ofNat 0)

/-- `Lexer::next`: the character read and the lexer after it. -/
def next (lx : Lexer) : Char × Lexer :=
  let c := lx.source.getD lx.current (Char.ofNat 0)
  let lx1 := { lx with current := lx.current + 1 }
  (c, if c == '\n' then { lx1 with line := lx1.line + 1, column := 1 }
      else { lx1 with column := lx1.column + 1 })

/-- `Lexer::match`. -/
def matchChar (lx : Lexer) (expected : Char) : Bool × Lexer :=
  if expected != lx.peek then (false, lx) else (true, lx.next.2)

/-- `source.substr(pos, len)`. -/
def substr (lx : Lexer) (pos len : Nat) : String :=
  String.mk ((lx.source.drop pos).take len)

/-- `Lexer::addToken`. -/
def addToken (lx : Lexer) (type : TokenType) : Lexer :=
  let text := lx.substr lx.start (lx.current - lx.start)
  { lx with tokens := lx.tokens ++
      [{ type := type, lexeme := text, line := lx.line, column := lx.tokenStartColumn }] }

/-- The calls `tokens.emplace_back(type, text, literal, line, column)` of `str`. -/
def emplace (lx : Lexer) (type : TokenType) (text : String) : Lexer :=
  { lx with tokens := lx.tokens ++
      [{ type := type, lexeme := text, line := lx.line, column := lx.column }] }

/-- `RyTools::report` as called by the lexer. -/
def report (lx : Lexer) (message : String) : Lexer :=
  { lx with errors := lx.errors ++ [message] }

/-- The loops `while (p(peek())) next();`; every round reads one character, so the
length of the source is enough fuel. -/
def advanceWhile (p : Lexer → Bool) : Nat → Lexer → Lexer
  | 0, lx => lx
  | n + 1, lx => if p lx then advanceWhile p n lx.next.2 else lx

/-- `Lexer::number`. -/
def number (lx : Lexer) : Lexer :=
  let lx1 := advanceWhile (fun l => isDigit l.peek) lx.source.length lx
  let lx2 :=
    if lx1.peek == '.' then advanceWhile (fun l => isDigit l.peek) lx.source.length lx1.next.2
    else lx1
  lx2.addToken TokenType.NUMBER

/-- `Lexer::identifier`. -/
def identifier (lx : Lexer) : Lexer :=
  let lx1 := advanceWhile (fun l => isAlnum l.peek || l.peek == '_') lx.source.length lx
  let text := lx1.substr lx1.start (lx1.current - lx1.start)
  match mapFind keywords text with
  | some type => lx1.addToken type
  | none => lx1.addToken TokenType.IDENTIFIER

/-- The outer loop of `Lexer::str`; the flag tells that the function has returned
from inside the loop, after the report of an unterminated interpolation. -/
def strLoop : Nat → Lexer → Bool × Lexer
  | 0, lx => (false, lx)
  | n + 1, lx =>
    if lx.peek != '"' && !lx.isAtEnd then
      if lx.peek == '$' && lx.peekNext == '{' then
        let segment := lx.substr (lx.start + 1) (lx.current - (lx.start + 1))
        let lx1 := (lx.emplace TokenType.STRING segment).emplace TokenType.PLUS "+"
        let lx2 := lx1.next.2.next.2
        let varStart := lx2.current
        let lx3 := advanceWhile (fun l => l.peek != '}' && !l.isAtEnd) lx2.source.length lx2
        if lx3.isAtEnd then (true, lx3.report "Unterminated interpolation.")
        else
          let varName := lx3.substr varStart (lx3.current - varStart)
          let lx4 := lx3.emplace TokenType.IDENTIFIER varName
          let lx5 := lx4.next.2
          let lx6 := lx5.emplace TokenType.PLUS "+"
          strLoop n { lx6 with start := lx6.current - 1 }
      else strLoop n lx.next.2
    else (false, lx)

/-- `Lexer::str`. -/
def str (lx : Lexer) : Lexer :=
  let r := strLoop lx.source.length lx
  if r.1 then r.2
  else if r.2.isAtEnd then r.2.report "Unterminated string."
  else
    let lx2 := r.2.next.2
    let finalSegment := lx2.substr (lx2.start + 1) (lx2.current - lx2.start - 2)
    lx2.emplace TokenType.STRING finalSegment

/-- `Lexer::scanToken`. -/
def scanToken (lx0 : Lexer) : Lexer :=
  let c := lx0.next.1
  let lx := lx0.next.2
  let two (second : Char) (yes no : TokenType) : Lexer :=
    let m := lx.matchChar second
    if m.1 then m.2.addToken yes else m.2.addToken no
  if c == '#' then advanceWhile (fun l => l.peek != '\n' && !l.isAtEnd) lx.source.length lx
  else if c == '+' then two '+' TokenType.PLUS_PLUS TokenType.PLUS
  else if c == '-' then
    if (lx.matchChar '>').1 then (lx.matchChar '>').2.addToken TokenType.LARROW
    else if (lx.matchChar '-').1 then (lx.matchChar '-').2.addToken TokenType.MINUS_MINUS
    else lx.addToken TokenType.MINUS
  else if c == '*' then lx.addToken TokenType.STAR
  else if c == '/' then lx.addToken TokenType.DIVIDE
  else if c == '=' then two '=' TokenType.EQUAL_EQUAL TokenType.EQUAL
  else if c == '<' then
    if (lx.matchChar '<').1 then (lx.matchChar '<').2.addToken TokenType.LESS_LESS
    else if (lx.matchChar '=').1 then (lx.matchChar '=').2.addToken TokenType.LESS_EQUAL
    else lx.addToken TokenType.LESS
  else if c == '>' then
    if (lx.matchChar '>').1 then (lx.matchChar '>').2.addToken TokenType.GREATER_GREATER
    else if (lx.matchChar '=').1 then (lx.matchChar '=').2.addToken TokenType.GREATER_EQUAL
    else lx.addToken TokenType.GREATER
  else if c == '!' then two '=' TokenType.BANG_EQUAL TokenType.BANG
  else if c == '(' then lx.addToken TokenType.LPAREN
  else if c == ')' then lx.addToken TokenType.RPAREN
  else if c == '{' then lx.addToken TokenType.LBRACE
  else if c == '}' then lx.addToken TokenType.RBRACE
  else if c == ',' then lx.addToken TokenType.COMMA
  else if c == ':' then two ':' TokenType.DOUBLE_COLON TokenType.COLON
  else if c == '[' then lx.addToken TokenType.LBRACKET
  else if c == ']' then lx.addToken TokenType.RBRACKET
  else if c == '.' then lx.addToken TokenType.DOT
  else if c == '%' then lx.addToken TokenType.PERCENT
  else if c == '&' then lx.addToken TokenType.AMPERSAND
  else if c == '^' then lx.addToken TokenType.CARET
  else if c == '|' then lx.addToken TokenType.PIPE
  else if c == '~' then lx.addToken TokenType.TILDE
  else if c == '"' then lx.str
  else if c == ' ' || c == '\t' then lx
  else if c == '\n' then lx
  else if isDigit c then lx.number
  else if isAlpha c || c == '_' then lx.identifier
  else lx.report ("Unexpected character: '" ++ String.singleton c ++ "'")

/-- The loop of `Lexer::scanTokens`. -/
def scanLoop : Nat → Lexer → Lexer
  | 0, lx => lx
  | n + 1, lx =>
    if !lx.isAtEnd then
      scanLoop n (scanToken { lx with tokenStartColumn := lx.column, start := lx.current })
    else lx

/-- `Lexer::scanTokens`. -/
def scanTokens (lx : Lexer) : Lexer :=
  (scanLoop lx.source.length lx).addToken TokenType.EOF_TOKEN

end Lexer

/-- The lexer run on a source text. -/
def lex (src : String) : Lexer := Lexer.scanTokens { source := src.toList }


/-! ## The parser (backend/src/parser.cpp)

A parser function takes the parser object and returns it with its result, or ends
with the `ParseError` that `Parser::error` throws after its report.  The functions
that call `expression`, `statement` or `declaration` take them as parameters;
`parseExpression`, `parseStatement` and `parseDeclaration` close the recursion,
with a bound on the nesting depth.  The loops read at least one token per round, so
the number of tokens bounds them.  A node that the resolver can annotate gets the
next free number when it is created. -/

/-- The members of `class Parser`; `nextId` numbers the nodes created. -/
structure Parser where
  tokens : List Token
  externalTypeAliases : List String := []
  loopDepth : Int := 0
  current : Nat := 0
  typeAliases : List String := []
  nextId : Nat := 1

/-- Result of a parser function: normal return, the `ParseError` thrown by
`Parser::error` for a token and a message, or nesting deeper than the bound. -/
inductive PRes (α : Type)
  | ok (a : α) (p : Parser)
  | error (token : Token) (message : String)
  | timeout

namespace PRes

def bind {α β : Type} (r : PRes α) (k : α → Parser → PRes β) : PRes β :=
  match r with
  | ok a p => k a p
  | error t m => error t m
  | timeout => timeout

end PRes

namespace Parser

/-- What an access to `tokens[i]` past the end of the vector yields in the model;
the token sequences of the lexer end with `EOF_TOKEN`, which the parser never
steps over. -/
def pastEnd : Token := { type := TokenType.EOF_TOKEN, lexeme := "", line := 0, column := 0 }

def peek (p : Parser) : Token := p.tokens.getD p.current pastEnd

def previous (p : Parser) : Token := p.tokens.getD (p.current - 1) pastEnd

def isAtEnd (p : Parser) : Bool := p.peek.type == TokenType.EOF_TOKEN

/-- `Parser::next`: the token returned and the parser after it. -/
def next (p : Parser) : Token × Parser :=
  let p1 := if !p.isAtEnd then { p with current := p.current + 1 } else p
  (p1.previous, p1)

def check (p : Parser) (type : TokenType) : Bool :=
  if p.isAtEnd then false else p.peek.type == type

def checkNext (p : Parser) (type : TokenType) : Bool :=
  if p.isAtEnd then false
  else if (p.tokens.getD (p.current + 1) pastEnd).type == TokenType.EOF_TOKEN then false
  else (p.tokens.getD (p.current + 1) pastEnd).type == type

/-- `Parser::match`. -/
def matchTypes (p : Parser) (types : List TokenType) : Bool × Parser :=
  if types.any (fun t => p.check t) then (true, p.next.2) else (false, p)

/-- `Parser::error`. -/
def error {α : Type} (token : Token) (message : String) : PRes α := PRes.error token message

/-- `Parser::consume`. -/
def consume (p : Parser) (type : TokenType) (message : String) : PRes Token :=
  if p.check type then PRes.ok p.next.1 p.next.2 else error p.peek message

/-- `Parser::isTypeAlias(const std::string &)`. -/
def isTypeAlias (p : Parser) (name : String) : Bool := p.externalTypeAliases.contains name

/-- The number given to a node created now, and the parser after the creation. -/
def fresh (p : Parser) : Nat × Parser := (p.nextId, { p with nextId := p.nextId + 1 })

/-- The loops `do { items.push_back(item()); } while (match({COMMA}));`. -/
def commaList {α : Type} (item : Parser → PRes α) : Nat → List α → Parser → PRes (List α)
  | 0, _, _ => PRes.timeout
  | n + 1, acc, p =>
    (item p).bind fun x p1 =>
    let m := p1.matchTypes [TokenType.COMMA]
    if m.1 then commaList item n (acc ++ [x]) m.2 else PRes.ok (acc ++ [x]) p1

/-- `Parser::finishCall`. -/
def finishCall (expression : Parser → PRes Expr) (callee : Expr) (p : Parser) : PRes Expr :=
  ((if !p.check TokenType.RPAREN then commaList expression p.tokens.length [] p
    else PRes.ok [] p) : PRes (List Expr)).bind fun arguments p1 =>
  (p1.consume TokenType.RPAREN "Expect ')' after arguments.").bind fun paren p2 =>
  PRes.ok (Expr.callExpr callee arguments paren) p2

/-- `Parser::baseValue`. -/
def baseValue (expression : Parser → PRes Expr) (p : Parser) : PRes Expr :=
  let lit := p.matchTypes [TokenType.NUMBER, TokenType.STRING]
  if lit.1 then PRes.ok (Expr.valueExpr lit.2.previous) lit.2
  else
    let ident := p.matchTypes [TokenType.IDENTIFIER]
    if ident.1 then
      let f := ident.2.fresh
      PRes.ok (Expr.variableExpr f.1 ident.2.previous) f.2
    else
      let boolean := p.matchTypes [TokenType.TRUE, TokenType.FALSE, TokenType.NULL_TOKEN]
      if boolean.1 then PRes.ok (Expr.valueExpr boolean.2.previous) boolean.2
      else
        let bracket := p.matchTypes [TokenType.LBRACKET]
        if bracket.1 then
          ((if !bracket.2.check TokenType.RBRACKET then
              commaList expression p.tokens.length [] bracket.2
            else PRes.ok [] bracket.2) : PRes (List Expr)).bind fun elements p1 =>
          (p1.consume TokenType.RBRACKET "Expected ']' after list elements.").bind fun _ p2 =>
          PRes.ok (Expr.listExpr elements) p2
        else
          let paren := p.matchTypes [TokenType.LPAREN]
          if paren.1 then
            (expression paren.2).bind fun expr p1 =>
            (p1.consume TokenType.RPAREN "Expected ')' after expression.").bind fun _ p2 =>
            PRes.ok (Expr.groupExpr expr) p2
          else
            let brace := p.matchTypes [TokenType.LBRACE]
            if brace.1 then
              let item : Parser → PRes (Expr × Expr) := fun q =>
                (expression q).bind fun key q1 =>
                (q1.consume TokenType.COLON "Expected ':' after map key.").bind fun _ q2 =>
                (expression q2).bind fun value q3 =>
                PRes.ok (key, value) q3
              ((if !brace.2.check TokenType.RBRACE then commaList item p.tokens.length [] brace.2
                else PRes.ok [] brace.2) : PRes (List (Expr × Expr))).bind fun items p1 =>
              (p1.consume TokenType.RBRACE "Expected '\x7d' after map elements.").bind fun b p2 =>
              PRes.ok (Expr.mapExpr b items) p2
            else
              let this := p.matchTypes [TokenType.THIS]
              if this.1 then
                let f := this.2.fresh
                PRes.ok (Expr.thisExpr f.1 this.2.previous) f.2
              else error p.peek "Expected a value or '('"

/-- The loop of `Parser::postfixed`. -/
def postfixedLoop (expression : Parser → PRes Expr) : Nat → Expr → Parser → PRes Expr
  | 0, _, _ => PRes.timeout
  | n + 1, expr, p =>
    let paren := p.matchTypes [TokenType.LPAREN]
    if paren.1 then
      (finishCall expression expr paren.2).bind fun e p1 => postfixedLoop expression n e p1
    else
      let bracket := p.matchTypes [TokenType.LBRACKET]
      if bracket.1 then
        (expression bracket.2).bind fun index p1 =>
        (p1.consume TokenType.RBRACKET "Expect ']' after index.").bind fun b p2 =>
        postfixedLoop expression n (Expr.indexExpr expr index b) p2
      else
        let dot := p.matchTypes [TokenType.DOT]
        if dot.1 then
          (dot.2.consume TokenType.IDENTIFIER "Expect property name after '.'.").bind fun name p1 =>
          postfixedLoop expression n (Expr.getExpr expr name) p1
        else
          let step := p.matchTypes [TokenType.PLUS_PLUS, TokenType.MINUS_MINUS]
          if step.1 then
            postfixedLoop expression n (Expr.postfixExpr step.2.previous expr) step.2
          else PRes.ok expr p

/-- `Parser::postfixed`. -/
def postfixed (expression : Parser → PRes Expr) (p : Parser) : PRes Expr :=
  (baseValue expression p).bind fun expr p1 =>
  postfixedLoop expression (p.tokens.length + 1) expr p1

/-- `Parser::prefixed`. -/
def prefixed (expression : Parser → PRes Expr) : Nat → Parser → PRes Expr
  | 0, _ => PRes.timeout
  | n + 1, p =>
    let m := p.matchTypes [TokenType.BANG, TokenType.MINUS, TokenType.TILDE, TokenType.PLUS_PLUS,
      TokenType.MINUS_MINUS]
    if m.1 then
      (prefixed expression n m.2).bind fun right p1 =>
      PRes.ok (Expr.prefixExpr m.2.previous right) p1
    else postfixed expression p

/-- The loops `while (match(types)) { op = previous(); right = operand();
expr = make_shared<Node>(expr, op, right); }` of the binary levels. -/
def binaryLoop (types : List TokenType) (node : Expr → Token → Expr → Expr)
    (operand : Parser → PRes Expr) : Nat → Expr → Parser → PRes Expr
  | 0, _, _ => PRes.timeout
  | n + 1, expr, p =>
    let m := p.matchTypes types
    if m.1 then
      (operand m.2).bind fun right p1 =>
      binaryLoop types node operand n (node expr m.2.previous right) p1
    else PRes.ok expr p

/-- A binary level: one operand, then the loop. -/
def binaryLevel (types : List TokenType) (node : Expr → Token → Expr → Expr)
    (operand : Parser → PRes Expr) (p : Parser) : PRes Expr :=
  (operand p).bind fun expr p1 => binaryLoop types node operand (p.tokens.length + 1) expr p1

/-- `Parser::multiplication`. -/
def multiplication (expression : Parser → PRes Expr) (fuel : Nat) : Parser → PRes Expr :=
  binaryLevel [TokenType.STAR, TokenType.DIVIDE, TokenType.PERCENT] Expr.mathExpr
    (prefixed expression fuel)

/-- `Parser::addition`. -/
def addition (expression : Parser → PRes Expr) (fuel : Nat) : Parser → PRes Expr :=
  binaryLevel [TokenType.PLUS, TokenType.MINUS] Expr.mathExpr (multiplication expression fuel)

/-- `Parser::shift`. -/
def shift (expression : Parser → PRes Expr) (fuel : Nat) : Parser → PRes Expr :=
  binaryLevel [TokenType.LESS_LESS, TokenType.GREATER_GREATER] Expr.shiftExpr
    (addition expression fuel)

/-- `Parser::range`. -/
def range (expression : Parser → PRes Expr) (fuel : Nat) : Parser → PRes Expr :=
  binaryLevel [TokenType.TO] Expr.rangeExpr (shift expression fuel)

/-- `Parser::bitwiseAnd`. -/
def bitwiseAnd (expression : Parser → PRes Expr) (fuel : Nat) : Parser → PRes Expr :=
  binaryLevel [TokenType.AMPERSAND] Expr.bitwiseAndExpr (range expression fuel)

/-- `Parser::bitwiseXor`. -/
def bitwiseXor (expression : Parser → PRes Expr) (fuel : Nat) : Parser → PRes Expr :=
  binaryLevel [TokenType.CARET] Expr.bitwiseXorExpr (bitwiseAnd expression fuel)

/-- `Parser::bitwiseOr`. -/
def bitwiseOr (expression : Parser → PRes Expr) (fuel : Nat) : Parser → PRes Expr :=
  binaryLevel [TokenType.PIPE] Expr.bitwiseOrExpr (bitwiseXor expression fuel)

/-- `Parser::comparison`. -/
def comparison (expression : Parser → PRes Expr) (fuel : Nat) : Parser → PRes Expr :=
  binaryLevel [TokenType.GREATER, TokenType.GREATER_EQUAL, TokenType.LESS, TokenType.LESS_EQUAL]
    Expr.mathExpr (bitwiseOr expression fuel)

/-- `Parser::equality`. -/
def equality (expression : Parser → PRes Expr) (fuel : Nat) : Parser → PRes Expr :=
  binaryLevel [TokenType.BANG_EQUAL, TokenType.EQUAL_EQUAL] Expr.mathExpr
    (comparison expression fuel)

/-- `Parser::logicalAnd`. -/
def logicalAnd (expression : Parser → PRes Expr) (fuel : Nat) : Parser → PRes Expr :=
  binaryLevel [TokenType.AND] Expr.logicalExpr (equality expression fuel)

/-- `Parser::logicalOr`. -/
def logicalOr (expression : Parser → PRes Expr) (fuel : Nat) : Parser → PRes Expr :=
  binaryLevel [TokenType.OR] Expr.logicalExpr (logicalAnd expression fuel)

/-- `Parser::assignment`. -/
def assignment (expression : Parser → PRes Expr) : Nat → Parser → PRes Expr
  | 0, _ => PRes.timeout
  | n + 1, p =>
    (logicalOr expression n p).bind fun expr p1 =>
    let m := p1.matchTypes [TokenType.EQUAL]
    if m.1 then
      let equals := m.2.previous
      (assignment expression n m.2).bind fun value p2 =>
      match expr with
      | Expr.variableExpr _ name =>
        let f := p2.fresh
        PRes.ok (Expr.assignExpr f.1 name value) f.2
      | Expr.getExpr object name => PRes.ok (Expr.setExpr object name value) p2
      | Expr.indexExpr object index bracket =>
        PRes.ok (Expr.indexSetExpr object bracket index value) p2
      | _ => error equals "Invalid assignment target."
    else PRes.ok expr p1

/-- `Parser::expression`: the assignment level, then the constant folder. -/
def expression (assignment : Parser → PRes Expr) (p : Parser) : PRes Expr :=
  (assignment p).bind fun expr p1 => PRes.ok (fold expr) p1

end Parser

/-- The expression parser with nesting depth at most `fuel`. -/
def parseExpression : Nat → Parser → PRes Expr
  | 0, _ => PRes.timeout
  | fuel + 1, p => Parser.expression (Parser.assignment (parseExpression fuel) fuel) p

namespace Parser

/-- `Parser::typeDeclaration`. -/
def typeDeclaration (expression : Parser → PRes Expr) (pre : Option Token) (isPrivate : Bool)
    (p : Parser) : PRes VarStmt :=
  let t : Token × Parser :=
    match pre with
    | some given => (given, p)
    | none =>
      if p.check TokenType.DATA || p.isTypeAlias p.peek.lexeme then p.next else (p.previous, p)
  let typeToken := t.1
  let colons := t.2.matchTypes [TokenType.DOUBLE_COLON]
  ((if colons.1 then
      (colons.2.consume TokenType.IDENTIFIER "Expect type after '::'.").bind fun inner q =>
      PRes.ok (some inner) q
    else PRes.ok none t.2) : PRes (Option Token)).bind fun innerTypeToken p1 =>
  (p1.consume TokenType.IDENTIFIER "Expect variable name.").bind fun name p2 =>
  let equal := p2.matchTypes [TokenType.EQUAL]
  ((if equal.1 then (expression equal.2).bind fun e q => PRes.ok (some e) q
    else PRes.ok none p2) : PRes (Option Expr)).bind fun initializer p3 =>
  PRes.ok
    { type := typeToken, innerType := innerTypeToken, name := name, initializer := initializer,
      isPrivate := isPrivate } p3

/-- `Parser::expressionStatement`. -/
def expressionStatement (expression : Parser → PRes Expr) (p : Parser) : PRes Stmt :=
  (expression p).bind fun expr p1 => PRes.ok (Stmt.expressionStmt expr) p1

/-- `Parser::returnStatement`. -/
def returnStatement (expression : Parser → PRes Expr) (p : Parser) : PRes Stmt :=
  let keyword := p.previous
  (expression p).bind fun value p1 => PRes.ok (Stmt.returnStmt keyword (some value)) p1

/-- The loop of `Parser::block` and of `Parser::parse`. -/
def blockLoop (declaration : Parser → PRes Stmt) (more : Parser → Bool) :
    Nat → List Stmt → Parser → PRes (List Stmt)
  | 0, _, _ => PRes.timeout
  | n + 1, acc, p =>
    if more p then (declaration p).bind fun s p1 => blockLoop declaration more n (acc ++ [s]) p1
    else PRes.ok acc p

/-- `Parser::block`. -/
def block (declaration : Parser → PRes Stmt) (p : Parser) : PRes (List Stmt) :=
  (blockLoop declaration (fun q => !q.check TokenType.RBRACE && !q.isAtEnd)
    (p.tokens.length + 1) [] p).bind fun statements p1 =>
  (p1.consume TokenType.RBRACE "Expect '\x7d' after block.").bind fun _ p2 =>
  PRes.ok statements p2

/-- One round of the parameter loop of `Parser::functionDeclaration`. -/
def parameter (expression : Parser → PRes Expr) (p : Parser) : PRes Parameter :=
  let data := p.matchTypes [TokenType.DATA]
  let t : Token × Parser :=
    if data.1 then (data.2.previous, data.2)
    else if p.isTypeAlias p.peek.lexeme then p.next
    else ({ type := TokenType.DATA, lexeme := "data", line := p.peek.line,
            column := p.peek.column }, p)
  let colons := t.2.matchTypes [TokenType.DOUBLE_COLON]
  ((if colons.1 then colons.2.consume TokenType.IDENTIFIER "Expect type after '::'."
    else PRes.ok t.1 t.2) : PRes Token).bind fun typeToken p1 =>
  (p1.consume TokenType.IDENTIFIER "Expect parameter name.").bind fun paramName p2 =>
  let equal := p2.matchTypes [TokenType.EQUAL]
  ((if equal.1 then (expression equal.2).bind fun e q => PRes.ok (some e) q
    else PRes.ok none p2) : PRes (Option Expr)).bind fun defaultVal p3 =>
  PRes.ok { name := paramName, type := typeToken, defaultValue := defaultVal } p3

/-- `Parser::functionDeclaration`. -/
def functionDeclaration (expression : Parser → PRes Expr) (declaration : Parser → PRes Stmt)
    (kind : String) (p : Parser) : PRes FunctionStmt :=
  (p.consume TokenType.IDENTIFIER ("Expect " ++ kind ++ " name.")).bind fun name p1 =>
  (p1.consume TokenType.LPAREN "Expect '(' before parameters").bind fun _ p2 =>
  ((if !p2.check TokenType.RPAREN then commaList (parameter expression) p.tokens.length [] p2
    else PRes.ok [] p2) : PRes (List Parameter)).bind fun parameters p3 =>
  (p3.consume TokenType.RPAREN "Expect ')' after parameters.").bind fun _ p4 =>
  let arrow := p4.matchTypes [TokenType.LARROW]
  ((if arrow.1 then
      if arrow.2.check TokenType.IDENTIFIER && arrow.2.checkNext TokenType.DOT then
        let ns := arrow.2.next
        let dot := ns.2.next
        (dot.2.consume TokenType.IDENTIFIER "Expect return type after '.'.").bind fun a q =>
        PRes.ok (some ns.1, some a) q
      else
        (arrow.2.consume TokenType.IDENTIFIER "Expect return type after '->'.").bind fun a q =>
        PRes.ok (none, some a) q
    else PRes.ok (none, none) p4) : PRes (Option Token × Option Token)).bind fun returnType p5 =>
  (p5.consume TokenType.LBRACE ("Expect '\x7b' before " ++ kind ++ " body.")).bind fun _ p6 =>
  (block declaration p6).bind fun body p7 =>
  PRes.ok (FunctionStmt.mk name parameters body returnType.1 returnType.2 false) p7

/-- `Parser::ImportDeclaration`. -/
def ImportDeclaration (p : Parser) : PRes Stmt :=
  (p.consume TokenType.LPAREN "Expect '(' after import.").bind fun _ p1 =>
  (p1.consume TokenType.STRING "Expect module after import.").bind fun module p2 =>
  (p2.consume TokenType.RPAREN "Expect ')' after import.").bind fun _ p3 =>
  PRes.ok (Stmt.importStmt module) p3

/-- `Parser::whileStatement`. -/
def whileStatement (expression : Parser → PRes Expr) (statement : Parser → PRes Stmt)
    (p0 : Parser) : PRes Stmt :=
  let p := { p0 with loopDepth := p0.loopDepth + 1 }
  if p.check TokenType.LBRACE then error p.previous "Expect condition before '\x7b'."
  else
    (expression p).bind fun condition p1 =>
    (statement p1).bind fun body p2 =>
    PRes.ok (Stmt.whileStmt condition body) { p2 with loopDepth := p2.loopDepth - 1 }

/-- `Parser::forStatement`. -/
def forStatement (expression : Parser → PRes Expr) (statement : Parser → PRes Stmt)
    (p0 : Parser) : PRes Stmt :=
  let p := { p0 with loopDepth := p0.loopDepth + 1 }
  if p.check TokenType.LBRACE then error p.previous "Expect condition before '\x7b'."
  else
    let data := p.matchTypes [TokenType.DATA]
    ((if data.1 then
        (typeDeclaration expression none false data.2).bind fun v q =>
        PRes.ok (some (Stmt.varStmt v)) q
      else if !p.check TokenType.COMMA then
        (expressionStatement expression p).bind fun s q => PRes.ok (some s) q
      else PRes.ok none p) : PRes (Option Stmt)).bind fun initializer p1 =>
    (p1.consume TokenType.COMMA "Expect ',' after loop initializer.").bind fun _ p2 =>
    ((if !p2.check TokenType.COMMA then (expression p2).bind fun e q => PRes.ok (some e) q
      else PRes.ok none p2) : PRes (Option Expr)).bind fun condition p3 =>
    (p3.consume TokenType.COMMA "Expect ',' after loop condition.").bind fun _ p4 =>
    ((if !p4.check TokenType.RBRACE then (expression p4).bind fun e q => PRes.ok (some e) q
      else PRes.ok none p4) : PRes (Option Expr)).bind fun increment p5 =>
    (statement p5).bind fun body p6 =>
    PRes.ok (Stmt.forStmt initializer condition increment body)
      { p6 with loopDepth := p6.loopDepth - 1 }

/-- `Parser::eachStatement`. -/
def eachStatement (expression : Parser → PRes Expr) (statement : Parser → PRes Stmt)
    (p0 : Parser) : PRes Stmt :=
  let p := { p0 with loopDepth := p0.loopDepth + 1 }
  (p.consume TokenType.DATA "Expect 'data' in each loop.").bind fun _ p1 =>
  let colons := p1.matchTypes [TokenType.DOUBLE_COLON]
  ((if colons.1 then
      (colons.2.consume TokenType.IDENTIFIER "Expect type name after '::'.").bind fun t q =>
      PRes.ok (some t) q
    else PRes.ok none p1) : PRes (Option Token)).bind fun typeToken p2 =>
  (p2.consume TokenType.IDENTIFIER "Expect variable name.").bind fun name p3 =>
  (p3.consume TokenType.IN "Expect 'in' after variable name.").bind fun _ p4 =>
  (expression p4).bind fun iterable p5 =>
  (statement p5).bind fun body p6 =>
  PRes.ok (Stmt.eachStmt name typeToken iterable body) { p6 with loopDepth := p6.loopDepth - 1 }

/-- `Parser::AliasDeclaration`. -/
def AliasDeclaration (expression : Parser → PRes Expr) (p : Parser) : PRes Stmt :=
  let data := p.matchTypes [TokenType.DATA]
  ((if data.1 then
      (data.2.consume TokenType.DOUBLE_COLON "Expect '::' after data").bind fun _ q1 =>
      (q1.consume TokenType.IDENTIFIER "Expect type name").bind fun type q2 =>
      PRes.ok (Expr.variableExpr q2.fresh.1 type) q2.fresh.2
    else if p.check TokenType.IDENTIFIER && p.isTypeAlias p.peek.lexeme then
      PRes.ok (Expr.variableExpr p.next.2.fresh.1 p.next.1) p.next.2.fresh.2
    else expression p) : PRes Expr).bind fun aliasExpr p1 =>
  (p1.consume TokenType.AS "Expect 'as' after target.").bind fun _ p2 =>
  (p2.consume TokenType.IDENTIFIER "Expect alias name.").bind fun name p3 =>
  let p4 : Parser :=
    match aliasExpr with
    | Expr.variableExpr _ _ =>
      { p3 with typeAliases :=
          if p3.typeAliases.contains name.lexeme then p3.typeAliases
          else p3.typeAliases ++ [name.lexeme] }
    | _ => p3
  PRes.ok (Stmt.aliasStmt aliasExpr name) p4

/-- The tail shared by `Parser::ifStatement` and `Parser::unlessStatement`: the
branch after the condition and the optional `else`. -/
def branches (statement : Parser → PRes Stmt) (condition : Expr) (p : Parser) : PRes Stmt :=
  (statement p).bind fun thenBranch p1 =>
  let els := p1.matchTypes [TokenType.ELSE]
  ((if els.1 then (statement els.2).bind fun s q => PRes.ok (some s) q
    else PRes.ok none p1) : PRes (Option Stmt)).bind fun elseBranch p2 =>
  PRes.ok (Stmt.ifStmt condition thenBranch elseBranch) p2

/-- `Parser::ifStatement`. -/
def ifStatement (expression : Parser → PRes Expr) (statement : Parser → PRes Stmt)
    (p : Parser) : PRes Stmt :=
  if p.check TokenType.LBRACE then error p.previous "Expect condition before '\x7b'."
  else
    (expression p).bind fun condition p1 =>
    if !p1.check TokenType.LBRACE then error p1.previous "Expect '\x7b' after if condition."
    else branches statement condition p1

/-- `Parser::unlessStatement`. -/
def unlessStatement (expression : Parser → PRes Expr) (statement : Parser → PRes Stmt)
    (p : Parser) : PRes Stmt :=
  let op : Token := { p.previous with type := TokenType.BANG, lexeme := "!" }
  if p.check TokenType.LBRACE then error p.previous "Expect condition before '\x7b'."
  else
    (expression p).bind fun condition p1 =>
    let flippedCondition := Expr.prefixExpr op condition
    if !p1.check TokenType.LBRACE then error p1.previous "Expect '\x7b' after unless condition."
    else branches statement flippedCondition p1

/-- `Parser::untilStatement`. -/
def untilStatement (expression : Parser → PRes Expr) (statement : Parser → PRes Stmt)
    (p0 : Parser) : PRes Stmt :=
  let p := { p0 with loopDepth := p0.loopDepth + 1 }
  (statement p).bind fun body p1 =>
  (p1.consume TokenType.UNTIL "Expect 'until' after do block.").bind fun _ p2 =>
  let op : Token := { p2.previous with type := TokenType.BANG, lexeme := "!" }
  if p2.isAtEnd || p2.peek.type == TokenType.EOF_TOKEN then
    error p2.previous "Expect condition after 'until'."
  else
    (expression p2).bind fun condition p3 =>
    let flippedCondition := Expr.prefixExpr op condition
    let whileLoop := Stmt.whileStmt flippedCondition body
    PRes.ok (Stmt.blockStmt [body, whileLoop]) { p3 with loopDepth := p3.loopDepth - 1 }

/-- `Parser::namespaceStatement`. -/
def namespaceStatement (declaration : Parser → PRes Stmt) (p : Parser) : PRes Stmt :=
  (p.consume TokenType.IDENTIFIER "Expect namespace name.").bind fun name p1 =>
  (p1.consume TokenType.LBRACE "Expect '\x7b' after namespace body.").bind fun _ p2 =>
  (block declaration p2).bind fun body p3 =>
  PRes.ok (Stmt.namespaceStmt name body) p3

/-- The member loop of `Parser::classStatement`. -/
def classMembers (expression : Parser → PRes Expr) (declaration : Parser → PRes Stmt) :
    Nat → List FunctionStmt → List VarStmt → Parser → PRes (List FunctionStmt × List VarStmt)
  | 0, _, _, _ => PRes.timeout
  | n + 1, methods, fields, p =>
    if !p.check TokenType.RBRACE && !p.isAtEnd then
      let priv := p.matchTypes [TokenType.PRIVATE]
      let memberIsPrivate := priv.1
      let func := priv.2.matchTypes [TokenType.FUNC]
      if func.1 then
        (functionDeclaration expression declaration "method" func.2).bind fun method p1 =>
        let method1 := FunctionStmt.mk method.name method.parameters method.body
          method.returnTypeNamespace method.returnTypeAlias memberIsPrivate
        classMembers expression declaration n (methods ++ [method1]) fields p1
      else if priv.2.check TokenType.DATA
          || (priv.2.check TokenType.IDENTIFIER && priv.2.isTypeAlias priv.2.peek.lexeme) then
        (typeDeclaration expression none memberIsPrivate priv.2).bind fun field p1 =>
        classMembers expression declaration n methods (fields ++ [field]) p1
      else error priv.2.peek "Expect 'func' or 'data' inside class body."
    else PRes.ok (methods, fields) p

/-- `Parser::classStatement`. -/
def classStatement (expression : Parser → PRes Expr) (declaration : Parser → PRes Stmt)
    (p : Parser) : PRes Stmt :=
  (p.consume TokenType.IDENTIFIER "Expect class name.").bind fun name p1 =>
  let childof := p1.matchTypes [TokenType.CHILDOF]
  ((if childof.1 then
      (childof.2.consume TokenType.IDENTIFIER "Expect superclass name after 'childof'.").bind
        fun _ q => PRes.ok (some (q.fresh.1, q.previous)) q.fresh.2
    else PRes.ok none p1) : PRes (Option (Nat × Token))).bind fun superclass p2 =>
  (p2.consume TokenType.LBRACE "Expect '\x7b' before class body.").bind fun _ p3 =>
  (classMembers expression declaration (p.tokens.length + 1) [] [] p3).bind fun members p4 =>
  (p4.consume TokenType.RBRACE "Expect '\x7d' after class body.").bind fun _ p5 =>
  PRes.ok (Stmt.classStmt name members.1 members.2 false superclass) p5

/-- The token `Token(TokenType::Nothing_Here, "", RyValue(), 0, 0)`. -/
def nothingHere : Token := { type := TokenType.Nothing_Here, lexeme := "", line := 0, column := 0 }

/-- `Parser::attemptStatement`. -/
def attemptStatement (declaration : Parser → PRes Stmt) (p : Parser) : PRes Stmt :=
  (p.consume TokenType.LBRACE "Expect '\x7b' before attempt block.").bind fun _ p1 =>
  (block declaration p1).bind fun attemptBody p2 =>
  let fail := p2.matchTypes [TokenType.FAIL]
  ((if fail.1 then
      (fail.2.consume TokenType.IDENTIFIER "Expect error name after 'fail'").bind fun err q1 =>
      let colons := q1.matchTypes [TokenType.DOUBLE_COLON]
      ((if colons.1 then colons.2.consume TokenType.IDENTIFIER "Expect error type after '::'."
        else PRes.ok nothingHere q1) : PRes Token).bind fun errorType q2 =>
      (q2.consume TokenType.LBRACE "Expect '\x7b' before fail block").bind fun _ q3 =>
      (block declaration q3).bind fun failBody q4 =>
      PRes.ok (failBody, err, errorType) q4
    else PRes.ok ([], nothingHere, nothingHere) p2) :
      PRes (List Stmt × Token × Token)).bind fun failPart p3 =>
  let fin := p3.matchTypes [TokenType.FINALLY]
  ((if fin.1 then
      (fin.2.consume TokenType.LBRACE "Expect '\x7b' before finally block.").bind fun _ q1 =>
      block declaration q1
    else PRes.ok [] p3) : PRes (List Stmt)).bind fun finallyBody p4 =>
  PRes.ok (Stmt.attemptStmt attemptBody failPart.1 failPart.2.1 finallyBody failPart.2.2) p4

/-- `Parser::panicStatement`. -/
def panicStatement (expression : Parser → PRes Expr) (p : Parser) : PRes Stmt :=
  let keyword := p.previous
  ((if !p.check TokenType.RBRACE && !p.isAtEnd then
      (expression p).bind fun e q => PRes.ok (some e) q
    else PRes.ok none p) : PRes (Option Expr)).bind fun value p1 =>
  PRes.ok (Stmt.panicStmt keyword value) p1

/-- `Parser::statement`. -/
def statement (expression : Parser → PRes Expr) (statement : Parser → PRes Stmt)
    (declaration : Parser → PRes Stmt) (p : Parser) : PRes Stmt :=
  if (p.matchTypes [TokenType.DO]).1 then untilStatement expression statement p.next.2
  else if (p.matchTypes [TokenType.WHILE]).1 then whileStatement expression statement p.next.2
  else if (p.matchTypes [TokenType.FOR]).1 then forStatement expression statement p.next.2
  else if (p.matchTypes [TokenType.IF]).1 then ifStatement expression statement p.next.2
  else if (p.matchTypes [TokenType.RETURN]).1 then returnStatement expression p.next.2
  else if (p.matchTypes [TokenType.NAMESPACE]).1 then namespaceStatement declaration p.next.2
  else if (p.matchTypes [TokenType.STOP]).1 then
    if p.loopDepth == 0 then error p.next.2.previous "Cannot use 'stop' outside of a loop."
    else PRes.ok (Stmt.stopStmt p.next.2.previous) p.next.2
  else if (p.matchTypes [TokenType.SKIP]).1 then
    if p.loopDepth == 0 then error p.next.2.previous "Cannot use 'skip' outside of a loop."
    else PRes.ok (Stmt.skipStmt p.next.2.previous) p.next.2
  else if (p.matchTypes [TokenType.UNLESS]).1 then unlessStatement expression statement p.next.2
  else if (p.matchTypes [TokenType.LBRACE]).1 then
    (block declaration p.next.2).bind fun statements p1 => PRes.ok (Stmt.blockStmt statements) p1
  else if (p.matchTypes [TokenType.EACH]).1 then eachStatement expression statement p.next.2
  else if (p.matchTypes [TokenType.CLASS]).1 then classStatement expression declaration p.next.2
  else if (p.matchTypes [TokenType.ATTEMPT]).1 then attemptStatement declaration p.next.2
  else if (p.matchTypes [TokenType.PANIC]).1 then panicStatement expression p.next.2
  else expressionStatement expression p

/-- `Parser::declaration`. -/
def declaration (expression : Parser → PRes Expr) (statement : Parser → PRes Stmt)
    (declaration : Parser → PRes Stmt) (p : Parser) : PRes Stmt :=
  if (p.matchTypes [TokenType.IMPORT]).1 then ImportDeclaration p.next.2
  else if (p.matchTypes [TokenType.FUNC]).1 then
    (functionDeclaration expression declaration "function" p.next.2).bind fun f p1 =>
    PRes.ok (Stmt.functionStmt f) p1
  else if (p.matchTypes [TokenType.ALIAS]).1 then AliasDeclaration expression p.next.2
  else if p.check TokenType.IDENTIFIER && p.checkNext TokenType.DOT
      && (p.tokens.getD (p.current + 2) pastEnd).type == TokenType.IDENTIFIER
      && (p.tokens.getD (p.current + 3) pastEnd).type == TokenType.IDENTIFIER then
    let namespaceToken := p.next
    (typeDeclaration expression (some namespaceToken.1) false namespaceToken.2.next.2).bind
      fun v p1 => PRes.ok (Stmt.varStmt v) p1
  else if p.check TokenType.IDENTIFIER && p.isTypeAlias p.peek.lexeme then
    (typeDeclaration expression none false p.next.2).bind fun v p1 => PRes.ok (Stmt.varStmt v) p1
  else if (p.matchTypes [TokenType.DATA]).1 then
    (typeDeclaration expression none false p.next.2).bind fun v p1 => PRes.ok (Stmt.varStmt v) p1
  else statement p

end Parser

mutual

/-- The statement parser with nesting depth at most `fuel`. -/
def parseStatement : Nat → Parser → PRes Stmt
  | 0, _ => PRes.timeout
  | fuel + 1, p =>
    Parser.statement (parseExpression fuel) (parseStatement fuel) (parseDeclaration fuel) p

/-- The declaration parser with nesting depth at most `fuel`. -/
def parseDeclaration : Nat → Parser → PRes Stmt
  | 0, _ => PRes.timeout
  | fuel + 1, p =>
    Parser.declaration (parseExpression fuel) (parseStatement fuel) (parseDeclaration fuel) p

end

/-- The loop of `Parser::parse`.  The `ParseError` it catches is kept in the result:
the source returns the empty sequence then, with `hadError` set by the report. -/
def Parser.parse (fuel : Nat) (p : Parser) : PRes (List Stmt) :=
  Parser.blockLoop (parseDeclaration fuel) (fun q => !q.isAtEnd) (p.tokens.length + 1) [] p

/-- The statements the parser builds for a source text that it accepts. -/
def parseSource (fuel : Nat) (src : String) : Option (List Stmt) :=
  match Parser.parse fuel { tokens := (lex src).tokens } with
  | PRes.ok statements _ => some statements
  | _ => none

/-- The message of the syntax error reported for a source text, if any. -/
def syntaxError (fuel : Nat) (src : String) : Option String :=
  match Parser.parse fuel { tokens := (lex src).tokens } with
  | PRes.error _ message => some message
  | _ => none

/-! ## The resolver (middleend/src/resolver.cpp)

The stack `scopes` is kept with the innermost scope first, so the number of hops
`scopes.size() - 1 - i` is the position of the scope in the list.  An exception
leaves the resolver as it is at the throw, scopes included. -/

/-- The `enum class FunctionType` of the resolver. -/
inductive FunctionType
  | NONE | FUNCTION | METHOD | INITIALIZER
deriving DecidableEq, Repr

/-- The `enum class ClassType` of the resolver. -/
inductive ClassType
  | NONE | CLASS
deriving DecidableEq, Repr

/-- The members of `class Resolver`. -/
structure Resolver where
  scopes : List (List (String × Bool)) := []
  globalSymbols : List (String × Int) := []
  currentFunction : FunctionType := FunctionType.NONE
  currentClass : ClassType := ClassType.NONE

/-- Result of a resolver function: normal return or a thrown `RyRuntimeError`, with
the resolver and the interpreter it annotates. -/
inductive RRes
  | ok (r : Resolver) (st : Interp)
  | raise (e : RyRuntimeError) (r : Resolver) (st : Interp)

namespace RRes

def bind (x : RRes) (k : Resolver → Interp → RRes) : RRes :=
  match x with
  | ok r st => k r st
  | raise e r st => raise e r st

end RRes

/-- `Interpreter::resolve`: `locals[expr] = depth`. -/
def Interp.resolve (st : Interp) (id : Nat) (depth : Int) : Interp :=
  { st with locals := (id, depth) :: st.locals.filter (fun p => p.1 != id) }

namespace Resolver

def beginScope (r : Resolver) : Resolver := { r with scopes := [] :: r.scopes }

def endScope (r : Resolver) : Resolver := { r with scopes := r.scopes.tail }

/-- `Resolver::declare`. -/
def declare (name : Token) (r : Resolver) (st : Interp) : RRes :=
  match r.scopes with
  | [] => RRes.ok { r with globalSymbols := mapInsert r.globalSymbols name.lexeme 0 } st
  | scope :: rest =>
    if mapContains scope name.lexeme then
      RRes.raise
        { token := name, message := "Already a variable with this name in this scope." } r st
    else RRes.ok { r with scopes := mapInsert scope name.lexeme false :: rest } st

/-- `Resolver::define`. -/
def define (name : Token) (r : Resolver) (st : Interp) : RRes :=
  match r.scopes with
  | [] => RRes.ok { r with globalSymbols := mapInsert r.globalSymbols name.lexeme 1 } st
  | scope :: rest => RRes.ok { r with scopes := mapInsert scope name.lexeme true :: rest } st

/-- The pair `declare(name); define(name);`. -/
def declareDefine (name : Token) (r : Resolver) (st : Interp) : RRes :=
  (declare name r st).bind (define name)

/-- `Resolver::resolveLocal`. -/
def resolveLocal (id : Nat) (name : Token) (r : Resolver) (st : Interp) : RRes :=
  match r.scopes.findIdx? (fun scope => mapContains scope name.lexeme) with
  | some hops => RRes.ok r (st.resolve id (hops : Int))
  | none =>
    if mapContains r.globalSymbols name.lexeme then RRes.ok r (st.resolve id (-1))
    else RRes.ok r st

/-- `Resolver::visitVariable`. -/
def visitVariable (id : Nat) (name : Token) (r : Resolver) (st : Interp) : RRes :=
  match r.scopes with
  | scope :: _ =>
    if mapFind scope name.lexeme == some false then
      RRes.raise
        { token := name, message := "Can't read local variable in its own initializer." } r st
    else resolveLocal id name r st
  | [] => resolveLocal id name r st

/-- `Resolver::visitThis`. -/
def visitThis (id : Nat) (keyword : Token) (r : Resolver) (st : Interp) : RRes :=
  if r.currentClass == ClassType.NONE then
    RRes.raise { token := keyword, message := "Cannot use 'this' outside of a class." } r st
  else resolveLocal id keyword r st

/-- The parameter loops `declare(param.name); define(param.name);`. -/
def declareParameters : List Parameter → Resolver → Interp → RRes
  | [], r, st => RRes.ok r st
  | param :: rest, r, st => (declareDefine param.name r st).bind (declareParameters rest)

mutual

/-- `Resolver::resolve(shared_ptr<Expr>)`: the visitor of the node. -/
def resolveExpr : Expr → Resolver → Interp → RRes
  | Expr.valueExpr _, r, st => RRes.ok r st
  | Expr.mathExpr left _ right, r, st => (resolveExpr left r st).bind (resolveExpr right)
  | Expr.groupExpr expression, r, st => resolveExpr expression r st
  | Expr.prefixExpr _ right, r, st => resolveExpr right r st
  | Expr.postfixExpr _ left, r, st => resolveExpr left r st
  | Expr.variableExpr id name, r, st => visitVariable id name r st
  | Expr.assignExpr id name value, r, st => (resolveExpr value r st).bind (resolveLocal id name)
  | Expr.logicalExpr left _ right, r, st => (resolveExpr left r st).bind (resolveExpr right)
  | Expr.callExpr callee arguments _, r, st =>
    (resolveExpr callee r st).bind (resolveExprs arguments)
  | Expr.listExpr elements, r, st => resolveExprs elements r st
  | Expr.indexExpr object index _, r, st => (resolveExpr object r st).bind (resolveExpr index)
  | Expr.getExpr object _, r, st => resolveExpr object r st
  | Expr.setExpr object _ value, r, st => (resolveExpr object r st).bind (resolveExpr value)
  | Expr.mapExpr _ items, r, st => resolveItems items r st
  | Expr.indexSetExpr object _ index value, r, st =>
    ((resolveExpr object r st).bind (resolveExpr index)).bind (resolveExpr value)
  | Expr.rangeExpr leftBound _ rightBound, r, st =>
    (resolveExpr leftBound r st).bind (resolveExpr rightBound)
  | Expr.bitwiseAndExpr left _ right, r, st => (resolveExpr left r st).bind (resolveExpr right)
  | Expr.bitwiseOrExpr left _ right, r, st => (resolveExpr left r st).bind (resolveExpr right)
  | Expr.bitwiseXorExpr left _ right, r, st => (resolveExpr left r st).bind (resolveExpr right)
  | Expr.shiftExpr left _ right, r, st => (resolveExpr left r st).bind (resolveExpr right)
  | Expr.thisExpr id keyword, r, st => visitThis id keyword r st

/-- The loops over a sequence of expressions. -/
def resolveExprs : List Expr → Resolver → Interp → RRes
  | [], r, st => RRes.ok r st
  | e :: rest, r, st => (resolveExpr e r st).bind (resolveExprs rest)

/-- The loop of `visitMap` over the pairs of a map literal. -/
def resolveItems : List (Expr × Expr) → Resolver → Interp → RRes
  | [], r, st => RRes.ok r st
  | (key, value) :: rest, r, st =>
    ((resolveExpr key r st).bind (resolveExpr value)).bind (resolveItems rest)

end

/-- The tests `if (e != nullptr) resolve(e);`. -/
def resolveOptExpr : Option Expr → Resolver → Interp → RRes
  | some e, r, st => resolveExpr e r st
  | none, r, st => RRes.ok r st

mutual

/-- `Resolver::resolve(shared_ptr<Stmt>)`: the visitor of the node. -/
def resolveStmt : Stmt → Resolver → Interp → RRes
  | Stmt.expressionStmt expression, r, st => resolveExpr expression r st
  | Stmt.functionStmt f, r, st => visitFunctionStmt f r st
  | Stmt.importStmt _, r, st => RRes.ok r st
  | Stmt.aliasStmt aliasExpr name, r, st => (resolveExpr aliasExpr r st).bind (declareDefine name)
  | Stmt.varStmt v, r, st =>
    ((declare v.name r st).bind (resolveOptExpr v.initializer)).bind (define v.name)
  | Stmt.returnStmt _ value, r, st => resolveOptExpr value r st
  | Stmt.ifStmt condition thenBranch elseBranch, r, st =>
    ((resolveExpr condition r st).bind (resolveStmt thenBranch)).bind (resolveOptStmt elseBranch)
  | Stmt.whileStmt condition body, r, st => (resolveExpr condition r st).bind (resolveStmt body)
  | Stmt.blockStmt statements, r, st =>
    (resolveStmts statements r.beginScope st).bind fun r1 st1 => RRes.ok r1.endScope st1
  | Stmt.namespaceStmt name body, r, st => (declareDefine name r st).bind (resolveStmts body)
  | Stmt.eachStmt id _ collection body, r, st =>
    (((resolveExpr collection r st).bind fun r1 st1 => declareDefine id r1.beginScope st1).bind
      (resolveStmt body)).bind fun r2 st2 => RRes.ok r2.endScope st2
  | Stmt.stopStmt _, r, st => RRes.ok r st
  | Stmt.skipStmt _, r, st => RRes.ok r st
  | Stmt.forStmt init condition increment body, r, st =>
    ((((resolveOptStmt init r.beginScope st).bind (resolveOptExpr condition)).bind
      (resolveOptExpr increment)).bind (resolveStmt body)).bind
      fun r1 st1 => RRes.ok r1.endScope st1
  | Stmt.classStmt name methods _ _ superclass, r, st =>
    let enclosingClass := r.currentClass
    (declareDefine name { r with currentClass := ClassType.CLASS } st).bind fun r1 st1 =>
    let thisToken : Token := { type := TokenType.THIS, lexeme := "this", line := name.line, column := 0 }
    ((match superclass with
      | some (id, superName) =>
        if name.lexeme == superName.lexeme then
          RRes.raise { token := superName, message := "A class cannot inherit from itself." } r1 st1
        else
          (visitVariable id superName r1 st1).bind fun r2 st2 =>
          RRes.ok { r2 with scopes := [("parent", true)] :: r2.scopes } st2
      | none => RRes.ok r1 st1) : RRes).bind fun r2 st2 =>
    ((declareDefine thisToken r2.beginScope st2).bind (resolveMethods methods)).bind fun r3 st3 =>
    let r4 := r3.endScope
    let r5 := if superclass.isSome then r4.endScope else r4
    RRes.ok { r5 with currentClass := enclosingClass } st3
  | Stmt.attemptStmt attemptBody failBody error finallyBody _, r, st =>
    (resolveStmts attemptBody r.beginScope st).bind fun r1 st1 =>
    ((declareDefine error r1.endScope.beginScope st1).bind (resolveStmts failBody)).bind
      fun r2 st2 =>
    (resolveStmts finallyBody r2.endScope.beginScope st2).bind fun r3 st3 =>
    RRes.ok r3.endScope st3
  | Stmt.panicStmt _ message, r, st =>
    (resolveOptExpr message r.beginScope st).bind fun r1 st1 => RRes.ok r1.endScope st1

/-- The tests `if (s != nullptr) resolve(s);`. -/
def resolveOptStmt : Option Stmt → Resolver → Interp → RRes
  | some s, r, st => resolveStmt s r st
  | none, r, st => RRes.ok r st

/-- `Resolver::resolve(const std::vector<std::shared_ptr<Stmt>> &)`. -/
def resolveStmts : List Stmt → Resolver → Interp → RRes
  | [], r, st => RRes.ok r st
  | s :: rest, r, st => (resolveStmt s r st).bind (resolveStmts rest)

/-- `Resolver::visitFunctionStmt`. -/
def visitFunctionStmt : FunctionStmt → Resolver → Interp → RRes
  | FunctionStmt.mk name parameters body _ _ _, r, st =>
    (((declareDefine name r st).bind fun r1 st1 => declareParameters parameters r1.beginScope st1).bind
      (resolveStmts body)).bind fun r2 st2 => RRes.ok r2.endScope st2

/-- `Resolver::resolveFunction`. -/
def resolveFunction : FunctionStmt → FunctionType → Resolver → Interp → RRes
  | FunctionStmt.mk _ parameters body _ _ _, type, r, st =>
    let enclosingFunction := r.currentFunction
    ((declareParameters parameters { r with currentFunction := type }.beginScope st).bind
      (resolveStmts body)).bind fun r1 st1 =>
    RRes.ok { r1.endScope with currentFunction := enclosingFunction } st1

/-- The method loop of `Resolver::visitClassStmt`. -/
def resolveMethods : List FunctionStmt → Resolver → Interp → RRes
  | [], r, st => RRes.ok r st
  | method :: rest, r, st =>
    (resolveFunction method
      (if method.name.lexeme == "init" then FunctionType.INITIALIZER else FunctionType.METHOD)
      r st).bind (resolveMethods rest)

end

/-- The entry point `Resolver::resolve` called by `run`. -/
def resolve (statements : List Stmt) (r : Resolver) (st : Interp) : RRes :=
  resolveStmts statements r st

end Resolver

/-! ## The driver (interp/src/runtime.cpp, main.cpp) -/

/-- How a call of `run` ends.  `rejected`: the lexer or the parser has reported an
error (the messages), so nothing is resolved or executed.  `reported`: a runtime
error of the resolver or of the evaluator was caught and reported, with the caret
marker or without it.  `internalError`: a standard exception was caught.
`uncaught`: something was thrown that `run` has no handler for.  The last three are
those of `Res`. -/
inductive RunResult
  | rejected (messages : List String)
  | completed (st : Interp)
  | reported (e : RyRuntimeError) (showCaret : Bool) (st : Interp)
  | internalError (what : String) (st : Interp)
  | uncaught (t : Thrown) (st : Interp)
  | exited (st : Interp)
  | crash
  | timeout
  | unmodelled

/-- `run`: lexer, parser, then resolver and evaluator unless an error was reported. -/
def run (fuel : Nat) (src : String) (interp : Interp) (resolver : Resolver) : RunResult :=
  let lexer := lex src
  match Parser.parse fuel { tokens := lexer.tokens, externalTypeAliases := interp.typeAliases } with
  | PRes.timeout => RunResult.timeout
  | PRes.error _ message => RunResult.rejected (lexer.errors ++ [message])
  | PRes.ok statements _ =>
    if !lexer.errors.isEmpty then RunResult.rejected lexer.errors
    else
      match resolver.resolve statements interp with
      | RRes.raise e _ st => RunResult.reported e (!e.isPanicking) st
      | RRes.ok _ st =>
        match interpret fuel statements st with
        | Res.ok _ st1 => RunResult.completed st1
        | Res.raise (Thrown.runtimeError e) st1 => RunResult.reported e (!e.isPanicking) st1
        | Res.raise (Thrown.stdException _ what) st1 => RunResult.internalError what st1
        | Res.raise t st1 => RunResult.uncaught t st1
        | Res.exited st1 => RunResult.exited st1
        | Res.crash => RunResult.crash
        | Res.timeout => RunResult.timeout
        | Res.unmodelled => RunResult.unmodelled

/-- The command `ry run FILE` on a file with the given text: a new interpreter and a
new resolver, then `run`. -/
def runScript (fuel : Nat) (src : String) : RunResult :=
  run fuel src Interp.initial {}

/-- The lines written to standard output by a run. -/
def RunResult.output (r : RunResult) : List String :=
  match r with
  | RunResult.completed st => st.output
  | RunResult.reported _ _ st => st.output
  | RunResult.internalError _ st => st.output
  | RunResult.uncaught _ st => st.output
  | RunResult.exited st => st.output
  | _ => []

/-! ## Inspecting results -/

/-- The state a run ended in, when it returned or threw. -/
def Res.state? {α : Type} (r : Res α) : Option Interp :=
  match r with
  | Res.ok _ st => some st
  | Res.raise _ st => some st
  | Res.exited st => some st
  | Res.crash => none
  | Res.timeout => none
  | Res.unmodelled => none

/-- The value of a normal return. -/
def Res.value? {α : Type} (r : Res α) : Option α :=
  match r with
  | Res.ok a _ => some a
  | _ => none

/-- What was thrown, if anything. -/
def Res.thrown? {α : Type} (r : Res α) : Option Thrown :=
  match r with
  | Res.raise t _ => some t
  | _ => none

/-- The cell a name is bound to in one environment of a state. -/
def Interp.cell? (st : Interp) (env : Nat) (name : String) : Option RyVariable :=
  (st.envs[env]?).bind (fun e => mapFind e.values name)

/-- The contents of the list a value points to. -/
def Interp.listOf (st : Interp) (v : RyValue) : Option (List RyValue) :=
  match v with
  | RyValue.list l => st.lists[l]?
  | _ => none

/-! ## Specification-level notions used in the statements -/

/-- A class followed by its superclass, the superclass of that one, and so on. -/
def RyClass.ancestors : RyClass → List RyClass
  | RyClass.mk id name methods fields superclass =>
    RyClass.mk id name methods fields superclass ::
      (match superclass with
        | some sup => RyClass.ancestors sup
        | none => [])

/-- The n-fold repetition of a string. -/
def nFoldString (s : String) (n : Nat) : String :=
  String.mk (List.flatten (List.replicate n s.data))

/-- The n-fold repetition of a list. -/
def nFoldList (xs : List RyValue) (n : Nat) : List RyValue :=
  List.flatten (List.replicate n xs)

/-! ## Concrete programs

Syntax trees as the parser builds them for the quoted source texts, with the
annotations the resolver records for them. -/

def tok (t : TokenType) (lexeme : String) : Token :=
  { type := t, lexeme := lexeme, line := 1, column := 1 }

def numLit (text : String) : Expr := Expr.valueExpr (tok TokenType.NUMBER text)

def strLit (text : String) : Expr := Expr.valueExpr (tok TokenType.STRING text)

def varRef (id : Nat) (name : String) : Expr := Expr.variableExpr id (tok TokenType.IDENTIFIER name)

def binary (l : Expr) (t : TokenType) (lexeme : String) (r : Expr) : Expr :=
  Expr.mathExpr l (tok t lexeme) r

def call (callee : Expr) (args : List Expr) : Expr :=
  Expr.callExpr callee args (tok TokenType.RPAREN ")")

/-- The statement `out(e)`.  No program below declares the name `out`, so the
resolver records nothing for the reference to it and the node number 0 it carries
is never looked up. -/
def outStmt (e : Expr) : Stmt := Stmt.expressionStmt (call (varRef 0 "out") [e])

/-- The declaration `data NAME = e` or, with a type, `data::TYPE NAME = e`. -/
def dataDecl (type : Option String) (name : String) (init : Expr) : Stmt :=
  Stmt.varStmt
    { type := tok TokenType.DATA "data",
      innerType := type.map (fun t => tok TokenType.IDENTIFIER t),
      name := tok TokenType.IDENTIFIER name,
      initializer := some init }

/-- The source
`attempt { data x = 1/0 } fail e::MathError { out("caught") } finally { out("done") }`. -/
def attemptCaughtProgram : List Stmt :=
  [Stmt.attemptStmt
    [dataDecl none "x" (binary (numLit "1") TokenType.DIVIDE "/" (numLit "0"))]
    [outStmt (strLit "caught")]
    (tok TokenType.IDENTIFIER "e")
    [outStmt (strLit "done")]
    (tok TokenType.IDENTIFIER "MathError")]

/-- The source
`attempt { data x = 1/1 } fail e::MathError { out("caught") } finally { out("done") }`,
whose attempt body raises nothing. -/
def attemptNormalProgram : List Stmt :=
  [Stmt.attemptStmt
    [dataDecl none "x" (binary (numLit "1") TokenType.DIVIDE "/" (numLit "1"))]
    [outStmt (strLit "caught")]
    (tok TokenType.IDENTIFIER "e")
    [outStmt (strLit "done")]
    (tok TokenType.IDENTIFIER "MathError")]

/-- The source
`attempt { data x = 1/0 } fail e::TypeError { out("caught") } finally { out("done") }`,
whose fail clause does not match the error raised. -/
def attemptRethrowProgram : List Stmt :=
  [Stmt.attemptStmt
    [dataDecl none "x" (binary (numLit "1") TokenType.DIVIDE "/" (numLit "0"))]
    [outStmt (strLit "caught")]
    (tok TokenType.IDENTIFIER "e")
    [outStmt (strLit "done")]
    (tok TokenType.IDENTIFIER "TypeError")]

/-- The source `data::num x = 1   x = "s"` at top level; the assignment is node 1,
which the resolver annotates with -1. -/
def globalAssignProgram : List Stmt :=
  [dataDecl (some "num") "x" (numLit "1"),
   Stmt.expressionStmt (Expr.assignExpr 1 (tok TokenType.IDENTIFIER "x") (strLit "s"))]

/-- The source `{ data::num x = 1   x++   x = "s" }`; the assignment is node 2 at
distance 0. -/
def localIncrementProgram : List Stmt :=
  [Stmt.blockStmt
    [dataDecl (some "num") "x" (numLit "1"),
     Stmt.expressionStmt (Expr.postfixExpr (tok TokenType.PLUS_PLUS "++") (varRef 1 "x")),
     Stmt.expressionStmt (Expr.assignExpr 2 (tok TokenType.IDENTIFIER "x") (strLit "s")),
     outStmt (varRef 3 "x")]]

/-- The source `{ data::map m = {}   m = {} }`; the assignment is node 1 at
distance 0. -/
def localMapProgram : List Stmt :=
  [Stmt.blockStmt
    [dataDecl (some "map") "m" (Expr.mapExpr (tok TokenType.RBRACE "\x7d") []),
     Stmt.expressionStmt
       (Expr.assignExpr 1 (tok TokenType.IDENTIFIER "m") (Expr.mapExpr (tok TokenType.RBRACE "\x7d") []))]]

/-- The expression `"a" + 0`. -/
def stringPlusZero : Expr := binary (strLit "a") TokenType.PLUS "+" (numLit "0")

/-- The expression `1 / 3`. -/
def oneThird : Expr := binary (numLit "1") TokenType.DIVIDE "/" (numLit "3")

/-- The expression `1 or x`. -/
def oneOrX : Expr := Expr.logicalExpr (numLit "1") (tok TokenType.OR "or") (varRef 1 "x")

/-- The declaration `class A { private data m = 1 }`. -/
def classA : Stmt :=
  Stmt.classStmt (tok TokenType.IDENTIFIER "A") []
    [{ type := tok TokenType.DATA "data", innerType := none, name := tok TokenType.IDENTIFIER "m",
       initializer := some (numLit "1"), isPrivate := true }]
    false none

/-- The declaration
`class B childof A { func peek() { this.m = 5   return this.m } }`. -/
def classB : Stmt :=
  Stmt.classStmt (tok TokenType.IDENTIFIER "B")
    [FunctionStmt.mk (tok TokenType.IDENTIFIER "peek") []
      [Stmt.expressionStmt
         (Expr.setExpr (Expr.thisExpr 2 (tok TokenType.THIS "this")) (tok TokenType.IDENTIFIER "m")
           (numLit "5")),
       Stmt.returnStmt (tok TokenType.RETURN "return")
         (some (Expr.getExpr (Expr.thisExpr 3 (tok TokenType.THIS "this"))
           (tok TokenType.IDENTIFIER "m")))]
      none none false]
    [] false (some (1, tok TokenType.IDENTIFIER "A"))

/-- The source `class A ...   class B childof A ...   out(B().peek())`. -/
def subclassAccessProgram : List Stmt :=
  [classA, classB,
   outStmt (call (Expr.getExpr (call (varRef 4 "B") []) (tok TokenType.IDENTIFIER "peek")) [])]

/-- The annotations of the resolver for `subclassAccessProgram`: the references to
the classes are global, `this` is one scope above the method body. -/
def subclassAccessLocals : List (Nat × Int) := [(1, -1), (2, 1), (3, 1), (4, -1)]

/-- The source `class A { private data m = 1 }   data a = A()`. -/
def outsideAccessProgram : List Stmt :=
  [classA, dataDecl none "a" (call (varRef 1 "A") [])]

/-- The state after running `outsideAccessProgram` from the initial state. -/
def outsideAccessState : Interp :=
  ((interpret 10 outsideAccessProgram { Interp.initial with locals := [(1, -1), (2, -1)] }).state?).getD
    Interp.initial

/-- The list literal `[1, 2, 3]`. -/
def oneTwoThree : Expr := Expr.listExpr [numLit "1", numLit "2", numLit "3"]

/-- The expression `4 + [1, 2, 3]`. -/
def scalarPlusList : Expr := binary (numLit "4") TokenType.PLUS "+" oneTwoThree

/-- The expression `[1, 2, 3] - 2`. -/
def listMinusScalar : Expr := binary oneTwoThree TokenType.MINUS "-" (numLit "2")

/-- The expression `3 * "ab"`. -/
def numberTimesString : Expr := binary (numLit "3") TokenType.STAR "*" (strLit "ab")

/-- The expression `"ab" * 3`. -/
def stringTimesNumber : Expr := binary (strLit "ab") TokenType.STAR "*" (numLit "3")

/-- The source `data xs = [1, 2, 3]`. -/
def xsProgram : List Stmt := [dataDecl none "xs" oneTwoThree]

/-- The state after running `xsProgram` from the initial state. -/
def xsState : Interp :=
  ((interpret 10 xsProgram { Interp.initial with locals := [(1, -1)] }).state?).getD Interp.initial

/-- The instance the statement `data a = A()` of `outsideAccessProgram` creates. -/
def instanceOfA : RyInstance :=
  { klass := RyClass.mk 9 "A" [] [("m", { value := RyValue.number 1, isPrivate := true })] none,
    fields := [("m", { value := RyValue.number 1, isPrivate := true })] }

/-- The error thrown on a denied access to the member `name`. -/
def privateMemberError (name : Token) : Thrown :=
  Thrown.runtimeError
    { token := name, message := "Cannot access private member '" ++ name.lexeme ++ "'." }

/-- The error thrown at the end of `visitMath`. -/
def operandsError (op : Token) : Thrown :=
  Thrown.runtimeError
    { token := op, message := "Operands must be numbers or matching types.",
      type := RyValue.string "MathError" }

/-- The state a run ended in, when the source was executed. -/
def RunResult.state? (r : RunResult) : Option Interp :=
  match r with
  | RunResult.completed st => some st
  | RunResult.reported _ _ st => some st
  | RunResult.internalError _ st => some st
  | RunResult.uncaught _ st => some st
  | RunResult.exited st => some st
  | _ => none

/-- The runtime error `run` has reported, and whether with the caret marker. -/
def RunResult.reported? (r : RunResult) : Option (RyRuntimeError × Bool) :=
  match r with
  | RunResult.reported e showCaret _ => some (e, showCaret)
  | _ => none

/-- What left `run` without being caught. -/
def RunResult.uncaught? (r : RunResult) : Option Thrown :=
  match r with
  | RunResult.uncaught t _ => some t
  | _ => none

/-- The messages reported by the lexer and the parser when the source was not
executed. -/
def RunResult.rejected? (r : RunResult) : Option (List String) :=
  match r with
  | RunResult.rejected messages => some messages
  | _ => none

/-- The error thrown by the numeric switch of `visitMath` for a zero divisor. -/
def mathError (op : Token) (message : String) : Thrown :=
  Thrown.runtimeError { token := op, message := message, type := RyValue.string "MathError" }

/-- The handlers around `function->call(*this, arguments)` at the end of
`visitCall`: the value returned becomes the result of the call expression, a
`std::runtime_error` becomes a runtime error at the closing parenthesis. -/
def afterCall (paren : Token) (r : Res RyValue) : Res Unit :=
  match r with
  | Res.ok v st3 => setResult st3 v
  | Res.raise (Thrown.stdException StdExc.runtime_error what) st3 =>
    throwRuntimeError paren what st3
  | Res.raise t st3 => Res.raise t st3
  | Res.exited st3 => Res.exited st3
  | Res.crash => Res.crash
  | Res.timeout => Res.timeout
  | Res.unmodelled => Res.unmodelled

/-- The state after the script `func g(a, b = 2) { }`. -/
def declaredG : Interp :=
  ((runScript 20 "func g(a, b = 2) { }").state?).getD Interp.initial

/-- The function object the script of `declaredG` has created. -/
def functionG : RyFunction :=
  match declaredG.callables[9]? with
  | some (RyCallable.function f) => f
  | _ => { declaration := FunctionStmt.mk Parser.nothingHere [] [] none none false, closure := 0 }

/-- A class whose `init` has a parameter with default, called with an argument for
it; the script `initDefaultOmitted` leaves the default in place. -/
def initDefaultSupplied : String := "class P { func init(a, b = 2) { out(a + b) } }\nP(1, 5)"

def initDefaultOmitted : String := "class P { func init(a, b = 2) { out(a + b) } }\nP(1)"

/-- The same parameters on a plain function: both calls are accepted. -/
def functionDefaultSupplied : String := "func g(a, b = 2) { out(a + b) }\ng(1, 5)\ng(1)"

/-- The source `panic "boom"`. -/
def panicSource : String := "panic \"boom\""

/-- The source `attempt { panic "boom" } fail e::MathError { out(e) }`. -/
def panicTypedFail : String := "attempt \x7b panic \"boom\" \x7d fail e::MathError \x7b out(e) \x7d"

/-- The source `attempt { panic "boom" } fail e { out(e) }`. -/
def panicUntypedFail : String := "attempt \x7b panic \"boom\" \x7d fail e \x7b out(e) \x7d"

/-- A `stop` in the body of a `do ... until` loop. -/
def stopInDoUntil : String := "do { stop } until true"

/-- A `skip` in the body of a `do ... until` loop inside a function. -/
def skipInFunction : String := "func g() { do { skip } until true }\ng()\nout(1)"

/-- A function declared in a loop body, holding a `stop`, and called there:
`data i = 0   while i < 3 { func f() { stop }   i = i + 1   f()   out(i) }   out(i)`. -/
def stopInNestedFunction : String :=
  "data i = 0\nwhile i < 3 \x7b func f() \x7b stop \x7d\n i = i + 1\n f()\n out(i) \x7d\nout(i)"

/-- The source
`attempt { data x = 1/0 } fail e::TypeError { out("caught") } finally { panic "later" }`:
the fail clause does not match and the finally body raises an error of its own. -/
def finallyRaisesSource : String :=
  "attempt \x7b data x = 1/0 \x7d fail e::TypeError \x7b out(\"caught\") \x7d finally \x7b panic \"later\" \x7d"

/-- The attempt body `data x = 1/0`. -/
def divisionBody : List Stmt :=
  [dataDecl none "x" (binary (numLit "1") TokenType.DIVIDE "/" (numLit "0"))]

/-- The state in which the body `data x = 1/0` of an attempt statement run from the
initial state has raised its error: the scope of the body has been allocated and
the divisor is in the result slot. -/
def divisionFailedState : Interp :=
  { Interp.initial with
    envs := Interp.initial.envs ++ [{ enclosing := some 0 }],
    lastResult := RyValue.number 0 }

/-- The error raised by `1/0`. -/
def divisionError : RyRuntimeError :=
  { token := tok TokenType.DIVIDE "/", message := "Cannot Divide with zero.",
    type := RyValue.string "MathError" }

/-- What the parameter loop does for one parameter, given the argument at its
position if there is one: bind the argument; without argument bind the value of
the default expression, evaluated now; without either do nothing. -/
def bindOne (ev : Expr → Interp → Res RyValue) (env : Nat) (p : Parameter)
    (argument : Option RyValue) (st : Interp) : Res Unit :=
  match argument with
  | some a => Res.ok () (envDefine st env p.name.lexeme { value := a })
  | none =>
    match p.defaultValue with
    | some d =>
      (ev d st).bind fun v st1 => Res.ok () (envDefine st1 env p.name.lexeme { value := v })
    | none => Res.ok () st

/-- The parameters taken in order, the one at position `first + i` with the
argument at that position. -/
def bindInOrder (ev : Expr → Interp → Res RyValue) (env : Nat) (args : List RyValue) :
    Nat → List Parameter → Res Unit → Res Unit
  | _, [], r => r
  | i, p :: ps, r =>
    bindInOrder ev env args (i + 1) ps (r.bind fun _ st => bindOne ev env p args[i]? st)

/-- A required parameter declared after one with default, called with one
argument; the body is empty. -/
def requiredAfterDefault : String := "func f(a = 1, b) { }\nf(5)"

/-- The same function with a body that prints both parameters:
`func f(a = 1, b) { out(a)   out(b) }   f(5)`. -/
def requiredAfterDefaultPrinted : String := "func f(a = 1, b) \x7b out(a)\n out(b) \x7d\nf(5)"

/-- The function `g` of `declaredG` called with the argument 7 only: the state in
which the parameter loop starts, with the new call environment 2, and the state in
which it ends. -/
def callGStart : Interp :=
  { (newEnv declaredG (some functionG.closure)).2 with
    environment := (newEnv declaredG (some functionG.closure)).1 }

/-- The two parameters of `func g(a, b = 2) { }` as the parser builds them. -/
def parameterA : Parameter :=
  { name := { type := TokenType.IDENTIFIER, lexeme := "a", line := 1, column := 8 },
    type := { type := TokenType.DATA, lexeme := "data", line := 1, column := 8 },
    defaultValue := none }

def parameterB : Parameter :=
  { name := { type := TokenType.IDENTIFIER, lexeme := "b", line := 1, column := 11 },
    type := { type := TokenType.DATA, lexeme := "data", line := 1, column := 11 },
    defaultValue :=
      some (Expr.valueExpr { type := TokenType.NUMBER, lexeme := "2", line := 1, column := 15 }) }

def callGBound : Interp :=
  ((bindParameters (evaluate 1) 2 functionG.declaration.parameters [RyValue.number 7]
    callGStart).state?).getD Interp.initial

/-- The source `func f() -> num { return "s" }   out(f())`: the return type is the
name `num` itself, which no alias statement has declared. -/
def undeclaredReturnType : String := "func f() -> num \x7b return \"s\" \x7d\nout(f())"

/-- The source `alias data::num as int   func f() -> int { return "s" }   out(f())`. -/
def aliasReturnMismatch : String :=
  "alias data::num as int\nfunc f() -> int \x7b return \"s\" \x7d\nout(f())"

/-- The source `alias data::num as int   func f() -> int { return 3 }   out(f())`. -/
def aliasReturnMatch : String :=
  "alias data::num as int\nfunc f() -> int \x7b return 3 \x7d\nout(f())"

/-- The state after the script `alias data::num as int   func f() -> int { return "s" }`. -/
def declaredTypedF : Interp :=
  ((runScript 20 "alias data::num as int\nfunc f() -> int \x7b return \"s\" \x7d").state?).getD
    Interp.initial

/-- The function object the script of `declaredTypedF` has created. -/
def typedFunctionF : RyFunction :=
  match declaredTypedF.callables[9]? with
  | some (RyCallable.function f) => f
  | _ => { declaration := FunctionStmt.mk Parser.nothingHere [] [] none none false, closure := 0 }

/-- The state in which the body of a function called from `st` has ended, seen from
the caller: the environment of the caller is current again. -/
def backInCaller (st st2 : Interp) : Interp := { st2 with environment := st.environment }

/-- The state in which `RyFunction::call` checks the returned value: a new
environment around the one of the caller has been made current. -/
def returnCheckState (st st2 : Interp) : Interp :=
  { (newEnv (backInCaller st st2) (some st.environment)).2 with
    environment := (newEnv (backInCaller st st2) (some st.environment)).1 }
/-- The call `f()` of the function of `declaredTypedF`: the state in which the body
starts and the state in which its `return "s"` has been executed. -/
def typedCallStart : Interp :=
  { (newEnv declaredTypedF (some typedFunctionF.closure)).2 with
    environment := (newEnv declaredTypedF (some typedFunctionF.closure)).1 }

def typedCallReturned : Interp := { typedCallStart with lastResult := RyValue.string "s" }

/-- The source
`class A { func hi() { return "A" } }
 class B childof A { func hi() { return parent.hi() + "B" } }
 out(B().hi())`. -/
def parentCallSource : String :=
  "class A \x7b func hi() \x7b return \"A\" \x7d \x7d\nclass B childof A \x7b func hi() \x7b return parent.hi() + \"B\" \x7d \x7d\nout(B().hi())"

/-- The state after the script `class A { func hi() { return 1 } }   data a = A()`,
in which `this` has then been bound, in the global environment, to the instance
created. -/
def thisBoundState : Interp :=
  envDefine
    (((runScript 20 "class A { func hi() { return 1 } }\ndata a = A()").state?).getD Interp.initial)
    0 "this" { value := RyValue.inst 0 }

/-- The class `A` of `thisBoundState`. -/
def classOfThis : RyClass :=
  match thisBoundState.callables[9]? with
  | some (RyCallable.klass k) => k
  | _ => RyClass.mk 0 "" [] [] none

/-- The method `hi` of `classOfThis`. -/
def methodHi : RyFunction :=
  (classOfThis.findMethod "hi").getD
    { declaration := FunctionStmt.mk Parser.nothingHere [] [] none none false, closure := 0 }
/-- The instance `this` is bound to in `thisBoundState`. -/
def instanceOfThis : RyInstance :=
  thisBoundState.instances.getD 0 { klass := classOfThis, fields := [] }

/-- The source of the claim: the branch of the `if` is a bare `return`. -/
def fibBare : String :=
  "func fib(n) { if n < 2 return n    return fib(n-1)+fib(n-2) }\nout(fib(10))"

/-- The same source with the branch in braces. -/
def fibBraced : String :=
  "func fib(n) { if n < 2 { return n }    return fib(n-1)+fib(n-2) }\nout(fib(10))"

/-- The tokens of `if x { y } else z`, the parser standing after the `if`. -/
def afterIf : Parser := { tokens := (lex "if x { y } else z").tokens, current := 1 }
/-- The token number `i` of `if x { y } else z`. -/
def ifToken (i : Nat) : Token := afterIf.tokens.getD i Parser.pastEnd

/-- The token number `i` of the Fibonacci script with the branch in braces. -/
def fibToken (i : Nat) : Token := (lex fibBraced).tokens.getD i Parser.pastEnd

/-- The body of `fib` as the parser builds it: nodes 1 to 6 are the variables in
the order they are read. -/
def fibBody : List Stmt :=
  [Stmt.ifStmt (Expr.mathExpr (Expr.variableExpr 1 (fibToken 7)) (fibToken 8)
      (Expr.valueExpr (fibToken 9)))
    (Stmt.blockStmt [Stmt.returnStmt (fibToken 11) (some (Expr.variableExpr 2 (fibToken 12)))])
    none,
   Stmt.returnStmt (fibToken 14)
    (some (Expr.mathExpr
      (Expr.callExpr (Expr.variableExpr 3 (fibToken 15))
        [Expr.mathExpr (Expr.variableExpr 4 (fibToken 17)) (fibToken 18)
          (Expr.valueExpr (fibToken 19))]
        (fibToken 20))
      (fibToken 21)
      (Expr.callExpr (Expr.variableExpr 5 (fibToken 22))
        [Expr.mathExpr (Expr.variableExpr 6 (fibToken 24)) (fibToken 25)
          (Expr.valueExpr (fibToken 26))]
        (fibToken 27))))]

/-- The declaration `func fib(n) { ... }` as the parser builds it. -/
def fibDeclaration : FunctionStmt :=
  FunctionStmt.mk (fibToken 1)
    [{ name := fibToken 3,
       type := { type := TokenType.DATA, lexeme := "data", line := (fibToken 3).line,
                 column := (fibToken 3).column },
       defaultValue := none }]
    fibBody none none false

/-- The statements of the Fibonacci script: the declaration and `out(fib(10))`. -/
def fibProgram : List Stmt :=
  [Stmt.functionStmt fibDeclaration,
   Stmt.expressionStmt
    (Expr.callExpr (Expr.variableExpr 7 (fibToken 29))
      [Expr.callExpr (Expr.variableExpr 8 (fibToken 31)) [Expr.valueExpr (fibToken 33)]
        (fibToken 34)]
      (fibToken 35))]

/-- The annotations the resolver leaves for the Fibonacci script. -/
def fibLocals : List (Nat × Int) := [(8, -1), (6, 0), (5, -1), (4, 0), (3, -1), (2, 1), (1, 0)]

/-- The function object that the declaration of `fib` creates at top level of a new
interpreter: its closure is environment 1. -/
def fibFunction : RyFunction := { declaration := fibDeclaration, closure := 1 }

/-- The environment of a call of `fib` with argument `n` once the parameter is
bound: its link is the closure of the function. -/
def fibFrame (n : Nat) : Environment :=
  { enclosing := some 1, values := [("n", { value := RyValue.number (n : ℚ) })] }

/-- A later state of the same run: environments `extra` allocated at the end of the
heap, the current environment `env`, the last result `v`; nothing else changed. -/
def Interp.grown (st : Interp) (extra : List Environment) (env : Nat) (v : RyValue) : Interp :=
  { st with envs := st.envs ++ extra, environment := env, lastResult := v }

/-- What a call of `fib` needs of the state: no panic in progress, the annotations of
the resolver, the global `fib` bound to callable 9, and that callable the function
declared by the script. -/
def FibReady (st : Interp) : Prop :=
  st.is_panicking = false ∧ st.locals = fibLocals ∧ st.globals = 0
    ∧ (∃ g, st.envs[0]? = some g ∧ mapFind g.values "fib" = some { value := RyValue.func 9 })
    ∧ st.callables[9]? = some (RyCallable.function fibFunction)

/-- The state of a new interpreter after the resolver has annotated the Fibonacci
script and the declaration of `fib` has run: environment 1 is the closure, callable
9 the function, and the global `fib` refers to it. -/
def fibDeclared : Interp :=
  { Interp.initial with
    envs :=
      [{ enclosing := none,
         values := (Interp.initial.envs.getD 0 {}).values ++ [("fib", { value := RyValue.func 9 })] },
       { enclosing := some 0 }],
    callables := Interp.initial.callables ++ [RyCallable.function fibFunction],
    locals := fibLocals }

/-- The vector that `Parser::parse` returns for the tokens of a source text, the
parser being given the alias set `aliases` of the interpreter: the statements, or
the empty vector after a `ParseError`; `none` when the nesting exceeds the bound. -/
def parsedStatements (fuel : Nat) (aliases : List String) (src : String) : Option (List Stmt) :=
  match Parser.parse fuel { tokens := (lex src).tokens, externalTypeAliases := aliases } with
  | PRes.ok statements _ => some statements
  | PRes.error _ _ => some []
  | PRes.timeout => none

/-- The type prefix and the name of a variable declaration node. -/
def Stmt.declaration? : Stmt → Option (String × String)
  | Stmt.varStmt v => some (v.type.lexeme, v.name.lexeme)
  | _ => none

/-- A function whose body is a `return` without expression, called after its
declaration. -/
def returnBare : String := "func f() { return }\nout(f())"

/-- The function object for a node `func f() { return }` with a null value in the
`return`, the node that `stmt.h` describes. -/
def bareReturnFunction : RyFunction :=
  { declaration :=
      FunctionStmt.mk (tok TokenType.IDENTIFIER "f") []
        [Stmt.returnStmt (tok TokenType.RETURN "return") none] none none false,
    closure := 0 }

/-- One source unit: the alias of a type, then a declaration with the alias as its
prefix. -/
def aliasThenDeclaration : String := "alias data::num as int\nint x = 5\nout(x)"

/-- The alias of a variable that holds a function, then a call through the new
name. -/
def aliasOfOut : String := "alias out as print\nprint(1)"

/-- The alias of an expression that is not a plain variable. -/
def aliasOfSum : String := "alias 1 + 2 as three\nout(three)"

/-- A namespace that defines `x`, declared after the global `y`. -/
def namespaceReads : String := "data y = 1\nnamespace N { data x = 2 }\nout(N.x)\nout(N.y)"

/-- A property that neither the namespace nor a scope around it defines. -/
def namespaceMissing : String := "namespace N { data x = 2 }\nout(N.z)"

/-- Shifts of a variable, which the evaluator computes, and of literals, which the
constant folder computes. -/
def shiftsOfEight : String := "data a = 8\nout(a >> 1)\nout(8 >> 1)\nout(a << 1)\nout(8 << 1)"

/-- A function declared in a block reads a variable of that block. -/
def closureReadsBlock : String := "{ data x = 5 func f() { return x } out(f()) }"

/-- A `finally` body reads a variable of the enclosing block. -/
def finallyReadsBlock : String :=
  "{ data m = 7 attempt { out(1) } fail e { out(2) } finally { out(m) } }"

/-- A panic message reads a variable of the enclosing block. -/
def panicReadsBlock : String := "{ data m = 7 panic m }"

/-- The same panic at top level, where the variable is global. -/
def panicReadsGlobal : String := "data m = 7 panic m"

/-- The three shapes of a left-hand side that the specification allows: a variable
reference, a property access and an index. -/
def Expr.isAssignmentTarget : Expr → Bool
  | Expr.variableExpr _ _ => true
  | Expr.getExpr _ _ => true
  | Expr.indexExpr _ _ _ => true
  | _ => false

/-- The expression of a source text that is one expression statement. -/
def singleExpression (fuel : Nat) (src : String) : Option Expr :=
  match parsedStatements fuel [] src with
  | some [Stmt.expressionStmt e] => some e
  | _ => none

/-- The kind of an assignment node with the names it carries: the assigned
variable, the property set, or nothing for an index assignment. -/
def Expr.assignmentKind : Expr → Option (String × String)
  | Expr.assignExpr _ name _ => some ("Assign", name.lexeme)
  | Expr.setExpr _ name _ => some ("Set", name.lexeme)
  | Expr.indexSetExpr _ _ _ _ => some ("IndexSet", "")
  | _ => none

/-- The parser standing at the start of `x = 1`. -/
def atAssignment : Parser := { tokens := (lex "x = 1").tokens }

/-- The token number `i` of `x = 1`. -/
def assignmentToken (i : Nat) : Token := atAssignment.tokens.getD i Parser.pastEnd

/-- Indices with a fractional part on a list of three elements. -/
def listIndexFraction : String := "data xs = [10, 20, 30]\nout(xs[1.7])\nout(xs[-0.5])"

/-- A namespace indexed with the name of a global that it does not define. -/
def namespaceIndexed : String := "data y = 1\nnamespace N { data x = 2 }\nout(N[\"y\"])"

/-- The error `RyRuntimeError(bracket, message)` of the index visitors. -/
def indexError (bracket : Token) (message : String) : Thrown :=
  Thrown.runtimeError { token := bracket, message := message }

/-- The source text of a string literal with one interpolation: `"P${N}S"`. -/
def interpolatedLiteral (P N S : List Char) : String :=
  String.mk ('"' :: P ++ '$' :: '\x7b' :: N ++ '\x7d' :: S ++ ['"'])

/-- The source text of a string literal with the content `C`. -/
def plainLiteral (C : List Char) : String := String.mk ('"' :: C ++ ['"'])

/-- The category and the text of a token. -/
def Token.kindText (t : Token) : TokenType × String := (t.type, t.lexeme)

/-- The lexer after `k` calls of `next`. -/
def Lexer.advance (lx : Lexer) : Nat → Lexer
  | 0 => lx
  | k + 1 => Lexer.advance lx.next.2 k
/-- The lexer after the branch of `str` for an interpolation whose name has `k`
characters: the segment before it and `+` are emitted, `${` and the name are
read, the name is emitted, the closing brace is read, `+` is emitted and `start`
is set to the brace. -/
def Lexer.interpolated (lx : Lexer) (k : Nat) : Lexer :=
  let lx1 := (lx.emplace TokenType.STRING
    (lx.substr (lx.start + 1) (lx.current - (lx.start + 1)))).emplace TokenType.PLUS "+"
  let lx2 := lx1.next.2.next.2
  let lx3 := lx2.advance k
  let lx6 := (lx3.emplace TokenType.IDENTIFIER
    (lx3.substr lx2.current (lx3.current - lx2.current))).next.2.emplace TokenType.PLUS "+"
  { lx6 with start := lx6.current - 1 }

/-- A block declares `x = 5`, declares and calls a function with a declared return
type, then prints `x`. -/
def typedCallInBlock : String := "{ data x = 5 func f() -> num { return 1 } f() out(x) }"

/-- The same block with a function that declares no return type. -/
def untypedCallInBlock : String := "{ data x = 5 func f() { return 1 } f() out(x) }"

/-- A call of a function with a declared return type at top level. -/
def typedCallAtTop : String := "func f() -> num { return 1 } f()"

/-- The same call followed by a declaration and a read of the declared variable. -/
def typedCallThenDeclaration : String := "func f() -> num { return 1 } f() data y = 1 out(y)"

/-- A call of a function without return type at top level. -/
def untypedCallAtTop : String := "func f() { return 1 } f()"

/-- Whether the evaluator's current environment at the end of a run is the global
environment. -/
def RunResult.atGlobals (r : RunResult) : Option Bool :=
  r.state?.map fun st => st.environment == st.globals

/-- The message of the runtime error `run` has reported. -/
def RunResult.reportedMessage (r : RunResult) : Option String :=
  r.reported?.map fun p => p.1.message

/-- A namespace at top level whose body declares `x` and reads it. -/
def namespaceReadsOwnName : String := "namespace N { data x = 2 out(x) }"

/-- The same namespace in a block, followed by a read of `x` in the block. -/
def namespaceInBlock : String := "{ namespace N { data x = 2 out(x) } out(x) }"

/-- The resolver handle after `run(src, interp, resolver)`: untouched when the lexer
or the parser has reported an error, otherwise as `Resolver::resolve` has left it,
by return or by exception. -/
def resolverAfterRun (fuel : Nat) (src : String) (interp : Interp) (resolver : Resolver) :
    Resolver :=
  let lexer := lex src
  match Parser.parse fuel { tokens := lexer.tokens, externalTypeAliases := interp.typeAliases } with
  | PRes.ok statements _ =>
    if !lexer.errors.isEmpty then resolver
    else
      match resolver.resolve statements interp with
      | RRes.raise _ r _ => r
      | RRes.ok r _ => r
  | _ => resolver

/-- The loop of `runREPL` (main.cpp) over the buffers it executes: each one is
passed to `run_source` with the same interpreter and the same resolver. -/
def runLines (fuel : Nat) : List String → Interp → Resolver → List RunResult
  | [], _, _ => []
  | src :: rest, interp, resolver =>
    let r := run fuel src interp resolver
    r :: runLines fuel rest (r.state?.getD interp) (resolverAfterRun fuel src interp resolver)

/-- The names in the scopes of the resolver, innermost first. -/
def Resolver.scopeNames (r : Resolver) : List (List String) :=
  r.scopes.map fun scope => scope.map Prod.fst

/-- The names in the global symbol table of the resolver. -/
def Resolver.globalNames (r : Resolver) : List String :=
  r.globalSymbols.map Prod.fst

/-- A block that declares `x` twice. -/
def doubleDeclaration : String := "{ data x = 1 data x = 2 }"

/-- A class that names itself as its superclass. -/
def selfInheritance : String := "class A childof A { }"

/-- A property assignment on a namespace whose right-hand side increments `x`. -/
def namespaceSetIncrement : String := "namespace N { } data x = 0 N.v = x++ out(x) out(N.v)"

/-- The same assignment on an instance. -/
def instanceSetIncrement : String :=
  "class C { data v = 0 } data c = C() data x = 0 c.v = x++ out(x)"

/-- A bitwise complement whose operand increments `x`. -/
def complementIncrement : String := "data x = 0 out(~(x++)) out(x)"

/-- An attempt statement with a finally clause and no fail clause whose body divides
by zero. -/
def attemptFinallyOnly : String :=
  "attempt { out(1/0) } finally { out(2) } out(3)"

/-- An attempt statement without fail and finally clause whose body divides by
zero. -/
def attemptAlone : String := "attempt { out(1/0) } out(3)"

/-- The same body with a fail clause whose type filter does not match. -/
def attemptOtherType : String :=
  "attempt { out(1/0) } fail e::TypeError { out(e) } finally { out(2) } out(3)"

/-- The line and column carried by the tokens of a source text, with the text of
each token. -/
def tokenPositions (src : String) : List (String × Nat × Nat) :=
  (lex src).tokens.map fun t => (t.lexeme, t.line, t.column)

mutual

/-- Whether an expression tree contains a parenthesis-group node. -/
def Expr.hasGroup : Expr → Bool
  | Expr.valueExpr _ => false
  | Expr.mathExpr l _ r => l.hasGroup || r.hasGroup
  | Expr.groupExpr _ => true
  | Expr.prefixExpr _ r => r.hasGroup
  | Expr.postfixExpr _ l => l.hasGroup
  | Expr.variableExpr _ _ => false
  | Expr.assignExpr _ _ value => value.hasGroup
  | Expr.logicalExpr l _ r => l.hasGroup || r.hasGroup
  | Expr.callExpr callee args _ => callee.hasGroup || hasGroupList args
  | Expr.listExpr elements => hasGroupList elements
  | Expr.indexExpr object index _ => object.hasGroup || index.hasGroup
  | Expr.getExpr object _ => object.hasGroup
  | Expr.setExpr object _ value => object.hasGroup || value.hasGroup
  | Expr.mapExpr _ items => hasGroupItems items
  | Expr.indexSetExpr object _ index value =>
    object.hasGroup || index.hasGroup || value.hasGroup
  | Expr.rangeExpr l _ r => l.hasGroup || r.hasGroup
  | Expr.bitwiseAndExpr l _ r => l.hasGroup || r.hasGroup
  | Expr.bitwiseOrExpr l _ r => l.hasGroup || r.hasGroup
  | Expr.bitwiseXorExpr l _ r => l.hasGroup || r.hasGroup
  | Expr.shiftExpr l _ r => l.hasGroup || r.hasGroup
  | Expr.thisExpr _ _ => false

/-- Whether one of the expressions of a sequence contains a group node. -/
def hasGroupList : List Expr → Bool
  | [] => false
  | e :: es => e.hasGroup || hasGroupList es

/-- Whether a key or a value of a map literal contains a group node. -/
def hasGroupItems : List (Expr × Expr) → Bool
  | [] => false
  | (k, v) :: rest => k.hasGroup || v.hasGroup || hasGroupItems rest

end

/-- An expression the folder leaves as it is and that contains no group node. -/
def Expr.Folded (e : Expr) : Prop := fold e = e ∧ e.hasGroup = false

/-- Equality of two values as the comparison computes it, over the heap of lists:
nil with nil; two numbers, two booleans or two strings of equal value; two lists of
the same length whose elements are equal at every index; a map with itself.  No
rule relates two callables or two instances. -/
inductive SameValue (lists : List (List RyValue)) : RyValue → RyValue → Prop
  | nil : SameValue lists RyValue.nil RyValue.nil
  | number (x : ℚ) : SameValue lists (RyValue.number x) (RyValue.number x)
  | bool (x : Bool) : SameValue lists (RyValue.bool x) (RyValue.bool x)
  | string (x : String) : SameValue lists (RyValue.string x) (RyValue.string x)
  | list (x y : Nat) (hlen : (lists.getD x []).length = (lists.getD y []).length)
      (helems : ∀ i, i < (lists.getD x []).length →
        SameValue lists ((lists.getD x []).getD i RyValue.nil)
          ((lists.getD y []).getD i RyValue.nil)) :
      SameValue lists (RyValue.list x) (RyValue.list y)
  | map (x : Nat) : SameValue lists (RyValue.map x) (RyValue.map x)

/-- The rank of a value under a ranking of the lists of the heap: one more than the
rank of the list for a list, zero for every other value. -/
def valueRank (rank : Nat → Nat) : RyValue → Nat
  | RyValue.list x => rank x + 1
  | _ => 0

/-- A heap of three lists: `[1, [true]]`, `[true]` and `[1, [true]]`, the inner
list being shared. -/
def nestedLists : List (List RyValue) :=
  [[RyValue.number 1, RyValue.list 1], [RyValue.bool true], [RyValue.number 1, RyValue.list 1]]

/-- A ranking of `nestedLists`: the inner list below the outer ones. -/
def nestedRank (x : Nat) : Nat := if x = 1 then 0 else 1

/-- Whether a resolver function has thrown. -/
def RRes.failed : RRes → Bool
  | RRes.raise _ _ _ => true
  | RRes.ok _ _ => false

/-- Whether the innermost scope of a scope stack contains a name. -/
def declaredIn (scopes : List (List (String × Bool))) (n : String) : Bool :=
  match scopes with
  | [] => false
  | scope :: _ => mapContains scope n

/-- A scope stack `b` has the scopes of `a`, unchanged below the innermost one, and
its innermost scope contains every name the innermost scope of `a` contains. -/
def ScopesGrow (a b : List (List (String × Bool))) : Prop :=
  b.length = a.length ∧ b.tail = a.tail ∧ ∀ n, declaredIn a n = true → declaredIn b n = true

/-- A resolver with two open scopes: the outer one defines `x`, the inner one
defines `y`. -/
def twoScopes : Resolver := { scopes := [[("y", true)], [("x", true)]] }

/-- A function whose parameter list names `a` twice. -/
def duplicateParameter : String := "func f(a, a) { }"

/-- A block that declares `x`, with an inner block that declares `x` again. -/
def shadowingBlock : String := "{ data x = 1 { data x = 2 out(x) } out(x) }"

/-- The environments reached from `r` by following enclosing links, `r` itself
left out: the scopes around `r`. -/
def enclosingChain (envs : List Environment) : Nat → Nat → List Nat
  | 0, _ => []
  | fuel + 1, r =>
    match envs[r]? with
    | none => []
    | some e =>
      match e.enclosing with
      | some p => p :: enclosingChain envs fuel p
      | none => []

/-! ## Unfolding lemmas for the evaluator -/

theorem evaluate_mathExpr (fuel : Nat) (l : Expr) (op : Token) (r : Expr) (st : Interp) :
    evaluate (fuel + 1) (Expr.mathExpr l op r) st =
      (visitMath fuel (evaluate fuel) l op r st).bind (fun _ st1 => Res.ok st1.lastResult st1) := by
  rfl

theorem evaluate_logicalExpr (fuel : Nat) (l : Expr) (op : Token) (r : Expr) (st : Interp) :
    evaluate (fuel + 1) (Expr.logicalExpr l op r) st =
      (visitLogical (evaluate fuel) l op r st).bind (fun _ st1 => Res.ok st1.lastResult st1) := by
  rfl

theorem evaluate_getExpr (fuel : Nat) (o : Expr) (name : Token) (st : Interp) :
    evaluate (fuel + 1) (Expr.getExpr o name) st =
      (visitGet (evaluate fuel) o name st).bind (fun _ st1 => Res.ok st1.lastResult st1) := by
  rfl

theorem evaluate_setExpr (fuel : Nat) (o : Expr) (name : Token) (v : Expr) (st : Interp) :
    evaluate (fuel + 1) (Expr.setExpr o name v) st =
      (visitSet (evaluate fuel) o name v st).bind (fun _ st1 => Res.ok st1.lastResult st1) := by
  rfl

/-- A binary operator node whose operands evaluate normally runs the operator body
of `visitMath` on their values. -/
theorem evaluate_math_ok (fuel : Nat) (A B : Expr) (op : Token) (st st1 st2 : Interp)
    (a b : RyValue) (hp : st.is_panicking = false)
    (hA : evaluate fuel A st = Res.ok a st1) (hB : evaluate fuel B st1 = Res.ok b st2) :
    evaluate (fuel + 1) (Expr.mathExpr A op B) st =
      (mathOp fuel op a b st2).bind (fun _ st3 => Res.ok st3.lastResult st3) := by
  rw [evaluate_mathExpr]
  simp [visitMath, hp, hA, hB, Res.bind]

/-- When an operand does not convert to a number the numeric switch is skipped. -/
theorem mathNumeric_of_none (fuel : Nat) (op : Token) (a b : RyValue) (st : Interp)
    (h : tryToDouble a = none ∨ tryToDouble b = none) :
    mathNumeric fuel op a b st = mathTail fuel op a b st := by
  unfold mathNumeric
  rcases h with h | h
  · rw [h]
  · rw [h]
    cases tryToDouble a <;> rfl

theorem instGetVariable_field (st : Interp) (I : Nat) (name : Token) (obj : RyInstance)
    (c : RyVariable) (hI : st.instances[I]? = some obj)
    (hc : mapFind obj.fields name.lexeme = some c) :
    instGetVariable st I name = Res.ok c st := by
  simp [instGetVariable, hI, hc]

theorem findMethod_unfold (C : RyClass) (m : String) :
    C.findMethod m =
      (match mapFind C.methods m with
       | some f => some f
       | none =>
         match C.superclass with
         | some P => P.findMethod m
         | none => none) := by
  cases C with
  | mk id name methods fields superclass =>
    cases superclass <;> simp only [RyClass.findMethod, RyClass.methods, RyClass.superclass]

theorem findMethod_ancestors : ∀ (C : RyClass) (m : String),
    C.findMethod m = C.ancestors.findSome? (fun K => mapFind K.methods m)
  | RyClass.mk id name methods fields none, m => by
    simp only [RyClass.findMethod, RyClass.ancestors, List.findSome?, RyClass.methods]
    cases mapFind methods m <;> rfl
  | RyClass.mk id name methods fields (some sup), m => by
    have ih := findMethod_ancestors sup m
    simp only [RyClass.findMethod, RyClass.ancestors, List.findSome?, RyClass.methods]
    cases mapFind methods m with
    | some f => rfl
    | none => simpa using ih

theorem flatten_replicate_comm {α : Type} (xs : List α) (n : Nat) :
    List.flatten (List.replicate n xs) ++ xs = xs ++ List.flatten (List.replicate n xs) := by
  induction n with
  | zero => simp
  | succ n ih => simp [List.replicate_succ, List.append_assoc, ih]

theorem repeatList_eq (xs : List RyValue) (n : Nat) : repeatList xs n = nFoldList xs n := by
  induction n with
  | zero => simp [repeatList, nFoldList]
  | succ n ih =>
    simp only [repeatList, ih, nFoldList, List.replicate_succ, List.flatten_cons]
    exact flatten_replicate_comm xs n

theorem repeatString_eq (s : String) (n : Nat) : repeatString s n = nFoldString s n := by
  induction n with
  | zero => simp [repeatString, nFoldString]
  | succ n ih =>
    simp only [repeatString, ih, nFoldString, List.replicate_succ, List.flatten_cons]
    apply String.ext
    simp only [String.data_append]
    exact flatten_replicate_comm s.data n

theorem toInt_natCast (k : Nat) (hk : k < 2 ^ 31) : toInt (k : ℚ) = (k : Int) := by
  have h0 : (0 : ℚ) ≤ (k : ℚ) := Nat.cast_nonneg k
  have ht : truncate (k : ℚ) = (k : Int) := by
    simp [truncate, h0]
  unfold toInt
  simp only [ht]
  have h1 : -(2 : Int) ^ 31 ≤ (k : Int) := by
    have : (0 : Int) ≤ (k : Int) := Int.natCast_nonneg k
    omega
  have h2 : (k : Int) < (2 : Int) ^ 31 := by
    have : ((k : Nat) : Int) < ((2 ^ 31 : Nat) : Int) := by exact_mod_cast hk
    simpa using this
  rw [if_pos ⟨h1, h2⟩]

theorem evaluate_callExpr (fuel : Nat) (callee : Expr) (args : List Expr) (paren : Token)
    (st : Interp) :
    evaluate (fuel + 1) (Expr.callExpr callee args paren) st =
      (visitCall fuel (evaluate fuel) (execute fuel) callee args paren st).bind
        (fun _ st1 => Res.ok st1.lastResult st1) := by
  rfl

/-- The folder keeps a division whose right operand has folded to a literal zero. -/
theorem foldMath_zero_divisor (l r : Expr) (op : Token) (rs : String)
    (hop : op.type = TokenType.DIVIDE) (hr : r.numberLiteral = some rs) (hz : stodValue rs = 0) :
    foldMath l op r = Expr.mathExpr l op r := by
  unfold foldMath
  simp only [hr, hop, hz]
  cases hl : l.numberLiteral <;> simp [hz]

theorem execute_attemptStmt (fuel : Nat) (a f : List Stmt) (error : Token) (fin : List Stmt)
    (errorType : Token) (st : Interp) :
    execute (fuel + 1) (Stmt.attemptStmt a f error fin errorType) st
      = visitAttemptStmt (execute fuel) a f error fin errorType st := by
  rfl

theorem bindInOrder_bind (ev : Expr → Interp → Res RyValue) (env : Nat) (args : List RyValue) :
    ∀ (ps : List Parameter) (i : Nat) (r : Res Unit),
      bindInOrder ev env args i ps r
        = r.bind (fun _ st => bindInOrder ev env args i ps (Res.ok () st))
  | [], i, r => by cases r <;> rfl
  | p :: ps, i, r => by
    cases r with
    | ok a st => rfl
    | raise t st =>
      simp only [bindInOrder, Res.bind]
      rw [bindInOrder_bind ev env args ps (i + 1) (Res.raise t st)]
      rfl
    | exited st =>
      simp only [bindInOrder, Res.bind]
      rw [bindInOrder_bind ev env args ps (i + 1) (Res.exited st)]
      rfl
    | crash =>
      simp only [bindInOrder, Res.bind]
      rw [bindInOrder_bind ev env args ps (i + 1) Res.crash]
      rfl
    | timeout =>
      simp only [bindInOrder, Res.bind]
      rw [bindInOrder_bind ev env args ps (i + 1) Res.timeout]
      rfl
    | unmodelled =>
      simp only [bindInOrder, Res.bind]
      rw [bindInOrder_bind ev env args ps (i + 1) Res.unmodelled]
      rfl

theorem bindParameters_drop (ev : Expr → Interp → Res RyValue) (env : Nat) (args : List RyValue) :
    ∀ (ps : List Parameter) (i : Nat) (st : Interp),
      bindParameters ev env ps (args.drop i) st = bindInOrder ev env args i ps (Res.ok () st)
  | [], i, st => by simp [bindParameters, bindInOrder]
  | p :: ps, i, st => by
    rw [bindInOrder, bindInOrder_bind]
    cases h : args.drop i with
    | nil =>
      have hi : args[i]? = none := by
        have := List.drop_eq_nil_iff.mp h
        simp [this]
      have hnext : args.drop (i + 1) = [] := by
        have := List.drop_eq_nil_iff.mp h
        exact List.drop_eq_nil_iff.mpr (by omega)
      simp only [bindParameters, hi, bindOne, Res.bind]
      cases hd : p.defaultValue with
      | none =>
        simp only []
        rw [← hnext, bindParameters_drop ev env args ps (i + 1) st]
      | some d =>
        simp only []
        cases hev : ev d st <;> simp only [Res.bind]
        rw [← hnext, bindParameters_drop ev env args ps (i + 1)]
    | cons a rest =>
      have hi : args[i]? = some a := by
        have := congrArg List.head? h
        simpa [List.head?_drop] using this
      have hnext : args.drop (i + 1) = rest := by
        have := congrArg List.tail h
        simpa [List.tail_drop] using this
      simp only [bindParameters, hi, bindOne, Res.bind]
      rw [← hnext, bindParameters_drop ev env args ps (i + 1)]

theorem mapFind_mapInsert_same {α : Type} (m : List (String × α)) (k : String) (v : α) :
    mapFind (mapInsert m k v) k = some v := by
  unfold mapInsert mapFind
  split
  · rename_i h
    have key : ∀ l : List (String × α), l.any (fun p => p.1 == k) = true →
        (l.map (fun p => if p.1 == k then (k, v) else p)).find? (fun p => p.1 == k)
          = some (k, v) := by
      intro l
      induction l with
      | nil => simp
      | cons p ps ih =>
        intro hany
        by_cases hp : p.1 = k
        · simp [hp]
        · have hany1 : ps.any (fun p => p.1 == k) = true := by simpa [hp] using hany
          have hpk : (p.1 == k) = false := by simpa using hp
          rw [List.map_cons, List.find?_cons]
          simp only [hpk, Bool.false_eq_true, if_false]
          exact ih hany1
    rw [key m h]
    rfl
  · rename_i h
    have hnone : m.find? (fun p => p.1 == k) = none := by
      simp only [Bool.not_eq_true, List.any_eq_false] at h
      exact List.find?_eq_none.mpr (by simpa using h)
    simp [List.find?_append, hnone]

theorem mapFind_mapInsert_other {α : Type} (m : List (String × α)) (k n : String) (v : α)
    (h : n ≠ k) : mapFind (mapInsert m k v) n = mapFind m n := by
  unfold mapInsert mapFind
  have hkn : (k == n) = false := by simpa using (Ne.symm h)
  split
  · have key : ∀ l : List (String × α),
        (l.map (fun p => if p.1 == k then (k, v) else p)).find? (fun p => p.1 == n)
          = l.find? (fun p => p.1 == n) := by
      intro l
      induction l with
      | nil => simp
      | cons p ps ih =>
        rw [List.map_cons, List.find?_cons, List.find?_cons, ih]
        by_cases hp : p.1 = k
        · have hpn : (p.1 == n) = false := by simpa [hp] using (Ne.symm h)
          have hpk : (p.1 == k) = true := by simpa using hp
          simp only [hpk, if_true, hkn, hpn]
        · have hpk : (p.1 == k) = false := by simpa using hp
          simp only [hpk, Bool.false_eq_true, if_false]
    rw [key m]
  · simp [List.find?_append, hkn]

theorem cell_envDefine_same (st : Interp) (env : Nat) (name : String) (v : RyVariable)
    (henv : env < st.envs.length) : (envDefine st env name v).cell? env name = some v := by
  unfold envDefine Interp.cell?
  have h : st.envs[env]? = some st.envs[env] := List.getElem?_eq_getElem henv
  simp [h, List.getElem?_set, henv, mapFind_mapInsert_same]

theorem cell_envDefine_other (st : Interp) (env : Nat) (name other : String) (v : RyVariable)
    (hne : other ≠ name) : (envDefine st env name v).cell? env other = st.cell? env other := by
  unfold envDefine Interp.cell?
  cases h : st.envs[env]? with
  | none => simp [h]
  | some e =>
    have henv : env < st.envs.length := by
      rcases List.getElem?_eq_some_iff.mp h with ⟨hlt, _⟩
      exact hlt
    simp [h, List.getElem?_set, henv, mapFind_mapInsert_other _ _ _ _ hne]

theorem envDefine_length (st : Interp) (env : Nat) (name : String) (v : RyVariable) :
    (envDefine st env name v).envs.length = st.envs.length := by
  unfold envDefine
  cases st.envs[env]? <;> simp


theorem bindParameters_cells (ev : Expr → Interp → Res RyValue) (env : Nat) :
    ∀ (params : List Parameter) (args : List RyValue) (st st' : Interp),
      env < st.envs.length →
      (params.map (fun p => p.name.lexeme)).Nodup →
      (∀ p ∈ params, ∀ d, p.defaultValue = some d →
        ∀ (s s1 : Interp) (v : RyValue), ev d s = Res.ok v s1 → s1.envs = s.envs) →
      bindParameters ev env params args st = Res.ok () st' →
      st'.envs.length = st.envs.length
      ∧ (∀ n, n ∉ params.map (fun p => p.name.lexeme) → st'.cell? env n = st.cell? env n)
      ∧ ∀ (i : Nat) (p : Parameter), params[i]? = some p →
          (∀ a, args[i]? = some a → st'.cell? env p.name.lexeme = some { value := a })
          ∧ (args[i]? = none → ∀ d, p.defaultValue = some d →
              ∃ (s s1 : Interp) (v : RyValue), ev d s = Res.ok v s1
                ∧ st'.cell? env p.name.lexeme = some { value := v })
          ∧ (args[i]? = none → p.defaultValue = none →
              st'.cell? env p.name.lexeme = st.cell? env p.name.lexeme)
  | [], args, st, st', _, _, _, h => by
    simp only [bindParameters, Res.ok.injEq, true_and] at h
    subst h
    simp
  | q :: ps, args, st, st', henv, hnodup, hpure, h => by
    have hq : q.name.lexeme ∉ ps.map (fun p => p.name.lexeme) := by
      simpa using (List.nodup_cons.mp hnodup).1
    have hps : (ps.map (fun p => p.name.lexeme)).Nodup := (List.nodup_cons.mp hnodup).2
    have hpure' : ∀ p ∈ ps, ∀ d, p.defaultValue = some d →
        ∀ (s s1 : Interp) (v : RyValue), ev d s = Res.ok v s1 → s1.envs = s.envs :=
      fun p hp => hpure p (List.mem_cons_of_mem q hp)
    -- the state after the first parameter, and what it did to the cell of `q`
    have step : ∃ st1 : Interp, ∃ rest : List RyValue,
        bindParameters ev env ps rest st1 = Res.ok () st' ∧ rest = args.tail
        ∧ st1.envs.length = st.envs.length
        ∧ (∀ n, n ≠ q.name.lexeme → st1.cell? env n = st.cell? env n)
        ∧ (∀ a, args[0]? = some a → st1.cell? env q.name.lexeme = some { value := a })
        ∧ (args[0]? = none → ∀ d, q.defaultValue = some d →
            ∃ (s s1 : Interp) (v : RyValue), ev d s = Res.ok v s1
              ∧ st1.cell? env q.name.lexeme = some { value := v })
        ∧ (args[0]? = none → q.defaultValue = none →
            st1.cell? env q.name.lexeme = st.cell? env q.name.lexeme) := by
      cases args with
      | cons a rest =>
        refine ⟨envDefine st env q.name.lexeme { value := a }, rest, by simpa [bindParameters] using h,
          rfl, envDefine_length _ _ _ _, ?_, ?_, ?_, ?_⟩
        · intro n hn
          exact cell_envDefine_other st env _ n _ hn
        · intro a' ha'
          have : a = a' := by simpa using ha'
          subst this
          exact cell_envDefine_same st env _ _ henv
        · intro hnone
          simp at hnone
        · intro hnone
          simp at hnone
      | nil =>
        cases hd : q.defaultValue with
        | none =>
          refine ⟨st, [], by simpa [bindParameters, hd] using h, rfl, rfl, fun _ _ => rfl, ?_, ?_,
            fun _ _ => rfl⟩
          · intro a ha
            simp at ha
          · intro _ d hd'
            simp at hd'
        | some d =>
          simp only [bindParameters, hd] at h
          cases hev : ev d st with
          | ok v s1 =>
            simp only [hev, Res.bind] at h
            have henvs : s1.envs = st.envs := hpure q (List.mem_cons_self q ps) d hd st s1 v hev
            have henv1 : env < s1.envs.length := by rw [henvs]; exact henv
            refine ⟨envDefine s1 env q.name.lexeme { value := v }, [], h, rfl, ?_, ?_, ?_, ?_, ?_⟩
            · rw [envDefine_length, henvs]
            · intro n hn
              rw [cell_envDefine_other s1 env _ n _ hn]
              simp [Interp.cell?, henvs]
            · intro a ha
              simp at ha
            · intro _ d' hd'
              have : d = d' := by simpa using hd'
              subst this
              exact ⟨st, s1, v, hev, cell_envDefine_same s1 env _ _ henv1⟩
            · intro _ hd'
              simp at hd'
          | raise t s1 => simp [hev, Res.bind] at h
          | exited s1 => simp [hev, Res.bind] at h
          | crash => simp [hev, Res.bind] at h
          | timeout => simp [hev, Res.bind] at h
          | unmodelled => simp [hev, Res.bind] at h
    obtain ⟨st1, rest, hrest, hrest_eq, hlen1, hother1, harg1, hdef1, hnone1⟩ := step
    have henv1 : env < st1.envs.length := by rw [hlen1]; exact henv
    obtain ⟨hlen, hout, hin⟩ :=
      bindParameters_cells ev env ps rest st1 st' henv1 hps hpure' hrest
    have hkeep : st'.cell? env q.name.lexeme = st1.cell? env q.name.lexeme := hout _ hq
    refine ⟨by rw [hlen, hlen1], ?_, ?_⟩
    · intro n hn
      have hn1 : n ≠ q.name.lexeme := by
        intro heq
        exact hn (by simp [heq])
      have hn2 : n ∉ ps.map (fun p => p.name.lexeme) := by
        intro hmem
        exact hn (by simp only [List.map_cons, List.mem_cons]; exact Or.inr hmem)
      rw [hout n hn2, hother1 n hn1]
    · intro i p hp
      cases i with
      | zero =>
        have : q = p := by simpa using hp
        subst this
        refine ⟨fun a ha => ?_, fun hnone d hd => ?_, fun hnone hd => ?_⟩
        · rw [hkeep]; exact harg1 a ha
        · obtain ⟨s, s1, v, hev, hcell⟩ := hdef1 hnone d hd
          exact ⟨s, s1, v, hev, by rw [hkeep]; exact hcell⟩
        · rw [hkeep]; exact hnone1 hnone hd
      | succ j =>
        have hp' : ps[j]? = some p := by simpa using hp
        have hargs : args[j + 1]? = rest[j]? := by
          rw [hrest_eq]
          cases args <;> simp
        obtain ⟨h1, h2, h3⟩ := hin j p hp'
        have hpq : p.name.lexeme ≠ q.name.lexeme := by
          intro heq
          apply hq
          rw [← heq]
          exact List.mem_map.mpr ⟨p, List.getElem?_mem hp', rfl⟩
        refine ⟨fun a ha => h1 a (by rw [← hargs]; exact ha),
          fun hnone d hd => h2 (by rw [← hargs]; exact hnone) d hd, fun hnone hd => ?_⟩
        rw [h3 (by rw [← hargs]; exact hnone) hd, hother1 _ hpq]

/-- A number literal evaluates to the number `stod` reads from its text. -/
theorem evaluate_number (fuel : Nat) (t : Token) (st : Interp) (d : ℚ) (k : Nat)
    (hp : st.is_panicking = false) (ht : t.type = TokenType.NUMBER)
    (hs : stod t.lexeme = Stod.value (Double.finite d) k) :
    evaluate (fuel + 1) (Expr.valueExpr t) st
      = Res.ok (RyValue.number d) { st with lastResult := RyValue.number d } := by
  simp [evaluate, visitValue, hp, ht, hs, setResult, Res.bind]

/-- A variable annotated with a distance reads the cell of the environment that
many links up, when the name is defined there and not private. -/
theorem evaluate_local (fuel id : Nat) (name : Token) (st : Interp) (distance : Int)
    (e : Environment) (c : RyVariable) (hp : st.is_panicking = false)
    (hl : st.locals.lookup id = some distance) (hd : distance ≠ -1)
    (he : st.envs[ancestor st.envs distance.toNat st.environment]? = some e)
    (hc : mapFind e.values name.lexeme = some c) (hpriv : c.isPrivate = false) :
    evaluate (fuel + 1) (Expr.variableExpr id name) st
      = Res.ok c.value { st with lastResult := c.value } := by
  simp [evaluate, visitVariable, hp, hl, hd, envGetAt, he, hc, hpriv, setResult, Res.bind]

/-- A variable without a distance reads the cell found from the global
environment. -/
theorem evaluate_global (fuel id : Nat) (name : Token) (st : Interp) (r : Nat) (c : RyVariable)
    (hp : st.is_panicking = false)
    (hl : st.locals.lookup id = some (-1) ∨ st.locals.lookup id = none)
    (hc : findCell st.envs st.envs.length st.globals name.lexeme = some (r, c)) :
    evaluate (fuel + 1) (Expr.variableExpr id name) st
      = Res.ok c.value { st with lastResult := c.value } := by
  rcases hl with hl | hl <;>
    simp [evaluate, visitVariable, hp, hl, envGetVariable, hc, setResult, Res.bind]

/-- On two numbers the operator body of `visitMath` is the numeric switch. -/
theorem mathOp_numbers (fuel : Nat) (op : Token) (a b : ℚ) (st : Interp) (r : Res Unit)
    (h : numericOp op a b st = some r) :
    mathOp fuel op (RyValue.number a) (RyValue.number b) st = r := by
  simp [mathOp, RyValue.isString, RyValue.isList, mathNumeric, numericSwitch, tryToDouble, h]

/-- A call whose callee evaluates to a user function and whose argument count fits
runs the function and leaves its result in `lastResult`. -/
theorem evaluate_call_function (fuel : Nat) (callee : Expr) (args : List Expr) (paren : Token)
    (st st1 st2 st3 : Interp) (f : Nat) (fn : RyFunction) (vals : List RyValue) (v : RyValue)
    (hp : st.is_panicking = false)
    (hcallee : evaluate fuel callee st = Res.ok (RyValue.func f) st1)
    (hargs : evalList (evaluate fuel) args st1 = Res.ok vals st2)
    (hfn : st2.callables[f]? = some (RyCallable.function fn))
    (hmin : fn.arity ≤ (vals.length : Int))
    (hmax : (vals.length : Int) ≤ (fn.declaration.parameters.length : Int))
    (hcall : callFunction (evaluate fuel) (execute fuel) fn vals st2 = Res.ok v st3) :
    evaluate (fuel + 1) (Expr.callExpr callee args paren) st
      = Res.ok v { st3 with lastResult := v } := by
  rw [evaluate_callExpr]
  have hcond : ¬ (fn.arity != -1 ∧ ((vals.length : Int) < fn.arity
      ∨ (vals.length : Int) > (fn.declaration.parameters.length : Int))) := by
    rintro ⟨_, h | h⟩ <;> omega
  simp only [visitCall, hp, Bool.false_eq_true, if_false, hcallee, Res.bind, hargs, hfn,
    RyCallable.arity, callCallable, hcall, setResult]
  rw [if_neg hcond]
/-- A `return` with a value throws the return signal carrying it. -/
theorem execute_return (fuel : Nat) (keyword : Token) (e : Expr) (st st1 : Interp) (v : RyValue)
    (hp : st.is_panicking = false) (he : evaluate fuel e st = Res.ok v st1) :
    execute (fuel + 1) (Stmt.returnStmt keyword (some e)) st
      = Res.raise (Thrown.returnSignal v) st1 := by
  simp [execute, visitReturnStmt, hp, he, Res.bind]

/-- A block runs its statements in a new environment linked to the current one and
restores the current one afterwards. -/
theorem execute_block (fuel : Nat) (statements : List Stmt) (st : Interp)
    (hp : st.is_panicking = false) :
    execute (fuel + 1) (Stmt.blockStmt statements) st
      = restoreEnvironment st.environment
          (executeStmts (execute fuel) statements
            { st with envs := st.envs ++ [{ enclosing := some st.environment }],
                      environment := st.envs.length }) := by
  simp [execute, visitBlockStmt, hp, newEnv, executeBlock]

/-- An `if` whose condition is truthy runs its first branch. -/
theorem execute_if_true (fuel : Nat) (c : Expr) (t : Stmt) (e : Option Stmt) (st st1 : Interp)
    (v : RyValue) (hp : st.is_panicking = false) (hc : evaluate fuel c st = Res.ok v st1)
    (hv : isTruthy v = true) :
    execute (fuel + 1) (Stmt.ifStmt c t e) st = execute fuel t st1 := by
  simp [execute, visitIfStmt, hp, hc, Res.bind, hv]

/-- An `if` without `else` whose condition is not truthy does nothing more. -/
theorem execute_if_false (fuel : Nat) (c : Expr) (t : Stmt) (st st1 : Interp)
    (v : RyValue) (hp : st.is_panicking = false) (hc : evaluate fuel c st = Res.ok v st1)
    (hv : isTruthy v = false) :
    execute (fuel + 1) (Stmt.ifStmt c t none) st = Res.ok () st1 := by
  simp [execute, visitIfStmt, hp, hc, Res.bind, hv]

theorem getElem?_append_cons_length {α : Type} (l : List α) (a : α) (x : List α) :
    (l ++ a :: x)[l.length]? = some a := by
  induction l with
  | nil => simp
  | cons b l ih => simpa using ih

theorem grown_grown (st : Interp) (x y : List Environment) (e e1 : Nat) (v v1 : RyValue) :
    (st.grown x e v).grown y e1 v1 = st.grown (x ++ y) e1 v1 := by
  simp [Interp.grown]

theorem fibReady_grown (st : Interp) (h : FibReady st) (x : List Environment) (e : Nat)
    (v : RyValue) : FibReady (st.grown x e v) := by
  obtain ⟨h1, h2, h3, ⟨g, hg, hfib⟩, h5⟩ := h
  refine ⟨h1, h2, h3, ⟨g, ?_, hfib⟩, h5⟩
  show (st.envs ++ x)[0]? = some g
  cases hE : st.envs with
  | nil => rw [hE] at hg; simp at hg
  | cons a rest => rw [hE] at hg; simpa using hg

/-- In a state that is ready the global `fib` evaluates to callable 9. -/
theorem evaluate_fib_name (fuel id : Nat) (t : Token) (st : Interp) (h : FibReady st)
    (hid : fibLocals.lookup id = some (-1)) (ht : t.lexeme = "fib") :
    evaluate (fuel + 1) (Expr.variableExpr id t) st
      = Res.ok (RyValue.func 9) { st with lastResult := RyValue.func 9 } := by
  obtain ⟨h1, h2, h3, ⟨g, hg, hfib⟩, _⟩ := h
  have hc : findCell st.envs st.envs.length st.globals t.lexeme
      = some (0, { value := RyValue.func 9 }) := by
    rw [h3, ht]
    cases hE : st.envs with
    | nil => rw [hE] at hg; simp at hg
    | cons a rest =>
      rw [hE] at hg
      simp at hg
      subst hg
      simp [findCell, hfib]
  exact evaluate_global fuel id t st 0 _ h1 (Or.inl (by rw [h2]; exact hid)) hc

/-- Inside a call of `fib` with argument `n` the variable `n` at distance 0 reads
the argument. -/
theorem evaluate_fib_argument (fuel id : Nat) (t : Token) (st : Interp) (h : FibReady st)
    (n : Nat) (x : List Environment) (v : RyValue)
    (hid : fibLocals.lookup id = some 0) (ht : t.lexeme = "n") :
    evaluate (fuel + 1) (Expr.variableExpr id t) (st.grown (fibFrame n :: x) st.envs.length v)
      = Res.ok (RyValue.number (n : ℚ))
          (st.grown (fibFrame n :: x) st.envs.length (RyValue.number (n : ℚ))) := by
  have hr := fibReady_grown st h (fibFrame n :: x) st.envs.length v
  have := evaluate_local fuel id t (st.grown (fibFrame n :: x) st.envs.length v) 0
    (fibFrame n) { value := RyValue.number (n : ℚ) } hr.1 (by rw [hr.2.1]; exact hid) (by decide)
    (by simp only [Interp.grown, ancestor, Int.toNat_zero]
        exact getElem?_append_cons_length _ _ _) (by rw [ht]; simp [fibFrame, mapFind]) rfl
  exact this

/-- The names among the tokens of the Fibonacci script. -/
theorem fibToken_names :
    (fibToken 3).lexeme = "n" ∧ (fibToken 7).lexeme = "n" ∧ (fibToken 12).lexeme = "n"
    ∧ (fibToken 17).lexeme = "n" ∧ (fibToken 24).lexeme = "n"
    ∧ (fibToken 15).lexeme = "fib" ∧ (fibToken 22).lexeme = "fib"
    ∧ (fibToken 31).lexeme = "fib" ∧ (fibToken 29).lexeme = "out" := by
  decide!

/-- The operators among the tokens of the Fibonacci script. -/
theorem fibToken_operators :
    (fibToken 8).type = TokenType.LESS ∧ (fibToken 18).type = TokenType.MINUS
    ∧ (fibToken 25).type = TokenType.MINUS ∧ (fibToken 21).type = TokenType.PLUS := by
  decide!

/-- The number literals among the tokens of the Fibonacci script. -/
theorem fibToken_numbers :
    ((fibToken 9).type = TokenType.NUMBER ∧ stod (fibToken 9).lexeme = Stod.value (Double.finite 2) 1)
    ∧ ((fibToken 19).type = TokenType.NUMBER ∧ stod (fibToken 19).lexeme = Stod.value (Double.finite 1) 1)
    ∧ ((fibToken 26).type = TokenType.NUMBER ∧ stod (fibToken 26).lexeme = Stod.value (Double.finite 2) 1)
    ∧ ((fibToken 33).type = TokenType.NUMBER ∧ stod (fibToken 33).lexeme = Stod.value (Double.finite 10) 2) := by
  decide!

/-- A call that binds its parameters, runs into a `return` and declares no return
type hands back the returned value in the environment of the caller. -/
theorem callFunction_returns (ev : Expr → Interp → Res RyValue) (ex : Stmt → Interp → Res Unit)
    (f : RyFunction) (args : List RyValue) (st st1 st2 : Interp) (v : RyValue)
    (hbind : bindParameters ev st.envs.length f.declaration.parameters args
      { (newEnv st (some f.closure)).2 with environment := st.envs.length } = Res.ok () st1)
    (hbody : executeStmts ex f.declaration.body { st1 with environment := st.envs.length }
      = Res.raise (Thrown.returnSignal v) st2)
    (halias : f.declaration.returnTypeAlias = none) (hinit : f.isInitializer = false) :
    callFunction ev ex f args st = Res.ok v { st2 with environment := st.environment } := by
  unfold callFunction
  simp only [newEnv] at hbind ⊢
  simp only [hbind, executeBlock, hbody, restoreEnvironment, Res.bind, halias, hinit]
  cases v <;> simp

/-- Inside a call of `fib` with argument `n`, a binary operator between the
variable `n` and a number literal that the numeric switch handles. -/
theorem evaluate_fib_binary (fuel id : Nat) (tn op tk : Token) (st : Interp) (h : FibReady st)
    (n : Nat) (x : List Environment) (v : RyValue) (k : ℚ) (j : Nat) (w : RyValue)
    (hid : fibLocals.lookup id = some 0) (htn : tn.lexeme = "n")
    (htk : tk.type = TokenType.NUMBER) (hk : stod tk.lexeme = Stod.value (Double.finite k) j)
    (hop : ∀ S : Interp, numericOp op (n : ℚ) k S = some (setResult S w)) :
    evaluate (fuel + 2) (Expr.mathExpr (Expr.variableExpr id tn) op (Expr.valueExpr tk))
        (st.grown (fibFrame n :: x) st.envs.length v)
      = Res.ok w (st.grown (fibFrame n :: x) st.envs.length w) := by
  have hr := fibReady_grown st h (fibFrame n :: x) st.envs.length v
  rw [evaluate_math_ok (fuel + 1) _ _ op _ _ _ _ _ hr.1
    (evaluate_fib_argument fuel id tn st h n x v hid htn)
    (evaluate_number fuel tk _ k j (fibReady_grown st h _ _ _).1 htk hk)]
  rw [mathOp_numbers _ _ _ _ _ _ (hop _)]
  rfl

/-- Binding the argument of a call of `fib` gives the frame of the call. -/
theorem fib_bind (ev : Expr → Interp → Res RyValue) (st : Interp) (n : Nat) :
    bindParameters ev st.envs.length fibFunction.declaration.parameters
        [RyValue.number (n : ℚ)]
        { (newEnv st (some fibFunction.closure)).2 with environment := st.envs.length }
      = Res.ok () (st.grown [fibFrame n] st.envs.length st.lastResult) := by
  have hset : ∀ (l : List Environment) (a b : Environment),
      (l ++ [a]).set l.length b = l ++ [b] := by
    intro l a b
    induction l with
    | nil => rfl
    | cons c l ih => simp [ih]
  simp [fibFunction, fibDeclaration, FunctionStmt.parameters, bindParameters, newEnv, envDefine,
    fibToken_names.1, Interp.grown, fibFrame, mapInsert, hset]

/-- The condition `n < 2` inside a call of `fib` with argument `n`. -/
theorem fib_condition (fuel : Nat) (st : Interp) (h : FibReady st) (n : Nat) (v : RyValue) :
    evaluate (fuel + 2)
        (Expr.mathExpr (Expr.variableExpr 1 (fibToken 7)) (fibToken 8) (Expr.valueExpr (fibToken 9)))
        (st.grown [fibFrame n] st.envs.length v)
      = Res.ok (RyValue.bool (decide (n < 2)))
          (st.grown [fibFrame n] st.envs.length (RyValue.bool (decide (n < 2)))) := by
  have hlt : decide ((n : ℚ) < 2) = decide (n < 2) := by
    have : ((n : ℚ) < 2) ↔ n < 2 := by exact_mod_cast Iff.rfl
    simp [this]
  exact evaluate_fib_binary fuel 1 _ _ _ st h n [] v 2 1 _ rfl fibToken_names.2.1
    fibToken_numbers.1.1 fibToken_numbers.1.2
    (fun S => by simp [numericOp, fibToken_operators.1, hlt])

/-- The argument `n - k` of a recursive call inside a call of `fib` with argument
`n`, for `k` at most `n`. -/
theorem fib_difference (fuel id : Nat) (tn op tk : Token) (st : Interp) (h : FibReady st)
    (n k j : Nat) (x : List Environment) (v : RyValue) (hk : k ≤ n)
    (hid : fibLocals.lookup id = some 0) (htn : tn.lexeme = "n")
    (hop : op.type = TokenType.MINUS)
    (htk : tk.type = TokenType.NUMBER ∧ stod tk.lexeme = Stod.value (Double.finite (k : ℚ)) j) :
    evaluate (fuel + 2) (Expr.mathExpr (Expr.variableExpr id tn) op (Expr.valueExpr tk))
        (st.grown (fibFrame n :: x) st.envs.length v)
      = Res.ok (RyValue.number ((n - k : Nat) : ℚ))
          (st.grown (fibFrame n :: x) st.envs.length (RyValue.number ((n - k : Nat) : ℚ))) := by
  exact evaluate_fib_binary fuel id _ _ _ st h n x v k j _ hid htn htk.1 htk.2
    (fun S => by simp [numericOp, hop, Nat.cast_sub hk])

/-- The branch `{ return n }` inside a call of `fib` with argument `n`. -/
theorem fib_base_branch (fuel : Nat) (st : Interp) (h : FibReady st) (n : Nat) (v : RyValue) :
    execute (fuel + 3)
        (Stmt.blockStmt [Stmt.returnStmt (fibToken 11) (some (Expr.variableExpr 2 (fibToken 12)))])
        (st.grown [fibFrame n] st.envs.length v)
      = Res.raise (Thrown.returnSignal (RyValue.number (n : ℚ)))
          (st.grown [fibFrame n, { enclosing := some st.envs.length }] st.envs.length
            (RyValue.number (n : ℚ))) := by
  have hr := fibReady_grown st h [fibFrame n] st.envs.length v
  have hr2 := fibReady_grown st h [fibFrame n, { enclosing := some st.envs.length }]
    (st.envs.length + 1) v
  have hread := evaluate_local fuel 2 (fibToken 12)
    (st.grown [fibFrame n, { enclosing := some st.envs.length }] (st.envs.length + 1) v) 1
    (fibFrame n) { value := RyValue.number (n : ℚ) } hr2.1 (by rw [hr2.2.1]; rfl) (by decide)
    (by
      have h1 : (st.envs ++ [fibFrame n, { enclosing := some st.envs.length }])[st.envs.length + 1]?
          = some { enclosing := some st.envs.length } := by
        have := getElem?_append_cons_length (st.envs ++ [fibFrame n])
          ({ enclosing := some st.envs.length } : Environment) []
        simpa using this
      have h0 := getElem?_append_cons_length st.envs (fibFrame n)
        [({ enclosing := some st.envs.length } : Environment)]
      show (st.envs ++ [fibFrame n, { enclosing := some st.envs.length }])[
        ancestor (st.envs ++ [fibFrame n, { enclosing := some st.envs.length }]) (1 : Int).toNat
          (st.envs.length + 1)]? = some (fibFrame n)
      have h1n : (1 : Int).toNat = 1 := rfl
      rw [h1n]
      simp only [ancestor, h1]
      exact h0)
    (by rw [fibToken_names.2.2.1]; simp [fibFrame, mapFind]) rfl
  have hexec := execute_return (fuel + 1) (fibToken 11) _ _ _ _ hr2.1 hread
  rw [execute_block (fuel + 2) _ _ hr.1]
  simp only [executeStmts]
  have hstate : ({ st.grown [fibFrame n] st.envs.length v with
        envs := (st.grown [fibFrame n] st.envs.length v).envs
          ++ [{ enclosing := some (st.grown [fibFrame n] st.envs.length v).environment }],
        environment := (st.grown [fibFrame n] st.envs.length v).envs.length } : Interp)
      = st.grown [fibFrame n, { enclosing := some st.envs.length }] (st.envs.length + 1) v := by
    simp [Interp.grown]
  rw [hstate, hexec]
  rfl

/-- The recurrence of the Fibonacci numbers in the rationals. -/
theorem fib_recurrence (n : Nat) (hn : 2 ≤ n) :
    ((Nat.fib (n - 1) : Nat) : ℚ) + ((Nat.fib (n - 2) : Nat) : ℚ) = ((Nat.fib n : Nat) : ℚ) := by
  obtain ⟨m, rfl⟩ : ∃ m, n = m + 2 := ⟨n - 2, by omega⟩
  have : Nat.fib (m + 2) = Nat.fib m + Nat.fib (m + 1) := Nat.fib_add_two
  simp only [Nat.add_sub_cancel, show m + 2 - 1 = m + 1 from rfl, this]
  push_cast
  ring

theorem fibFunction_arity : fibFunction.arity = 1 := by decide!

theorem fibFunction_parameters : fibFunction.declaration.parameters.length = 1 := by decide!

/-- A recursive call `fib(n - k)` inside a call of `fib` with argument `n`, given
what the call of `fib` on `n - k` does from the state reached after the
arguments. -/
theorem fib_recursive_call (g id1 id2 : Nat) (tf tn op tk paren : Token) (st : Interp)
    (h : FibReady st) (n k j : Nat) (x extra : List Environment) (v : RyValue) (hk : k ≤ n)
    (hid1 : fibLocals.lookup id1 = some (-1)) (htf : tf.lexeme = "fib")
    (hid2 : fibLocals.lookup id2 = some 0) (htn : tn.lexeme = "n")
    (hop : op.type = TokenType.MINUS)
    (htk : tk.type = TokenType.NUMBER ∧ stod tk.lexeme = Stod.value (Double.finite (k : ℚ)) j)
    (hcall : callFunction (evaluate (g + 5)) (execute (g + 5)) fibFunction
        [RyValue.number ((n - k : Nat) : ℚ)]
        (st.grown (fibFrame n :: x) st.envs.length (RyValue.number ((n - k : Nat) : ℚ)))
      = Res.ok (RyValue.number (Nat.fib (n - k) : ℚ))
          ((st.grown (fibFrame n :: x) st.envs.length (RyValue.number ((n - k : Nat) : ℚ))).grown
            extra st.envs.length (RyValue.number (Nat.fib (n - k) : ℚ)))) :
    evaluate (g + 6)
        (Expr.callExpr (Expr.variableExpr id1 tf)
          [Expr.mathExpr (Expr.variableExpr id2 tn) op (Expr.valueExpr tk)] paren)
        (st.grown (fibFrame n :: x) st.envs.length v)
      = Res.ok (RyValue.number (Nat.fib (n - k) : ℚ))
          (st.grown (fibFrame n :: (x ++ extra)) st.envs.length
            (RyValue.number (Nat.fib (n - k) : ℚ))) := by
  have hr := fibReady_grown st h (fibFrame n :: x) st.envs.length
  have hcallee := evaluate_fib_name (g + 4) id1 tf _ (hr v) hid1 htf
  have harg := fib_difference (g + 3) id2 tn op tk st h n k j x (RyValue.func 9) hk hid2 htn hop htk
  have hargs : evalList (evaluate (g + 5))
      [Expr.mathExpr (Expr.variableExpr id2 tn) op (Expr.valueExpr tk)]
      (st.grown (fibFrame n :: x) st.envs.length (RyValue.func 9))
      = Res.ok [RyValue.number ((n - k : Nat) : ℚ)]
          (st.grown (fibFrame n :: x) st.envs.length (RyValue.number ((n - k : Nat) : ℚ))) := by
    simp only [evalList, harg, Res.bind]
  have hfn := (hr (RyValue.number ((n - k : Nat) : ℚ))).2.2.2.2
  have := evaluate_call_function (g + 5) (Expr.variableExpr id1 tf)
    [Expr.mathExpr (Expr.variableExpr id2 tn) op (Expr.valueExpr tk)] paren
    (st.grown (fibFrame n :: x) st.envs.length v) _ _ _ 9 fibFunction _ _ (hr v).1 hcallee hargs hfn
    (by rw [fibFunction_arity]; simp) (by rw [fibFunction_parameters]; simp) hcall
  rw [this]
  simp [Interp.grown]

/-- Every call of `fib` on a natural number returns: with enough fuel, from a state
that is ready, the call with argument `n` returns the `n`-th Fibonacci number,
back in the environment of the caller, having only allocated environments. -/
theorem callFunction_fib (n : Nat) : ∀ (fuel : Nat) (st : Interp), 3 * n ≤ fuel → FibReady st →
    ∃ extra, callFunction (evaluate (fuel + 5)) (execute (fuel + 5)) fibFunction
        [RyValue.number (n : ℚ)] st
      = Res.ok (RyValue.number (Nat.fib n : ℚ))
          (st.grown extra st.environment (RyValue.number (Nat.fib n : ℚ))) := by
  induction n using Nat.strong_induction_on with
  | _ n ih =>
    intro fuel st hfuel hst
    have hr := fibReady_grown st hst [fibFrame n] st.envs.length
    have hcond := fib_condition (fuel + 2) st hst n st.lastResult
    by_cases hn : n < 2
    · have hif := execute_if_true (fuel + 4) _
        (Stmt.blockStmt
          [Stmt.returnStmt (fibToken 11) (some (Expr.variableExpr 2 (fibToken 12)))])
        none _ _ _ (hr st.lastResult).1 hcond (by simp [isTruthy, hn])
      have hbranch := fib_base_branch (fuel + 1) st hst n (RyValue.bool (decide (n < 2)))
      have hfib : Nat.fib n = n := by interval_cases n <;> rfl
      have hbody : executeStmts (execute (fuel + 5)) fibBody
          (st.grown [fibFrame n] st.envs.length st.lastResult)
          = Res.raise (Thrown.returnSignal (RyValue.number (n : ℚ)))
              (st.grown [fibFrame n, { enclosing := some st.envs.length }] st.envs.length
                (RyValue.number (n : ℚ))) := by
        simp only [fibBody, executeStmts, hif, hbranch, Res.bind]
      refine ⟨[fibFrame n, { enclosing := some st.envs.length }], ?_⟩
      rw [hfib, callFunction_returns _ _ fibFunction _ st _ _ (RyValue.number (n : ℚ))
        (fib_bind _ st n) hbody rfl rfl]
      rfl
    · obtain ⟨g, rfl⟩ : ∃ g, fuel = g + 3 := ⟨fuel - 3, by omega⟩
      have hdec : decide (n < 2) = false := by simp [hn]
      rw [hdec] at hcond
      have hif := execute_if_false (g + 3 + 4) _
        (Stmt.blockStmt
          [Stmt.returnStmt (fibToken 11) (some (Expr.variableExpr 2 (fibToken 12)))])
        _ _ _ (hr st.lastResult).1 hcond rfl
      obtain ⟨extra1, h1⟩ := ih (n - 1) (by omega) g
        (st.grown [fibFrame n] st.envs.length (RyValue.number ((n - 1 : Nat) : ℚ))) (by omega)
        (hr _)
      obtain ⟨extra2, h2⟩ := ih (n - 2) (by omega) g
        (st.grown (fibFrame n :: extra1) st.envs.length (RyValue.number ((n - 2 : Nat) : ℚ)))
        (by omega) (fibReady_grown st hst _ _ _)
      have hcall1 : evaluate (g + 6)
          (Expr.callExpr (Expr.variableExpr 3 (fibToken 15))
            [Expr.mathExpr (Expr.variableExpr 4 (fibToken 17)) (fibToken 18)
              (Expr.valueExpr (fibToken 19))]
            (fibToken 20))
          (st.grown [fibFrame n] st.envs.length (RyValue.bool false))
          = Res.ok (RyValue.number (Nat.fib (n - 1) : ℚ))
              (st.grown (fibFrame n :: extra1) st.envs.length
                (RyValue.number (Nat.fib (n - 1) : ℚ))) :=
        fib_recursive_call g 3 4 (fibToken 15) (fibToken 17) (fibToken 18)
          (fibToken 19) (fibToken 20) st hst n 1 1 [] extra1 (RyValue.bool false) (by omega) rfl
          fibToken_names.2.2.2.2.2.1 rfl fibToken_names.2.2.2.1 fibToken_operators.2.1
          fibToken_numbers.2.1 h1
      have hcall2 := fib_recursive_call g 5 6 (fibToken 22) (fibToken 24) (fibToken 25)
        (fibToken 26) (fibToken 27) st hst n 2 1 extra1 extra2
        (RyValue.number (Nat.fib (n - 1) : ℚ)) (by omega) rfl
        fibToken_names.2.2.2.2.2.2.1 rfl fibToken_names.2.2.2.2.1 fibToken_operators.2.2.1
        fibToken_numbers.2.2.1 h2
      have hsum := evaluate_math_ok (g + 6) _ _ (fibToken 21) _ _ _ _ _
        (hr (RyValue.bool false)).1 hcall1 hcall2
      have hplus := mathOp_numbers (g + 6) (fibToken 21) (Nat.fib (n - 1) : ℚ)
        (Nat.fib (n - 2) : ℚ)
        (st.grown (fibFrame n :: (extra1 ++ extra2)) st.envs.length
          (RyValue.number (Nat.fib (n - 2) : ℚ)))
        (setResult
          (st.grown (fibFrame n :: (extra1 ++ extra2)) st.envs.length
            (RyValue.number (Nat.fib (n - 2) : ℚ)))
          (RyValue.number ((Nat.fib (n - 1) : ℚ) + (Nat.fib (n - 2) : ℚ))))
        (by simp [numericOp, fibToken_operators.2.2.2])
      rw [hplus, fib_recurrence n (by omega)] at hsum
      have hsum2 : evaluate (g + 7)
          (Expr.mathExpr
            (Expr.callExpr (Expr.variableExpr 3 (fibToken 15))
              [Expr.mathExpr (Expr.variableExpr 4 (fibToken 17)) (fibToken 18)
                (Expr.valueExpr (fibToken 19))]
              (fibToken 20))
            (fibToken 21)
            (Expr.callExpr (Expr.variableExpr 5 (fibToken 22))
              [Expr.mathExpr (Expr.variableExpr 6 (fibToken 24)) (fibToken 25)
                (Expr.valueExpr (fibToken 26))]
              (fibToken 27)))
          (st.grown [fibFrame n] st.envs.length (RyValue.bool false))
          = Res.ok (RyValue.number (Nat.fib n : ℚ))
              (st.grown (fibFrame n :: (extra1 ++ extra2)) st.envs.length
                (RyValue.number (Nat.fib n : ℚ))) := hsum
      have hret := execute_return (g + 7) (fibToken 14) _ _ _ _ (hr (RyValue.bool false)).1 hsum2
      have hbody : executeStmts (execute (g + 8)) fibBody
          (st.grown [fibFrame n] st.envs.length st.lastResult)
          = Res.raise (Thrown.returnSignal (RyValue.number (Nat.fib n : ℚ)))
              (st.grown (fibFrame n :: (extra1 ++ extra2)) st.envs.length
                (RyValue.number (Nat.fib n : ℚ))) := by
        simp only [fibBody, executeStmts, hif, hret, Res.bind]
      refine ⟨fibFrame n :: (extra1 ++ extra2), ?_⟩
      rw [callFunction_returns _ _ fibFunction _ st _ _ (RyValue.number (Nat.fib n : ℚ))
        (fib_bind _ st n) hbody rfl rfl]
      rfl

theorem fibDeclared_run :
    execute 120 (Stmt.functionStmt fibDeclaration) { Interp.initial with locals := fibLocals }
      = Res.ok () fibDeclared := by
  with_unfolding_all rfl

theorem fibDeclared_ready : FibReady fibDeclared :=
  ⟨rfl, rfl, rfl, ⟨_, rfl, by decide!⟩, rfl⟩

/-- A call whose callee evaluates to a built-in callable and whose argument count
fits runs the built-in and leaves its result in `lastResult`. -/
theorem evaluate_call_native (fuel : Nat) (callee : Expr) (args : List Expr) (paren : Token)
    (st st1 st2 st3 : Interp) (f : Nat) (fn : NativeFn) (vals : List RyValue) (v : RyValue)
    (hp : st.is_panicking = false)
    (hcallee : evaluate fuel callee st = Res.ok (RyValue.func f) st1)
    (hargs : evalList (evaluate fuel) args st1 = Res.ok vals st2)
    (hfn : st2.callables[f]? = some (RyCallable.native fn))
    (harity : fn.arity = (vals.length : Int))
    (hcall : callNative fuel fn vals st2 = Res.ok v st3) :
    evaluate (fuel + 1) (Expr.callExpr callee args paren) st
      = Res.ok v { st3 with lastResult := v } := by
  rw [evaluate_callExpr]
  have hcond : ¬ (fn.arity != -1 ∧ ((vals.length : Int) < fn.arity
      ∨ (vals.length : Int) > fn.arity)) := by
    rintro ⟨_, h | h⟩ <;> omega
  simp only [visitCall, hp, Bool.false_eq_true, if_false, hcallee, Res.bind, hargs, hfn,
    RyCallable.arity, callCallable, hcall, setResult]
  rw [if_neg hcond]

theorem fibBraced_parse :
    Parser.parse 120
        { tokens := (lex fibBraced).tokens, externalTypeAliases := Interp.initial.typeAliases }
      = PRes.ok fibProgram
          { tokens := (lex fibBraced).tokens, externalTypeAliases := [], current := 36,
            nextId := 9 } := by
  with_unfolding_all rfl

theorem fibBraced_lexErrors : (lex fibBraced).errors = [] := by decide!

theorem fibBraced_resolve :
    ∃ r, Resolver.resolve fibProgram {} Interp.initial
      = RRes.ok r { Interp.initial with locals := fibLocals } :=
  ⟨_, by with_unfolding_all rfl⟩

/-- The built-in `out` on one number appends its text as a line. -/
theorem callNative_out_number (fuel : Nat) (d : ℚ) (st : Interp) :
    callNative (fuel + 1) NativeFn.out [RyValue.number d] st
      = Res.ok RyValue.nil { st with output := st.output ++ [coutDouble d] } := by
  rfl

/-- The statement `out(fib(10))` of the Fibonacci script, run after the declaration,
completes and writes the line `55`. -/
theorem fibBraced_out :
    ∃ st, execute 120
        (Stmt.expressionStmt
          (Expr.callExpr (Expr.variableExpr 7 (fibToken 29))
            [Expr.callExpr (Expr.variableExpr 8 (fibToken 31)) [Expr.valueExpr (fibToken 33)]
              (fibToken 34)]
            (fibToken 35)))
        fibDeclared = Res.ok () st ∧ st.output = ["55"] := by
  have hready : ∀ v, FibReady { fibDeclared with lastResult := v } := fun _ => fibDeclared_ready
  have hout : evaluate 118 (Expr.variableExpr 7 (fibToken 29)) fibDeclared
      = Res.ok (RyValue.func 0) { fibDeclared with lastResult := RyValue.func 0 } :=
    evaluate_global 117 7 (fibToken 29) fibDeclared 0 { value := RyValue.func 0 } rfl
      (Or.inr rfl) (by decide!)
  have hname := evaluate_fib_name 116 8 (fibToken 31) _ (hready (RyValue.func 0)) rfl
    fibToken_names.2.2.2.2.2.2.2.1
  have h10 : (10 : ℚ) = ((10 : Nat) : ℚ) := by norm_num
  have hten := evaluate_number 116 (fibToken 33)
    { fibDeclared with lastResult := RyValue.func 9 } 10 2 rfl
    fibToken_numbers.2.2.2.1 fibToken_numbers.2.2.2.2
  rw [h10] at hten
  have hargs : evalList (evaluate 117) [Expr.valueExpr (fibToken 33)]
      { fibDeclared with lastResult := RyValue.func 9 }
      = Res.ok [RyValue.number ((10 : Nat) : ℚ)]
          { fibDeclared with lastResult := RyValue.number ((10 : Nat) : ℚ) } := by
    simp only [evalList, hten, Res.bind]
  obtain ⟨extra, hcall⟩ := callFunction_fib 10 112
    { fibDeclared with lastResult := RyValue.number ((10 : Nat) : ℚ) } (by decide) (hready _)
  have hfib := evaluate_call_function 117 (Expr.variableExpr 8 (fibToken 31))
    [Expr.valueExpr (fibToken 33)] (fibToken 34) _ _ _ _ 9 fibFunction _ _
    (hready (RyValue.func 0)).1 hname hargs (hready _).2.2.2.2
    (by rw [fibFunction_arity]; simp) (by rw [fibFunction_parameters]; simp) hcall
  have hfibs : evalList (evaluate 118)
      [Expr.callExpr (Expr.variableExpr 8 (fibToken 31)) [Expr.valueExpr (fibToken 33)]
        (fibToken 34)]
      { fibDeclared with lastResult := RyValue.func 0 }
      = Res.ok [RyValue.number ((Nat.fib 10 : Nat) : ℚ)]
          (fibDeclared.grown extra 0 (RyValue.number ((Nat.fib 10 : Nat) : ℚ))) := by
    show (evaluate (117 + 1) _ _).bind _ = _
    rw [hfib]
    rfl
  have h55 : coutDouble ((Nat.fib 10 : Nat) : ℚ) = "55" := by decide!
  have hprint := callNative_out_number 117 ((Nat.fib 10 : Nat) : ℚ)
    (fibDeclared.grown extra 0 (RyValue.number ((Nat.fib 10 : Nat) : ℚ)))
  rw [h55] at hprint
  have hcallOut := evaluate_call_native 118 (Expr.variableExpr 7 (fibToken 29))
    [Expr.callExpr (Expr.variableExpr 8 (fibToken 31)) [Expr.valueExpr (fibToken 33)]
      (fibToken 34)]
    (fibToken 35) fibDeclared _ _ _ 0 NativeFn.out _ _ rfl hout hfibs rfl rfl hprint
  refine ⟨{ fibDeclared.grown extra 0 RyValue.nil with output := ["55"] }, ?_, rfl⟩
  · show (if fibDeclared.is_panicking then Res.ok () fibDeclared
      else (evaluate (118 + 1) _ fibDeclared).bind fun _ st1 => Res.ok () st1) = _
    rw [hcallOut]
    rfl

/-- A source that lexes and parses without error, resolves, and whose statements
run to completion makes `run` complete in the state they reach. -/
theorem run_completed (fuel : Nat) (src : String) (interp : Interp) (resolver : Resolver)
    (statements : List Stmt) (p : Parser) (r : Resolver) (st st1 : Interp)
    (hparse : Parser.parse fuel
        { tokens := (lex src).tokens, externalTypeAliases := interp.typeAliases }
      = PRes.ok statements p)
    (herrors : (lex src).errors = [])
    (hresolve : resolver.resolve statements interp = RRes.ok r st)
    (hrun : interpret fuel statements st = Res.ok () st1) :
    run fuel src interp resolver = RunResult.completed st1 := by
  simp [run, hparse, herrors, hresolve, hrun]

/-- Two statements that each complete run to completion one after the other. -/
theorem interpret_two (fuel : Nat) (s1 s2 : Stmt) (st st1 st2 : Interp)
    (h1 : execute fuel s1 st = Res.ok () st1) (h2 : execute fuel s2 st1 = Res.ok () st2) :
    interpret fuel [s1, s2] st = Res.ok () st2 := by
  simp [interpret, executeStmts, h1, h2, Res.bind]

/-- Running the Fibonacci script with the branch in braces writes the line `55`. -/
theorem fibBraced_prints : (runScript 120 fibBraced).output = ["55"] := by
  obtain ⟨r, hr⟩ := fibBraced_resolve
  obtain ⟨st, hst, hout⟩ := fibBraced_out
  have hrun := interpret_two 120 _ _ _ _ _ fibDeclared_run hst
  have hcompleted := run_completed 120 fibBraced Interp.initial {} fibProgram _ r _ st
    fibBraced_parse fibBraced_lexErrors hr hrun
  show (run 120 fibBraced Interp.initial {}).output = ["55"]
  rw [hcompleted]
  exact hout

/-- The Fibonacci script with the branch in braces parses. -/
theorem fibBraced_parses : (parseSource 30 fibBraced).isSome = true := by
  decide!

theorem evaluate_indexExpr (fuel : Nat) (o i : Expr) (bracket : Token) (st : Interp) :
    evaluate (fuel + 1) (Expr.indexExpr o i bracket) st =
      (visitIndex (evaluate fuel) o i bracket st).bind (fun _ st1 => Res.ok st1.lastResult st1) := by
  rfl

theorem evaluate_indexSetExpr (fuel : Nat) (o i v : Expr) (bracket : Token) (st : Interp) :
    evaluate (fuel + 1) (Expr.indexSetExpr o bracket i v) st =
      (visitIndexSet (evaluate fuel) o bracket i v st).bind
        (fun _ st1 => Res.ok st1.lastResult st1) := by
  rfl

/-- Inside the range of `int` the cast is the truncation toward zero. -/
theorem toInt_truncate (q : ℚ)
    (h : -(2 : Int) ^ 31 ≤ truncate q ∧ truncate q < (2 : Int) ^ 31) : toInt q = truncate q := by
  unfold toInt
  simp only []
  rw [if_pos h]

/-- Reading `xs[i]` once the list and the index are evaluated. -/
theorem index_list_read (fuel : Nat) (object index : Expr) (bracket : Token)
    (st st1 st2 : Interp) (l : Nat) (iv : RyValue) (hp : st.is_panicking = false)
    (hobj : evaluate fuel object st = Res.ok (RyValue.list l) st1)
    (hidx : evaluate fuel index st1 = Res.ok iv st2) :
    (∀ n : ℚ, iv = RyValue.number n → 0 ≤ toInt n →
      toInt n < ((st2.lists.getD l []).length : Int) →
      evaluate (fuel + 1) (Expr.indexExpr object index bracket) st
        = Res.ok ((st2.lists.getD l []).getD (toInt n).toNat RyValue.nil)
            { st2 with lastResult := (st2.lists.getD l []).getD (toInt n).toNat RyValue.nil })
    ∧ (∀ n : ℚ, iv = RyValue.number n →
        (toInt n < 0 ∨ ((st2.lists.getD l []).length : Int) ≤ toInt n) →
        evaluate (fuel + 1) (Expr.indexExpr object index bracket) st
          = Res.raise (indexError bracket "Index out of bounds.") st2)
    ∧ (iv.isNumber = false →
        evaluate (fuel + 1) (Expr.indexExpr object index bracket) st
          = Res.raise (indexError bracket "Index must be a number.") st2) := by
  refine ⟨?_, ?_, ?_⟩
  · intro n hn h0 h1
    subst hn
    have hnot : ¬ (toInt n < 0 ∨ toInt n ≥ ((st2.lists.getD l []).length : Int)) := by omega
    rw [evaluate_indexExpr]
    simp only [visitIndex, hp, Bool.false_eq_true, if_false, hobj, hidx, Res.bind]
    rw [if_neg hnot]
    rfl
  · intro n hn hout
    subst hn
    have hyes : toInt n < 0 ∨ toInt n ≥ ((st2.lists.getD l []).length : Int) := by omega
    rw [evaluate_indexExpr]
    simp only [visitIndex, hp, Bool.false_eq_true, if_false, hobj, hidx, Res.bind]
    rw [if_pos hyes]
    rfl
  · intro hnum
    rw [evaluate_indexExpr]
    simp only [visitIndex, hp, Bool.false_eq_true, if_false, hobj, hidx, Res.bind]
    cases iv <;> first | rfl | simp [RyValue.isNumber] at hnum

/-- Writing `xs[i] = v` once the list, the index and the value are evaluated. -/
theorem index_list_write (fuel : Nat) (object index value : Expr) (bracket : Token)
    (st st1 st2 st3 : Interp) (l : Nat) (iv v : RyValue) (hp : st.is_panicking = false)
    (hobj : evaluate fuel object st = Res.ok (RyValue.list l) st1)
    (hidx : evaluate fuel index st1 = Res.ok iv st2)
    (hval : evaluate fuel value st2 = Res.ok v st3) :
    (∀ n : ℚ, iv = RyValue.number n → 0 ≤ toInt n →
      toInt n < ((st3.lists.getD l []).length : Int) →
      evaluate (fuel + 1) (Expr.indexSetExpr object bracket index value) st
        = Res.ok v
            { st3 with
              lists := st3.lists.set l ((st3.lists.getD l []).set (toInt n).toNat v),
              lastResult := v })
    ∧ (∀ n : ℚ, iv = RyValue.number n →
        (toInt n < 0 ∨ ((st3.lists.getD l []).length : Int) ≤ toInt n) →
        evaluate (fuel + 1) (Expr.indexSetExpr object bracket index value) st
          = Res.raise (indexError bracket "Index out of bounds.") st3)
    ∧ (iv.isNumber = false →
        evaluate (fuel + 1) (Expr.indexSetExpr object bracket index value) st
          = Res.raise (indexError bracket "List index must be a number.") st3) := by
  refine ⟨?_, ?_, ?_⟩
  · intro n hn h0 h1
    subst hn
    have hnot : ¬ (toInt n < 0 ∨ toInt n ≥ ((st3.lists.getD l []).length : Int)) := by omega
    rw [evaluate_indexSetExpr]
    simp only [visitIndexSet, hp, Bool.false_eq_true, if_false, hobj, hidx, hval, Res.bind]
    rw [if_neg hnot]
    rfl
  · intro n hn hout
    subst hn
    have hyes : toInt n < 0 ∨ toInt n ≥ ((st3.lists.getD l []).length : Int) := by omega
    rw [evaluate_indexSetExpr]
    simp only [visitIndexSet, hp, Bool.false_eq_true, if_false, hobj, hidx, hval, Res.bind]
    rw [if_pos hyes]
    rfl
  · intro hnum
    rw [evaluate_indexSetExpr]
    simp only [visitIndexSet, hp, Bool.false_eq_true, if_false, hobj, hidx, hval, Res.bind]
    cases iv <;> first | rfl | simp [RyValue.isNumber] at hnum

/-- Reading `m[k]` once the map and the key are evaluated: the chain walk from the
environment of the map decides. -/
theorem index_map_read (fuel : Nat) (object index : Expr) (bracket : Token)
    (st st1 st2 : Interp) (m : Nat) (iv : RyValue) (hp : st.is_panicking = false)
    (hobj : evaluate fuel object st = Res.ok (RyValue.map m) st1)
    (hidx : evaluate fuel index st1 = Res.ok iv st2) :
    (∀ (k : String) (r : Nat) (c : RyVariable), iv = RyValue.string k →
      findCell st2.envs st2.envs.length m k = some (r, c) →
      evaluate (fuel + 1) (Expr.indexExpr object index bracket) st
        = Res.ok c.value { st2 with lastResult := c.value })
    ∧ (∀ k : String, iv = RyValue.string k →
        findCell st2.envs st2.envs.length m k = none →
        evaluate (fuel + 1) (Expr.indexExpr object index bracket) st
          = Res.raise (indexError bracket ("Undefined property '" ++ k ++ "'.")) st2)
    ∧ (iv.isString = false →
        evaluate (fuel + 1) (Expr.indexExpr object index bracket) st
          = Res.raise (indexError bracket "Index must be a string.") st2) := by
  refine ⟨?_, ?_, ?_⟩
  · intro k r c hk hfind
    subst hk
    rw [evaluate_indexExpr]
    simp [visitIndex, hp, hobj, hidx, Res.bind, envHas, envGet, hfind, setResult]
  · intro k hk hfind
    subst hk
    rw [evaluate_indexExpr]
    simp [visitIndex, hp, hobj, hidx, Res.bind, envHas, hfind, throwRuntimeError, indexError]
  · intro hstr
    rw [evaluate_indexExpr]
    simp only [visitIndex, hp, Bool.false_eq_true, if_false, hobj, hidx, Res.bind]
    cases iv <;> first | rfl | simp [RyValue.isString] at hstr

/-- The chain walk finds nothing from an environment that does not define the name
and has no scope around it that does. -/
theorem findCell_undefined (envs : List Environment) (k : String) :
    ∀ (fuel r : Nat),
      (∀ e, envs[r]? = some e → mapFind e.values k = none) →
      (∀ j ∈ enclosingChain envs fuel r, ∀ e, envs[j]? = some e → mapFind e.values k = none) →
      findCell envs fuel r k = none
  | 0, _, _, _ => rfl
  | fuel + 1, r, hr, hchain => by
    unfold findCell
    cases he : envs[r]? with
    | none => rfl
    | some e =>
      simp only []
      rw [hr e he]
      cases hp : e.enclosing with
      | none => rfl
      | some p =>
        simp only []
        have hmem : ∀ j, j ∈ enclosingChain envs fuel p → j ∈ enclosingChain envs (fuel + 1) r := by
          intro j hj
          simp only [enclosingChain, he, hp]
          exact List.mem_cons_of_mem p hj
        have hp_mem : p ∈ enclosingChain envs (fuel + 1) r := by
          simp only [enclosingChain, he, hp]
          exact List.mem_cons_self p _
        exact findCell_undefined envs k fuel p (fun e1 he1 => hchain p hp_mem e1 he1)
          (fun j hj e1 he1 => hchain j (hmem j hj) e1 he1)

/-- When no scope around the environment `m` defines the name, the chain walk from
`m` finds exactly the cell of `m` itself. -/
theorem findCell_own (envs : List Environment) (m : Nat) (k : String) (e : Environment)
    (he : envs[m]? = some e)
    (hchain : ∀ j ∈ enclosingChain envs envs.length m, ∀ e1, envs[j]? = some e1 →
      mapFind e1.values k = none) :
    findCell envs envs.length m k = (mapFind e.values k).map (fun c => (m, c)) := by
  have hlt : m < envs.length := by
    rcases List.getElem?_eq_some_iff.1 he with ⟨h, _⟩
    exact h
  obtain ⟨n, hn⟩ : ∃ n, envs.length = n + 1 := ⟨envs.length - 1, by omega⟩
  rw [hn] at hchain ⊢
  unfold findCell
  simp only [he]
  cases hf : mapFind e.values k with
  | some c => rfl
  | none =>
    simp only [Option.map_none']
    cases hp : e.enclosing with
    | none => rfl
    | some p =>
      simp only []
      have hp_mem : p ∈ enclosingChain envs (n + 1) m := by
        simp only [enclosingChain, he, hp]
        exact List.mem_cons_self p _
      have hmem : ∀ j, j ∈ enclosingChain envs n p → j ∈ enclosingChain envs (n + 1) m := by
        intro j hj
        simp only [enclosingChain, he, hp]
        exact List.mem_cons_of_mem p hj
      exact findCell_undefined envs k n p (fun e1 he1 => hchain p hp_mem e1 he1)
        (fun j hj e1 he1 => hchain j (hmem j hj) e1 he1)

/-- Writing `m[k] = v` once the map, the key and the value are evaluated. -/
theorem index_map_write (fuel : Nat) (object index value : Expr) (bracket : Token)
    (st st1 st2 st3 : Interp) (m : Nat) (k : String) (v : RyValue)
    (hp : st.is_panicking = false)
    (hobj : evaluate fuel object st = Res.ok (RyValue.map m) st1)
    (hidx : evaluate fuel index st1 = Res.ok (RyValue.string k) st2)
    (hval : evaluate fuel value st2 = Res.ok v st3) :
    evaluate (fuel + 1) (Expr.indexSetExpr object bracket index value) st
      = Res.ok v { envDefine st3 m k { value := v } with lastResult := v } := by
  rw [evaluate_indexSetExpr]
  simp only [visitIndexSet, hp, Bool.false_eq_true, if_false, hobj, hidx, hval, Res.bind]
  rfl

/-- `Environment::define` leaves the other environments as they are. -/
theorem envDefine_other_env (st : Interp) (env other : Nat) (name : String) (v : RyVariable)
    (hne : other ≠ env) : (envDefine st env name v).envs[other]? = st.envs[other]? := by
  unfold envDefine
  cases h : st.envs[env]? with
  | none => rfl
  | some e => simp [List.getElem?_set, Ne.symm hne]
/-- `xs[t] = v` on a vector changes slot `t` and no other. -/
theorem set_slot {α : Type} (xs : List α) (t : Nat) (v : α) (h : t < xs.length) :
    (xs.set t v)[t]? = some v ∧ ∀ j : Nat, j ≠ t → (xs.set t v)[j]? = xs[j]? := by
  refine ⟨by simp [List.getElem?_set, h], ?_⟩
  intro j hj
  simp [List.getElem?_set, Ne.symm hj]

theorem Lexer.next_fields (lx : Lexer) :
    lx.next.2.source = lx.source ∧ lx.next.2.current = lx.current + 1
    ∧ lx.next.2.tokens = lx.tokens ∧ lx.next.2.start = lx.start
    ∧ lx.next.2.errors = lx.errors := by
  unfold Lexer.next
  dsimp only
  split_ifs <;> exact ⟨rfl, rfl, rfl, rfl, rfl⟩

theorem Lexer.advance_fields (k : Nat) : ∀ lx : Lexer,
    (lx.advance k).source = lx.source ∧ (lx.advance k).current = lx.current + k
    ∧ (lx.advance k).tokens = lx.tokens ∧ (lx.advance k).start = lx.start
    ∧ (lx.advance k).errors = lx.errors := by
  induction k with
  | zero => intro lx; simp [Lexer.advance]
  | succ k ih =>
    intro lx
    obtain ⟨h1, h2, h3, h4, h5⟩ := ih lx.next.2
    obtain ⟨g1, g2, g3, g4, g5⟩ := lx.next_fields
    simp only [Lexer.advance]
    refine ⟨by rw [h1, g1], by rw [h2, g2]; omega, by rw [h3, g3], by rw [h4, g4], by rw [h5, g5]⟩

/-- What the lexer sees when the text from the current position on starts with `c`. -/
theorem Lexer.at_cons (lx : Lexer) (c : Char) (rest : List Char)
    (h : lx.source.drop lx.current = c :: rest) :
    lx.isAtEnd = false ∧ lx.peek = c ∧ lx.next.1 = c
    ∧ lx.next.2.source.drop lx.next.2.current = rest
    ∧ lx.peekNext = rest.headD (Char.ofNat 0) := by
  have hlt : lx.current < lx.source.length := by
    by_contra hc
    rw [List.drop_eq_nil_of_le (by omega)] at h
    cases h
  have hq : lx.source[lx.current]? = some c := by
    have : (lx.source.drop lx.current)[0]? = some c := by rw [h]; simp
    rw [List.getElem?_drop] at this
    simpa using this
  have hend : lx.isAtEnd = false := by simp [Lexer.isAtEnd, hlt]
  have hdrop : lx.source.drop (lx.current + 1) = rest := by
    rw [← List.drop_drop, h]
    rfl
  obtain ⟨g1, g2, _, _, _⟩ := lx.next_fields
  refine ⟨hend, by simp [Lexer.peek, hend, hq], by simp [Lexer.next, hq], ?_, ?_⟩
  · rw [g1, g2, hdrop]
  · unfold Lexer.peekNext
    cases rest with
    | nil =>
      have hlen : lx.source.length ≤ lx.current + 1 := by
        by_contra hc
        have : (lx.source.drop (lx.current + 1)).length = lx.source.length - (lx.current + 1) :=
          List.length_drop _ _
        rw [hdrop] at this
        simp at this
        omega
      simp [hlen]
    | cons d rest1 =>
      have hlt1 : lx.current + 1 < lx.source.length := by
        by_contra hc
        rw [List.drop_eq_nil_of_le (by omega)] at hdrop
        cases hdrop
      have hget1 : lx.source[lx.current + 1]? = some d := by
        have : (lx.source.drop (lx.current + 1))[0]? = some d := by rw [hdrop]; simp
        rw [List.getElem?_drop] at this
        simpa using this
      have hnot : ¬ lx.current + 1 ≥ lx.source.length := by omega
      simp [hnot, List.getD, hget1]

/-- The loop of `str` runs over a piece of text without quote and without `${`. -/
theorem strLoop_plain (seg post : List Char) (hq : '"' ∉ seg)
    (hi : ¬ ['$', '\x7b'] <:+: seg) (hpost : post.headD (Char.ofNat 0) ≠ '\x7b') :
    ∀ (n : Nat) (lx : Lexer), lx.source.drop lx.current = seg ++ post →
      Lexer.strLoop (n + seg.length) lx = Lexer.strLoop n (lx.advance seg.length) := by
  induction seg with
  | nil => intro n lx _; rfl
  | cons c seg ih =>
    intro n lx h
    obtain ⟨hend, hpeek, _, hrest, hpn⟩ := lx.at_cons c (seg ++ post) h
    have hc : c ≠ '"' := fun hc => hq (by rw [hc]; exact List.mem_cons_self _ _)
    have hq1 : '"' ∉ seg := fun hm => hq (List.mem_cons_of_mem _ hm)
    have hi1 : ¬ ['$', '\x7b'] <:+: seg := by
      rintro ⟨s, t, hst⟩
      exact hi ⟨c :: s, t, by rw [← hst]; rfl⟩
    have hnot : ¬ (c = '$' ∧ (seg ++ post).headD (Char.ofNat 0) = '\x7b') := by
      rintro ⟨h1, h2⟩
      cases seg with
      | nil => exact hpost h2
      | cons d seg1 =>
        simp only [List.cons_append, List.headD_cons] at h2
        apply hi
        rw [h1, h2]
        exact ⟨[], seg1, rfl⟩
    have hstep : Lexer.strLoop (n + seg.length + 1) lx = Lexer.strLoop (n + seg.length) lx.next.2 := by
      rw [Lexer.strLoop]
      have h1 : (lx.peek != '"' && !lx.isAtEnd) = true := by simp [hpeek, hend, hc]
      have h2 : (lx.peek == '$' && lx.peekNext == '\x7b') = false := by
        rw [hpeek, hpn]
        by_cases hd : c = '$'
        · have hne : (seg ++ post).headD (Char.ofNat 0) ≠ '\x7b' := fun hh => hnot ⟨hd, hh⟩
          have hb : ((seg ++ post).headD (Char.ofNat 0) == '\x7b') = false := by
            cases hx : ((seg ++ post).headD (Char.ofNat 0) == '\x7b') with
            | false => rfl
            | true => exact absurd (beq_iff_eq.mp hx) hne
          rw [hb, Bool.and_false]
        · have ha : (c == '$') = false := by
            cases hx : (c == '$') with
            | false => rfl
            | true => exact absurd (beq_iff_eq.mp hx) hd
          rw [ha, Bool.false_and]
      simp only [h1, h2, if_true, Bool.false_eq_true, if_false]
    show Lexer.strLoop (n + seg.length + 1) lx = _
    rw [hstep, ih hq1 hi1 n lx.next.2 hrest]
    rfl

/-- The loop that collects the name of an interpolation runs up to the closing
brace. -/
theorem advanceWhile_name (name rest : List Char) (hb : '\x7d' ∉ name) :
    ∀ (n : Nat) (lx : Lexer), lx.source.drop lx.current = name ++ '\x7d' :: rest →
      Lexer.advanceWhile (fun l => l.peek != '\x7d' && !l.isAtEnd) (n + name.length) lx
        = lx.advance name.length := by
  induction name with
  | nil =>
    intro n lx h
    obtain ⟨_, hpeek, _, _, _⟩ := lx.at_cons '\x7d' rest h
    cases n with
    | zero => rfl
    | succ n =>
      show Lexer.advanceWhile _ (n + 1) lx = lx
      rw [Lexer.advanceWhile]
      simp [hpeek]
  | cons c name ih =>
    intro n lx h
    obtain ⟨hend, hpeek, _, hrest, _⟩ := lx.at_cons c (name ++ '\x7d' :: rest) h
    have hc : c ≠ '\x7d' := fun hc => hb (by rw [hc]; exact List.mem_cons_self _ _)
    have hb1 : '\x7d' ∉ name := fun hm => hb (List.mem_cons_of_mem _ hm)
    show Lexer.advanceWhile _ (n + name.length + 1) lx = _
    rw [Lexer.advanceWhile]
    simp only [hpeek, hend]
    have h1 : (c != '\x7d' && !false) = true := by simp [hc]
    rw [if_pos h1, ih hb1 n lx.next.2 hrest]
    rfl

theorem Lexer.advance_drop (lx : Lexer) (pre post : List Char)
    (h : lx.source.drop lx.current = pre ++ post) :
    (lx.advance pre.length).source.drop (lx.advance pre.length).current = post := by
  obtain ⟨h1, h2, _, _, _⟩ := Lexer.advance_fields pre.length lx
  rw [h1, h2, ← List.drop_drop, h, List.drop_left]

/-- The branch of the loop of `str` for `${name}`. -/
theorem strLoop_interpolation (n : Nat) (lx : Lexer) (name rest : List Char)
    (hb : '\x7d' ∉ name)
    (h : lx.source.drop lx.current = '$' :: '\x7b' :: (name ++ '\x7d' :: rest)) :
    Lexer.strLoop (n + 1) lx = Lexer.strLoop n (lx.interpolated name.length) := by
  obtain ⟨hend, hpeek, _, hrest1, hpn⟩ := lx.at_cons '$' _ h
  set lx1 := (lx.emplace TokenType.STRING
    (lx.substr (lx.start + 1) (lx.current - (lx.start + 1)))).emplace TokenType.PLUS "+" with hlx1
  have h1 : lx1.source.drop lx1.current = '$' :: '\x7b' :: (name ++ '\x7d' :: rest) := h
  obtain ⟨_, _, _, hr1, _⟩ := lx1.at_cons '$' _ h1
  obtain ⟨_, _, _, hr2, _⟩ := lx1.next.2.at_cons '\x7b' _ hr1
  have hlen : ∃ m, lx1.next.2.next.2.source.length = m + name.length := by
    have : (lx1.next.2.next.2.source.drop lx1.next.2.next.2.current).length
        = lx1.next.2.next.2.source.length - lx1.next.2.next.2.current := List.length_drop _ _
    rw [hr2] at this
    simp only [List.length_append, List.length_cons] at this
    exact ⟨lx1.next.2.next.2.source.length - name.length, by omega⟩
  obtain ⟨m, hm⟩ := hlen
  have hadv := advanceWhile_name name rest hb m lx1.next.2.next.2 hr2
  rw [← hm] at hadv
  have hr3 := Lexer.advance_drop lx1.next.2.next.2 name ('\x7d' :: rest) hr2
  obtain ⟨hend3, _, _, _, _⟩ := (lx1.next.2.next.2.advance name.length).at_cons '\x7d' rest hr3
  rw [Lexer.strLoop]
  have c1 : (lx.peek != '"' && !lx.isAtEnd) = true := by rw [hpeek, hend]; decide
  have c2 : (lx.peek == '$' && lx.peekNext == '\x7b') = true := by
    rw [hpeek, hpn]; simp
  simp only [c1, c2, if_true]
  rw [← hlx1, hadv]
  simp only [hend3, Bool.false_eq_true, if_false]
  rfl

/-- The loop of `str` stops at the closing quote. -/
theorem strLoop_quote (n : Nat) (lx : Lexer) (rest : List Char)
    (h : lx.source.drop lx.current = '"' :: rest) :
    Lexer.strLoop (n + 1) lx = (false, lx) := by
  obtain ⟨hend, hpeek, _, _, _⟩ := lx.at_cons '"' _ h
  rw [Lexer.strLoop]
  have c1 : (lx.peek != '"' && !lx.isAtEnd) = false := by rw [hpeek, hend]; decide
  simp only [c1, Bool.false_eq_true, if_false]

theorem Lexer.interpolated_fields (lx : Lexer) (k : Nat) :
    (lx.interpolated k).source = lx.source
    ∧ (lx.interpolated k).current = lx.current + k + 3
    ∧ (lx.interpolated k).start = lx.current + k + 2
    ∧ (lx.interpolated k).errors = lx.errors
    ∧ (lx.interpolated k).tokens.map Token.kindText
        = lx.tokens.map Token.kindText ++
          [(TokenType.STRING, lx.substr (lx.start + 1) (lx.current - (lx.start + 1))),
           (TokenType.PLUS, "+"),
           (TokenType.IDENTIFIER, String.mk ((lx.source.drop (lx.current + 2)).take k)),
           (TokenType.PLUS, "+")] := by
  set lx1 := (lx.emplace TokenType.STRING
    (lx.substr (lx.start + 1) (lx.current - (lx.start + 1)))).emplace TokenType.PLUS "+" with hlx1
  have e1 : lx1.source = lx.source ∧ lx1.current = lx.current ∧ lx1.errors = lx.errors
      ∧ lx1.tokens = lx.tokens ++
        [{ type := TokenType.STRING,
           lexeme := lx.substr (lx.start + 1) (lx.current - (lx.start + 1)),
           line := lx.line, column := lx.column },
         { type := TokenType.PLUS, lexeme := "+", line := lx.line, column := lx.column }] := by
    refine ⟨rfl, rfl, rfl, ?_⟩
    simp [hlx1, Lexer.emplace]
  obtain ⟨a1, a2, a3, a4, a5⟩ := lx1.next_fields
  obtain ⟨b1, b2, b3, b4, b5⟩ := lx1.next.2.next_fields
  obtain ⟨c1, c2, c3, c4, c5⟩ := Lexer.advance_fields k lx1.next.2.next.2
  set lx3 := lx1.next.2.next.2.advance k with hlx3
  set lx4 := lx3.emplace TokenType.IDENTIFIER
    (lx3.substr lx1.next.2.next.2.current (lx3.current - lx1.next.2.next.2.current)) with hlx4
  obtain ⟨d1, d2, d3, d4, d5⟩ := lx4.next_fields
  have hcur3 : lx3.current = lx.current + 2 + k := by rw [c2, b2, a2, e1.2.1]
  have hcur2 : lx1.next.2.next.2.current = lx.current + 2 := by rw [b2, a2, e1.2.1]
  have hsrc3 : lx3.source = lx.source := by rw [c1, b1, a1, e1.1]
  have htok3 : lx3.tokens = lx1.tokens := by rw [c3, b3, a3]
  have hname : lx3.substr lx1.next.2.next.2.current (lx3.current - lx1.next.2.next.2.current)
      = String.mk ((lx.source.drop (lx.current + 2)).take k) := by
    unfold Lexer.substr
    rw [hsrc3, hcur2, hcur3]
    congr 2
    omega
  have hres : lx.interpolated k
      = { (lx4.next.2.emplace TokenType.PLUS "+") with
          start := (lx4.next.2.emplace TokenType.PLUS "+").current - 1 } := rfl
  rw [hres]
  refine ⟨?_, ?_, ?_, ?_, ?_⟩
  · show lx4.next.2.source = _
    rw [d1]
    exact hsrc3
  · show lx4.next.2.current = _
    rw [d2]
    show lx3.current + 1 = _
    omega
  · show lx4.next.2.current - 1 = _
    rw [d2]
    show lx3.current + 1 - 1 = _
    omega
  · show lx4.next.2.errors = _
    rw [d5]
    show lx3.errors = _
    rw [c5, b5, a5, e1.2.2.1]
  · show (lx4.next.2.tokens ++ _).map Token.kindText = _
    rw [d3]
    show ((lx3.tokens ++ _) ++ _).map Token.kindText = _
    rw [htok3, e1.2.2.2, hname]
    simp [Token.kindText]

theorem drop_after (l pre post : List Char) (c k : Nat) (h : l.drop c = pre ++ post)
    (hk : k = c + pre.length) : l.drop k = post := by
  rw [hk, ← List.drop_drop, h, List.drop_left]

/-- `str` on a literal without interpolation, the lexer standing after the
opening quote. -/
theorem str_plain (lx : Lexer) (C rest0 : List Char) (hq : '"' ∉ C)
    (hi : ¬ ['$', '\x7b'] <:+: C) (h : lx.source.drop lx.current = C ++ '"' :: rest0)
    (hstart : lx.start + 1 = lx.current) :
    lx.str.source = lx.source ∧ lx.str.current = lx.current + C.length + 1
    ∧ lx.str.start = lx.start ∧ lx.str.errors = lx.errors
    ∧ lx.str.tokens.map Token.kindText
        = lx.tokens.map Token.kindText ++ [(TokenType.STRING, String.mk C)] := by
  have hlen : lx.source.length = lx.current + rest0.length + 1 + C.length := by
    have : (lx.source.drop lx.current).length = lx.source.length - lx.current :=
      List.length_drop _ _
    rw [h] at this
    simp only [List.length_append, List.length_cons] at this
    omega
  have s1 := strLoop_plain C ('"' :: rest0) hq hi (by simp) (lx.current + rest0.length + 1) lx h
  have hd := Lexer.advance_drop lx C ('"' :: rest0) h
  have s2 := strLoop_quote (lx.current + rest0.length) (lx.advance C.length) rest0 hd
  obtain ⟨hend, _, _, _, _⟩ := (lx.advance C.length).at_cons '"' rest0 hd
  obtain ⟨a1, a2, a3, a4, a5⟩ := Lexer.advance_fields C.length lx
  obtain ⟨b1, b2, b3, b4, b5⟩ := (lx.advance C.length).next_fields
  have hstr : lx.str = (lx.advance C.length).next.2.emplace TokenType.STRING
      ((lx.advance C.length).next.2.substr ((lx.advance C.length).next.2.start + 1)
        ((lx.advance C.length).next.2.current - (lx.advance C.length).next.2.start - 2)) := by
    unfold Lexer.str
    rw [hlen, s1, s2]
    simp only [Bool.false_eq_true, if_false, hend]
  have htext : (lx.advance C.length).next.2.substr ((lx.advance C.length).next.2.start + 1)
      ((lx.advance C.length).next.2.current - (lx.advance C.length).next.2.start - 2)
      = String.mk C := by
    unfold Lexer.substr
    rw [b1, a1, b4, a4, b2, a2, hstart, h]
    have : lx.current + C.length + 1 - lx.start - 2 = C.length := by omega
    rw [this, List.take_left]
  rw [hstr, htext]
  refine ⟨?_, ?_, ?_, ?_, ?_⟩
  · show (lx.advance C.length).next.2.source = _
    rw [b1, a1]
  · show (lx.advance C.length).next.2.current = _
    rw [b2, a2]
  · show (lx.advance C.length).next.2.start = _
    rw [b4, a4]
  · show (lx.advance C.length).next.2.errors = _
    rw [b5, a5]
  · show ((lx.advance C.length).next.2.tokens ++ _).map Token.kindText = _
    rw [b3, a3]
    simp [Token.kindText]

/-- `str` on a literal with one interpolation, the lexer standing after the
opening quote. -/
theorem str_interpolated (lx : Lexer) (P N S rest0 : List Char) (hP : '"' ∉ P)
    (hPi : ¬ ['$', '\x7b'] <:+: P) (hN : '\x7d' ∉ N) (hS : '"' ∉ S)
    (hSi : ¬ ['$', '\x7b'] <:+: S)
    (h : lx.source.drop lx.current
      = P ++ '$' :: '\x7b' :: (N ++ '\x7d' :: (S ++ '"' :: rest0)))
    (hstart : lx.start + 1 = lx.current) :
    lx.str.source = lx.source
    ∧ lx.str.current = lx.current + P.length + N.length + S.length + 4
    ∧ lx.str.start = lx.current + P.length + N.length + 2
    ∧ lx.str.errors = lx.errors
    ∧ lx.str.tokens.map Token.kindText
        = lx.tokens.map Token.kindText ++
          [(TokenType.STRING, String.mk P), (TokenType.PLUS, "+"),
           (TokenType.IDENTIFIER, String.mk N), (TokenType.PLUS, "+"),
           (TokenType.STRING, String.mk S)] := by
  have hlen : lx.source.length
      = lx.current + N.length + S.length + rest0.length + 3 + 1 + P.length := by
    have : (lx.source.drop lx.current).length = lx.source.length - lx.current :=
      List.length_drop _ _
    rw [h] at this
    simp only [List.length_append, List.length_cons] at this
    omega
  -- the segment before the interpolation
  have s1 := strLoop_plain P _ hP hPi (by simp)
    (lx.current + N.length + S.length + rest0.length + 3 + 1) lx h
  have hdP := Lexer.advance_drop lx P _ h
  obtain ⟨a1, a2, a3, a4, a5⟩ := Lexer.advance_fields P.length lx
  -- the interpolation
  have s2 := strLoop_interpolation (lx.current + N.length + S.length + rest0.length + 3)
    (lx.advance P.length) N (S ++ '"' :: rest0) hN hdP
  obtain ⟨i1, i2, i3, i4, i5⟩ := (lx.advance P.length).interpolated_fields N.length
  have hdI : ((lx.advance P.length).interpolated N.length).source.drop
      ((lx.advance P.length).interpolated N.length).current = S ++ '"' :: rest0 := by
    rw [i1, i2]
    have e : '$' :: '\x7b' :: (N ++ '\x7d' :: (S ++ '"' :: rest0))
        = ('$' :: '\x7b' :: (N ++ ['\x7d'])) ++ (S ++ '"' :: rest0) := by simp
    rw [e] at hdP
    apply drop_after _ _ _ _ _ hdP
    simp only [List.length_cons, List.length_append, List.length_nil]
    omega
  -- the segment after the interpolation
  have s3 := strLoop_plain S ('"' :: rest0) hS hSi (by simp)
    (lx.current + N.length + rest0.length + 2 + 1)
    ((lx.advance P.length).interpolated N.length) hdI
  have hdS := Lexer.advance_drop _ S ('"' :: rest0) hdI
  have s4 := strLoop_quote (lx.current + N.length + rest0.length + 2)
    (((lx.advance P.length).interpolated N.length).advance S.length) rest0 hdS
  obtain ⟨hend, _, _, _, _⟩ :=
    (((lx.advance P.length).interpolated N.length).advance S.length).at_cons '"' rest0 hdS
  obtain ⟨c1, c2, c3, c4, c5⟩ :=
    Lexer.advance_fields S.length ((lx.advance P.length).interpolated N.length)
  set lxS := ((lx.advance P.length).interpolated N.length).advance S.length with hlxS
  obtain ⟨b1, b2, b3, b4, b5⟩ := lxS.next_fields
  have hfuel : lx.current + N.length + S.length + rest0.length + 3
      = lx.current + N.length + rest0.length + 2 + 1 + S.length := by omega
  have hstr : lx.str = lxS.next.2.emplace TokenType.STRING
      (lxS.next.2.substr (lxS.next.2.start + 1) (lxS.next.2.current - lxS.next.2.start - 2)) := by
    unfold Lexer.str
    rw [hlen, s1, s2, hfuel, s3, s4]
    simp only [Bool.false_eq_true, if_false, hend]
  have hsrcS : lxS.source = lx.source := by rw [c1, i1, a1]
  have hcurS : lxS.current = lx.current + P.length + N.length + 3 + S.length := by
    rw [c2, i2, a2]
  have hstartS : lxS.start = lx.current + P.length + N.length + 2 := by rw [c4, i3, a2]
  have htext : lxS.next.2.substr (lxS.next.2.start + 1)
      (lxS.next.2.current - lxS.next.2.start - 2) = String.mk S := by
    unfold Lexer.substr
    rw [b1, b4, b2, hsrcS, hcurS, hstartS]
    have e : '$' :: '\x7b' :: (N ++ '\x7d' :: (S ++ '"' :: rest0))
        = ('$' :: '\x7b' :: (N ++ ['\x7d'])) ++ (S ++ '"' :: rest0) := by simp
    have hd0 : lx.source.drop lx.current
        = (P ++ '$' :: '\x7b' :: (N ++ ['\x7d'])) ++ (S ++ '"' :: rest0) := by
      rw [h, e, List.append_assoc]
    have hk : lx.current + P.length + N.length + 2 + 1
        = lx.current + (P ++ '$' :: '\x7b' :: (N ++ ['\x7d'])).length := by
      simp only [List.length_cons, List.length_append, List.length_nil]
      omega
    rw [drop_after _ _ _ _ _ hd0 hk]
    have : lx.current + P.length + N.length + 3 + S.length + 1
        - (lx.current + P.length + N.length + 2) - 2 = S.length := by omega
    rw [this, List.take_left]
  have hsegment : (lx.advance P.length).substr ((lx.advance P.length).start + 1)
      ((lx.advance P.length).current - ((lx.advance P.length).start + 1)) = String.mk P := by
    unfold Lexer.substr
    rw [a1, a4, a2, hstart, h]
    have : lx.current + P.length - lx.current = P.length := by omega
    rw [this, List.take_left]
  have hname : String.mk (((lx.advance P.length).source.drop
      ((lx.advance P.length).current + 2)).take N.length) = String.mk N := by
    rw [a1, a2]
    have hd0 : lx.source.drop lx.current
        = (P ++ ['$', '\x7b']) ++ (N ++ '\x7d' :: (S ++ '"' :: rest0)) := by
      rw [h]; simp
    have hk : lx.current + P.length + 2 = lx.current + (P ++ ['$', '\x7b']).length := by
      simp only [List.length_cons, List.length_append, List.length_nil]
      omega
    rw [drop_after _ _ _ _ _ hd0 hk, List.take_left]
  rw [hstr, htext]
  refine ⟨?_, ?_, ?_, ?_, ?_⟩
  · show lxS.next.2.source = _
    rw [b1, hsrcS]
  · show lxS.next.2.current = _
    rw [b2, hcurS]
    omega
  · show lxS.next.2.start = _
    rw [b4, hstartS]
  · show lxS.next.2.errors = _
    rw [b5, c5, i4, a5]
  · show (lxS.next.2.tokens ++ _).map Token.kindText = _
    rw [b3, c3, List.map_append, i5, hsegment, hname, a3]
    simp [Token.kindText]

/-- At an opening quote `scanToken` reads it and calls `str`. -/
theorem scanToken_quote (lx : Lexer) (rest : List Char)
    (h : lx.source.drop lx.current = '"' :: rest) : lx.scanToken = lx.next.2.str := by
  obtain ⟨_, _, hc, _, _⟩ := lx.at_cons '"' rest h
  unfold Lexer.scanToken
  simp only [hc]
  rfl

theorem scanLoop_done (n : Nat) (lx : Lexer) (h : lx.isAtEnd = true) :
    Lexer.scanLoop n lx = lx := by
  cases n with
  | zero => rfl
  | succ n => simp [Lexer.scanLoop, h]
/-- The run of the lexer on a source text that starts with a quote, when `str`
reads the text to its end: the tokens of `str` and the end-of-file token. -/
theorem lex_literal (src rest : List Char) (hsrc : src = '"' :: rest)
    (hsource : (Lexer.str ({ source := src } : Lexer).next.2).source = src)
    (hall : (Lexer.str ({ source := src } : Lexer).next.2).current = src.length) :
    lex (String.mk src)
      = (Lexer.str ({ source := src } : Lexer).next.2).addToken TokenType.EOF_TOKEN := by
  have hdrop : ({ source := src } : Lexer).source.drop ({ source := src } : Lexer).current
      = '"' :: rest := by
    show src.drop 0 = _
    rw [hsrc, List.drop_zero]
  have hend : ({ source := src } : Lexer).isAtEnd = false := by
    show decide (0 ≥ src.length) = false
    rw [hsrc]
    rfl
  have hdone : (Lexer.str ({ source := src } : Lexer).next.2).isAtEnd = true := by
    unfold Lexer.isAtEnd
    rw [hall, hsource]
    simp
  have hscan : Lexer.scanLoop (rest.length + 1) ({ source := src } : Lexer)
      = Lexer.str ({ source := src } : Lexer).next.2 := by
    rw [Lexer.scanLoop]
    simp only [hend, Bool.not_false, if_true]
    have hsame : ({ ({ source := src } : Lexer) with
        tokenStartColumn := ({ source := src } : Lexer).column,
        start := ({ source := src } : Lexer).current } : Lexer) = { source := src } := rfl
    rw [hsame, scanToken_quote _ rest hdrop]
    exact scanLoop_done _ _ hdone
  have hlen : src.length = rest.length + 1 := by rw [hsrc]; rfl
  unfold lex Lexer.scanTokens
  show (Lexer.scanLoop src.length ({ source := src } : Lexer)).addToken _ = _
  rw [hlen, hscan]
theorem Lexer.addToken_errors (lx : Lexer) (t : TokenType) :
    (lx.addToken t).errors = lx.errors := rfl

theorem Lexer.addToken_tokens (lx : Lexer) (t : TokenType) :
    (lx.addToken t).tokens.map Token.kindText
      = lx.tokens.map Token.kindText ++ [(t, lx.substr lx.start (lx.current - lx.start))] := by
  simp [Lexer.addToken, Token.kindText]

theorem folded_value (v : Token) : (Expr.valueExpr v).Folded :=
  ⟨by simp [fold], by simp [Expr.hasGroup]⟩

theorem foldMath_cases (l : Expr) (op : Token) (r : Expr) :
    foldMath l op r = l ∨ (∃ v, foldMath l op r = Expr.valueExpr v)
      ∨ foldMath l op r = Expr.mathExpr l op r := by
  unfold foldMath
  dsimp only
  split <;> (try split_ifs) <;> (try split) <;> (try split) <;> (try split_ifs) <;>
    first
    | exact Or.inl rfl
    | exact Or.inr (Or.inl ⟨_, rfl⟩)
    | exact Or.inr (Or.inr rfl)

theorem folded_foldMath (l : Expr) (op : Token) (r : Expr) (hl : l.Folded) (hr : r.Folded) :
    (foldMath l op r).Folded := by
  rcases foldMath_cases l op r with h | ⟨v, h⟩ | h
  · rw [h]; exact hl
  · rw [h]; exact folded_value v
  · refine ⟨?_, ?_⟩
    · rw [h, fold, hl.1, hr.1, h]
    · rw [h]; simp [Expr.hasGroup, hl.2, hr.2]

theorem foldBitwise_cases (mk : Expr → Token → Expr → Expr) (f : Int → Int → Int) (l : Expr)
    (op : Token) (r : Expr) :
    (∃ v, foldBitwise mk f l op r = Expr.valueExpr v) ∨ foldBitwise mk f l op r = mk l op r := by
  unfold foldBitwise
  split
  · exact Or.inl ⟨_, rfl⟩
  · exact Or.inr rfl

theorem folded_foldBitwise (mk : Expr → Token → Expr → Expr) (f : Int → Int → Int) (l : Expr)
    (op : Token) (r : Expr)
    (hfold : fold (mk l op r) = foldBitwise mk f (fold l) op (fold r))
    (hgroup : (mk l op r).hasGroup = (l.hasGroup || r.hasGroup))
    (hl : l.Folded) (hr : r.Folded) : (foldBitwise mk f l op r).Folded := by
  rcases foldBitwise_cases mk f l op r with ⟨v, h⟩ | h
  · rw [h]; exact folded_value v
  · refine ⟨?_, ?_⟩
    · rw [h, hfold, hl.1, hr.1, h]
    · rw [h, hgroup]; simp [hl.2, hr.2]

theorem foldShift_cases (l : Expr) (op : Token) (r : Expr) :
    (∃ v, foldShift l op r = Expr.valueExpr v) ∨ foldShift l op r = Expr.shiftExpr l op r := by
  unfold foldShift
  split
  · exact Or.inl ⟨_, rfl⟩
  · exact Or.inr rfl

theorem folded_foldShift (l : Expr) (op : Token) (r : Expr) (hl : l.Folded) (hr : r.Folded) :
    (foldShift l op r).Folded := by
  rcases foldShift_cases l op r with ⟨v, h⟩ | h
  · rw [h]; exact folded_value v
  · refine ⟨?_, ?_⟩
    · rw [h, fold, hl.1, hr.1, h]
    · rw [h]; simp [Expr.hasGroup, hl.2, hr.2]

theorem foldPrefix_cases (op : Token) (r : Expr) :
    (∃ v, foldPrefix op r = Expr.valueExpr v) ∨ foldPrefix op r = Expr.prefixExpr op r := by
  unfold foldPrefix
  dsimp only
  split
  · split_ifs <;> first | exact Or.inl ⟨_, rfl⟩ | exact Or.inr rfl
  · exact Or.inr rfl

theorem folded_foldPrefix (op : Token) (r : Expr) (hr : r.Folded) : (foldPrefix op r).Folded := by
  rcases foldPrefix_cases op r with ⟨v, h⟩ | h
  · rw [h]; exact folded_value v
  · refine ⟨?_, ?_⟩
    · rw [h, fold, hr.1, h]
    · rw [h]; simp [Expr.hasGroup, hr.2]

theorem foldLogical_cases (l : Expr) (op : Token) (r : Expr) :
    foldLogical l op r = l ∨ foldLogical l op r = Expr.logicalExpr l op r := by
  unfold foldLogical
  dsimp only
  split
  · split_ifs <;> first | exact Or.inl rfl | exact Or.inr rfl
  · exact Or.inr rfl

theorem folded_foldLogical (l : Expr) (op : Token) (r : Expr) (hl : l.Folded) (hr : r.Folded) :
    (foldLogical l op r).Folded := by
  rcases foldLogical_cases l op r with h | h
  · rw [h]; exact hl
  · refine ⟨?_, ?_⟩
    · rw [h, fold, hl.1, hr.1, h]
    · rw [h]; simp [Expr.hasGroup, hl.2, hr.2]

mutual

theorem folded_fold : ∀ e : Expr, (fold e).Folded
  | Expr.valueExpr v => by rw [fold]; exact folded_value v
  | Expr.mathExpr l op r => by
    rw [fold]; exact folded_foldMath _ op _ (folded_fold l) (folded_fold r)
  | Expr.groupExpr e => by rw [fold]; exact folded_fold e
  | Expr.prefixExpr op r => by rw [fold]; exact folded_foldPrefix op _ (folded_fold r)
  | Expr.postfixExpr op l => by
    rw [fold]
    exact ⟨by rw [fold, (folded_fold l).1], by simp [Expr.hasGroup, (folded_fold l).2]⟩
  | Expr.variableExpr id name => by
    rw [fold]; exact ⟨by rw [fold], by simp [Expr.hasGroup]⟩
  | Expr.assignExpr id name value => by
    rw [fold]
    exact ⟨by rw [fold, (folded_fold value).1], by simp [Expr.hasGroup, (folded_fold value).2]⟩
  | Expr.logicalExpr l op r => by
    rw [fold]; exact folded_foldLogical _ op _ (folded_fold l) (folded_fold r)
  | Expr.callExpr callee args paren => by
    rw [fold]
    exact ⟨by rw [fold, (folded_fold callee).1, (folded_foldList args).1],
      by simp [Expr.hasGroup, (folded_fold callee).2, (folded_foldList args).2]⟩
  | Expr.listExpr elements => by
    rw [fold]
    exact ⟨by rw [fold, (folded_foldList elements).1],
      by simp [Expr.hasGroup, (folded_foldList elements).2]⟩
  | Expr.indexExpr object index bracket => by
    rw [fold]
    exact ⟨by rw [fold, (folded_fold object).1, (folded_fold index).1],
      by simp [Expr.hasGroup, (folded_fold object).2, (folded_fold index).2]⟩
  | Expr.getExpr object name => by
    rw [fold]
    exact ⟨by rw [fold, (folded_fold object).1], by simp [Expr.hasGroup, (folded_fold object).2]⟩
  | Expr.setExpr object name value => by
    rw [fold]
    exact ⟨by rw [fold, (folded_fold object).1, (folded_fold value).1],
      by simp [Expr.hasGroup, (folded_fold object).2, (folded_fold value).2]⟩
  | Expr.mapExpr brace items => by
    rw [fold]
    exact ⟨by rw [fold, (folded_foldItems items).1],
      by simp [Expr.hasGroup, (folded_foldItems items).2]⟩
  | Expr.indexSetExpr object bracket index value => by
    rw [fold]
    exact ⟨by rw [fold, (folded_fold object).1, (folded_fold index).1, (folded_fold value).1],
      by simp [Expr.hasGroup, (folded_fold object).2, (folded_fold index).2,
        (folded_fold value).2]⟩
  | Expr.rangeExpr l op r => by
    rw [fold]
    exact ⟨by rw [fold, (folded_fold l).1, (folded_fold r).1],
      by simp [Expr.hasGroup, (folded_fold l).2, (folded_fold r).2]⟩
  | Expr.bitwiseAndExpr l op r => by
    rw [fold]
    exact folded_foldBitwise _ _ _ op _ (by rw [fold]) (by simp [Expr.hasGroup])
      (folded_fold l) (folded_fold r)
  | Expr.bitwiseOrExpr l op r => by
    rw [fold]
    exact folded_foldBitwise _ _ _ op _ (by rw [fold]) (by simp [Expr.hasGroup])
      (folded_fold l) (folded_fold r)
  | Expr.bitwiseXorExpr l op r => by
    rw [fold]
    exact folded_foldBitwise _ _ _ op _ (by rw [fold]) (by simp [Expr.hasGroup])
      (folded_fold l) (folded_fold r)
  | Expr.shiftExpr l op r => by
    rw [fold]; exact folded_foldShift _ op _ (folded_fold l) (folded_fold r)
  | Expr.thisExpr id keyword => by
    rw [fold]; exact ⟨by rw [fold], by simp [Expr.hasGroup]⟩

theorem folded_foldList :
    ∀ es : List Expr, foldList (foldList es) = foldList es ∧ hasGroupList (foldList es) = false
  | [] => by simp [foldList, hasGroupList]
  | e :: es => by
    rw [foldList]
    exact ⟨by rw [foldList, (folded_fold e).1, (folded_foldList es).1],
      by simp [hasGroupList, (folded_fold e).2, (folded_foldList es).2]⟩

theorem folded_foldItems :
    ∀ items : List (Expr × Expr),
      foldItems (foldItems items) = foldItems items ∧ hasGroupItems (foldItems items) = false
  | [] => by simp [foldItems, hasGroupItems]
  | (k, v) :: rest => by
    rw [foldItems]
    exact ⟨by rw [foldItems, (folded_fold k).1, (folded_fold v).1, (folded_foldItems rest).1],
      by simp [hasGroupItems, (folded_fold k).2, (folded_fold v).2, (folded_foldItems rest).2]⟩

end

theorem allEqual_spec (eq : RyValue → RyValue → Option Bool) (P : RyValue → RyValue → Prop) :
    ∀ la lb : List RyValue, la.length = lb.length →
      (∀ a ∈ la, ∀ b, ∃ r, eq a b = some r ∧ (r = true ↔ P a b)) →
      ∃ r, allEqual eq la lb = some r
        ∧ (r = true ↔ ∀ i, i < la.length → P (la.getD i RyValue.nil) (lb.getD i RyValue.nil))
  | [], [], _, _ => ⟨true, by simp [allEqual], by simp⟩
  | [], _ :: _, hlen, _ => by simp at hlen
  | _ :: _, [], hlen, _ => by simp at hlen
  | a :: as, b :: bs, hlen, h => by
    obtain ⟨r0, hr0, hp0⟩ := h a (List.mem_cons_self a as) b
    have hrest := allEqual_spec eq P as bs (by simpa using hlen)
      (fun a1 ha1 b1 => h a1 (List.mem_cons_of_mem a ha1) b1)
    obtain ⟨r1, hr1, hp1⟩ := hrest
    cases r0 with
    | false =>
      refine ⟨false, by simp [allEqual, hr0], ?_⟩
      constructor
      · intro hf; cases hf
      · intro hall
        have := hall 0 (by simp)
        simp only [List.getD_cons_zero] at this
        exact absurd (hp0.2 this) (by simp)
    | true =>
      refine ⟨r1, by simp [allEqual, hr0, hr1], ?_⟩
      rw [hp1]
      constructor
      · intro hall i hi
        cases i with
        | zero => simpa using hp0.1 rfl
        | succ j =>
          have := hall j (by simpa using hi)
          simpa using this
      · intro hall i hi
        have := hall (i + 1) (by simpa using hi)
        simpa using this

theorem sameValue_list_iff (lists : List (List RyValue)) (x y : Nat) :
    SameValue lists (RyValue.list x) (RyValue.list y)
      ↔ (lists.getD x []).length = (lists.getD y []).length
        ∧ ∀ i, i < (lists.getD x []).length →
          SameValue lists ((lists.getD x []).getD i RyValue.nil)
            ((lists.getD y []).getD i RyValue.nil) := by
  constructor
  · intro h
    cases h with
    | list _ _ hlen helems => exact ⟨hlen, helems⟩
  · intro h
    exact SameValue.list x y h.1 h.2

theorem sameValue_index (lists : List (List RyValue)) (a b : RyValue)
    (h : SameValue lists a b) : a.index = b.index := by
  cases h <;> rfl

theorem areEqual_index_ne (lists : List (List RyValue)) (n : Nat) (a b : RyValue)
    (h : a.index ≠ b.index) : areEqual lists (n + 1) a b = some false := by
  unfold areEqual
  by_cases hn : (a.isNil && b.isNil) = true
  · exfalso
    apply h
    cases a <;> cases b <;> simp [RyValue.isNil] at hn
    rfl
  · by_cases hn2 : (a.isNil || b.isNil) = true
    · simp [hn, hn2]
    · simp [hn, hn2, h]

theorem areEqual_same (lists : List (List RyValue)) (rank : Nat → Nat)
    (hrank : ∀ x y, RyValue.list y ∈ lists.getD x [] → rank y < rank x) :
    ∀ (fuel : Nat) (a b : RyValue), valueRank rank a < fuel →
      ∃ r, areEqual lists fuel a b = some r ∧ (r = true ↔ SameValue lists a b) := by
  intro fuel
  induction fuel with
  | zero => intro a b h; exact absurd h (Nat.not_lt_zero _)
  | succ n ih =>
    intro a b h
    by_cases hidx : a.index = b.index
    · cases a <;> cases b <;> simp only [RyValue.index] at hidx <;> try (exact absurd hidx (by decide))
      · exact ⟨true, by simp [areEqual, RyValue.isNil], by simp; constructor⟩
      · rename_i x y
        refine ⟨x == y, by simp [areEqual, RyValue.isNil, RyValue.index], ?_⟩
        constructor
        · intro hxy
          have : x = y := by simpa using hxy
          subst this
          constructor
        · intro hs
          cases hs
          simp
      · rename_i x y
        refine ⟨x == y, by simp [areEqual, RyValue.isNil, RyValue.index], ?_⟩
        constructor
        · intro hxy
          have : x = y := by simpa using hxy
          subst this
          constructor
        · intro hs
          cases hs
          simp
      · rename_i x y
        refine ⟨x == y, by simp [areEqual, RyValue.isNil, RyValue.index], ?_⟩
        constructor
        · intro hxy
          have : x = y := by simpa using hxy
          subst this
          constructor
        · intro hs
          cases hs
          simp
      · rename_i x y
        by_cases hlen : (lists.getD x []).length = (lists.getD y []).length
        · have hpos : 0 < n := by
            simp only [valueRank] at h
            omega
          have helem : ∀ a ∈ lists.getD x [], ∀ b, ∃ r, areEqual lists n a b = some r
              ∧ (r = true ↔ SameValue lists a b) := by
            intro a ha b
            apply ih
            cases a with
            | list z =>
              have := hrank x z ha
              simp only [valueRank] at h ⊢
              omega
            | _ => simpa [valueRank] using hpos
          obtain ⟨r, hr, hp⟩ := allEqual_spec (areEqual lists n) (SameValue lists)
            (lists.getD x []) (lists.getD y []) hlen helem
          refine ⟨r, ?_, ?_⟩
          · unfold areEqual
            simp only [RyValue.isNil, RyValue.index, Bool.and_self, Bool.or_self, bne_self_eq_false,
              Bool.false_eq_true, if_false, hlen]
            exact hr
          · rw [hp, sameValue_list_iff]
            exact ⟨fun hall => ⟨hlen, hall⟩, fun hboth => hboth.2⟩
        · refine ⟨false, ?_, ?_⟩
          · have hne : ((lists.getD x []).length != (lists.getD y []).length) = true :=
              bne_iff_ne.2 hlen
            unfold areEqual
            simp only [RyValue.isNil, RyValue.index, Bool.and_self, Bool.or_self, bne_self_eq_false,
              Bool.false_eq_true, if_false, hne, if_true]
          · rw [sameValue_list_iff]
            exact ⟨fun hf => Bool.noConfusion hf, fun hboth => absurd hboth.1 hlen⟩
      · rename_i x y
        refine ⟨x == y, by simp [areEqual, RyValue.isNil, RyValue.index], ?_⟩
        constructor
        · intro hxy
          have : x = y := by simpa using hxy
          subst this
          constructor
        · intro hs
          cases hs
          simp
      · exact ⟨false, by simp [areEqual, RyValue.isNil, RyValue.index], by
          constructor
          · intro hf; cases hf
          · intro hs; cases hs⟩
      · exact ⟨false, by simp [areEqual, RyValue.isNil, RyValue.index], by
          constructor
          · intro hf; cases hf
          · intro hs; cases hs⟩
    · refine ⟨false, areEqual_index_ne lists n a b hidx, ?_⟩
      constructor
      · intro hf; cases hf
      · intro hs; exact absurd (sameValue_index lists a b hs) hidx

theorem nestedRank_decreases (x y : Nat) (h : RyValue.list y ∈ nestedLists.getD x []) :
    nestedRank y < nestedRank x := by
  rcases x with _ | _ | _ | x
  · simp [nestedLists] at h
    subst h
    decide
  · simp [nestedLists] at h
  · simp [nestedLists] at h
    subst h
    decide
  · simp [nestedLists] at h

theorem ScopesGrow.refl (a : List (List (String × Bool))) : ScopesGrow a a :=
  ⟨rfl, rfl, fun _ h => h⟩

theorem ScopesGrow.trans {a b c : List (List (String × Bool))} (h1 : ScopesGrow a b)
    (h2 : ScopesGrow b c) : ScopesGrow a c :=
  ⟨h2.1.trans h1.1, h2.2.1.trans h1.2.1, fun n h => h2.2.2 n (h1.2.2 n h)⟩

theorem ScopesGrow.tail_of_begin {a b : List (List (String × Bool))}
    (h : ScopesGrow ([] :: a) b) : b.tail = a := h.2.1

theorem ScopesGrow.of_eq {a b : List (List (String × Bool))} (h : b = a) : ScopesGrow a b := by
  subst h; exact ScopesGrow.refl _

theorem RRes.bind_ok {x : RRes} {k : Resolver → Interp → RRes} {r : Resolver} {st : Interp}
    (h : x.bind k = RRes.ok r st) : ∃ r1 st1, x = RRes.ok r1 st1 ∧ k r1 st1 = RRes.ok r st := by
  cases x with
  | ok r1 st1 => exact ⟨r1, st1, rfl, h⟩
  | raise e r1 st1 => simp [RRes.bind] at h

theorem RRes.bind_failed {x : RRes} {k : Resolver → Interp → RRes} (h : x.failed = true) :
    (x.bind k).failed = true := by
  cases x with
  | ok r1 st1 => simp [RRes.failed] at h
  | raise e r1 st1 => simp [RRes.bind, RRes.failed]

theorem RRes.ok_or_failed (x : RRes) : x.failed = true ∨ ∃ r st, x = RRes.ok r st := by
  cases x with
  | ok r1 st1 => exact Or.inr ⟨r1, st1, rfl⟩
  | raise e r1 st1 => exact Or.inl rfl

theorem mapContains_eq_isSome {α : Type} (m : List (String × α)) (k : String) :
    mapContains m k = (mapFind m k).isSome := by
  unfold mapContains mapFind
  induction m with
  | nil => simp
  | cons p ps ih =>
    by_cases hp : p.1 = k
    · simp [hp]
    · have hpk : (p.1 == k) = false := by simpa using hp
      rw [List.any_cons, List.find?_cons, hpk, Bool.false_or, ih]

theorem mapContains_mapInsert {α : Type} (m : List (String × α)) (k n : String) (v : α)
    (h : mapContains m n = true ∨ n = k) : mapContains (mapInsert m k v) n = true := by
  rw [mapContains_eq_isSome]
  by_cases hn : n = k
  · subst hn
    rw [mapFind_mapInsert_same]; rfl
  · rw [mapFind_mapInsert_other m k n v hn, ← mapContains_eq_isSome]
    rcases h with h | h
    · exact h
    · exact absurd h hn

theorem declare_grows (name : Token) (r r1 : Resolver) (st st1 : Interp)
    (h : Resolver.declare name r st = RRes.ok r1 st1) :
    ScopesGrow r.scopes r1.scopes ∧ (r.scopes ≠ [] → declaredIn r1.scopes name.lexeme = true) := by
  unfold Resolver.declare at h
  split at h
  · rename_i hs
    simp only [RRes.ok.injEq] at h
    obtain ⟨h1, _⟩ := h
    subst h1
    simp [hs, ScopesGrow.refl]
  · rename_i scope rest hs
    split_ifs at h with hc
    simp only [RRes.ok.injEq] at h
    obtain ⟨h1, _⟩ := h
    subst h1
    rw [hs]
    refine ⟨⟨rfl, rfl, ?_⟩, fun _ => ?_⟩
    · intro n hn
      exact mapContains_mapInsert scope name.lexeme n false (Or.inl hn)
    · exact mapContains_mapInsert scope name.lexeme name.lexeme false (Or.inr rfl)

theorem define_grows (name : Token) (r r1 : Resolver) (st st1 : Interp)
    (h : Resolver.define name r st = RRes.ok r1 st1) :
    ScopesGrow r.scopes r1.scopes := by
  unfold Resolver.define at h
  split at h
  · rename_i hs
    simp only [RRes.ok.injEq] at h
    obtain ⟨h1, _⟩ := h
    subst h1
    simp [hs, ScopesGrow.refl]
  · rename_i scope rest hs
    simp only [RRes.ok.injEq] at h
    obtain ⟨h1, _⟩ := h
    subst h1
    rw [hs]
    exact ⟨rfl, rfl, fun n hn => mapContains_mapInsert scope name.lexeme n true (Or.inl hn)⟩

theorem declare_failed (name : Token) (r : Resolver) (st : Interp)
    (h : declaredIn r.scopes name.lexeme = true) : (Resolver.declare name r st).failed = true := by
  unfold Resolver.declare
  split
  · rename_i hs
    simp [declaredIn, hs] at h
  · rename_i scope rest hs
    simp only [declaredIn, hs] at h
    simp [h, RRes.failed]

theorem declareDefine_grows (name : Token) (r r1 : Resolver) (st st1 : Interp)
    (h : Resolver.declareDefine name r st = RRes.ok r1 st1) :
    ScopesGrow r.scopes r1.scopes ∧ (r.scopes ≠ [] → declaredIn r1.scopes name.lexeme = true) := by
  unfold Resolver.declareDefine at h
  obtain ⟨r2, st2, h2, h3⟩ := RRes.bind_ok h
  have hd := declare_grows name r r2 st st2 h2
  have hf := define_grows name r2 r1 st2 st1 h3
  exact ⟨hd.1.trans hf, fun hne => hf.2.2 _ (hd.2 hne)⟩

theorem declareDefine_failed (name : Token) (r : Resolver) (st : Interp)
    (h : declaredIn r.scopes name.lexeme = true) :
    (Resolver.declareDefine name r st).failed = true :=
  RRes.bind_failed (declare_failed name r st h)

theorem ScopesGrow.ne_nil {a b : List (List (String × Bool))} (h : ScopesGrow a b)
    (ha : a ≠ []) : b ≠ [] := by
  intro hb
  have := h.1
  rw [hb] at this
  exact ha (List.length_eq_zero.1 this.symm)

theorem resolveLocal_resolver (id : Nat) (name : Token) (r r1 : Resolver) (st st1 : Interp)
    (h : Resolver.resolveLocal id name r st = RRes.ok r1 st1) : r1 = r := by
  unfold Resolver.resolveLocal at h
  split at h
  · simp only [RRes.ok.injEq] at h; exact h.1.symm
  · split_ifs at h <;> simp only [RRes.ok.injEq] at h <;> exact h.1.symm

theorem visitVariable_resolver (id : Nat) (name : Token) (r r1 : Resolver) (st st1 : Interp)
    (h : Resolver.visitVariable id name r st = RRes.ok r1 st1) : r1 = r := by
  unfold Resolver.visitVariable at h
  split at h
  · split_ifs at h
    exact resolveLocal_resolver id name r r1 st st1 h
  · exact resolveLocal_resolver id name r r1 st st1 h

theorem visitThis_resolver (id : Nat) (keyword : Token) (r r1 : Resolver) (st st1 : Interp)
    (h : Resolver.visitThis id keyword r st = RRes.ok r1 st1) : r1 = r := by
  unfold Resolver.visitThis at h
  split_ifs at h
  exact resolveLocal_resolver id keyword r r1 st st1 h

mutual

theorem resolveExpr_resolver : ∀ (e : Expr) (r r1 : Resolver) (st st1 : Interp),
    Resolver.resolveExpr e r st = RRes.ok r1 st1 → r1 = r
  | Expr.valueExpr _, r, r1, st, st1, h => by
    rw [Resolver.resolveExpr] at h
    simp only [RRes.ok.injEq] at h; exact h.1.symm
  | Expr.mathExpr left _ right, r, r1, st, st1, h => by
    rw [Resolver.resolveExpr] at h
    obtain ⟨r2, st2, h2, h3⟩ := RRes.bind_ok h
    rw [resolveExpr_resolver right r2 r1 st2 st1 h3, resolveExpr_resolver left r r2 st st2 h2]
  | Expr.groupExpr expression, r, r1, st, st1, h => by
    rw [Resolver.resolveExpr] at h
    exact resolveExpr_resolver expression r r1 st st1 h
  | Expr.prefixExpr _ right, r, r1, st, st1, h => by
    rw [Resolver.resolveExpr] at h
    exact resolveExpr_resolver right r r1 st st1 h
  | Expr.postfixExpr _ left, r, r1, st, st1, h => by
    rw [Resolver.resolveExpr] at h
    exact resolveExpr_resolver left r r1 st st1 h
  | Expr.variableExpr id name, r, r1, st, st1, h => by
    rw [Resolver.resolveExpr] at h
    exact visitVariable_resolver id name r r1 st st1 h
  | Expr.assignExpr id name value, r, r1, st, st1, h => by
    rw [Resolver.resolveExpr] at h
    obtain ⟨r2, st2, h2, h3⟩ := RRes.bind_ok h
    rw [resolveLocal_resolver id name r2 r1 st2 st1 h3, resolveExpr_resolver value r r2 st st2 h2]
  | Expr.logicalExpr left _ right, r, r1, st, st1, h => by
    rw [Resolver.resolveExpr] at h
    obtain ⟨r2, st2, h2, h3⟩ := RRes.bind_ok h
    rw [resolveExpr_resolver right r2 r1 st2 st1 h3, resolveExpr_resolver left r r2 st st2 h2]
  | Expr.callExpr callee arguments _, r, r1, st, st1, h => by
    rw [Resolver.resolveExpr] at h
    obtain ⟨r2, st2, h2, h3⟩ := RRes.bind_ok h
    rw [resolveExprs_resolver arguments r2 r1 st2 st1 h3, resolveExpr_resolver callee r r2 st st2 h2]
  | Expr.listExpr elements, r, r1, st, st1, h => by
    rw [Resolver.resolveExpr] at h
    exact resolveExprs_resolver elements r r1 st st1 h
  | Expr.indexExpr object index _, r, r1, st, st1, h => by
    rw [Resolver.resolveExpr] at h
    obtain ⟨r2, st2, h2, h3⟩ := RRes.bind_ok h
    rw [resolveExpr_resolver index r2 r1 st2 st1 h3, resolveExpr_resolver object r r2 st st2 h2]
  | Expr.getExpr object _, r, r1, st, st1, h => by
    rw [Resolver.resolveExpr] at h
    exact resolveExpr_resolver object r r1 st st1 h
  | Expr.setExpr object _ value, r, r1, st, st1, h => by
    rw [Resolver.resolveExpr] at h
    obtain ⟨r2, st2, h2, h3⟩ := RRes.bind_ok h
    rw [resolveExpr_resolver value r2 r1 st2 st1 h3, resolveExpr_resolver object r r2 st st2 h2]
  | Expr.mapExpr _ items, r, r1, st, st1, h => by
    rw [Resolver.resolveExpr] at h
    exact resolveItems_resolver items r r1 st st1 h
  | Expr.indexSetExpr object _ index value, r, r1, st, st1, h => by
    rw [Resolver.resolveExpr] at h
    obtain ⟨r2, st2, h2, h3⟩ := RRes.bind_ok h
    obtain ⟨r3, st3, h4, h5⟩ := RRes.bind_ok h2
    rw [resolveExpr_resolver value r2 r1 st2 st1 h3, resolveExpr_resolver index r3 r2 st3 st2 h5,
      resolveExpr_resolver object r r3 st st3 h4]
  | Expr.rangeExpr leftBound _ rightBound, r, r1, st, st1, h => by
    rw [Resolver.resolveExpr] at h
    obtain ⟨r2, st2, h2, h3⟩ := RRes.bind_ok h
    rw [resolveExpr_resolver rightBound r2 r1 st2 st1 h3,
      resolveExpr_resolver leftBound r r2 st st2 h2]
  | Expr.bitwiseAndExpr left _ right, r, r1, st, st1, h => by
    rw [Resolver.resolveExpr] at h
    obtain ⟨r2, st2, h2, h3⟩ := RRes.bind_ok h
    rw [resolveExpr_resolver right r2 r1 st2 st1 h3, resolveExpr_resolver left r r2 st st2 h2]
  | Expr.bitwiseOrExpr left _ right, r, r1, st, st1, h => by
    rw [Resolver.resolveExpr] at h
    obtain ⟨r2, st2, h2, h3⟩ := RRes.bind_ok h
    rw [resolveExpr_resolver right r2 r1 st2 st1 h3, resolveExpr_resolver left r r2 st st2 h2]
  | Expr.bitwiseXorExpr left _ right, r, r1, st, st1, h => by
    rw [Resolver.resolveExpr] at h
    obtain ⟨r2, st2, h2, h3⟩ := RRes.bind_ok h
    rw [resolveExpr_resolver right r2 r1 st2 st1 h3, resolveExpr_resolver left r r2 st st2 h2]
  | Expr.shiftExpr left _ right, r, r1, st, st1, h => by
    rw [Resolver.resolveExpr] at h
    obtain ⟨r2, st2, h2, h3⟩ := RRes.bind_ok h
    rw [resolveExpr_resolver right r2 r1 st2 st1 h3, resolveExpr_resolver left r r2 st st2 h2]
  | Expr.thisExpr id keyword, r, r1, st, st1, h => by
    rw [Resolver.resolveExpr] at h
    exact visitThis_resolver id keyword r r1 st st1 h

theorem resolveExprs_resolver : ∀ (es : List Expr) (r r1 : Resolver) (st st1 : Interp),
    Resolver.resolveExprs es r st = RRes.ok r1 st1 → r1 = r
  | [], r, r1, st, st1, h => by
    rw [Resolver.resolveExprs] at h
    simp only [RRes.ok.injEq] at h; exact h.1.symm
  | e :: rest, r, r1, st, st1, h => by
    rw [Resolver.resolveExprs] at h
    obtain ⟨r2, st2, h2, h3⟩ := RRes.bind_ok h
    rw [resolveExprs_resolver rest r2 r1 st2 st1 h3, resolveExpr_resolver e r r2 st st2 h2]

theorem resolveItems_resolver : ∀ (items : List (Expr × Expr)) (r r1 : Resolver) (st st1 : Interp),
    Resolver.resolveItems items r st = RRes.ok r1 st1 → r1 = r
  | [], r, r1, st, st1, h => by
    rw [Resolver.resolveItems] at h
    simp only [RRes.ok.injEq] at h; exact h.1.symm
  | (key, value) :: rest, r, r1, st, st1, h => by
    rw [Resolver.resolveItems] at h
    obtain ⟨r2, st2, h2, h3⟩ := RRes.bind_ok h
    obtain ⟨r3, st3, h4, h5⟩ := RRes.bind_ok h2
    rw [resolveItems_resolver rest r2 r1 st2 st1 h3, resolveExpr_resolver value r3 r2 st3 st2 h5,
      resolveExpr_resolver key r r3 st st3 h4]

end

theorem resolveOptExpr_resolver (e : Option Expr) (r r1 : Resolver) (st st1 : Interp)
    (h : Resolver.resolveOptExpr e r st = RRes.ok r1 st1) : r1 = r := by
  cases e with
  | none =>
    simp only [Resolver.resolveOptExpr, RRes.ok.injEq] at h; exact h.1.symm
  | some e => exact resolveExpr_resolver e r r1 st st1 h

theorem ok_endScope {r2 r1 : Resolver} {st2 st1 : Interp}
    (h : RRes.ok r2.endScope st2 = RRes.ok r1 st1) : r1.scopes = r2.scopes.tail := by
  simp only [RRes.ok.injEq] at h
  rw [← h.1]; rfl

theorem declareParameters_grows : ∀ (ps : List Parameter) (r r1 : Resolver) (st st1 : Interp),
    Resolver.declareParameters ps r st = RRes.ok r1 st1 → ScopesGrow r.scopes r1.scopes
  | [], r, r1, st, st1, h => by
    simp only [Resolver.declareParameters, RRes.ok.injEq] at h
    exact ScopesGrow.of_eq (by rw [← h.1])
  | p :: rest, r, r1, st, st1, h => by
    rw [Resolver.declareParameters] at h
    obtain ⟨r2, st2, h2, h3⟩ := RRes.bind_ok h
    exact (declareDefine_grows p.name r r2 st st2 h2).1.trans
      (declareParameters_grows rest r2 r1 st2 st1 h3)

mutual

theorem resolveStmt_grows : ∀ (s : Stmt) (r r1 : Resolver) (st st1 : Interp),
    Resolver.resolveStmt s r st = RRes.ok r1 st1 → ScopesGrow r.scopes r1.scopes
  | Stmt.expressionStmt expression, r, r1, st, st1, h => by
    rw [Resolver.resolveStmt] at h
    exact ScopesGrow.of_eq (by rw [resolveExpr_resolver expression r r1 st st1 h])
  | Stmt.functionStmt f, r, r1, st, st1, h => by
    rw [Resolver.resolveStmt] at h
    exact visitFunctionStmt_grows f r r1 st st1 h
  | Stmt.importStmt _, r, r1, st, st1, h => by
    simp only [Resolver.resolveStmt, RRes.ok.injEq] at h
    exact ScopesGrow.of_eq (by rw [← h.1])
  | Stmt.aliasStmt aliasExpr name, r, r1, st, st1, h => by
    rw [Resolver.resolveStmt] at h
    obtain ⟨r2, st2, h2, h3⟩ := RRes.bind_ok h
    have := resolveExpr_resolver aliasExpr r r2 st st2 h2
    subst this
    exact (declareDefine_grows name r2 r1 st2 st1 h3).1
  | Stmt.varStmt v, r, r1, st, st1, h => by
    rw [Resolver.resolveStmt] at h
    obtain ⟨r2, st2, h2, h3⟩ := RRes.bind_ok h
    obtain ⟨r3, st3, h4, h5⟩ := RRes.bind_ok h2
    have := resolveOptExpr_resolver v.initializer r3 r2 st3 st2 h5
    subst this
    exact (declare_grows v.name r r2 st st3 h4).1.trans (define_grows v.name r2 r1 st2 st1 h3)
  | Stmt.returnStmt _ value, r, r1, st, st1, h => by
    rw [Resolver.resolveStmt] at h
    exact ScopesGrow.of_eq (by rw [resolveOptExpr_resolver value r r1 st st1 h])
  | Stmt.ifStmt condition thenBranch elseBranch, r, r1, st, st1, h => by
    rw [Resolver.resolveStmt] at h
    obtain ⟨r2, st2, h2, h3⟩ := RRes.bind_ok h
    obtain ⟨r3, st3, h4, h5⟩ := RRes.bind_ok h2
    have := resolveExpr_resolver condition r r3 st st3 h4
    subst this
    exact (resolveStmt_grows thenBranch r3 r2 st3 st2 h5).trans
      (resolveOptStmt_grows elseBranch r2 r1 st2 st1 h3)
  | Stmt.whileStmt condition body, r, r1, st, st1, h => by
    rw [Resolver.resolveStmt] at h
    obtain ⟨r2, st2, h2, h3⟩ := RRes.bind_ok h
    have := resolveExpr_resolver condition r r2 st st2 h2
    subst this
    exact resolveStmt_grows body r2 r1 st2 st1 h3
  | Stmt.blockStmt statements, r, r1, st, st1, h => by
    rw [Resolver.resolveStmt] at h
    obtain ⟨r2, st2, h2, h3⟩ := RRes.bind_ok h
    have hg := resolveStmts_grows statements r.beginScope r2 st st2 h2
    exact ScopesGrow.of_eq (by rw [ok_endScope h3]; exact hg.tail_of_begin)
  | Stmt.namespaceStmt name body, r, r1, st, st1, h => by
    rw [Resolver.resolveStmt] at h
    obtain ⟨r2, st2, h2, h3⟩ := RRes.bind_ok h
    exact (declareDefine_grows name r r2 st st2 h2).1.trans
      (resolveStmts_grows body r2 r1 st2 st1 h3)
  | Stmt.eachStmt id _ collection body, r, r1, st, st1, h => by
    rw [Resolver.resolveStmt] at h
    obtain ⟨r2, st2, h2, h3⟩ := RRes.bind_ok h
    obtain ⟨r3, st3, h4, h5⟩ := RRes.bind_ok h2
    obtain ⟨r4, st4, h6, h7⟩ := RRes.bind_ok h4
    have := resolveExpr_resolver collection r r4 st st4 h6
    subst this
    have hg := (declareDefine_grows id r4.beginScope r3 st4 st3 h7).1.trans
      (resolveStmt_grows body r3 r2 st3 st2 h5)
    exact ScopesGrow.of_eq (by rw [ok_endScope h3]; exact hg.tail_of_begin)
  | Stmt.stopStmt _, r, r1, st, st1, h => by
    simp only [Resolver.resolveStmt, RRes.ok.injEq] at h
    exact ScopesGrow.of_eq (by rw [← h.1])
  | Stmt.skipStmt _, r, r1, st, st1, h => by
    simp only [Resolver.resolveStmt, RRes.ok.injEq] at h
    exact ScopesGrow.of_eq (by rw [← h.1])
  | Stmt.forStmt init condition increment body, r, r1, st, st1, h => by
    rw [Resolver.resolveStmt] at h
    obtain ⟨r2, st2, h2, h3⟩ := RRes.bind_ok h
    obtain ⟨r3, st3, h4, h5⟩ := RRes.bind_ok h2
    obtain ⟨r4, st4, h6, h7⟩ := RRes.bind_ok h4
    obtain ⟨r5, st5, h8, h9⟩ := RRes.bind_ok h6
    have e1 := resolveOptExpr_resolver condition r5 r4 st5 st4 h9
    have e2 := resolveOptExpr_resolver increment r4 r3 st4 st3 h7
    subst e1
    subst e2
    have hg := (resolveOptStmt_grows init r.beginScope r3 st st5 h8).trans
      (resolveStmt_grows body r3 r2 st3 st2 h5)
    exact ScopesGrow.of_eq (by rw [ok_endScope h3]; exact hg.tail_of_begin)
  | Stmt.classStmt name methods _ _ superclass, r, r1, st, st1, h => by
    rw [Resolver.resolveStmt] at h
    obtain ⟨ra, sta, ha, hb⟩ := RRes.bind_ok h
    have g1 : ScopesGrow r.scopes ra.scopes := (declareDefine_grows name _ ra st sta ha).1
    dsimp only at hb
    obtain ⟨rb, stb, hc, hd⟩ := RRes.bind_ok hb
    obtain ⟨rc, stc, he, hf⟩ := RRes.bind_ok hd
    obtain ⟨rd, std, hg, hh⟩ := RRes.bind_ok he
    have t1 : rd.scopes.tail = rb.scopes :=
      (declareDefine_grows _ rb.beginScope rd stb std hg).1.tail_of_begin
    have t2 : rc.scopes = rd.scopes := resolveMethods_scopes methods rd rc std stc hh
    simp only [RRes.ok.injEq] at hf
    cases superclass with
    | none =>
      simp only [RRes.ok.injEq] at hc
      have hr1 : r1.scopes = rc.scopes.tail := by rw [← hf.1]; rfl
      refine g1.trans (ScopesGrow.of_eq ?_)
      rw [hr1, t2, t1, ← hc.1]
    | some sup =>
      obtain ⟨id, superName⟩ := sup
      dsimp only at hc
      split_ifs at hc
      obtain ⟨re, ste, hi, hj⟩ := RRes.bind_ok hc
      have e1 := visitVariable_resolver id superName ra re sta ste hi
      simp only [RRes.ok.injEq] at hj
      have hr1 : r1.scopes = rc.scopes.tail.tail := by rw [← hf.1]; rfl
      have hrb : rb.scopes.tail = ra.scopes := by rw [← hj.1, e1]; rfl
      refine g1.trans (ScopesGrow.of_eq ?_)
      rw [hr1, t2, t1, hrb]
  | Stmt.attemptStmt attemptBody failBody error finallyBody _, r, r1, st, st1, h => by
    rw [Resolver.resolveStmt] at h
    obtain ⟨r2, st2, h2, h3⟩ := RRes.bind_ok h
    obtain ⟨r3, st3, h4, h5⟩ := RRes.bind_ok h3
    obtain ⟨r4, st4, h6, h7⟩ := RRes.bind_ok h5
    obtain ⟨r5, st5, h8, h9⟩ := RRes.bind_ok h4
    have g1 := resolveStmts_grows attemptBody r.beginScope r2 st st2 h2
    have g2 := (declareDefine_grows error r2.endScope.beginScope r5 st2 st5 h8).1.trans
      (resolveStmts_grows failBody r5 r3 st5 st3 h9)
    have g3 := resolveStmts_grows finallyBody r3.endScope.beginScope r4 st3 st4 h6
    have t1 : r2.scopes.tail = r.scopes := g1.tail_of_begin
    have t2 : r3.scopes.tail = r2.scopes.tail := g2.tail_of_begin
    have t3 : r4.scopes.tail = r3.scopes.tail := g3.tail_of_begin
    exact ScopesGrow.of_eq (by rw [ok_endScope h7, t3, t2, t1])
  | Stmt.panicStmt _ message, r, r1, st, st1, h => by
    rw [Resolver.resolveStmt] at h
    obtain ⟨r2, st2, h2, h3⟩ := RRes.bind_ok h
    have := resolveOptExpr_resolver message r.beginScope r2 st st2 h2
    subst this
    exact ScopesGrow.of_eq (by rw [ok_endScope h3]; rfl)

theorem resolveOptStmt_grows : ∀ (s : Option Stmt) (r r1 : Resolver) (st st1 : Interp),
    Resolver.resolveOptStmt s r st = RRes.ok r1 st1 → ScopesGrow r.scopes r1.scopes
  | some s, r, r1, st, st1, h => by
    rw [Resolver.resolveOptStmt] at h
    exact resolveStmt_grows s r r1 st st1 h
  | none, r, r1, st, st1, h => by
    simp only [Resolver.resolveOptStmt, RRes.ok.injEq] at h
    exact ScopesGrow.of_eq (by rw [← h.1])

theorem resolveStmts_grows : ∀ (ss : List Stmt) (r r1 : Resolver) (st st1 : Interp),
    Resolver.resolveStmts ss r st = RRes.ok r1 st1 → ScopesGrow r.scopes r1.scopes
  | [], r, r1, st, st1, h => by
    simp only [Resolver.resolveStmts, RRes.ok.injEq] at h
    exact ScopesGrow.of_eq (by rw [← h.1])
  | s :: rest, r, r1, st, st1, h => by
    rw [Resolver.resolveStmts] at h
    obtain ⟨r2, st2, h2, h3⟩ := RRes.bind_ok h
    exact (resolveStmt_grows s r r2 st st2 h2).trans (resolveStmts_grows rest r2 r1 st2 st1 h3)

theorem visitFunctionStmt_grows : ∀ (f : FunctionStmt) (r r1 : Resolver) (st st1 : Interp),
    Resolver.visitFunctionStmt f r st = RRes.ok r1 st1 → ScopesGrow r.scopes r1.scopes
  | FunctionStmt.mk name parameters body _ _ _, r, r1, st, st1, h => by
    rw [Resolver.visitFunctionStmt] at h
    obtain ⟨r2, st2, h2, h3⟩ := RRes.bind_ok h
    obtain ⟨r3, st3, h4, h5⟩ := RRes.bind_ok h2
    obtain ⟨r4, st4, h6, h7⟩ := RRes.bind_ok h4
    have g1 := (declareDefine_grows name r r4 st st4 h6).1
    have g2 := (declareParameters_grows parameters r4.beginScope r3 st4 st3 h7).trans
      (resolveStmts_grows body r3 r2 st3 st2 h5)
    have t : r2.scopes.tail = r4.scopes := g2.tail_of_begin
    exact g1.trans (ScopesGrow.of_eq (by rw [ok_endScope h3, t]))

theorem resolveFunction_scopes : ∀ (f : FunctionStmt) (type : FunctionType) (r r1 : Resolver)
    (st st1 : Interp), Resolver.resolveFunction f type r st = RRes.ok r1 st1 → r1.scopes = r.scopes
  | FunctionStmt.mk _ parameters body _ _ _, type, r, r1, st, st1, h => by
    rw [Resolver.resolveFunction] at h
    obtain ⟨r2, st2, h2, h3⟩ := RRes.bind_ok h
    obtain ⟨r3, st3, h4, h5⟩ := RRes.bind_ok h2
    have g := (declareParameters_grows parameters _ r3 st st3 h4).trans
      (resolveStmts_grows body r3 r2 st3 st2 h5)
    have t : r2.scopes.tail = r.scopes := g.tail_of_begin
    simp only [RRes.ok.injEq] at h3
    rw [← h3.1]
    exact t

theorem resolveMethods_scopes : ∀ (ms : List FunctionStmt) (r r1 : Resolver) (st st1 : Interp),
    Resolver.resolveMethods ms r st = RRes.ok r1 st1 → r1.scopes = r.scopes
  | [], r, r1, st, st1, h => by
    simp only [Resolver.resolveMethods, RRes.ok.injEq] at h
    rw [← h.1]
  | method :: rest, r, r1, st, st1, h => by
    rw [Resolver.resolveMethods] at h
    obtain ⟨r2, st2, h2, h3⟩ := RRes.bind_ok h
    rw [resolveMethods_scopes rest r2 r1 st2 st1 h3, resolveFunction_scopes method _ r r2 st st2 h2]

end

theorem RRes.bind_ok_eq (r : Resolver) (st : Interp) (k : Resolver → Interp → RRes) :
    (RRes.ok r st).bind k = k r st := rfl

theorem declareParameters_redeclared (n : String) :
    ∀ (ps : List Parameter) (r : Resolver) (st : Interp), declaredIn r.scopes n = true →
      (∃ p ∈ ps, p.name.lexeme = n) → (Resolver.declareParameters ps r st).failed = true
  | [], _, _, _, h => by
    obtain ⟨p, hp, _⟩ := h
    cases hp
  | q :: rest, r, st, hd, h => by
    rw [Resolver.declareParameters]
    by_cases hq : q.name.lexeme = n
    · exact RRes.bind_failed (declareDefine_failed q.name r st (by rw [hq]; exact hd))
    · have hrest : ∃ p ∈ rest, p.name.lexeme = n := by
        obtain ⟨p, hp, hpn⟩ := h
        rcases List.mem_cons.1 hp with h1 | h1
        · subst h1; exact absurd hpn hq
        · exact ⟨p, h1, hpn⟩
      rcases RRes.ok_or_failed (Resolver.declareDefine q.name r st) with hf | ⟨r2, st2, hok⟩
      · exact RRes.bind_failed hf
      · rw [hok, RRes.bind_ok_eq]
        exact declareParameters_redeclared n rest r2 st2
          ((declareDefine_grows q.name r r2 st st2 hok).1.2.2 n hd) hrest

theorem declareParameters_duplicate (p1 p2 : Parameter) (mid post : List Parameter)
    (hname : p1.name.lexeme = p2.name.lexeme) :
    ∀ (pre : List Parameter) (r : Resolver) (st : Interp), r.scopes ≠ [] →
      (Resolver.declareParameters (pre ++ p1 :: (mid ++ p2 :: post)) r st).failed = true
  | [], r, st, hne => by
    rw [List.nil_append, Resolver.declareParameters]
    rcases RRes.ok_or_failed (Resolver.declareDefine p1.name r st) with hf | ⟨r2, st2, hok⟩
    · exact RRes.bind_failed hf
    · rw [hok, RRes.bind_ok_eq]
      exact declareParameters_redeclared p1.name.lexeme _ r2 st2
        ((declareDefine_grows p1.name r r2 st st2 hok).2 hne)
        ⟨p2, by simp, hname.symm⟩
  | q :: pre, r, st, hne => by
    rw [List.cons_append, Resolver.declareParameters]
    rcases RRes.ok_or_failed (Resolver.declareDefine q.name r st) with hf | ⟨r2, st2, hok⟩
    · exact RRes.bind_failed hf
    · rw [hok, RRes.bind_ok_eq]
      exact declareParameters_duplicate p1 p2 mid post hname pre r2 st2
        ((declareDefine_grows q.name r r2 st st2 hok).1.ne_nil hne)

theorem varStmt_redeclared (v : VarStmt) (r : Resolver) (st : Interp)
    (h : declaredIn r.scopes v.name.lexeme = true) :
    (Resolver.resolveStmt (Stmt.varStmt v) r st).failed = true := by
  rw [Resolver.resolveStmt]
  exact RRes.bind_failed (RRes.bind_failed (declare_failed v.name r st h))

theorem varStmt_declares (v : VarStmt) (r r1 : Resolver) (st st1 : Interp) (hne : r.scopes ≠ [])
    (h : Resolver.resolveStmt (Stmt.varStmt v) r st = RRes.ok r1 st1) :
    declaredIn r1.scopes v.name.lexeme = true := by
  rw [Resolver.resolveStmt] at h
  obtain ⟨r2, st2, h2, h3⟩ := RRes.bind_ok h
  obtain ⟨r3, st3, h4, h5⟩ := RRes.bind_ok h2
  have := resolveOptExpr_resolver v.initializer r3 r2 st3 st2 h5
  subst this
  exact (define_grows v.name r2 r1 st2 st1 h3).2.2 _ ((declare_grows v.name r r2 st st3 h4).2 hne)

theorem resolveStmts_redeclared (v : VarStmt) (post : List Stmt) :
    ∀ (mid : List Stmt) (r : Resolver) (st : Interp), declaredIn r.scopes v.name.lexeme = true →
      (Resolver.resolveStmts (mid ++ Stmt.varStmt v :: post) r st).failed = true
  | [], r, st, hd => by
    rw [List.nil_append, Resolver.resolveStmts]
    exact RRes.bind_failed (varStmt_redeclared v r st hd)
  | s :: mid, r, st, hd => by
    rw [List.cons_append, Resolver.resolveStmts]
    rcases RRes.ok_or_failed (Resolver.resolveStmt s r st) with hf | ⟨r2, st2, hok⟩
    · exact RRes.bind_failed hf
    · rw [hok, RRes.bind_ok_eq]
      exact resolveStmts_redeclared v post mid r2 st2
        ((resolveStmt_grows s r r2 st st2 hok).2.2 _ hd)

theorem resolveStmts_duplicate (v1 v2 : VarStmt) (mid post : List Stmt)
    (hname : v1.name.lexeme = v2.name.lexeme) :
    ∀ (pre : List Stmt) (r : Resolver) (st : Interp), r.scopes ≠ [] →
      (Resolver.resolveStmts (pre ++ Stmt.varStmt v1 :: (mid ++ Stmt.varStmt v2 :: post)) r st).failed
        = true
  | [], r, st, hne => by
    rw [List.nil_append, Resolver.resolveStmts]
    rcases RRes.ok_or_failed (Resolver.resolveStmt (Stmt.varStmt v1) r st) with hf | ⟨r2, st2, hok⟩
    · exact RRes.bind_failed hf
    · rw [hok, RRes.bind_ok_eq]
      exact resolveStmts_redeclared v2 post mid r2 st2
        (by rw [← hname]; exact varStmt_declares v1 r r2 st st2 hne hok)
  | s :: pre, r, st, hne => by
    rw [List.cons_append, Resolver.resolveStmts]
    rcases RRes.ok_or_failed (Resolver.resolveStmt s r st) with hf | ⟨r2, st2, hok⟩
    · exact RRes.bind_failed hf
    · rw [hok, RRes.bind_ok_eq]
      exact resolveStmts_duplicate v1 v2 mid post hname pre r2 st2
        ((resolveStmt_grows s r r2 st st2 hok).ne_nil hne)

theorem beginScope_ne_nil (r : Resolver) : r.beginScope.scopes ≠ [] := by
  simp [Resolver.beginScope]

theorem block_duplicate (v1 v2 : VarStmt) (pre mid post : List Stmt)
    (hname : v1.name.lexeme = v2.name.lexeme) (r : Resolver) (st : Interp) :
    (Resolver.resolveStmt
      (Stmt.blockStmt (pre ++ Stmt.varStmt v1 :: (mid ++ Stmt.varStmt v2 :: post))) r st).failed
      = true := by
  rw [Resolver.resolveStmt]
  exact RRes.bind_failed
    (resolveStmts_duplicate v1 v2 mid post hname pre r.beginScope st (beginScope_ne_nil r))

theorem function_duplicate (name : Token) (p1 p2 : Parameter) (pre mid post : List Parameter)
    (body : List Stmt) (ns al : Option Token) (isPrivate : Bool)
    (hname : p1.name.lexeme = p2.name.lexeme) (r : Resolver) (st : Interp) :
    (Resolver.visitFunctionStmt
      (FunctionStmt.mk name (pre ++ p1 :: (mid ++ p2 :: post)) body ns al isPrivate) r st).failed
      = true := by
  rw [Resolver.visitFunctionStmt]
  rcases RRes.ok_or_failed (Resolver.declareDefine name r st) with hf | ⟨r2, st2, hok⟩
  · exact RRes.bind_failed (RRes.bind_failed (RRes.bind_failed hf))
  · rw [hok, RRes.bind_ok_eq]
    exact RRes.bind_failed (RRes.bind_failed
      (declareParameters_duplicate p1 p2 mid post hname pre r2.beginScope st2
        (beginScope_ne_nil r2)))

theorem method_duplicate (name : Token) (p1 p2 : Parameter) (pre mid post : List Parameter)
    (body : List Stmt) (ns al : Option Token) (isPrivate : Bool) (type : FunctionType)
    (hname : p1.name.lexeme = p2.name.lexeme) (r : Resolver) (st : Interp) :
    (Resolver.resolveFunction
      (FunctionStmt.mk name (pre ++ p1 :: (mid ++ p2 :: post)) body ns al isPrivate) type r
      st).failed = true := by
  rw [Resolver.resolveFunction]
  exact RRes.bind_failed (RRes.bind_failed
    (declareParameters_duplicate p1 p2 mid post hname pre _ st (beginScope_ne_nil _)))

theorem each_duplicate (id : Token) (dataType : Option Token) (collection : Expr) (v : VarStmt)
    (hname : v.name.lexeme = id.lexeme) (r : Resolver) (st : Interp) :
    (Resolver.resolveStmt (Stmt.eachStmt id dataType collection (Stmt.varStmt v)) r st).failed
      = true := by
  rw [Resolver.resolveStmt]
  rcases RRes.ok_or_failed (Resolver.resolveExpr collection r st) with hf | ⟨r2, st2, hok⟩
  · exact RRes.bind_failed (RRes.bind_failed (RRes.bind_failed hf))
  · rw [hok, RRes.bind_ok_eq]
    rcases RRes.ok_or_failed (Resolver.declareDefine id r2.beginScope st2) with hf | ⟨r3, st3, hok3⟩
    · exact RRes.bind_failed (RRes.bind_failed hf)
    · rw [hok3, RRes.bind_ok_eq]
      exact RRes.bind_failed (varStmt_redeclared v r3 st3
        (by rw [hname]
            exact (declareDefine_grows id r2.beginScope r3 st2 st3 hok3).2 (beginScope_ne_nil r2)))

theorem for_duplicate (v1 v2 : VarStmt) (condition increment : Option Expr)
    (hname : v1.name.lexeme = v2.name.lexeme) (r : Resolver) (st : Interp) :
    (Resolver.resolveStmt
      (Stmt.forStmt (some (Stmt.varStmt v1)) condition increment (Stmt.varStmt v2)) r st).failed
      = true := by
  rw [Resolver.resolveStmt, Resolver.resolveOptStmt]
  rcases RRes.ok_or_failed (Resolver.resolveStmt (Stmt.varStmt v1) r.beginScope st)
    with hf | ⟨r2, st2, hok⟩
  · exact RRes.bind_failed (RRes.bind_failed (RRes.bind_failed (RRes.bind_failed hf)))
  · have hd := varStmt_declares v1 r.beginScope r2 st st2 (beginScope_ne_nil r) hok
    rw [hok, RRes.bind_ok_eq]
    rcases RRes.ok_or_failed (Resolver.resolveOptExpr condition r2 st2) with hf | ⟨r3, st3, hok3⟩
    · exact RRes.bind_failed (RRes.bind_failed (RRes.bind_failed hf))
    · have e3 := resolveOptExpr_resolver condition r2 r3 st2 st3 hok3
      subst e3
      rw [hok3, RRes.bind_ok_eq]
      rcases RRes.ok_or_failed (Resolver.resolveOptExpr increment r3 st3) with hf | ⟨r4, st4, hok4⟩
      · exact RRes.bind_failed (RRes.bind_failed hf)
      · have e4 := resolveOptExpr_resolver increment r3 r4 st3 st4 hok4
        subst e4
        rw [hok4, RRes.bind_ok_eq]
        exact RRes.bind_failed (varStmt_redeclared v2 r4 st4 (by rw [← hname]; exact hd))

/-! ## The claims -/

/-- C1 (code defect).  Running
`attempt { data x = 1/0 } fail e::MathError { out("caught") } finally { out("done") }`
from the initial state ends normally and prints only `caught`: when the fail clause
consumes the error, `visitAttemptStmt` does not run the finally body.  On the two
other paths it does: with `1/1` in the attempt body the program prints `done`, and
with a fail clause for `TypeError` it prints `done` and the division error leaves
the statement. -/
theorem attempt_finally_skipped_after_caught_error :
    (interpret 10 attemptCaughtProgram Interp.initial).output = ["caught"]
    ∧ (interpret 10 attemptCaughtProgram Interp.initial).thrown? = none
    ∧ (interpret 10 attemptNormalProgram Interp.initial).output = ["done"]
    ∧ (interpret 10 attemptNormalProgram Interp.initial).thrown? = none
    ∧ (interpret 10 attemptRethrowProgram Interp.initial).output = ["done"]
    ∧ (interpret 10 attemptRethrowProgram Interp.initial).thrown?
      = some (Thrown.runtimeError
          { token := tok TokenType.DIVIDE "/", message := "Cannot Divide with zero.",
            type := RyValue.string "MathError" }) := by
  decide!

/-- C2 (code defect).  Three writes to a constrained variable that escape or invert
the check: at top level `data::num x = 1   x = "s"` ends normally and leaves `x`
holding the string `s` in a cell without constraint; in a block
`data::num x = 1   x++   x = "s"   out(x)` ends normally and prints `s`, the
increment having replaced the cell by one without constraint; and in a block
`data::map m = {}   m = {}` the assignment of a map to the map variable raises the
type error. -/
theorem typed_cell_written_without_check :
    ((interpret 10 globalAssignProgram { Interp.initial with locals := [(1, -1)] }).state?.bind
        (fun st => st.cell? 0 "x"))
      = some { value := RyValue.string "s", isPrivate := false, typeConstraint := none }
    ∧ (interpret 10 globalAssignProgram { Interp.initial with locals := [(1, -1)] }).thrown? = none
    ∧ (interpret 10 localIncrementProgram
        { Interp.initial with locals := [(1, 0), (2, 0), (3, 0)] }).output = ["s"]
    ∧ (interpret 10 localIncrementProgram
        { Interp.initial with locals := [(1, 0), (2, 0), (3, 0)] }).thrown? = none
    ∧ (interpret 10 localMapProgram { Interp.initial with locals := [(1, 0)] }).thrown?
      = some (Thrown.runtimeError
          { token := tok TokenType.IDENTIFIER "m",
            message := "Type Error: Cannot assign non-map to a map variable." }) := by
  decide!

/-- C3 (code defect).  Folding changes what an expression evaluates to: `"a" + 0`
evaluates to the string `a0` but its folded form to the string `a`; `1 or x`
evaluates to the boolean true but its folded form to the number 1; and `1 / 3`
evaluates to one third but its folded form, the literal `0.333333` written by
`std::to_string`, to the double nearest to 333333 millionths. -/
theorem fold_changes_evaluation :
    (evaluate 5 stringPlusZero Interp.initial).value? = some (RyValue.string "a0")
    ∧ (evaluate 5 (fold stringPlusZero) Interp.initial).value? = some (RyValue.string "a")
    ∧ (evaluate 5 oneOrX Interp.initial).value? = some (RyValue.bool true)
    ∧ (evaluate 5 (fold oneOrX) Interp.initial).value? = some (RyValue.number 1)
    ∧ (evaluate 5 oneThird Interp.initial).value? = some (RyValue.number (1 / 3))
    ∧ (fold oneThird).numberLiteral = some "0.333333"
    ∧ (evaluate 5 (fold oneThird) Interp.initial).value?
      = some (RyValue.number (3002396749180579 / 9007199254740992)) := by
  decide!

/-- C4 (counterexample).  With `class A { private data m = 1 }` and
`class B childof A { func peek() { this.m = 5   return this.m } }`, running
`out(B().peek())` raises nothing and prints 5: a method declared in a subclass
writes and reads the private member of the superclass. -/
theorem private_member_open_to_subclass_method :
    (interpret 20 subclassAccessProgram
        { Interp.initial with locals := subclassAccessLocals }).output = ["5"]
    ∧ (interpret 20 subclassAccessProgram
        { Interp.initial with locals := subclassAccessLocals }).thrown? = none := by
  decide!

/-- C4 (amended).  Let the object expression evaluate to an instance I whose field
table holds a private cell for the name.  If the current environment chain does not
bind `this` to I itself, the property read raises the error "Cannot access private
member" in the state reached by evaluating the object, and the property write
raises it in the state reached by evaluating the object and the value; in both
cases nothing is changed after the operands were evaluated, so the fields of I are
as the operands left them. -/
theorem private_member_denied_without_this (fuel : Nat) (object value : Expr) (name : Token)
    (st st1 st2 : Interp) (I : Nat) (obj1 obj2 : RyInstance) (c1 c2 : RyVariable) (v : RyValue)
    (hp : st.is_panicking = false)
    (hobj : evaluate fuel object st = Res.ok (RyValue.inst I) st1)
    (hI1 : st1.instances[I]? = some obj1) (hc1 : mapFind obj1.fields name.lexeme = some c1)
    (hpriv1 : c1.isPrivate = true) (hext1 : isInternalAccess st1 I = false)
    (hval : evaluate fuel value st1 = Res.ok v st2)
    (hI2 : st2.instances[I]? = some obj2) (hc2 : mapFind obj2.fields name.lexeme = some c2)
    (hpriv2 : c2.isPrivate = true) (hext2 : isInternalAccess st2 I = false) :
    evaluate (fuel + 1) (Expr.getExpr object name) st = Res.raise (privateMemberError name) st1
    ∧ evaluate (fuel + 1) (Expr.setExpr object name value) st
      = Res.raise (privateMemberError name) st2 := by
  constructor
  · rw [evaluate_getExpr]
    simp [visitGet, hp, hobj, Res.bind, instGetVariable_field st1 I name obj1 c1 hI1 hc1, hpriv1,
      hext1, throwRuntimeError, privateMemberError]
  · rw [evaluate_setExpr]
    simp [visitSet, hp, hobj, hval, Res.bind, instGetVariable_field st2 I name obj2 c2 hI2 hc2,
      hpriv2, hext2, throwRuntimeError, privateMemberError]

/-- C4 (witness).  After `class A { private data m = 1 }   data a = A()` at top level,
the read `a.m` and the write `a.m = 7` both raise the error and leave the state as
the evaluation of the operands left it. -/
theorem private_member_denied_without_this_witness :
    evaluate 2 (Expr.getExpr (varRef 2 "a") (tok TokenType.IDENTIFIER "m")) outsideAccessState
      = Res.raise (privateMemberError (tok TokenType.IDENTIFIER "m"))
          { outsideAccessState with lastResult := RyValue.inst 0 }
    ∧ evaluate 2 (Expr.setExpr (varRef 2 "a") (tok TokenType.IDENTIFIER "m") (numLit "7"))
        outsideAccessState
      = Res.raise (privateMemberError (tok TokenType.IDENTIFIER "m"))
          { outsideAccessState with lastResult := RyValue.number 7 } :=
  private_member_denied_without_this 1 (varRef 2 "a") (numLit "7") (tok TokenType.IDENTIFIER "m")
    outsideAccessState { outsideAccessState with lastResult := RyValue.inst 0 }
    { outsideAccessState with lastResult := RyValue.number 7 } 0 instanceOfA instanceOfA
    { value := RyValue.number 1, isPrivate := true } { value := RyValue.number 1, isPrivate := true }
    (RyValue.number 7)
    (by with_unfolding_all rfl) (by with_unfolding_all rfl) (by with_unfolding_all rfl)
    (by with_unfolding_all rfl) rfl (by with_unfolding_all rfl) (by with_unfolding_all rfl)
    (by with_unfolding_all rfl) (by with_unfolding_all rfl) rfl (by with_unfolding_all rfl)

/-- C5.  `findMethod` is a total function.  For a class C and a name m it returns
the entry of C's own method table when there is one, otherwise what the superclass
returns, otherwise (no superclass) nothing; equivalently it returns the first
definition of m met on the chain C, superclass of C, and so on, so that an
override shadows every definition further up. -/
theorem findMethod_own_then_superclass (C : RyClass) (m : String) :
    C.findMethod m =
      (match mapFind C.methods m with
       | some f => some f
       | none =>
         match C.superclass with
         | some P => P.findMethod m
         | none => none)
    ∧ C.findMethod m = C.ancestors.findSome? (fun K => mapFind K.methods m) :=
  ⟨findMethod_unfold C m, findMethod_ancestors C m⟩

/-- C6.  Let A evaluate to the value a, reaching the state st1, in a state whose
panic flag is off.  If a is truthy, `A or B` returns true in the state st1 (with
true in the result slot), whatever B is.  If a is nil or false, `A and B` returns
false in the state st1 (with false in the result slot), whatever B is.  In the two
remaining cases B is evaluated from st1 and the result is the truthiness of its
value, in the state B reached. -/
theorem logical_short_circuit (fuel : Nat) (A B : Expr) (orTok andTok : Token)
    (st st1 : Interp) (a : RyValue)
    (hp : st.is_panicking = false) (hA : evaluate fuel A st = Res.ok a st1)
    (hor : orTok.type = TokenType.OR) (hand : andTok.type = TokenType.AND) :
    (isTruthy a = true →
      evaluate (fuel + 1) (Expr.logicalExpr A orTok B) st
        = Res.ok (RyValue.bool true) { st1 with lastResult := RyValue.bool true })
    ∧ ((a = RyValue.nil ∨ a = RyValue.bool false) →
      evaluate (fuel + 1) (Expr.logicalExpr A andTok B) st
        = Res.ok (RyValue.bool false) { st1 with lastResult := RyValue.bool false })
    ∧ (∀ (b : RyValue) (st2 : Interp), evaluate fuel B st1 = Res.ok b st2 →
        (isTruthy a = false →
          evaluate (fuel + 1) (Expr.logicalExpr A orTok B) st
            = Res.ok (RyValue.bool (isTruthy b))
                { st2 with lastResult := RyValue.bool (isTruthy b) })
        ∧ (isTruthy a = true →
          evaluate (fuel + 1) (Expr.logicalExpr A andTok B) st
            = Res.ok (RyValue.bool (isTruthy b))
                { st2 with lastResult := RyValue.bool (isTruthy b) })) := by
  refine ⟨?_, ?_, ?_⟩
  · intro ht
    rw [evaluate_logicalExpr]
    simp [visitLogical, hp, hA, hor, ht, Res.bind, setResult]
  · intro hf
    have ht : isTruthy a = false := by
      rcases hf with h | h <;> simp [h, isTruthy]
    rw [evaluate_logicalExpr]
    simp [visitLogical, hp, hA, hand, ht, Res.bind, setResult]
  · intro b st2 hB
    constructor
    · intro ht
      rw [evaluate_logicalExpr]
      simp [visitLogical, hp, hA, hB, hor, ht, Res.bind, setResult]
    · intro ht
      rw [evaluate_logicalExpr]
      simp [visitLogical, hp, hA, hB, hand, ht, Res.bind, setResult]

/-- C6 (witness).  In the initial state `1 or undefined` returns true and leaves the
state as the evaluation of `1` left it; the variable on the right, which is not
defined, is never read. -/
theorem logical_short_circuit_witness :
    evaluate 2 (Expr.logicalExpr (numLit "1") (tok TokenType.OR "or") (varRef 1 "undefined"))
        Interp.initial
      = Res.ok (RyValue.bool true) { Interp.initial with lastResult := RyValue.bool true } :=
  (logical_short_circuit 1 (numLit "1") (varRef 1 "undefined") (tok TokenType.OR "or")
    (tok TokenType.AND "and") Interp.initial { Interp.initial with lastResult := RyValue.number 1 }
    (RyValue.number 1) rfl (by with_unfolding_all rfl) rfl rfl).1 (by rfl)

/-- C8 (counterexample).  `4 + [1, 2, 3]`, where only the right operand is a list,
raises the operand error instead of returning a list. -/
theorem scalar_plus_list_raises :
    (evaluate 5 scalarPlusList Interp.initial).thrown?
      = some (operandsError (tok TokenType.PLUS "+")) := by
  decide!

/-- C8 (amended).  When the left operand of `+` evaluates to a list, the result is a
list allocated by this evaluation (the next free index of the list heap): the
elements of the left list followed by the elements of the right operand when that
is a list, and by the right operand itself otherwise.  The heap is only extended,
so every list that existed before, the operands included, is unmodified. -/
theorem list_plus_builds_new_list (fuel : Nat) (A B : Expr) (op : Token)
    (st st1 st2 : Interp) (l : Nat) (b : RyValue)
    (hp : st.is_panicking = false)
    (hA : evaluate fuel A st = Res.ok (RyValue.list l) st1)
    (hB : evaluate fuel B st1 = Res.ok b st2)
    (hop : op.type = TokenType.PLUS) :
    evaluate (fuel + 1) (Expr.mathExpr A op B) st
      = Res.ok (RyValue.list st2.lists.length)
          { st2 with
            lists := st2.lists ++ [st2.lists.getD l [] ++ plusTail st2 b],
            lastResult := RyValue.list st2.lists.length } := by
  rw [evaluate_math_ok fuel A B op st st1 st2 (RyValue.list l) b hp hA hB]
  simp [mathOp, hop, Res.bind, setResult, newList]

/-- C8 (witness).  After `data xs = [1, 2, 3]`, evaluating `xs + 4` returns a new
list holding 1, 2, 3, 4 and leaves the list of `xs` in place. -/
theorem list_plus_builds_new_list_witness :
    evaluate 2 (binary (varRef 1 "xs") TokenType.PLUS "+" (numLit "4")) xsState
      = Res.ok (RyValue.list 1)
          { xsState with
            lists := [[RyValue.number 1, RyValue.number 2, RyValue.number 3],
              [RyValue.number 1, RyValue.number 2, RyValue.number 3, RyValue.number 4]],
            lastResult := RyValue.list 1 } := by
  with_unfolding_all exact
    (list_plus_builds_new_list 1 (varRef 1 "xs") (numLit "4") (tok TokenType.PLUS "+") xsState
      { xsState with lastResult := RyValue.list 0 } { xsState with lastResult := RyValue.number 4 }
      0 (RyValue.number 4) (by with_unfolding_all rfl) (by with_unfolding_all rfl)
      (by with_unfolding_all rfl) rfl)

/-- C9 (code defect).  `[1, 2, 3] - 2` does not return a list: `visitMath` calls
`right.asList()` before testing `right.isList()`, and for the scalar 2 that call
throws `std::bad_variant_access`. -/
theorem list_minus_scalar_throws :
    (evaluate 5 listMinusScalar Interp.initial).thrown?
      = some (Thrown.stdException StdExc.bad_variant_access "bad variant access") := by
  decide!

/-- C10 (counterexample).  `3 * "ab"`, with the number on the left, raises the
operand error instead of returning `ababab`. -/
theorem number_times_string_raises :
    (evaluate 5 numberTimesString Interp.initial).thrown?
      = some (operandsError (tok TokenType.STAR "*")) := by
  decide!

/-- C10 (amended).  Let k be a whole number with 0 <= k < 2^31.  If the left operand
of `*` evaluates to a string that does not convert to a number and the right one to
k, the result is the k-fold repetition of the string; if the left operand evaluates
to a list and the right one to k, the result is a new list holding the k-fold
repetition of its elements; and if the number k is on the left and the list or
non-numeric string on the right, the operand error is raised.  A string converts to
a number when `std::stod` reads its trimmed text to the end without a range error:
`ab` and `1e999` do not convert, `inf` and `nan` do. -/
theorem repetition_needs_number_on_the_right (fuel : Nat) (A B : Expr) (op : Token)
    (st st1 st2 : Interp) (a b : RyValue) (k : Nat)
    (hp : st.is_panicking = false)
    (hA : evaluate fuel A st = Res.ok a st1) (hB : evaluate fuel B st1 = Res.ok b st2)
    (hop : op.type = TokenType.STAR) (hk : k < 2 ^ 31) :
    (∀ s : String, a = RyValue.string s → tryToDouble a = none → b = RyValue.number (k : ℚ) →
      evaluate (fuel + 1) (Expr.mathExpr A op B) st
        = Res.ok (RyValue.string (nFoldString s k))
            { st2 with lastResult := RyValue.string (nFoldString s k) })
    ∧ (∀ l : Nat, a = RyValue.list l → b = RyValue.number (k : ℚ) →
      evaluate (fuel + 1) (Expr.mathExpr A op B) st
        = Res.ok (RyValue.list st2.lists.length)
            { st2 with
              lists := st2.lists ++ [nFoldList (st2.lists.getD l []) k],
              lastResult := RyValue.list st2.lists.length })
    ∧ (a = RyValue.number (k : ℚ) →
        (b.isList = true ∨ (b.isString = true ∧ tryToDouble b = none)) →
      evaluate (fuel + 1) (Expr.mathExpr A op B) st = Res.raise (operandsError op) st2)
    ∧ tryToDouble (RyValue.string "ab") = none
    ∧ tryToDouble (RyValue.string "1e999") = none
    ∧ (tryToDouble (RyValue.string "inf")).isSome = true
    ∧ (tryToDouble (RyValue.string "nan")).isSome = true := by
  refine ⟨?_, ?_, ?_, by decide!, by decide!, by decide!, by decide!⟩
  · intro s ha hnum hb
    rw [evaluate_math_ok fuel A B op st st1 st2 a b hp hA hB]
    subst ha hb
    have hk0 : ¬ ((k : Int) < 0) := by omega
    simp [mathOp, mathNumeric_of_none fuel op _ _ st2 (Or.inl hnum), hop, mathTail, Res.bind,
      setResult, toInt_natCast k hk, repeatString_eq, RyValue.isList, hk0]
  · intro l ha hb
    rw [evaluate_math_ok fuel A B op st st1 st2 a b hp hA hB]
    subst ha hb
    have hnum : tryToDouble (RyValue.list l) = none := rfl
    simp [mathOp, mathNumeric_of_none fuel op _ _ st2 (Or.inl hnum), hop, mathTail, Res.bind,
      setResult, toInt_natCast k hk, repeatList_eq, RyValue.isList, newList]
  · intro ha hb
    rw [evaluate_math_ok fuel A B op st st1 st2 a b hp hA hB]
    subst ha
    rcases hb with hb | ⟨hb, hnum⟩
    · cases b <;> simp [RyValue.isList] at hb
      have hnum : tryToDouble (RyValue.list ‹Nat›) = none := rfl
      simp [mathOp, mathNumeric_of_none fuel op _ _ st2 (Or.inr hnum), hop, mathTail, Res.bind,
        throwRuntimeError, RyValue.isList, operandsError]
    · cases b <;> simp [RyValue.isString] at hb
      simp [mathOp, mathNumeric_of_none fuel op _ _ st2 (Or.inr hnum), hop, mathTail, Res.bind,
        throwRuntimeError, RyValue.isList, operandsError]

/-- C10 (witness).  In the initial state `"ab" * 3` returns `ababab`. -/
theorem repetition_needs_number_on_the_right_witness :
    evaluate 2 stringTimesNumber Interp.initial
      = Res.ok (RyValue.string "ababab")
          { Interp.initial with lastResult := RyValue.string "ababab" } :=
  (repetition_needs_number_on_the_right 1 (strLit "ab") (numLit "3") (tok TokenType.STAR "*")
    Interp.initial { Interp.initial with lastResult := RyValue.string "ab" }
    { Interp.initial with lastResult := RyValue.number ((3 : Nat) : ℚ) }
    (RyValue.string "ab") (RyValue.number ((3 : Nat) : ℚ)) 3 rfl (by with_unfolding_all rfl)
    (by with_unfolding_all rfl) rfl (by decide)).1 "ab" rfl (by with_unfolding_all rfl) rfl

/-- C11.  Let the operands of `/` or `%` evaluate to values that both convert to
doubles, the right one to zero, in a state whose panic flag is off.  Then `a / b`
raises the runtime error `Cannot Divide with zero.` and `a % b` the runtime error
`Cannot get remainder of division with zero.`, both with the type tag `MathError`
and in the state the operands left.  The folder rebuilds every division whose
folded right operand is a literal zero, whatever the left operand; so for number
literals a and 0 the tree the parser builds for `a / 0` is the division itself,
and evaluating it raises that error. -/
theorem division_by_zero_raises_MathError (fuel : Nat) (A B : Expr) (op : Token)
    (st st1 st2 : Interp) (a b : RyValue) (x : Double)
    (hp : st.is_panicking = false)
    (hA : evaluate fuel A st = Res.ok a st1) (hB : evaluate fuel B st1 = Res.ok b st2)
    (ha : tryToDouble a = some x) (hb : tryToDouble b = some (Double.finite 0)) :
    (op.type = TokenType.DIVIDE →
      evaluate (fuel + 1) (Expr.mathExpr A op B) st
        = Res.raise (mathError op "Cannot Divide with zero.") st2)
    ∧ (op.type = TokenType.PERCENT →
      evaluate (fuel + 1) (Expr.mathExpr A op B) st
        = Res.raise (mathError op "Cannot get remainder of division with zero.") st2)
    ∧ (∀ (l r : Expr) (rs : String), op.type = TokenType.DIVIDE →
        (fold r).numberLiteral = some rs → stodValue rs = 0 →
        fold (Expr.mathExpr l op r) = Expr.mathExpr (fold l) op (fold r))
    ∧ (∀ (lit zero : Token) (d : ℚ) (n m : Nat), op.type = TokenType.DIVIDE →
        lit.type = TokenType.NUMBER → stod lit.lexeme = Stod.value (Double.finite d) n →
        zero.type = TokenType.NUMBER → stod zero.lexeme = Stod.value (Double.finite 0) m →
        evaluate (fuel + 2) (fold (Expr.mathExpr (Expr.valueExpr lit) op (Expr.valueExpr zero))) st
          = Res.raise (mathError op "Cannot Divide with zero.")
              { st with lastResult := RyValue.number 0 }) := by
  refine ⟨?_, ?_, ?_, ?_⟩
  · intro hop
    rw [evaluate_math_ok fuel A B op st st1 st2 a b hp hA hB]
    cases x <;>
      simp [mathOp, mathNumeric, numericSwitch, numericOp, numericOpSpecial, hop, ha, hb,
        Res.bind, throwRuntimeError, mathError]
  · intro hop
    rw [evaluate_math_ok fuel A B op st st1 st2 a b hp hA hB]
    cases x <;>
      simp [mathOp, mathNumeric, numericSwitch, numericOp, numericOpSpecial, hop, ha, hb,
        Res.bind, throwRuntimeError, mathError]
  · intro l r rs hop hr hz
    rw [fold, foldMath_zero_divisor _ _ _ rs hop hr hz]
  · intro lit zero d n m hop hlit hd hzero hz
    have hfold : fold (Expr.mathExpr (Expr.valueExpr lit) op (Expr.valueExpr zero))
        = Expr.mathExpr (Expr.valueExpr lit) op (Expr.valueExpr zero) := by
      rw [fold, fold, fold]
      exact foldMath_zero_divisor _ _ _ zero.lexeme hop (by simp [Expr.numberLiteral, hzero])
        (by simp [stodValue, hz])
    rw [hfold]
    have h1 : evaluate (fuel + 1) (Expr.valueExpr lit) st
        = Res.ok (RyValue.number d) { st with lastResult := RyValue.number d } := by
      simp [evaluate, visitValue, hp, hlit, hd, setResult, Res.bind]
    have h2 : evaluate (fuel + 1) (Expr.valueExpr zero) { st with lastResult := RyValue.number d }
        = Res.ok (RyValue.number 0) { st with lastResult := RyValue.number 0 } := by
      simp [evaluate, visitValue, hp, hzero, hz, setResult, Res.bind]
    rw [evaluate_math_ok (fuel + 1) _ _ op st _ _ _ _ hp h1 h2]
    simp [mathOp, mathNumeric, numericSwitch, numericOp, hop, tryToDouble, Res.bind,
      throwRuntimeError, mathError]

/-- C11 (witness).  In the initial state `"6" % 0`, whose left operand is a string
that reads as a number, raises the remainder error tagged `MathError`. -/
theorem division_by_zero_raises_MathError_witness :
    evaluate 2 (binary (strLit "6") TokenType.PERCENT "%" (numLit "0")) Interp.initial
      = Res.raise
          (mathError (tok TokenType.PERCENT "%") "Cannot get remainder of division with zero.")
          { Interp.initial with lastResult := RyValue.number 0 } :=
  (division_by_zero_raises_MathError 1 (strLit "6") (numLit "0") (tok TokenType.PERCENT "%")
    Interp.initial { Interp.initial with lastResult := RyValue.string "6" }
    { Interp.initial with lastResult := RyValue.number 0 }
    (RyValue.string "6") (RyValue.number 0) (Double.finite 6) rfl (by with_unfolding_all rfl)
    (by with_unfolding_all rfl) (by with_unfolding_all rfl) rfl).2.1 rfl

/-- C12.  Let the callee of a call expression evaluate to a user-defined function
and the arguments to n values, in a state whose panic flag is off.  The arity of
the function is the number of its parameters without default expression.  When
arity <= n <= number of declared parameters, `visitCall` goes on to the call of
the function with these values.  Otherwise it raises the runtime error with the
message of the count check in the state the evaluation of the arguments left: no
environment has been created, no parameter bound, no statement of the body run. -/
theorem argument_count_check (fuel : Nat) (callee : Expr) (arguments : List Expr) (paren : Token)
    (st st1 st2 : Interp) (f : Nat) (fn : RyFunction) (args : List RyValue)
    (hp : st.is_panicking = false)
    (hc : evaluate fuel callee st = Res.ok (RyValue.func f) st1)
    (hargs : evalList (evaluate fuel) arguments st1 = Res.ok args st2)
    (hf : st2.callables[f]? = some (RyCallable.function fn)) :
    fn.arity = (fn.declaration.parameters.countP (fun p => p.defaultValue.isNone) : Int)
    ∧ ((fn.arity ≤ args.length ∧ args.length ≤ fn.declaration.parameters.length) →
        visitCall fuel (evaluate fuel) (execute fuel) callee arguments paren st
          = afterCall paren (callFunction (evaluate fuel) (execute fuel) fn args st2))
    ∧ (¬ (fn.arity ≤ args.length ∧ args.length ≤ fn.declaration.parameters.length) →
        visitCall fuel (evaluate fuel) (execute fuel) callee arguments paren st
          = Res.raise (Thrown.runtimeError
              { token := paren,
                message := arityMessage fn.arity fn.declaration.parameters.length args.length })
              st2) := by
  have hne : (fn.arity != -1) = true := by
    have : fn.arity ≠ -1 := by
      unfold RyFunction.arity
      omega
    simpa using this
  have key : visitCall fuel (evaluate fuel) (execute fuel) callee arguments paren st
      = if (fn.arity != -1) = true ∧ ((args.length : Int) < fn.arity
            ∨ (args.length : Int) > (fn.declaration.parameters.length : Int)) then
          throwRuntimeError paren
            (arityMessage fn.arity fn.declaration.parameters.length args.length) st2
        else afterCall paren (callFunction (evaluate fuel) (execute fuel) fn args st2) := by
    simp only [visitCall, hp, hc, hargs, Res.bind, hf, RyCallable.arity, callCallable,
      Bool.false_eq_true, if_false]
    rfl
  refine ⟨?_, ?_, ?_⟩
  · simp [RyFunction.arity, List.countP_eq_length_filter]
  · intro h
    rw [key, if_neg]
    rintro ⟨-, h'⟩
    omega
  · intro h
    rw [key, if_pos]
    · rfl
    · refine ⟨hne, ?_⟩
      omega

/-- C12 (witness).  After `func g(a, b = 2) { }`, whose arity is 1, the call
`g(1, 2, 3)` raises `Expected between 1 and 2 arguments. but got 3.` in the state
the evaluation of the third argument left. -/
theorem argument_count_check_witness :
    visitCall 1 (evaluate 1) (execute 1) (varRef 0 "g") [numLit "1", numLit "2", numLit "3"]
        (tok TokenType.RPAREN ")") declaredG
      = Res.raise (Thrown.runtimeError
          { token := tok TokenType.RPAREN ")",
            message := "Expected between 1 and 2 arguments. but got 3." })
          { declaredG with lastResult := RyValue.number 3 } := by
  with_unfolding_all exact
    ((argument_count_check 1 (varRef 0 "g") [numLit "1", numLit "2", numLit "3"]
      (tok TokenType.RPAREN ")") declaredG { declaredG with lastResult := RyValue.func 9 }
      { declaredG with lastResult := RyValue.number 3 } 9 functionG
      [RyValue.number 1, RyValue.number 2, RyValue.number 3]
      (by with_unfolding_all rfl) (by with_unfolding_all rfl) (by with_unfolding_all rfl)
      (by with_unfolding_all rfl)).2.2 (by decide!))

/-- C13 (code defect).  With `class P { func init(a, b = 2) { out(a + b) } }`, whose
`init` has one parameter without default and two in all, the call `P(1, 5)` is
rejected: `visitCall` takes the largest accepted count from the parameter list
only for a plain function and uses `arity()` for a class.  Nothing is printed and
the error `Expected 1 arguments. but got 2.` is reported.  The call `P(1)` is
accepted and prints 3, and a plain function with the same parameters accepts both
calls, printing 6 and 3. -/
theorem class_call_rejects_argument_for_default :
    (runScript 30 initDefaultSupplied).reported?
      = some ({ token := { type := TokenType.RPAREN, lexeme := ")", line := 2, column := 7 },
                message := "Expected 1 arguments. but got 2." }, true)
    ∧ (runScript 30 initDefaultSupplied).output = []
    ∧ (runScript 30 initDefaultOmitted).output = ["3"]
    ∧ (runScript 30 initDefaultOmitted).reported? = none
    ∧ (runScript 30 functionDefaultSupplied).output = ["6", "3"]
    ∧ (runScript 30 functionDefaultSupplied).reported? = none := by
  decide!

/-- C17 (code defect).  Running `panic "boom"` ends with a reported runtime error
whose message is `boom`, but whose type tag is the boolean true and whose panic
mark is off, so that `run` reports it with the caret marker: the third argument
`true` of the constructor call in `visitPanicStmt` lands in the parameter `type`.
A fail clause that names a type does not consume the error and a fail clause
without type does, printing the message. -/
theorem panic_error_is_tagged_and_not_marked :
    (runScript 30 panicSource).reported?
      = some ({ token := { type := TokenType.PANIC, lexeme := "panic", line := 1, column := 1 },
                message := "boom", type := RyValue.bool true, isPanicking := false }, true)
    ∧ ((runScript 30 panicTypedFail).reported?).map (fun r => r.1.message) = some "boom"
    ∧ (runScript 30 panicTypedFail).output = []
    ∧ (runScript 30 panicUntypedFail).reported? = none
    ∧ (runScript 30 panicUntypedFail).output = ["boom"] := by
  decide!

/-- C18 (code defect).  The parser accepts `do { stop } until true`: the body of a
`do ... until` is parsed with a positive loop counter.  The statement it builds
runs the body once before the loop, so the stop signal is raised with no loop
running and leaves `run` uncaught.  A `skip` in such a body inside a function
leaves the call of the function and then `run`.  A function declared in a loop
body may hold a `stop` as well: called there, the signal leaves the call and ends
the loop of the caller, which prints 1 after one round. -/
theorem stop_signal_escapes :
    (parseSource 30 stopInDoUntil).isSome = true
    ∧ (runScript 30 stopInDoUntil).uncaught? = some Thrown.stopSignal
    ∧ (runScript 30 skipInFunction).uncaught? = some Thrown.skipSignal
    ∧ (runScript 30 skipInFunction).output = []
    ∧ (runScript 30 stopInNestedFunction).output = ["1"]
    ∧ (runScript 30 stopInNestedFunction).uncaught? = none := by
  decide!

/-- C16 (counterexample).  In
`attempt { data x = 1/0 } fail e::TypeError { out("caught") } finally { panic "later" }`
the fail clause does not match the division error, the fail body does not run, and
yet it is not the division error that leaves the statement: the finally body runs
before the re-raise and the error it raises is the one that propagates. -/
theorem unmatched_error_replaced_by_finally_error :
    ((runScript 30 finallyRaisesSource).reported?).map (fun r => r.1.message) = some "later"
    ∧ (runScript 30 finallyRaisesSource).output = [] := by
  decide!

/-- C16 (amended).  Let the attempt body of an attempt statement raise the runtime
error E, reaching the state st1.  If the fail clause has no type filter (the type
token is empty), or its type is the string E carries as type tag, the statement
does what the fail body does in a new scope around the current one in which the
name of the clause is bound to the message of E: when the fail body completes
normally so does the statement, and E is gone.  Otherwise the fail body is not
run: the finally body, if there is one, is run in the current scope, and once it
has completed normally E is raised again. -/
theorem fail_clause_consumes_matching_error (fuel : Nat) (attemptBody failBody finallyBody : List Stmt)
    (error errorType : Token) (st st1 : Interp) (E : RyRuntimeError)
    (hbody :
      executeBlock (execute fuel) attemptBody
          (newEnv { st with is_panicking := false } (some st.environment)).1
          (newEnv { st with is_panicking := false } (some st.environment)).2
        = Res.raise (Thrown.runtimeError E) st1) :
    ((errorType.lexeme = "" ∨ errorType.type = TokenType.Nothing_Here
        ∨ E.type = RyValue.string errorType.lexeme) →
      execute (fuel + 1) (Stmt.attemptStmt attemptBody failBody error finallyBody errorType) st
        = (executeBlock (execute fuel) failBody
            (newEnv { st1 with is_panicking := false } (some st1.environment)).1
            (envDefine (newEnv { st1 with is_panicking := false } (some st1.environment)).2
              (newEnv { st1 with is_panicking := false } (some st1.environment)).1
              error.lexeme { value := RyValue.string E.message })).bind
          (fun _ st4 => Res.ok () st4))
    ∧ ((errorType.lexeme ≠ "" ∧ errorType.type ≠ TokenType.Nothing_Here
        ∧ E.type ≠ RyValue.string errorType.lexeme) →
      execute (fuel + 1) (Stmt.attemptStmt attemptBody failBody error finallyBody errorType) st
        = ((if finallyBody.isEmpty then Res.ok () st1
            else executeBlock (execute fuel) finallyBody st1.environment st1) : Res Unit).bind
          (fun _ st2 => Res.raise (Thrown.runtimeError E) st2)) := by
  rw [execute_attemptStmt]
  refine ⟨?_, ?_⟩
  · intro h
    simp only [visitAttemptStmt, hbody]
    split
    · rfl
    · rename_i hc
      exfalso
      apply hc
      rcases h with h | h | h
      · have : errorType.lexeme.isEmpty = true := by rw [h]; rfl
        simp [this]
      · simp [h]
      · simp [h]
  · rintro ⟨h1, h2, h3⟩
    simp only [visitAttemptStmt, hbody]
    split
    · rename_i hc
      exfalso
      have e1 : errorType.lexeme.isEmpty = false := by
        cases hb : errorType.lexeme.isEmpty
        · rfl
        · exact absurd ((String.isEmpty_iff _).mp hb) h1
      have e2 : (errorType.type == TokenType.Nothing_Here) = false := by simpa using h2
      simp only [e1, e2, Bool.false_or] at hc
      cases hE : E.type <;> simp [hE] at hc
      rename_i s
      exact h3 (by rw [hE, hc])
    · cases hfin : finallyBody.isEmpty <;> simp

/-- C16 (witness).  From the initial state the body `data x = 1/0` raises the
division error, tagged `MathError`; with the clause `fail e::MathError` and nothing
in the fail body the statement completes normally, in a state where the new scope
binds `e` to the message. -/
theorem fail_clause_consumes_matching_error_witness :
    execute 4 (Stmt.attemptStmt divisionBody [] (tok TokenType.IDENTIFIER "e") []
        (tok TokenType.IDENTIFIER "MathError")) Interp.initial
      = Res.ok ()
          (envDefine (newEnv divisionFailedState (some 0)).2 2 "e"
            { value := RyValue.string "Cannot Divide with zero." }) := by
  with_unfolding_all exact
    ((fail_clause_consumes_matching_error 3 divisionBody [] [] (tok TokenType.IDENTIFIER "e")
      (tok TokenType.IDENTIFIER "MathError") Interp.initial divisionFailedState divisionError
      (by with_unfolding_all rfl)).1 (Or.inr (Or.inr rfl)))

/-- C14 (code defect).  `func f(a = 1, b) { }` has arity 1, so the call `f(5)`
passes the count check; the argument goes to the first parameter and the second,
which has neither argument nor default, is not bound by `RyFunction::call`: after
the run the environment of the call holds 5 under `a` and nothing under `b`.  With
a body that prints both, the run prints 5 and null. -/
theorem required_parameter_left_undefined :
    (runScript 30 requiredAfterDefault).reported? = none
    ∧ ((runScript 30 requiredAfterDefault).state?).map (fun st => st.envs.length) = some 3
    ∧ ((runScript 30 requiredAfterDefault).state?).bind (fun st => st.cell? 2 "a")
        = some { value := RyValue.number 5 }
    ∧ ((runScript 30 requiredAfterDefault).state?).bind (fun st => st.cell? 2 "b") = none
    ∧ (runScript 30 requiredAfterDefaultPrinted).output = ["5", "null"] := by
  decide!

/-- C15 (counterexample).  `func f() -> num { return "s" }   out(f())` prints `s` and
reports nothing: `resolveType` finds a constraint only for a name that an alias
statement has declared, and `num` is not one, so the returned string is not
checked.  With `alias data::num as int` and the return type `int` the same body is
rejected with a type error, and a body returning 3 prints 3. -/
theorem undeclared_return_type_is_not_checked :
    (runScript 30 undeclaredReturnType).output = ["s"]
    ∧ (runScript 30 undeclaredReturnType).reported? = none
    ∧ ((runScript 30 aliasReturnMismatch).reported?).map (fun r => r.1.message)
        = some "Type Error: Variable expects a number but got a string"
    ∧ (runScript 30 aliasReturnMismatch).output = []
    ∧ (runScript 30 aliasReturnMatch).output = ["3"]
    ∧ (runScript 30 aliasReturnMatch).reported? = none := by
  decide!

/-- C15 (amended).  Let a function have a return type whose name the scope chain of
its closure resolves, as a type alias, to one of `num`, `string`, `bool`, `list`,
`map`; let the parameters of a call be bound and the body end by a return of v (or
normally, v being nil then).  If v carries the tag the constraint names, the call
returns v; otherwise it raises the type error of `checkType` at the name of the
function. -/
theorem declared_return_type_checked (ev : Expr → Interp → Res RyValue)
    (ex : Stmt → Interp → Res Unit) (f : RyFunction) (args : List RyValue)
    (st st1 st2 : Interp) (v : RyValue) (aliasTok : Token) (constraint : String)
    (hbind :
      bindParameters ev (newEnv st (some f.closure)).1 f.declaration.parameters args
          { (newEnv st (some f.closure)).2 with environment := (newEnv st (some f.closure)).1 }
        = Res.ok () st1)
    (hbody :
      executeBlock ex f.declaration.body (newEnv st (some f.closure)).1 st1
          = Res.raise (Thrown.returnSignal v) st2
      ∨ (executeBlock ex f.declaration.body (newEnv st (some f.closure)).1 st1 = Res.ok () st2
          ∧ v = RyValue.nil))
    (halias : f.declaration.returnTypeAlias = some aliasTok)
    (hresolve :
      resolveType { (newEnv (backInCaller st st2) (some st.environment)).2 with
          environment := f.closure } f.declaration.returnTypeNamespace aliasTok = constraint)
    (hconstraint : constraint ∈ ["num", "string", "bool", "list", "map"]) :
    (matchesConstraint constraint v = true →
      callFunction ev ex f args st = Res.ok v (returnCheckState st st2))
    ∧ (matchesConstraint constraint v = false →
      callFunction ev ex f args st
        = Res.raise (Thrown.runtimeError
            { token := f.declaration.name, message := typeErrorMessage constraint v })
            (returnCheckState st st2)) := by
  have hne : constraint.isEmpty = false := by
    simp only [List.mem_cons, List.mem_singleton, List.not_mem_nil, or_false] at hconstraint
    rcases hconstraint with h | h | h | h | h <;> subst h <;> rfl
  have hres : resolveType
      { (newEnv { st2 with environment := st.environment } (some st.environment)).2 with
        environment := f.closure } f.declaration.returnTypeNamespace aliasTok = constraint :=
    hresolve
  have hstate : ({ (newEnv { st2 with environment := st.environment } (some st.environment)).2 with
      environment := (newEnv { st2 with environment := st.environment }
        (some st.environment)).1 } : Interp) = returnCheckState st st2 := rfl
  refine ⟨?_, ?_⟩
  · intro hm
    have hcheck : checkType f.declaration.name constraint v (returnCheckState st st2)
        = Res.ok () (returnCheckState st st2) := by
      simp [checkType, hne, hm]
    have htag : v ≠ RyValue.nil ∧ ∀ r, v ≠ RyValue.inst r := by
      simp only [List.mem_cons, List.mem_singleton, List.not_mem_nil, or_false] at hconstraint
      rcases hconstraint with h | h | h | h | h <;> subst h <;>
        cases v <;> simp [matchesConstraint, RyValue.isNumber, RyValue.isString, RyValue.isBool,
          RyValue.isList, RyValue.isMap] at hm <;> simp
    rcases hbody with h | ⟨h, hnil⟩
    · unfold callFunction
      simp only [hbind, h, Res.bind, halias, hres, hne, Bool.not_false, if_true]
      rw [hstate, hcheck]
      cases v with
      | nil => exact absurd rfl htag.1
      | inst r => exact absurd rfl (htag.2 r)
      | _ => rfl
    · exact absurd hnil htag.1
  · intro hm
    have hcheck : checkType f.declaration.name constraint v (returnCheckState st st2)
        = Res.raise (Thrown.runtimeError
            { token := f.declaration.name, message := typeErrorMessage constraint v })
            (returnCheckState st st2) := by
      simp [checkType, hne, hm, throwRuntimeError]
    rcases hbody with h | ⟨h, hnil⟩
    · unfold callFunction
      simp only [hbind, h, Res.bind, halias, hres, hne, Bool.not_false, if_true]
      rw [hstate, hcheck]
    · subst hnil
      unfold callFunction
      simp only [hbind, h, Res.bind, halias, hres, hne, Bool.not_false, if_true]
      rw [hstate, hcheck]

/-- C15 (witness).  After `alias data::num as int   func f() -> int { return "s" }`
the call `f()` raises `Type Error: Variable expects a number but got a string`. -/
theorem declared_return_type_checked_witness :
    callFunction (evaluate 2) (execute 3) typedFunctionF [] declaredTypedF
      = Res.raise (Thrown.runtimeError
          { token := typedFunctionF.declaration.name,
            message := "Type Error: Variable expects a number but got a string" })
          (returnCheckState declaredTypedF typedCallReturned) := by
  with_unfolding_all exact
    ((declared_return_type_checked (evaluate 2) (execute 3) typedFunctionF [] declaredTypedF
      typedCallStart typedCallReturned (RyValue.string "s")
      ((typedFunctionF.declaration.returnTypeAlias).getD Parser.nothingHere) "num"
      (by with_unfolding_all rfl) (Or.inl (by with_unfolding_all rfl))
      (by with_unfolding_all rfl) (by decide!) (by decide)).2 (by decide))

/-- C20.  Let the object of a property access evaluate to a class value K that has
the method m (its own or an inherited one), in a state whose panic flag is off and
whose current scope chain binds `this` to an instance of K or of a class that has
K among its ancestors.  Then the access yields a new function object: m with a new
closure environment that encloses the closure of m and binds `this` to that same
instance.  Consequently the script with the classes A and B of the claim, which
ends with `out(B().hi())`, prints `AB`. -/
theorem class_method_bound_to_current_instance (fuel : Nat) (object : Expr) (name : Token)
    (st st1 : Interp) (f : Nat) (K : RyClass) (m : RyFunction) (I : Nat) (obj : RyInstance)
    (hp : st.is_panicking = false)
    (hobject : evaluate fuel object st = Res.ok (RyValue.func f) st1)
    (hclass : st1.callables[f]? = some (RyCallable.klass K))
    (hmethod : K.findMethod name.lexeme = some m)
    (hhas : envHas st1 st1.environment "this" = true)
    (hthis : envGet st1 st1.environment "this" thisToken = Res.ok (RyValue.inst I) st1)
    (hinstance : st1.instances[I]? = some obj)
    (hdescends : obj.klass.inheritsFrom K.id = true) :
    evaluate (fuel + 1) (Expr.getExpr object name) st
      = Res.ok (RyValue.func st1.callables.length)
          { (bindMethod st1 m I).2 with lastResult := RyValue.func st1.callables.length }
    ∧ (bindMethod st1 m I).2.callables[st1.callables.length]?
        = some (RyCallable.function
            { declaration := m.declaration, closure := st1.envs.length,
              isPrivate := m.isPrivate, isInitializer := m.isInitializer })
    ∧ (bindMethod st1 m I).2.envs[st1.envs.length]?
        = some { enclosing := some m.closure,
                 values := [("this", { value := RyValue.inst I })] }
    ∧ (runScript 40 parentCallSource).output = ["AB"] := by
  refine ⟨?_, ?_, ?_, by decide!⟩
  · rw [evaluate_getExpr]
    simp [visitGet, hp, hobject, hclass, hmethod, getClassMethod, hhas, hthis, hinstance,
      hdescends, Res.bind, setResult, bindMethod, newCallable, envDefine, newEnv]
  · simp [bindMethod, newCallable, envDefine, newEnv]
  · simp [bindMethod, newCallable, envDefine, newEnv, mapInsert]

/-- C20 (witness).  In a state where `this` is bound to an instance of the class A,
the access `A.hi` yields a new function object, number 10 of the heap, the method
`hi` bound to that instance. -/
theorem class_method_bound_to_current_instance_witness :
    evaluate 2 (Expr.getExpr (varRef 0 "A") (tok TokenType.IDENTIFIER "hi")) thisBoundState
      = Res.ok (RyValue.func 10)
          { (bindMethod { thisBoundState with lastResult := RyValue.func 9 } methodHi 0).2 with
            lastResult := RyValue.func 10 } := by
  with_unfolding_all exact
    ((class_method_bound_to_current_instance 1 (varRef 0 "A") (tok TokenType.IDENTIFIER "hi")
      thisBoundState { thisBoundState with lastResult := RyValue.func 9 } 9 classOfThis methodHi 0
      instanceOfThis rfl (by with_unfolding_all rfl) (by with_unfolding_all rfl)
      (by with_unfolding_all rfl) (by decide!) (by with_unfolding_all rfl)
      (by with_unfolding_all rfl) (by decide!)).1)

/-- C19 (counterexample).  The source
`func fib(n) { if n < 2 return n    return fib(n-1)+fib(n-2) }   out(fib(10))` does
not parse: after the condition `n < 2` the parser demands `{` and reports
`Expect '{' after if condition.`; nothing is executed and nothing printed. -/
theorem if_with_bare_statement_rejected :
    syntaxError 30 fibBare = some "Expect '\x7b' after if condition."
    ∧ (runScript 30 fibBare).rejected? = some ["Expect '\x7b' after if condition."]
    ∧ (runScript 30 fibBare).output = [] := by
  decide!

/-- C19 (amended).  After `if` the parser reads the condition; when the next token
is not `{` it reports `Expect '{' after if condition.`  When it is `{`, the branch
that `statement` reads there is a block, and the node built is the `if` of the
condition, that branch and, when `else` follows, the statement read after it,
which may be any statement.  The source
`func fib(n) { if n < 2 { return n }    return fib(n-1)+fib(n-2) }   out(fib(10))`
parses, and running it prints 55. -/
theorem if_statement_needs_braced_branch (expression : Parser → PRes Expr)
    (statement : Parser → PRes Stmt) (p p1 : Parser) (condition : Expr)
    (hstart : p.check TokenType.LBRACE = false)
    (hcondition : expression p = PRes.ok condition p1) :
    (p1.check TokenType.LBRACE = false →
      Parser.ifStatement expression statement p
        = PRes.error p1.previous "Expect '\x7b' after if condition.")
    ∧ (p1.check TokenType.LBRACE = true →
        (∀ fuel : Nat, parseStatement (fuel + 1) p1
          = (Parser.block (parseDeclaration fuel) p1.next.2).bind
              (fun statements q => PRes.ok (Stmt.blockStmt statements) q))
        ∧ ∀ (thenBranch : Stmt) (p2 : Parser), statement p1 = PRes.ok thenBranch p2 →
            (p2.check TokenType.ELSE = false →
              Parser.ifStatement expression statement p
                = PRes.ok (Stmt.ifStmt condition thenBranch none) p2)
            ∧ (p2.check TokenType.ELSE = true →
                ∀ (elseBranch : Stmt) (p3 : Parser),
                  statement p2.next.2 = PRes.ok elseBranch p3 →
                  Parser.ifStatement expression statement p
                    = PRes.ok (Stmt.ifStmt condition thenBranch (some elseBranch)) p3))
    ∧ (parseSource 30 fibBraced).isSome = true
    ∧ (runScript 120 fibBraced).output = ["55"] := by
  refine ⟨?_, ?_, fibBraced_parses, fibBraced_prints⟩
  · intro hbrace
    simp [Parser.ifStatement, hstart, hcondition, PRes.bind, hbrace, Parser.error]
  · intro hbrace
    refine ⟨?_, ?_⟩
    · intro fuel
      have hend : p1.isAtEnd = false := by
        cases h : p1.isAtEnd
        · rfl
        · simp [Parser.check, h] at hbrace
      have hpeek : p1.peek.type = TokenType.LBRACE := by
        simpa [Parser.check, hend] using hbrace
      simp [parseStatement, Parser.statement, Parser.matchTypes, Parser.check, hend, hpeek]
    · intro thenBranch p2 hthen
      refine ⟨?_, ?_⟩
      · intro helse
        simp [Parser.ifStatement, hstart, hcondition, PRes.bind, hbrace, Parser.branches, hthen,
          Parser.matchTypes, helse]
      · intro helse elseBranch p3 hstmt
        simp [Parser.ifStatement, hstart, hcondition, PRes.bind, hbrace, Parser.branches, hthen,
          Parser.matchTypes, helse, hstmt]

/-- C19 (witness).  For `if x { y } else z` the parser builds the `if` of the
condition `x`, the block of `y` and, as else branch, the bare expression
statement `z`. -/
theorem if_statement_needs_braced_branch_witness :
    Parser.ifStatement (parseExpression 10) (parseStatement 10) afterIf
      = PRes.ok
          (Stmt.ifStmt (Expr.variableExpr 1 (ifToken 1))
            (Stmt.blockStmt [Stmt.expressionStmt (Expr.variableExpr 2 (ifToken 3))])
            (some (Stmt.expressionStmt (Expr.variableExpr 3 (ifToken 6)))))
          { afterIf with current := 7, nextId := 4 } :=
  (((if_statement_needs_braced_branch (parseExpression 10) (parseStatement 10) afterIf
      { afterIf with current := 2, nextId := 2 } (Expr.variableExpr 1 (ifToken 1))
      (by decide!) (by with_unfolding_all rfl)).2.1 (by decide!)).2
    (Stmt.blockStmt [Stmt.expressionStmt (Expr.variableExpr 2 (ifToken 3))])
    { afterIf with current := 5, nextId := 3 } (by with_unfolding_all rfl)).2 (by decide!)
    (Stmt.expressionStmt (Expr.variableExpr 3 (ifToken 6)))
    { afterIf with current := 7, nextId := 4 } (by with_unfolding_all rfl)

/-- C21 (code defect).  `Parser::returnStatement` calls `expression()` whatever
follows the keyword, so `func f() { return }` is rejected with
`Expected a value or '('` and nothing runs.  The node with a null value that
`stmt.h` provides for, and that `visitReturnStmt` handles, is never built by the
parser; a function with that node returns nil when called. -/
theorem return_without_value_rejected :
    syntaxError 30 returnBare = some "Expected a value or '('"
    ∧ (parsedStatements 30 [] returnBare).map List.length = some 0
    ∧ (runScript 30 returnBare).rejected? = some ["Expected a value or '('"]
    ∧ (runScript 30 returnBare).output = []
    ∧ (callFunction (evaluate 5) (execute 5) bareReturnFunction [] Interp.initial).value?
        = some RyValue.nil := by
  decide!

/-- C26 (code defect).  In one source unit the statement `alias data::num as int`
does not make the parser take `int x = 5` for a declaration: `AliasDeclaration`
inserts the name into the member `typeAliases`, and `isTypeAlias` reads
`externalTypeAliases`.  The unit parses into four statements none of which is a
variable declaration, and running it reports `Undefined variable.` at `int`.
With `int` in the set of the interpreter, as after a previous unit, the parser
builds the declaration of `x` with prefix `int`. -/
theorem alias_not_seen_by_parser_in_same_unit :
    (parsedStatements 30 [] aliasThenDeclaration).map (List.map Stmt.declaration?)
      = some [none, none, none, none]
    ∧ (runScript 30 aliasThenDeclaration).reported?
        = some ({ token := { type := TokenType.IDENTIFIER, lexeme := "int", line := 2, column := 1 },
                  message := "Undefined variable." }, true)
    ∧ (runScript 30 aliasThenDeclaration).output = []
    ∧ (parsedStatements 30 ["int"] "int x = 5").map (List.map Stmt.declaration?)
        = some [some ("int", "x")] := by
  decide!

/-- C27 (code defect).  `alias out as print` defines no variable `print`:
`isTypeAlias` holds of every `VariableExpr`, so the statement records a type alias
and returns before the branch for values.  The call `print(1)` then reports
`Undefined variable.` and prints nothing.  An alias of an expression that is not
a plain variable is defined as the claim says: `alias 1 + 2 as three` makes
`out(three)` print 3. -/
theorem alias_of_variable_defines_no_variable :
    (runScript 30 aliasOfOut).reported?
      = some ({ token := { type := TokenType.IDENTIFIER, lexeme := "print", line := 2, column := 1 },
                message := "Undefined variable." }, true)
    ∧ (runScript 30 aliasOfOut).output = []
    ∧ (runScript 30 aliasOfSum).output = ["3"]
    ∧ (runScript 30 aliasOfSum).reported? = none := by
  decide!

/-- C28 (code defect).  With the global `y` declared before `namespace N { data x = 2 }`,
the access `N.y` returns 1, the value of the global: `visitGet` asks
`Environment::has` and `get`, which follow the link to the scope around the
namespace.  `N.x` returns 2, and a name defined nowhere gives
`Undefined property.` -/
theorem namespace_property_read_from_enclosing_scope :
    (runScript 30 namespaceReads).output = ["2", "1"]
    ∧ (runScript 30 namespaceReads).reported? = none
    ∧ (runScript 30 namespaceMissing).reported?
        = some ({ token := { type := TokenType.IDENTIFIER, lexeme := "z", line := 2, column := 7 },
                  message := "Undefined property." }, true)
    ∧ (runScript 30 namespaceMissing).output = [] := by
  decide!

/-- C29 (code defect).  With `a = 8` the evaluator prints 16 for `a >> 1`: the
branch of `visitShift` for `>>` computes `l << r`.  The constant folder computes
4 for the literals `8 >> 1`.  For `<<` the two agree on 16. -/
theorem right_shift_evaluated_as_left_shift :
    (runScript 30 shiftsOfEight).output = ["16", "4", "16", "16"] := by
  decide!

/-- C30 (code defect).  A function declared in a block and reading the variable
`x = 5` of that block returns nil: the resolver annotates the read with distance
1, and one link up from the environment of the call is the closure environment
that `visitFunctionStmt` allocates, not the block.  A `finally` body and a panic
message reading a variable `m = 7` of the enclosing block get nil as well: the
resolver opens a scope for them and the evaluator runs them in the current
environment.  At top level, where the annotation is -1, the panic message is 7. -/
theorem resolved_distance_misses_declaration :
    (runScript 30 closureReadsBlock).output = ["null"]
    ∧ (runScript 30 finallyReadsBlock).output = ["1", "null"]
    ∧ (runScript 30 panicReadsBlock).reported?
        = some ({ token := { type := TokenType.PANIC, lexeme := "panic", line := 1, column := 14 },
                  message := "nil", type := RyValue.bool true }, true)
    ∧ (runScript 30 panicReadsGlobal).reported?
        = some ({ token := { type := TokenType.PANIC, lexeme := "panic", line := 1, column := 12 },
                  message := "7", type := RyValue.bool true }, true) := by
  decide!

/-- C22.  In `Parser::assignment`, when the left-hand side has been read, the next
token is `=` and the right-hand side has been read after it: a variable reference
gives the Assign node of its name and the right-hand side, a property access the
Set node of its object, its name and the right-hand side, an index the IndexSet
node of its object, bracket, index and the right-hand side, and every other
left-hand side gives the `ParseError` reported at the `=` with
`Invalid assignment target.`  The sources `x = 1`, `o.f = 1` and `xs[0] = 1` parse
into these nodes; for `(x) = 1` and `1 = 2` the error is reported and `parse`
returns the empty vector. -/
theorem assignment_targets (expression : Parser → PRes Expr) (n : Nat) (p p1 p2 : Parser)
    (lhs rhs : Expr) (hlhs : Parser.logicalOr expression n p = PRes.ok lhs p1)
    (hequal : p1.check TokenType.EQUAL = true)
    (hrhs : Parser.assignment expression n p1.next.2 = PRes.ok rhs p2) :
    (∀ (id : Nat) (name : Token), lhs = Expr.variableExpr id name →
      Parser.assignment expression (n + 1) p
        = PRes.ok (Expr.assignExpr p2.nextId name rhs) { p2 with nextId := p2.nextId + 1 })
    ∧ (∀ (object : Expr) (name : Token), lhs = Expr.getExpr object name →
        Parser.assignment expression (n + 1) p = PRes.ok (Expr.setExpr object name rhs) p2)
    ∧ (∀ (object index : Expr) (bracket : Token), lhs = Expr.indexExpr object index bracket →
        Parser.assignment expression (n + 1) p
          = PRes.ok (Expr.indexSetExpr object bracket index rhs) p2)
    ∧ (lhs.isAssignmentTarget = false →
        Parser.assignment expression (n + 1) p
          = PRes.error p1.next.2.previous "Invalid assignment target.")
    ∧ (singleExpression 30 "x = 1").bind Expr.assignmentKind = some ("Assign", "x")
    ∧ (singleExpression 30 "o.f = 1").bind Expr.assignmentKind = some ("Set", "f")
    ∧ (singleExpression 30 "xs[0] = 1").bind Expr.assignmentKind = some ("IndexSet", "")
    ∧ syntaxError 30 "(x) = 1" = some "Invalid assignment target."
    ∧ (parsedStatements 30 [] "(x) = 1").map List.length = some 0
    ∧ syntaxError 30 "1 = 2" = some "Invalid assignment target."
    ∧ (parsedStatements 30 [] "1 = 2").map List.length = some 0 := by
  have hmatch : p1.matchTypes [TokenType.EQUAL] = (true, p1.next.2) := by
    simp [Parser.matchTypes, hequal]
  refine ⟨?_, ?_, ?_, ?_, by decide!, by decide!, by decide!, by decide!, by decide!,
    by decide!, by decide!⟩
  · intro id name h
    subst h
    simp [Parser.assignment, hlhs, PRes.bind, hmatch, hrhs, Parser.fresh]
  · intro object name h
    subst h
    simp [Parser.assignment, hlhs, PRes.bind, hmatch, hrhs]
  · intro object index bracket h
    subst h
    simp [Parser.assignment, hlhs, PRes.bind, hmatch, hrhs]
  · intro h
    cases lhs <;> simp [Expr.isAssignmentTarget] at h <;>
      simp [Parser.assignment, hlhs, PRes.bind, hmatch, hrhs, Parser.error]

/-- C22 (witness).  For `x = 1` the left-hand side is the variable `x`, node 1, and
the parser builds the Assign node 2 of `x` and the literal. -/
theorem assignment_targets_witness :
    Parser.assignment (parseExpression 10) 11 atAssignment
      = PRes.ok (Expr.assignExpr 2 (assignmentToken 0) (Expr.valueExpr (assignmentToken 2)))
          { atAssignment with current := 3, nextId := 3 } :=
  (assignment_targets (parseExpression 10) 10 atAssignment
    { atAssignment with current := 1, nextId := 2 } { atAssignment with current := 3, nextId := 2 }
    (Expr.variableExpr 1 (assignmentToken 0)) (Expr.valueExpr (assignmentToken 2))
    (by with_unfolding_all rfl) (by decide!) (by with_unfolding_all rfl)).1 1
    (assignmentToken 0) rfl

/-- C24 (counterexample).  On the list `[10, 20, 30]` the index 1.7 is accepted and
gives the element 1, and the index -0.5 gives the element 0: the index is cast to
`int`.  (A namespace `N` indexed with `"y"`, a name that the global scope around it
defines and `N` does not, gives the value of the global: the lookup of property
access, which walks the scopes around the namespace.) -/
theorem list_index_fraction_accepted :
    (runScript 30 listIndexFraction).output = ["20", "10"]
    ∧ (runScript 30 listIndexFraction).reported? = none
    ∧ (runScript 30 namespaceIndexed).output = ["1"]
    ∧ (runScript 30 namespaceIndexed).reported? = none := by
  decide!

/-- C24 (amended).  Let the object, the index and the value of an index expression
evaluate normally.  On a list, with `t` the index cast to `int` (inside the range
of `int` that is the index truncated toward zero): reading succeeds exactly when
the index is a number and `0 ≤ t < length`, and returns element `t`; otherwise it
raises `Index out of bounds.` or `Index must be a number.`  Assignment succeeds
under the same condition, puts the value into slot `t` of that list and leaves the
other slots and the other lists as they are; otherwise it raises
`Index out of bounds.` or `List index must be a number.`  On a map `m`, for a key
that no scope around `m` defines: reading succeeds exactly when the index is a
string and `m` has a cell of that name, whose value it returns; otherwise it raises
`Undefined property 'k'.` or `Index must be a string.`  Assignment with a string
key succeeds and binds the key in the map itself to a plain cell of the value,
leaving the other keys and the other environments as they are. -/
theorem index_access_rules (fuel : Nat) (object index value : Expr) (bracket : Token)
    (st st1 st2 st3 : Interp) (obj iv v : RyValue) (hp : st.is_panicking = false)
    (hobj : evaluate fuel object st = Res.ok obj st1)
    (hidx : evaluate fuel index st1 = Res.ok iv st2)
    (hval : evaluate fuel value st2 = Res.ok v st3) :
    (∀ l : Nat, obj = RyValue.list l →
      (∀ n : ℚ, iv = RyValue.number n → 0 ≤ toInt n →
        toInt n < ((st2.lists.getD l []).length : Int) →
        evaluate (fuel + 1) (Expr.indexExpr object index bracket) st
          = Res.ok ((st2.lists.getD l []).getD (toInt n).toNat RyValue.nil)
              { st2 with
                lastResult := (st2.lists.getD l []).getD (toInt n).toNat RyValue.nil })
      ∧ (∀ n : ℚ, iv = RyValue.number n →
          (toInt n < 0 ∨ ((st2.lists.getD l []).length : Int) ≤ toInt n) →
          evaluate (fuel + 1) (Expr.indexExpr object index bracket) st
            = Res.raise (indexError bracket "Index out of bounds.") st2)
      ∧ (iv.isNumber = false →
          evaluate (fuel + 1) (Expr.indexExpr object index bracket) st
            = Res.raise (indexError bracket "Index must be a number.") st2))
    ∧ (∀ l : Nat, obj = RyValue.list l →
        (∀ n : ℚ, iv = RyValue.number n → 0 ≤ toInt n →
          toInt n < ((st3.lists.getD l []).length : Int) →
          evaluate (fuel + 1) (Expr.indexSetExpr object bracket index value) st
            = Res.ok v
                { st3 with
                  lists := st3.lists.set l ((st3.lists.getD l []).set (toInt n).toNat v),
                  lastResult := v }
          ∧ ((st3.lists.getD l []).set (toInt n).toNat v)[(toInt n).toNat]? = some v
          ∧ (∀ j : Nat, j ≠ (toInt n).toNat →
              ((st3.lists.getD l []).set (toInt n).toNat v)[j]? = (st3.lists.getD l [])[j]?)
          ∧ (∀ k : Nat, k ≠ l →
              (st3.lists.set l ((st3.lists.getD l []).set (toInt n).toNat v))[k]?
                = st3.lists[k]?))
        ∧ (∀ n : ℚ, iv = RyValue.number n →
            (toInt n < 0 ∨ ((st3.lists.getD l []).length : Int) ≤ toInt n) →
            evaluate (fuel + 1) (Expr.indexSetExpr object bracket index value) st
              = Res.raise (indexError bracket "Index out of bounds.") st3)
        ∧ (iv.isNumber = false →
            evaluate (fuel + 1) (Expr.indexSetExpr object bracket index value) st
              = Res.raise (indexError bracket "List index must be a number.") st3))
    ∧ (∀ q : ℚ, -(2 : Int) ^ 31 ≤ truncate q ∧ truncate q < (2 : Int) ^ 31 →
        toInt q = truncate q)
    ∧ (∀ (m : Nat) (e : Environment), obj = RyValue.map m → st2.envs[m]? = some e →
        (∀ k : String, iv = RyValue.string k →
          (∀ j ∈ enclosingChain st2.envs st2.envs.length m, ∀ e1 : Environment,
            st2.envs[j]? = some e1 → mapFind e1.values k = none) →
          (∀ c : RyVariable, mapFind e.values k = some c →
            evaluate (fuel + 1) (Expr.indexExpr object index bracket) st
              = Res.ok c.value { st2 with lastResult := c.value })
          ∧ (mapFind e.values k = none →
            evaluate (fuel + 1) (Expr.indexExpr object index bracket) st
              = Res.raise (indexError bracket ("Undefined property '" ++ k ++ "'.")) st2))
        ∧ (iv.isString = false →
            evaluate (fuel + 1) (Expr.indexExpr object index bracket) st
              = Res.raise (indexError bracket "Index must be a string.") st2))
    ∧ (∀ (m : Nat) (k : String), obj = RyValue.map m → iv = RyValue.string k →
        evaluate (fuel + 1) (Expr.indexSetExpr object bracket index value) st
          = Res.ok v { envDefine st3 m k { value := v } with lastResult := v }
        ∧ (m < st3.envs.length →
            (envDefine st3 m k { value := v }).cell? m k = some { value := v })
        ∧ (∀ other : String, other ≠ k →
            (envDefine st3 m k { value := v }).cell? m other = st3.cell? m other)
        ∧ (∀ m1 : Nat, m1 ≠ m →
            (envDefine st3 m k { value := v }).envs[m1]? = st3.envs[m1]?)) := by
  refine ⟨?_, ?_, fun q hq => toInt_truncate q hq, ?_, ?_⟩
  · intro l hl
    subst hl
    exact index_list_read fuel object index bracket st st1 st2 l iv hp hobj hidx
  · intro l hl
    subst hl
    have hw := index_list_write fuel object index value bracket st st1 st2 st3 l iv v hp hobj
      hidx hval
    refine ⟨?_, hw.2.1, hw.2.2⟩
    intro n hn h0 h1
    have hlt : (toInt n).toNat < (st3.lists.getD l []).length := by omega
    refine ⟨hw.1 n hn h0 h1, (set_slot _ _ v hlt).1, (set_slot _ _ v hlt).2, ?_⟩
    intro k hk
    simp [List.getElem?_set, Ne.symm hk]
  · intro m e hm he
    subst hm
    have hr := index_map_read fuel object index bracket st st1 st2 m iv hp hobj hidx
    refine ⟨?_, hr.2.2⟩
    intro k hk hchain
    have hown := findCell_own st2.envs m k e he hchain
    constructor
    · intro c hc
      rw [hc] at hown
      exact hr.1 k m c hk hown
    · intro hc
      rw [hc] at hown
      exact hr.2.1 k hk hown
  · intro m k hm hk
    subst hm
    subst hk
    exact ⟨index_map_write fuel object index value bracket st st1 st2 st3 m k v hp hobj hidx hval,
      fun hlt => cell_envDefine_same st3 m k _ hlt,
      fun other hne => cell_envDefine_other st3 m k other _ hne,
      fun m1 hne => envDefine_other_env st3 m m1 k _ hne⟩

/-- C24 (witness).  After `data xs = [1, 2, 3]` the expression `xs[1.5]` evaluates to
the element 1 of the list, the number 2. -/
theorem index_access_rules_witness :
    evaluate 2 (Expr.indexExpr (varRef 1 "xs") (numLit "1.5") (tok TokenType.LBRACKET "[")) xsState
      = Res.ok (RyValue.number 2) { xsState with lastResult := RyValue.number 2 } := by
  with_unfolding_all exact
    ((index_access_rules 1 (varRef 1 "xs") (numLit "1.5") (numLit "9")
      (tok TokenType.LBRACKET "[") xsState { xsState with lastResult := RyValue.list 0 }
      { xsState with lastResult := RyValue.number (3 / 2) }
      { xsState with lastResult := RyValue.number 9 }
      (RyValue.list 0) (RyValue.number (3 / 2)) (RyValue.number 9)
      (by with_unfolding_all rfl) (by with_unfolding_all rfl) (by with_unfolding_all rfl)
      (by with_unfolding_all rfl)).1 0 rfl).1 (3 / 2) rfl (by decide!) (by decide!)

/-- C23.  Let `P` and `S` contain neither a double quote nor the sequence `${`, and
`N` no closing brace.  The lexer run on the source text `"P${N}S"` reports no error
and returns STRING with text `P`, PLUS, IDENTIFIER with text `N`, PLUS, STRING
with text `S`, and the end-of-file token, in that order.  Run on a literal `"C"`
whose content has neither a double quote nor `${`, it returns the one STRING token
with text `C`, without the quotes, and the end-of-file token. -/
theorem interpolation_desugared (P N S : List Char) (hP : '"' ∉ P)
    (hPi : ¬ ['$', '\x7b'] <:+: P) (hN : '\x7d' ∉ N) (hS : '"' ∉ S)
    (hSi : ¬ ['$', '\x7b'] <:+: S) :
    ((lex (interpolatedLiteral P N S)).tokens.map Token.kindText
        = [(TokenType.STRING, String.mk P), (TokenType.PLUS, "+"),
           (TokenType.IDENTIFIER, String.mk N), (TokenType.PLUS, "+"),
           (TokenType.STRING, String.mk S),
           (TokenType.EOF_TOKEN, String.mk ('\x7d' :: S ++ ['"']))]
      ∧ (lex (interpolatedLiteral P N S)).errors = [])
    ∧ ∀ C : List Char, '"' ∉ C → ¬ ['$', '\x7b'] <:+: C →
        (lex (plainLiteral C)).tokens.map Token.kindText
          = [(TokenType.STRING, String.mk C),
             (TokenType.EOF_TOKEN, String.mk ('"' :: C ++ ['"']))]
        ∧ (lex (plainLiteral C)).errors = [] := by
  refine ⟨?_, ?_⟩
  · have hsrc : ('"' :: P ++ '$' :: '\x7b' :: N ++ '\x7d' :: S ++ ['"'] : List Char)
        = '"' :: (P ++ '$' :: '\x7b' :: (N ++ '\x7d' :: (S ++ '"' :: []))) := by simp
    unfold interpolatedLiteral
    rw [hsrc]
    set rest := P ++ '$' :: '\x7b' :: (N ++ '\x7d' :: (S ++ '"' :: [])) with hrest
    set lx0 : Lexer := { source := '"' :: rest } with hlx0
    have hdrop0 : lx0.source.drop lx0.current = '"' :: rest := rfl
    obtain ⟨_, _, _, hdrop1, _⟩ := lx0.at_cons '"' rest hdrop0
    obtain ⟨n1, n2, n3, n4, n5⟩ := lx0.next_fields
    have hstart : lx0.next.2.start + 1 = lx0.next.2.current := by rw [n4, n2]
    obtain ⟨s1, s2, s3, s4, s5⟩ :=
      str_interpolated lx0.next.2 P N S [] hP hPi hN hS hSi hdrop1 hstart
    have hlen : ('"' :: rest).length = P.length + N.length + S.length + 5 := by
      rw [hrest]
      simp only [List.length_cons, List.length_append, List.length_nil]
      omega
    have hcur : lx0.next.2.current = 1 := by rw [n2]
    have hsource : lx0.next.2.str.source = '"' :: rest := by rw [s1, n1]
    have hall : lx0.next.2.str.current = ('"' :: rest).length := by
      rw [s2, hcur, hlen]
      omega
    rw [lex_literal ('"' :: rest) rest rfl hsource hall]
    have htext : lx0.next.2.str.substr lx0.next.2.str.start
        (lx0.next.2.str.current - lx0.next.2.str.start) = String.mk ('\x7d' :: S ++ ['"']) := by
      unfold Lexer.substr
      rw [hsource, s3, hall, hcur, hlen]
      have hsplit : List.drop 0 ('"' :: rest)
          = ('"' :: (P ++ '$' :: '\x7b' :: N)) ++ ('\x7d' :: S ++ ['"']) := by
        rw [hrest]
        simp
      have hk : 1 + P.length + N.length + 2 = 0 + ('"' :: (P ++ '$' :: '\x7b' :: N)).length := by
        simp only [List.length_cons, List.length_append, List.length_nil]
        omega
      rw [drop_after _ _ _ _ _ hsplit hk]
      have : P.length + N.length + S.length + 5 - (1 + P.length + N.length + 2)
          = ('\x7d' :: S ++ ['"']).length := by
        simp only [List.length_cons, List.length_append, List.length_nil]
        omega
      rw [this, List.take_length]
    refine ⟨?_, ?_⟩
    · rw [Lexer.addToken_tokens, s5, n3, htext]
      rfl
    · rw [Lexer.addToken_errors, s4, n5]
  · intro C hC hCi
    have hsrc : ('"' :: C ++ ['"'] : List Char) = '"' :: (C ++ '"' :: []) := by simp
    unfold plainLiteral
    rw [hsrc]
    set rest := C ++ '"' :: [] with hrest
    set lx0 : Lexer := { source := '"' :: rest } with hlx0
    have hdrop0 : lx0.source.drop lx0.current = '"' :: rest := rfl
    obtain ⟨_, _, _, hdrop1, _⟩ := lx0.at_cons '"' rest hdrop0
    obtain ⟨n1, n2, n3, n4, n5⟩ := lx0.next_fields
    have hstart : lx0.next.2.start + 1 = lx0.next.2.current := by rw [n4, n2]
    obtain ⟨s1, s2, s3, s4, s5⟩ := str_plain lx0.next.2 C [] hC hCi hdrop1 hstart
    have hlen : ('"' :: rest).length = C.length + 2 := by
      rw [hrest]
      simp only [List.length_cons, List.length_append, List.length_nil]
    have hcur : lx0.next.2.current = 1 := by rw [n2]
    have hsource : lx0.next.2.str.source = '"' :: rest := by rw [s1, n1]
    have hall : lx0.next.2.str.current = ('"' :: rest).length := by
      rw [s2, hcur, hlen]
      omega
    rw [lex_literal ('"' :: rest) rest rfl hsource hall]
    have htext : lx0.next.2.str.substr lx0.next.2.str.start
        (lx0.next.2.str.current - lx0.next.2.str.start) = String.mk ('"' :: C ++ ['"']) := by
      unfold Lexer.substr
      rw [hsource, s3, n4, hall, hsrc]
      show String.mk (List.take (('"' :: rest).length - 0) (List.drop 0 ('"' :: rest))) = _
      rw [List.drop_zero, Nat.sub_zero, List.take_length]
    refine ⟨?_, ?_⟩
    · rw [Lexer.addToken_tokens, s5, n3, htext]
      rfl
    · rw [Lexer.addToken_errors, s4, n5]

/-- C23 (witness).  The source text `"ab${n}cd"` gives STRING `ab`, PLUS, IDENTIFIER
`n`, PLUS, STRING `cd` and the end-of-file token. -/
theorem interpolation_desugared_witness :
    (lex (interpolatedLiteral ['a', 'b'] ['n'] ['c', 'd'])).tokens.map Token.kindText
      = [(TokenType.STRING, "ab"), (TokenType.PLUS, "+"), (TokenType.IDENTIFIER, "n"),
         (TokenType.PLUS, "+"), (TokenType.STRING, "cd"), (TokenType.EOF_TOKEN, "\x7dcd\"")] :=
  (interpolation_desugared ['a', 'b'] ['n'] ['c', 'd'] (by decide) (by decide) (by decide)
    (by decide) (by decide)).1.1

/-- C31 (code defect).  After a call of a function that declares a return type the
current environment is not the caller's: `RyFunction::call` restores the caller's
environment and then, on the path that checks the return type, sets the current
environment to an environment it has just allocated around it.  A block that
declares `x = 5`, calls such a function and prints `x` prints null, while the same
block with a function without return type prints 5.  At top level the run ends with
a current environment other than the global one, and a variable declared after the
call is not found by the read that follows it. -/
theorem typed_call_leaves_new_environment :
    (runScript 30 typedCallInBlock).output = ["null"]
    ∧ (runScript 30 untypedCallInBlock).output = ["5"]
    ∧ (runScript 30 typedCallAtTop).atGlobals = some false
    ∧ (runScript 30 untypedCallAtTop).atGlobals = some true
    ∧ (runScript 30 typedCallThenDeclaration).reportedMessage = some "Undefined variable." := by
  decide!

/-- C33 (code defect).  `Resolver::visitNamespaceStmt` opens no scope: the names
declared in the body of a namespace at top level are recorded in the global symbol
table and a read of such a name in the body is annotated with -1, so the evaluator
looks it up in the global environment while the name is stored in the environment
of the namespace, and the run reports `Undefined variable.`.  In a block the names
of the body are recorded in the scope of the block: a read of `x` after the
namespace is resolved to the block, where the evaluator has no `x`, and gives
nil. -/
theorem namespace_body_resolved_without_scope :
    (runScript 30 namespaceReadsOwnName).reportedMessage = some "Undefined variable."
    ∧ (runScript 30 namespaceReadsOwnName).output = []
    ∧ (resolverAfterRun 30 namespaceReadsOwnName Interp.initial {}).globalNames = ["N", "x"]
    ∧ (resolverAfterRun 30 namespaceReadsOwnName Interp.initial {}).scopeNames = []
    ∧ (runScript 30 namespaceReadsOwnName).state?.map (fun st => st.locals.map Prod.snd)
        = some [-1]
    ∧ (runScript 30 namespaceInBlock).output = ["2", "null"] := by
  decide!

/-- C35 (code defect).  `Lexer::str` stamps the tokens of a string literal with the
line and column at which the lexer stands when it emits them, not with the position
of the first character: in `x = "ab"` the literal starts in column 5 and its token
carries column 9; the tokens of `"ab${n}cd"` carry the columns 4, 4, 7, 8 and 11;
the token of a literal that starts on line 1 and ends on line 2 carries line 2.
The tokens added by `addToken` carry the column of their first character.  When a
string opened on line 1 is still open at the end of the text on line 2, the lexer
reports `Unterminated string.` with its line counter at 2. -/
theorem string_token_carries_end_position :
    (tokenPositions "x = \"ab\"").take 3 = [("x", 1, 1), ("=", 1, 3), ("ab", 1, 9)]
    ∧ (tokenPositions "\"ab$\x7bn\x7dcd\"").take 5
        = [("ab", 1, 4), ("+", 1, 4), ("n", 1, 7), ("+", 1, 8), ("cd", 1, 11)]
    ∧ (tokenPositions "\"a\nb\"").take 1 = [("a\nb", 2, 3)]
    ∧ (lex "\"a\nb").errors = ["Unterminated string."]
    ∧ (lex "\"a\nb").line = 2 := by
  decide!

/-- C36 (code defect).  `visitSet` evaluates the right-hand side a second time when
the object is a namespace or map, and `visitPrefix` evaluates the operand of `~` a
second time: with `x = 0`, after `N.v = x++` on a namespace `N` the variable `x` is
2 and `N.v` is 1, and `~(x++)` gives -2 and leaves `x` at 2.  On an instance the
right-hand side is evaluated once. -/
theorem operand_evaluated_twice :
    (runScript 30 namespaceSetIncrement).output = ["2", "1"]
    ∧ (runScript 30 complementIncrement).output = ["-2", "2"]
    ∧ (runScript 30 instanceSetIncrement).output = ["1"] := by
  decide!

/-- C37 (code defect).  An attempt statement without fail clause consumes every
runtime error of its body and does not run its finally body: the parser leaves the
error type empty, which `visitAttemptStmt` takes for a fail clause without type
filter.  After a division by zero in the body the run completes, the finally body
has printed nothing and the statement after the attempt is executed.  With a fail
clause whose type does not match, the finally body runs and the error is
reported. -/
theorem attempt_without_fail_consumes_error :
    (runScript 30 attemptFinallyOnly).output = ["3"]
    ∧ (runScript 30 attemptFinallyOnly).reportedMessage = none
    ∧ (runScript 30 attemptAlone).output = ["3"]
    ∧ (runScript 30 attemptAlone).reportedMessage = none
    ∧ (runScript 30 attemptOtherType).output = ["2"]
    ∧ (runScript 30 attemptOtherType).reportedMessage = some "Cannot Divide with zero." := by
  decide!

/-- C38 (code defect).  `Environment::getAt` on a name that the environment reached
does not define adds the name to that environment: the global environment of a new
interpreter does not have `x`, and after `getAt(0, "x")`, or `getAt(7, "x")` with no
enclosing link to follow, it has.  When the environment reached defines the name,
the interpreter state is unchanged. -/
theorem getAt_defines_missing_name :
    envHas Interp.initial 0 "x" = false
    ∧ envHas (envGetAt Interp.initial 0 0 "x").2.2 0 "x" = true
    ∧ envHas (envGetAt Interp.initial 0 7 "x").2.2 0 "x" = true
    ∧ (∀ (st : Interp) (env : Nat) (distance : Int) (name : String) (e : Environment)
        (v : RyVariable), st.envs[ancestor st.envs distance.toNat env]? = some e →
        mapFind e.values name = some v → (envGetAt st env distance name).2.2 = st) := by
  refine ⟨by decide!, by decide!, by decide!, ?_⟩
  intro st env distance name e v he hv
  simp [envGetAt, he, hv]

/-- C39 (code defect).  `Resolver::resolve` restores nothing when it throws.  After
the error for a block that declares `x` twice the scope of the block is still on
the stack, so the declaration `data x = 3` given to the next `run` on the same
resolver is rejected as a redeclaration, which a new resolver accepts.  After the
error for a class that inherits from itself the class marker is still set, so
`this` at top level in the next `run` passes the resolver and fails in the
evaluator, where a new resolver rejects it. -/
theorem resolve_error_leaves_resolver_state :
    (resolverAfterRun 30 doubleDeclaration Interp.initial {}).scopeNames = [["x"]]
    ∧ (runLines 30 [doubleDeclaration, "data x = 3"] Interp.initial {}).map
          RunResult.reportedMessage
        = [some "Already a variable with this name in this scope.",
           some "Already a variable with this name in this scope."]
    ∧ (runLines 30 ["data x = 3"] Interp.initial {}).map RunResult.reportedMessage = [none]
    ∧ (resolverAfterRun 30 selfInheritance Interp.initial {}).currentClass = ClassType.CLASS
    ∧ (runLines 30 [selfInheritance, "out(this)"] Interp.initial {}).map
          RunResult.reportedMessage
        = [some "A class cannot inherit from itself.", some "Undefined variable 'this'."]
    ∧ (runLines 30 ["out(this)"] Interp.initial {}).map RunResult.reportedMessage
        = [some "Cannot use 'this' outside of a class."] := by
  decide!

/-- C40.  `Optimizer::fold` is idempotent and removes all grouping: folding the
result of a fold gives that result again, node for node, and the result of a fold
contains no parenthesis-group node, for every expression tree. -/
theorem fold_idempotent_without_groups (e : Expr) :
    fold (fold e) = fold e ∧ (fold e).hasGroup = false :=
  folded_fold e

/-- C32 (counterexample).  A function compared with itself and an instance compared
with itself are not equal: `areEqual` has no branch for callables and instances and
ends in `return false`. -/
theorem callable_not_equal_to_itself :
    areEqual [] 1 (RyValue.func 0) (RyValue.func 0) = some false
    ∧ areEqual [] 1 (RyValue.inst 0) (RyValue.inst 0) = some false := by
  decide

/-- C32 (amended).  On a heap in which no list contains itself, directly or through
other lists (the lists can be ranked so that a list inside a list has a lower
rank), `areEqual a b` returns, and it returns true exactly when a and b are the
same value in the sense of `SameValue`: both nil; two numbers, two booleans or two
strings of equal value; two lists of the same length whose elements are equal at
every index; the same map.  It returns false when the tags differ, and for every
callable and every instance, also when compared with itself; for two maps it
returns true exactly when they are the same object. -/
theorem areEqual_rules (lists : List (List RyValue)) (rank : Nat → Nat)
    (hrank : ∀ x y, RyValue.list y ∈ lists.getD x [] → rank y < rank x)
    (a b : RyValue) (fuel : Nat) (hfuel : valueRank rank a < fuel) :
    ∃ r, areEqual lists fuel a b = some r
      ∧ (r = true ↔ SameValue lists a b)
      ∧ (a.index ≠ b.index → r = false)
      ∧ (a.isFunction = true → r = false)
      ∧ (a.isInstance = true → r = false)
      ∧ (∀ x y, a = RyValue.map x → b = RyValue.map y → (r = true ↔ x = y)) := by
  obtain ⟨r, hr, hp⟩ := areEqual_same lists rank hrank fuel a b hfuel
  refine ⟨r, hr, hp, ?_, ?_, ?_, ?_⟩
  · intro hidx
    cases r with
    | false => rfl
    | true => exact absurd (sameValue_index lists a b (hp.1 rfl)) hidx
  · intro hf
    cases r with
    | false => rfl
    | true =>
      have hs := hp.1 rfl
      cases hs <;> simp [RyValue.isFunction] at hf
  · intro hi
    cases r with
    | false => rfl
    | true =>
      have hs := hp.1 rfl
      cases hs <;> simp [RyValue.isInstance] at hi
  · intro x y ha hb
    subst ha
    subst hb
    rw [hp]
    constructor
    · intro hs
      cases hs
      rfl
    · intro hxy
      subst hxy
      exact SameValue.map x

/-- C32 (witness).  On the heap of the lists `[1, [true]]`, `[true]` and
`[1, [true]]`, ranked with the inner list below the outer ones, the comparison of
the first list with the third returns. -/
theorem areEqual_rules_witness :
    (∀ x y, RyValue.list y ∈ nestedLists.getD x [] → nestedRank y < nestedRank x)
    ∧ valueRank nestedRank (RyValue.list 0) < 3
    ∧ ∃ r, areEqual nestedLists 3 (RyValue.list 0) (RyValue.list 2) = some r
      ∧ (r = true ↔ SameValue nestedLists (RyValue.list 0) (RyValue.list 2))
      ∧ ((RyValue.list 0).index ≠ (RyValue.list 2).index → r = false)
      ∧ ((RyValue.list 0).isFunction = true → r = false)
      ∧ ((RyValue.list 0).isInstance = true → r = false)
      ∧ (∀ x y, RyValue.list 0 = RyValue.map x → RyValue.list 2 = RyValue.map y →
          (r = true ↔ x = y)) :=
  ⟨nestedRank_decreases, by decide,
    areEqual_rules nestedLists nestedRank nestedRank_decreases (RyValue.list 0) (RyValue.list 2) 3
      (by decide)⟩

/-- C34.  In a resolver with a local scope open, `declare(n)` throws
`Already a variable with this name in this scope.` and leaves the resolver as it is
when the innermost scope contains n, declared or defined; otherwise it returns with
n marked not yet ready in the innermost scope, the other names of that scope, the
scopes below it and the global table unchanged, whatever the scopes below contain.
Hence resolving fails for a block with two declarations of one name among its
statements, for a function or method with one name twice in its parameter list, for
a `foreach` whose body declares the loop variable, and for a `for` whose body
declares the variable of its initializer.  A block that declares `x` twice and a
function `f(a, a)` are reported; a block that declares `x` again in an inner block
runs. -/
theorem declare_in_local_scope (name : Token) (r : Resolver) (st : Interp)
    (scope : List (String × Bool)) (rest : List (List (String × Bool)))
    (h : r.scopes = scope :: rest) :
    (mapContains scope name.lexeme = true →
      Resolver.declare name r st
        = RRes.raise
            { token := name, message := "Already a variable with this name in this scope." } r st)
    ∧ (mapContains scope name.lexeme = false →
        ∃ scope1, Resolver.declare name r st = RRes.ok { r with scopes := scope1 :: rest } st
          ∧ mapFind scope1 name.lexeme = some false
          ∧ ∀ m, m ≠ name.lexeme → mapFind scope1 m = mapFind scope m)
    ∧ (∀ (r0 : Resolver) (st0 : Interp) (v1 v2 : VarStmt) (pre mid post : List Stmt),
        v1.name.lexeme = v2.name.lexeme →
        (Resolver.resolveStmt
          (Stmt.blockStmt (pre ++ Stmt.varStmt v1 :: (mid ++ Stmt.varStmt v2 :: post))) r0
          st0).failed = true)
    ∧ (∀ (r0 : Resolver) (st0 : Interp) (f : Token) (p1 p2 : Parameter)
        (pre mid post : List Parameter) (body : List Stmt) (ns al : Option Token)
        (isPrivate : Bool) (type : FunctionType),
        p1.name.lexeme = p2.name.lexeme →
        (Resolver.visitFunctionStmt
            (FunctionStmt.mk f (pre ++ p1 :: (mid ++ p2 :: post)) body ns al isPrivate) r0
            st0).failed = true
          ∧ (Resolver.resolveFunction
            (FunctionStmt.mk f (pre ++ p1 :: (mid ++ p2 :: post)) body ns al isPrivate) type r0
            st0).failed = true)
    ∧ (∀ (r0 : Resolver) (st0 : Interp) (id : Token) (dataType : Option Token)
        (collection : Expr) (v : VarStmt), v.name.lexeme = id.lexeme →
        (Resolver.resolveStmt (Stmt.eachStmt id dataType collection (Stmt.varStmt v)) r0
          st0).failed = true)
    ∧ (∀ (r0 : Resolver) (st0 : Interp) (v1 v2 : VarStmt) (condition increment : Option Expr),
        v1.name.lexeme = v2.name.lexeme →
        (Resolver.resolveStmt
          (Stmt.forStmt (some (Stmt.varStmt v1)) condition increment (Stmt.varStmt v2)) r0
          st0).failed = true)
    ∧ (runScript 30 doubleDeclaration).reportedMessage
        = some "Already a variable with this name in this scope."
    ∧ (runScript 30 duplicateParameter).reportedMessage
        = some "Already a variable with this name in this scope."
    ∧ (runScript 30 shadowingBlock).output = ["2", "1"]
    ∧ (runScript 30 shadowingBlock).reportedMessage = none := by
  refine ⟨?_, ?_, ?_, ?_, ?_, ?_, by decide!, by decide!, by decide!, by decide!⟩
  · intro hc
    simp [Resolver.declare, h, hc]
  · intro hc
    refine ⟨mapInsert scope name.lexeme false, ?_, mapFind_mapInsert_same _ _ _,
      fun m hm => mapFind_mapInsert_other _ _ _ _ hm⟩
    simp [Resolver.declare, h, hc]
  · intro r0 st0 v1 v2 pre mid post hname
    exact block_duplicate v1 v2 pre mid post hname r0 st0
  · intro r0 st0 f p1 p2 pre mid post body ns al isPrivate type hname
    exact ⟨function_duplicate f p1 p2 pre mid post body ns al isPrivate hname r0 st0,
      method_duplicate f p1 p2 pre mid post body ns al isPrivate type hname r0 st0⟩
  · intro r0 st0 id dataType collection v hname
    exact each_duplicate id dataType collection v hname r0 st0
  · intro r0 st0 v1 v2 condition increment hname
    exact for_duplicate v1 v2 condition increment hname r0 st0

/-- C34 (witness).  With `y` in the innermost scope and `x` in the scope below it,
`declare(x)` returns: `x` is not yet ready in the innermost scope, where `y` is as
before, and the scope below is unchanged. -/
theorem declare_in_local_scope_witness :
    twoScopes.scopes = [("y", true)] :: [[("x", true)]]
    ∧ mapContains [("y", true)] "x" = false
    ∧ ∃ scope1, Resolver.declare (tok TokenType.IDENTIFIER "x") twoScopes Interp.initial
          = RRes.ok { twoScopes with scopes := scope1 :: [[("x", true)]] } Interp.initial
        ∧ mapFind scope1 "x" = some false
        ∧ ∀ m, m ≠ "x" → mapFind scope1 m = mapFind [("y", true)] m :=
  ⟨rfl, by decide,
    (declare_in_local_scope (tok TokenType.IDENTIFIER "x") twoScopes Interp.initial [("y", true)]
      [[("x", true)]] rfl).2.1 (by decide)⟩

end Ry
